import Mathlib

/-!
A shallow embedding of the `c_lexer` scanning engine (the most complete
variant in `src/app/main.cpp`, namespace `c_lexer`): the `Token` catalog,
the `Lexeme` value type, the single-pass automaton `scan_token` with its
explicit state stack, the `Lexer` lookahead queue (`peek` / `eat` /
`preload`) and the batch driver `scan_tokens`.

Modeling conventions:
* `std::string` is modeled as `List Char`; the character source's
  `peek/get/unget/eof` interface over an `istream` is modeled by the
  remaining input `List Char` (`get` = take the head, `peek` = `head?`,
  `unget c` = cons; `EOF` is `Option.none`).
* `std::uint32_t` rows/columns are modeled as `Nat` (no claim concerns
  wrap-around).
* diagnostics written by `print_error` to `std::cerr` are collected as a
  list of `Diag` records (row, column, message text of the call site).
* the unbounded `while (true)` loop of `scan_token` is run on fuel;
  `iter` is one iteration of the loop body.  Totality (the fuel is always
  sufficient) is proved below, not assumed.
-/

set_option maxRecDepth 10000
set_option linter.unusedVariables false

namespace CLexer

/-- The token catalog of `include/c_lexer/Token.h` (`enum class Token`). -/
inductive Token where
  | PLUS | MINUS | STAR | DIV | MOD | INCR | DECR | EQUALS
  | NOTEQUALS | GREATER | LESS | GREATER_OR_EQUAL | LESS_OR_EQUAL | LOG_NOT | LOG_AND | LOG_OR
  | BIT_NOT | AMP | BIT_OR | BIT_XOR | LSHIFT | RSHIFT | ASSIGN | ADD_ASSIGN
  | SUB_ASSIGN | MUL_ASSIGN | DIV_ASSIGN | MOD_ASSIGN | AND_ASSIGN | OR_ASSIGN | XOR_ASSIGN | LSHIFT_ASSIGN
  | RSHIFT_ASSIGN | ARROW | DOT | ELLIPSIS | COMMA | QUESTION | COLON | LPAREN
  | RPAREN | LBRACE | RBRACE | LSQUARE | RSQUARE | SEMI | IDENTIFIER | INTEGER_LIT
  | FLOAT_LIT | STRING_LIT | ALIGNAS | ALIGNOF | AUTO | BOOL | BREAK | CASE
  | CHAR | CONST | CONSTEXPR | CONTINUE | DEFAULT | DO | DOUBLE | ELSE
  | ENUM | EXTERN | FALSE | FLOAT | FOR | GOTO | IF | INLINE
  | INT | LONG | NULLPTR | REGISTER | RESTRICT | RETURN | SHORT | SIGNED
  | SIZEOF | STATIC | STATIC_ASSERT | STRUCT | SWITCH | THREAD_LOCAL | TRUE | TYPEDEF
  | TYPEOF | TYPEOF_UNQUAL | UNION | UNSIGNED | VOID | VOLATILE | WHILE | «_ALIGNAS»
  | «_ALIGNOF» | «_ATOMIC» | «_BITINT» | «_BOOL» | «_COMPLEX» | «_DECIMAL128» | «_DECIMAL32» | «_DECIMAL64»
  | «_GENERIC» | «_IMAGINARY» | «_NORETURN» | «_STATIC_ASSERT» | «_THREAD_LOCAL» | END | INVALID
  deriving DecidableEq, Repr

/-- The scanner states of `Lexer::scan_token` (the `#define GOT_...` state
    codes), one constructor per `case` label of the big switch. -/
inductive St where
  | THE_END | START | GOT_GT | GOT_LT | GOT_IDENT
  | GOT__ | GOT__A | GOT__Al | GOT__Ali | GOT__Alig
  | GOT__Align | GOT__Aligna | GOT__Aligno | GOT__At | GOT__Ato
  | GOT__Atom | GOT__Atomi | GOT__B | GOT__Bi | GOT__Bit
  | GOT__BitI | GOT__BitIn | GOT__Bo | GOT__Boo | GOT__C
  | GOT__Co | GOT__Com | GOT__Comp | GOT__Compl | GOT__Comple
  | GOT__D | GOT__De | GOT__Dec | GOT__Deci | GOT__Decim
  | GOT__Decima | GOT__Decimal | GOT__Decimal1 | GOT__Decimal12 | GOT__Decimal3
  | GOT__Decimal6 | GOT__G | GOT__Ge | GOT__Gen | GOT__Gene
  | GOT__Gener | GOT__Generi | GOT__I | GOT__Im | GOT__Ima
  | GOT__Imag | GOT__Imagi | GOT__Imagin | GOT__Imagina | GOT__Imaginar
  | GOT__N | GOT__No | GOT__Nor | GOT__Nore | GOT__Noret
  | GOT__Noretu | GOT__Noretur | GOT__S | GOT__St | GOT__Sta
  | GOT__Stat | GOT__Stati | GOT__Static | GOT__Static_ | GOT__Static_a
  | GOT__Static_as | GOT__Static_ass | GOT__Static_asse | GOT__Static_asser | GOT__T
  | GOT__Th | GOT__Thr | GOT__Thre | GOT__Threa | GOT__Thread
  | GOT__Thread_ | GOT__Thread_l | GOT__Thread_lo | GOT__Thread_loc | GOT__Thread_loca
  | GOT_a | GOT_al | GOT_ali | GOT_alig | GOT_align
  | GOT_aligna | GOT_aligno | GOT_au | GOT_aut | GOT_b
  | GOT_bo | GOT_boo | GOT_br | GOT_bre | GOT_brea
  | GOT_c | GOT_ca | GOT_cas | GOT_ch | GOT_cha
  | GOT_co | GOT_con | GOT_cons | GOT_conste | GOT_constex
  | GOT_constexp | GOT_cont | GOT_conti | GOT_contin | GOT_continu
  | GOT_d | GOT_de | GOT_def | GOT_defa | GOT_defau
  | GOT_defaul | GOT_dou | GOT_doub | GOT_doubl | GOT_e
  | GOT_el | GOT_els | GOT_en | GOT_enu | GOT_ex
  | GOT_ext | GOT_exte | GOT_exter | GOT_f | GOT_fa
  | GOT_fal | GOT_fals | GOT_fl | GOT_flo | GOT_floa
  | GOT_fo | GOT_g | GOT_go | GOT_got | GOT_i
  | GOT_in | GOT_inl | GOT_inli | GOT_inlin | GOT_l
  | GOT_lo | GOT_lon | GOT_n | GOT_nu | GOT_nul
  | GOT_null | GOT_nullp | GOT_nullpt | GOT_r | GOT_re
  | GOT_reg | GOT_regi | GOT_regis | GOT_regist | GOT_registe
  | GOT_res | GOT_rest | GOT_restr | GOT_restri | GOT_restric
  | GOT_ret | GOT_retu | GOT_retur | GOT_s | GOT_sh
  | GOT_sho | GOT_shor | GOT_si | GOT_sig | GOT_sign
  | GOT_signe | GOT_siz | GOT_size | GOT_sizeo | GOT_st
  | GOT_sta | GOT_stat | GOT_stati | GOT_static_ | GOT_static_a
  | GOT_static_as | GOT_static_ass | GOT_static_asse | GOT_static_asser | GOT_str
  | GOT_stru | GOT_struc | GOT_sw | GOT_swi | GOT_swit
  | GOT_switc | GOT_t | GOT_th | GOT_thr | GOT_thre
  | GOT_threa | GOT_thread | GOT_thread_ | GOT_thread_l | GOT_thread_lo
  | GOT_thread_loc | GOT_thread_loca | GOT_tr | GOT_tru | GOT_ty
  | GOT_typ | GOT_type | GOT_typed | GOT_typede | GOT_typeo
  | GOT_typeof_ | GOT_typeof_u | GOT_typeof_un | GOT_typeof_unq | GOT_typeof_unqu
  | GOT_typeof_unqua | GOT_u | GOT_U | GOT_L | GOT_un
  | GOT_uni | GOT_unio | GOT_uns | GOT_unsi | GOT_unsig
  | GOT_unsign | GOT_unsigne | GOT_v | GOT_vo | GOT_voi
  | GOT_vol | GOT_vola | GOT_volat | GOT_volati | GOT_volatil
  | GOT_w | GOT_wh | GOT_whi | GOT_whil | GOT_INT_LITERAL
  | GOT_OCT_LITERAL | GOT_0x | GOT_0x_DOT | GOT_HEX_LITERAL | GOT_CHAR_CONST_START
  | GOT_CHAR_CONST_CONT | GOT_FLOAT_CONST_DOT | GOT_FLOAT_CONST_DOT_DIGIT | GOT_FLOAT_CONST_e | GOT_FLOAT_CONST_e_SIGN
  | GOT_FLOAT_CONST_e_SIGN_DIG | GOT_FLOAT_CONST_e_SUFd | GOT_FLOAT_CONST_e_SUFD | GOT_HEX_CONST_DOT | GOT_HEX_CONST_DOT_XDIGIT
  | GOT_HEX_CONST_p | GOT_HEX_CONST_p_SIGN_DIG | GOT_HEX_CONST_p_SIGN | GOT_BIN_CONST_START | GOT_BIN_CONST_CONT
  | GOT_INT_SUFFIX_START | GOT_INT_SUFFIX_u | GOT_INT_SUFFIX_U | GOT_INT_SUFFIX_l | GOT_INT_SUFFIX_L
  | GOT_INT_SUFFIX_w | GOT_INT_SUFFIX_W | GOT_STRING_LIT_START | GOT_ESCAPE_SEQUENCE | GOT_ESCAPE_SEQUENCE_BS_OCT1
  | GOT_ESCAPE_SEQUENCE_BS_OCT2 | GOT_ESCAPE_SEQUENCE_BS_x | GOT_ESCAPE_SEQUENCE_BS_x_XDIGIT | GOT_ESCAPE_SEQUENCE_BS_u0 | GOT_ESCAPE_SEQUENCE_BS_u1
  | GOT_ESCAPE_SEQUENCE_BS_u2 | GOT_ESCAPE_SEQUENCE_BS_u3 | GOT_ESCAPE_SEQUENCE_BS_U0 | GOT_ESCAPE_SEQUENCE_BS_U1 | GOT_ESCAPE_SEQUENCE_BS_U2
  | GOT_ESCAPE_SEQUENCE_BS_U3 | GOT_ESCAPE_SEQUENCE_BS_U4 | GOT_ESCAPE_SEQUENCE_BS_U5 | GOT_ESCAPE_SEQUENCE_BS_U6 | GOT_ESCAPE_SEQUENCE_BS_U7
  deriving DecidableEq, Repr

/-- One diagnostic written via `print_error` (row, column, message). -/
structure Diag where
  row : Nat
  col : Nat
  msg : String
  deriving DecidableEq, Repr

/-- `Lexeme`: {matched text, token, row, col} (`include/c_lexer/Lexer.h`). -/
structure Lexeme where
  text : List Char
  token : Token
  row : Nat
  col : Nat
  deriving DecidableEq, Repr

/-- The local state of one `scan_token` invocation at the top of its
    `while (true)` loop: current automaton state `st`, the explicit
    return-state stack `states`, the remaining input, the accumulated
    lexeme text `lex`, the cursor, the `_hold` flag and the current
    character `c` (`none` = EOF), plus diagnostics so far. -/
structure Cfg where
  st : St
  states : List St
  input : List Char
  lex : List Char
  row : Nat
  col : Nat
  hold : Bool
  c : Option Char
  errs : List Diag
  deriving Repr

/-- The result of a completed `scan_token` call: the returned `Lexeme`,
    the remaining input and cursor, and the diagnostics of this scan. -/
structure Done where
  lexeme : Lexeme
  rest : List Char
  row : Nat
  col : Nat
  errs : List Diag
  deriving Repr

/-- One loop iteration either returns a `Lexeme` or continues. -/
inductive StepRes where
  | done (d : Done)
  | cont (cfg : Cfg)
  deriving Repr

/-! ### Character classification (`<cctype>` in the "C" locale, ASCII) -/

def isalpha (ch : Char) : Bool :=
  (97 ≤ ch.toNat && ch.toNat ≤ 122) || (65 ≤ ch.toNat && ch.toNat ≤ 90)

def isdigit (ch : Char) : Bool := 48 ≤ ch.toNat && ch.toNat ≤ 57

def isalnum (ch : Char) : Bool := isalpha ch || isdigit ch

def isxdigit (ch : Char) : Bool :=
  isdigit ch || (97 ≤ ch.toNat && ch.toNat ≤ 102) || (65 ≤ ch.toNat && ch.toNat ≤ 70)

def isspace (ch : Char) : Bool :=
  ch == ' ' || ch == '\t' || ch == '\n' || ch == '\x0b' || ch == '\x0c' || ch == '\r'

def isprint (ch : Char) : Bool := 32 ≤ ch.toNat && ch.toNat ≤ 126

/-- C identifier names start with [a-zA-Z_] (source `is_ident_start`). -/
def is_ident_start (ch : Char) : Bool := isalpha ch || ch == '_'

/-- ... and continue with [a-zA-Z_0-9] (source `is_ident_cont`). -/
def is_ident_cont (ch : Char) : Bool := isalnum ch || ch == '_'

/-- `strchr("uUlLwW", c)` (source `is_int_suffix_start`). -/
def is_int_suffix_start (ch : Char) : Bool := ['u', 'U', 'l', 'L', 'w', 'W'].contains ch

/-- `strchr("'\"?\\abfnrtv", c)` (source `is_simple_escape_sequence`). -/
def is_simple_escape_sequence (ch : Char) : Bool :=
  ['\'', '\"', '?', '\\', 'a', 'b', 'f', 'n', 'r', 't', 'v'].contains ch

/-! Lifts to `Option Char`, matching how the C++ applies these to `c` or
`sr_->peek()` which may be `EOF` (all are false at `EOF`). -/

def isdigitO : Option Char → Bool
  | some ch => isdigit ch
  | none => false

def isxdigitO : Option Char → Bool
  | some ch => isxdigit ch
  | none => false

/-- `c >= '0' && c <= '7'`. -/
def isoctO : Option Char → Bool
  | some ch => 48 ≤ ch.toNat && ch.toNat ≤ 55
  | none => false

def isIdentContO : Option Char → Bool
  | some ch => is_ident_cont ch
  | none => false

def isIntSuffixStartO : Option Char → Bool
  | some ch => is_int_suffix_start ch
  | none => false

/-- `strchr("fFlLdD", c)` in `GOT_FLOAT_CONST_DOT`. -/
def isFloatSufO : Option Char → Bool
  | some ch => ['f', 'F', 'l', 'L', 'd', 'D'].contains ch
  | none => false

def isSimpleEscO : Option Char → Bool
  | some ch => is_simple_escape_sequence ch
  | none => false

/-! ### Whitespace (the `eat_whitespace` macro) -/

def cols_per_htab : Nat := 1
def rows_per_vtab : Nat := 1
def rows_per_formfeed : Nat := 1

structure WsRes where
  c : Option Char
  input : List Char
  row : Nat
  col : Nat
  deriving Repr

/-- `eat_whitespace()`: consume and discard whitespace, updating the
    cursor, and read the first non-space character (or EOF). -/
def eatWs : List Char → Nat → Nat → WsRes
  | [], row, col => ⟨none, [], row, col⟩
  | ch :: rest, row, col =>
    if isspace ch then
      match ch with
      | '\n' => eatWs rest (row + 1) 1
      | '\x0b' => eatWs rest (row + rows_per_vtab) 1
      | '\x0c' => eatWs rest (row + rows_per_formfeed) 1
      | ' ' => eatWs rest row (col + 1)
      | '\t' => eatWs rest row (col + cols_per_htab)
      | _ => eatWs rest row col
    else ⟨some ch, rest, row, col⟩

/-! ### The scan_token loop-body macros -/

/-- `nextst(_s)`: continue in state `s` with `_hold` clear. -/
def nextst (s : St) (c : Option Char) (input lex : List Char) (states : List St)
    (row col : Nat) (errs : List Diag) : StepRes :=
  StepRes.cont ⟨s, states, input, lex, row, col, false, c, errs⟩

/-- `holdst(_s)`: continue in state `s`, reprocessing `c` (`_hold` set). -/
def holdst (s : St) (c : Option Char) (input lex : List Char) (states : List St)
    (row col : Nat) (errs : List Diag) : StepRes :=
  StepRes.cont ⟨s, states, input, lex, row, col, true, c, errs⟩

/-- `r(_tkn, _cols)`: advance the column by `n` and return a `Lexeme`
    positioned at the pre-advance cursor. -/
def ret (t : Token) (n : Nat) (input lex : List Char) (row col : Nat)
    (errs : List Diag) : StepRes :=
  StepRes.done ⟨⟨lex, t, row, col⟩, input, row, col + n, errs⟩

/-- `rinvalid()`: `r(Token::INVALID, lex.length())`. -/
def rinvalid (input lex : List Char) (row col : Nat) (errs : List Diag) : StepRes :=
  ret Token.INVALID lex.length input lex row col errs

/-- `backup(_ch)`: unless at EOF, push the character back to the source
    and drop it from `lex`. -/
def backup (ch : Option Char) (input lex : List Char) : List Char × List Char :=
  match ch with
  | some ch => (ch :: input, lex.dropLast)
  | none => (input, lex)

/-- `advance()`: `lex.push_back(sr_->get())` (only ever called when the
    peeked character exists). -/
def advance (input lex : List Char) : List Char × List Char :=
  match input with
  | ch :: rest => (rest, lex ++ [ch])
  | [] => ([], lex)

/-- `popst()`: return to the state on top of the explicit stack. -/
def popStack (st : St) (states : List St) : St × List St :=
  match states with
  | s :: rest => (s, rest)
  | [] => (st, [])

/-- The message printed when an invalid top-level character is skipped. -/
def skipMsg (ch : Char) : String :=
  "Skipped invalid character " ++ toString ch.toNat ++ " " ++
    (if isprint ch then String.mk [ch] else " ") ++ "\n"

/-! ### The keyword trie

The ~240 hand-written keyword-trie states of the source all follow one of
three case shapes; each state is translated to its list of `case` edges,
interpreted by `trieStep` (the `default` is always `holdst(GOT_IDENT)`):
* `go ch s'` — `case ch: nextst(s');`
* `commit ch t n` — `case ch: if (is_ident_cont(peek)) nextst(GOT_IDENT);
  else r(t, n);`
* `peekgo ch pk s' t n` — `case ch: if (peek == pk) advancest(s');
  else if (is_ident_cont(peek)) nextst(GOT_IDENT); else r(t, n);`
-/

inductive TrieEdge where
  | go (ch : Char) (s' : St)
  | commit (ch : Char) (t : Token) (n : Nat)
  | peekgo (ch : Char) (pk : Char) (s' : St) (t : Token) (n : Nat)
  deriving DecidableEq, Repr

def trieFind (edges : List TrieEdge) (ch : Char) (input lex : List Char)
    (states : List St) (row col : Nat) (errs : List Diag) : StepRes :=
  match edges with
  | [] => holdst St.GOT_IDENT (some ch) input lex states row col errs
  | TrieEdge.go ech s' :: rest =>
    if ch = ech then nextst s' (some ch) input lex states row col errs
    else trieFind rest ch input lex states row col errs
  | TrieEdge.commit ech t n :: rest =>
    if ch = ech then
      if isIdentContO input.head? then
        nextst St.GOT_IDENT (some ch) input lex states row col errs
      else ret t n input lex row col errs
    else trieFind rest ch input lex states row col errs
  | TrieEdge.peekgo ech pk s' t n :: rest =>
    if ch = ech then
      if input.head? = some pk then
        let p := advance input lex
        nextst s' (some ch) p.1 p.2 states row col errs
      else if isIdentContO input.head? then
        nextst St.GOT_IDENT (some ch) input lex states row col errs
      else ret t n input lex row col errs
    else trieFind rest ch input lex states row col errs

def trieStep (edges : List TrieEdge) (c : Option Char) (input lex : List Char)
    (states : List St) (row col : Nat) (errs : List Diag) : StepRes :=
  match c with
  | some ch => trieFind edges ch input lex states row col errs
  | none => holdst St.GOT_IDENT none input lex states row col errs

def edges_GOT__ : List TrieEdge := [TrieEdge.go 'A' St.GOT__A,
    TrieEdge.go 'B' St.GOT__B,
    TrieEdge.go 'C' St.GOT__C,
    TrieEdge.go 'D' St.GOT__D,
    TrieEdge.go 'G' St.GOT__G,
    TrieEdge.go 'I' St.GOT__I,
    TrieEdge.go 'N' St.GOT__N,
    TrieEdge.go 'S' St.GOT__S,
    TrieEdge.go 'T' St.GOT__T]

def edges_GOT__A : List TrieEdge := [TrieEdge.go 'l' St.GOT__Al,
    TrieEdge.go 't' St.GOT__At]

def edges_GOT__Al : List TrieEdge := [TrieEdge.go 'i' St.GOT__Ali]

def edges_GOT__Ali : List TrieEdge := [TrieEdge.go 'g' St.GOT__Alig]

def edges_GOT__Alig : List TrieEdge := [TrieEdge.go 'n' St.GOT__Align]

def edges_GOT__Align : List TrieEdge := [TrieEdge.go 'a' St.GOT__Aligna,
    TrieEdge.go 'o' St.GOT__Aligno]

def edges_GOT__Aligna : List TrieEdge := [TrieEdge.commit 's' Token.«_ALIGNAS» 8]

def edges_GOT__Aligno : List TrieEdge := [TrieEdge.commit 'f' Token.«_ALIGNOF» 8]

def edges_GOT__At : List TrieEdge := [TrieEdge.go 'o' St.GOT__Ato]

def edges_GOT__Ato : List TrieEdge := [TrieEdge.go 'm' St.GOT__Atom]

def edges_GOT__Atom : List TrieEdge := [TrieEdge.go 'i' St.GOT__Atomi]

def edges_GOT__Atomi : List TrieEdge := [TrieEdge.commit 'c' Token.«_ATOMIC» 7]

def edges_GOT__B : List TrieEdge := [TrieEdge.go 'i' St.GOT__Bi,
    TrieEdge.go 'o' St.GOT__Bo]

def edges_GOT__Bi : List TrieEdge := [TrieEdge.go 't' St.GOT__Bit]

def edges_GOT__Bit : List TrieEdge := [TrieEdge.go 'I' St.GOT__BitI]

def edges_GOT__BitI : List TrieEdge := [TrieEdge.go 'n' St.GOT__BitIn]

def edges_GOT__BitIn : List TrieEdge := [TrieEdge.commit 't' Token.«_BITINT» 7]

def edges_GOT__Bo : List TrieEdge := [TrieEdge.go 'o' St.GOT__Boo]

def edges_GOT__Boo : List TrieEdge := [TrieEdge.commit 'l' Token.«_BOOL» 5]

def edges_GOT__C : List TrieEdge := [TrieEdge.go 'o' St.GOT__Co]

def edges_GOT__Co : List TrieEdge := [TrieEdge.go 'm' St.GOT__Com]

def edges_GOT__Com : List TrieEdge := [TrieEdge.go 'p' St.GOT__Comp]

def edges_GOT__Comp : List TrieEdge := [TrieEdge.go 'l' St.GOT__Compl]

def edges_GOT__Compl : List TrieEdge := [TrieEdge.go 'e' St.GOT__Comple]

def edges_GOT__Comple : List TrieEdge := [TrieEdge.commit 'x' Token.«_COMPLEX» 8]

def edges_GOT__D : List TrieEdge := [TrieEdge.go 'e' St.GOT__De]

def edges_GOT__De : List TrieEdge := [TrieEdge.go 'c' St.GOT__Dec]

def edges_GOT__Dec : List TrieEdge := [TrieEdge.go 'i' St.GOT__Deci]

def edges_GOT__Deci : List TrieEdge := [TrieEdge.go 'm' St.GOT__Decim]

def edges_GOT__Decim : List TrieEdge := [TrieEdge.go 'a' St.GOT__Decima]

def edges_GOT__Decima : List TrieEdge := [TrieEdge.go 'l' St.GOT__Decimal]

def edges_GOT__Decimal : List TrieEdge := [TrieEdge.go '1' St.GOT__Decimal1,
    TrieEdge.go '3' St.GOT__Decimal3,
    TrieEdge.go '6' St.GOT__Decimal6]

def edges_GOT__Decimal1 : List TrieEdge := [TrieEdge.go '2' St.GOT__Decimal12]

def edges_GOT__Decimal12 : List TrieEdge := [TrieEdge.commit '8' Token.«_DECIMAL128» 11]

def edges_GOT__Decimal3 : List TrieEdge := [TrieEdge.commit '2' Token.«_DECIMAL32» 10]

def edges_GOT__Decimal6 : List TrieEdge := [TrieEdge.commit '4' Token.«_DECIMAL64» 10]

def edges_GOT__G : List TrieEdge := [TrieEdge.go 'e' St.GOT__Ge]

def edges_GOT__Ge : List TrieEdge := [TrieEdge.go 'n' St.GOT__Gen]

def edges_GOT__Gen : List TrieEdge := [TrieEdge.go 'e' St.GOT__Gene]

def edges_GOT__Gene : List TrieEdge := [TrieEdge.go 'r' St.GOT__Gener]

def edges_GOT__Gener : List TrieEdge := [TrieEdge.go 'i' St.GOT__Generi]

def edges_GOT__Generi : List TrieEdge := [TrieEdge.commit 'c' Token.«_GENERIC» 8]

def edges_GOT__I : List TrieEdge := [TrieEdge.go 'm' St.GOT__Im]

def edges_GOT__Im : List TrieEdge := [TrieEdge.go 'a' St.GOT__Ima]

def edges_GOT__Ima : List TrieEdge := [TrieEdge.go 'g' St.GOT__Imag]

def edges_GOT__Imag : List TrieEdge := [TrieEdge.go 'i' St.GOT__Imagi]

def edges_GOT__Imagi : List TrieEdge := [TrieEdge.go 'n' St.GOT__Imagin]

def edges_GOT__Imagin : List TrieEdge := [TrieEdge.go 'a' St.GOT__Imagina]

def edges_GOT__Imagina : List TrieEdge := [TrieEdge.go 'r' St.GOT__Imaginar]

def edges_GOT__Imaginar : List TrieEdge := [TrieEdge.commit 'y' Token.«_IMAGINARY» 10]

def edges_GOT__N : List TrieEdge := [TrieEdge.go 'o' St.GOT__No]

def edges_GOT__No : List TrieEdge := [TrieEdge.go 'r' St.GOT__Nor]

def edges_GOT__Nor : List TrieEdge := [TrieEdge.go 'e' St.GOT__Nore]

def edges_GOT__Nore : List TrieEdge := [TrieEdge.go 't' St.GOT__Noret]

def edges_GOT__Noret : List TrieEdge := [TrieEdge.go 'u' St.GOT__Noretu]

def edges_GOT__Noretu : List TrieEdge := [TrieEdge.go 'r' St.GOT__Noretur]

def edges_GOT__Noretur : List TrieEdge := [TrieEdge.commit 'n' Token.«_NORETURN» 9]

def edges_GOT__S : List TrieEdge := [TrieEdge.go 't' St.GOT__St]

def edges_GOT__St : List TrieEdge := [TrieEdge.go 'a' St.GOT__Sta]

def edges_GOT__Sta : List TrieEdge := [TrieEdge.go 't' St.GOT__Stat]

def edges_GOT__Stat : List TrieEdge := [TrieEdge.go 'i' St.GOT__Stati]

def edges_GOT__Stati : List TrieEdge := [TrieEdge.go 'c' St.GOT__Static]

def edges_GOT__Static : List TrieEdge := [TrieEdge.go '_' St.GOT__Static_]

def edges_GOT__Static_ : List TrieEdge := [TrieEdge.go 'a' St.GOT__Static_a]

def edges_GOT__Static_a : List TrieEdge := [TrieEdge.go 's' St.GOT__Static_as]

def edges_GOT__Static_as : List TrieEdge := [TrieEdge.go 's' St.GOT__Static_ass]

def edges_GOT__Static_ass : List TrieEdge := [TrieEdge.go 'e' St.GOT__Static_asse]

def edges_GOT__Static_asse : List TrieEdge := [TrieEdge.go 'r' St.GOT__Static_asser]

def edges_GOT__Static_asser : List TrieEdge := [TrieEdge.commit 't' Token.«_STATIC_ASSERT» 14]

def edges_GOT__T : List TrieEdge := [TrieEdge.go 'h' St.GOT__Th]

def edges_GOT__Th : List TrieEdge := [TrieEdge.go 'r' St.GOT__Thr]

def edges_GOT__Thr : List TrieEdge := [TrieEdge.go 'e' St.GOT__Thre]

def edges_GOT__Thre : List TrieEdge := [TrieEdge.go 'a' St.GOT__Threa]

def edges_GOT__Threa : List TrieEdge := [TrieEdge.go 'd' St.GOT__Thread]

def edges_GOT__Thread : List TrieEdge := [TrieEdge.go '_' St.GOT__Thread_]

def edges_GOT__Thread_ : List TrieEdge := [TrieEdge.go 'l' St.GOT__Thread_l]

def edges_GOT__Thread_l : List TrieEdge := [TrieEdge.go 'o' St.GOT__Thread_lo]

def edges_GOT__Thread_lo : List TrieEdge := [TrieEdge.go 'c' St.GOT__Thread_loc]

def edges_GOT__Thread_loc : List TrieEdge := [TrieEdge.go 'a' St.GOT__Thread_loca]

def edges_GOT__Thread_loca : List TrieEdge := [TrieEdge.commit 'l' Token.«_THREAD_LOCAL» 13]

def edges_GOT_a : List TrieEdge := [TrieEdge.go 'l' St.GOT_al,
    TrieEdge.go 'u' St.GOT_au]

def edges_GOT_al : List TrieEdge := [TrieEdge.go 'i' St.GOT_ali]

def edges_GOT_ali : List TrieEdge := [TrieEdge.go 'g' St.GOT_alig]

def edges_GOT_alig : List TrieEdge := [TrieEdge.go 'n' St.GOT_align]

def edges_GOT_align : List TrieEdge := [TrieEdge.go 'a' St.GOT_aligna,
    TrieEdge.go 'o' St.GOT_aligno]

def edges_GOT_aligna : List TrieEdge := [TrieEdge.commit 's' Token.ALIGNAS 7]

def edges_GOT_aligno : List TrieEdge := [TrieEdge.commit 'f' Token.ALIGNOF 7]

def edges_GOT_au : List TrieEdge := [TrieEdge.go 't' St.GOT_aut]

def edges_GOT_aut : List TrieEdge := [TrieEdge.commit 'o' Token.AUTO 4]

def edges_GOT_b : List TrieEdge := [TrieEdge.go 'o' St.GOT_bo,
    TrieEdge.go 'r' St.GOT_br]

def edges_GOT_bo : List TrieEdge := [TrieEdge.go 'o' St.GOT_boo]

def edges_GOT_boo : List TrieEdge := [TrieEdge.commit 'l' Token.BOOL 4]

def edges_GOT_br : List TrieEdge := [TrieEdge.go 'e' St.GOT_bre]

def edges_GOT_bre : List TrieEdge := [TrieEdge.go 'a' St.GOT_brea]

def edges_GOT_brea : List TrieEdge := [TrieEdge.commit 'k' Token.BREAK 5]

def edges_GOT_c : List TrieEdge := [TrieEdge.go 'a' St.GOT_ca,
    TrieEdge.go 'h' St.GOT_ch,
    TrieEdge.go 'o' St.GOT_co]

def edges_GOT_ca : List TrieEdge := [TrieEdge.go 's' St.GOT_cas]

def edges_GOT_cas : List TrieEdge := [TrieEdge.commit 'e' Token.CASE 4]

def edges_GOT_ch : List TrieEdge := [TrieEdge.go 'a' St.GOT_cha]

def edges_GOT_cha : List TrieEdge := [TrieEdge.commit 'r' Token.CHAR 4]

def edges_GOT_co : List TrieEdge := [TrieEdge.go 'n' St.GOT_con]

def edges_GOT_con : List TrieEdge := [TrieEdge.go 's' St.GOT_cons,
    TrieEdge.go 't' St.GOT_cont]

def edges_GOT_cons : List TrieEdge := [TrieEdge.peekgo 't' 'e' St.GOT_conste Token.CONST 5]

def edges_GOT_conste : List TrieEdge := [TrieEdge.go 'x' St.GOT_constex]

def edges_GOT_constex : List TrieEdge := [TrieEdge.go 'p' St.GOT_constexp]

def edges_GOT_constexp : List TrieEdge := [TrieEdge.commit 'r' Token.CONSTEXPR 9]

def edges_GOT_cont : List TrieEdge := [TrieEdge.go 'i' St.GOT_conti]

def edges_GOT_conti : List TrieEdge := [TrieEdge.go 'n' St.GOT_contin]

def edges_GOT_contin : List TrieEdge := [TrieEdge.go 'u' St.GOT_continu]

def edges_GOT_continu : List TrieEdge := [TrieEdge.commit 'e' Token.CONTINUE 8]

def edges_GOT_d : List TrieEdge := [TrieEdge.go 'e' St.GOT_de,
    TrieEdge.peekgo 'o' 'u' St.GOT_dou Token.DO 2]

def edges_GOT_de : List TrieEdge := [TrieEdge.go 'f' St.GOT_def]

def edges_GOT_def : List TrieEdge := [TrieEdge.go 'a' St.GOT_defa]

def edges_GOT_defa : List TrieEdge := [TrieEdge.go 'u' St.GOT_defau]

def edges_GOT_defau : List TrieEdge := [TrieEdge.go 'l' St.GOT_defaul]

def edges_GOT_defaul : List TrieEdge := [TrieEdge.commit 't' Token.DEFAULT 7]

def edges_GOT_dou : List TrieEdge := [TrieEdge.go 'b' St.GOT_doub]

def edges_GOT_doub : List TrieEdge := [TrieEdge.go 'l' St.GOT_doubl]

def edges_GOT_doubl : List TrieEdge := [TrieEdge.commit 'e' Token.DOUBLE 6]

def edges_GOT_e : List TrieEdge := [TrieEdge.go 'l' St.GOT_el,
    TrieEdge.go 'n' St.GOT_en,
    TrieEdge.go 'x' St.GOT_ex]

def edges_GOT_el : List TrieEdge := [TrieEdge.go 's' St.GOT_els]

def edges_GOT_els : List TrieEdge := [TrieEdge.commit 'e' Token.ELSE 4]

def edges_GOT_en : List TrieEdge := [TrieEdge.go 'u' St.GOT_enu]

def edges_GOT_enu : List TrieEdge := [TrieEdge.commit 'm' Token.ENUM 4]

def edges_GOT_ex : List TrieEdge := [TrieEdge.go 't' St.GOT_ext]

def edges_GOT_ext : List TrieEdge := [TrieEdge.go 'e' St.GOT_exte]

def edges_GOT_exte : List TrieEdge := [TrieEdge.go 'r' St.GOT_exter]

def edges_GOT_exter : List TrieEdge := [TrieEdge.commit 'n' Token.EXTERN 6]

def edges_GOT_f : List TrieEdge := [TrieEdge.go 'a' St.GOT_fa,
    TrieEdge.go 'l' St.GOT_fl,
    TrieEdge.go 'o' St.GOT_fo]

def edges_GOT_fa : List TrieEdge := [TrieEdge.go 'l' St.GOT_fal]

def edges_GOT_fal : List TrieEdge := [TrieEdge.go 's' St.GOT_fals]

def edges_GOT_fals : List TrieEdge := [TrieEdge.commit 'e' Token.FALSE 5]

def edges_GOT_fl : List TrieEdge := [TrieEdge.go 'o' St.GOT_flo]

def edges_GOT_flo : List TrieEdge := [TrieEdge.go 'a' St.GOT_floa]

def edges_GOT_floa : List TrieEdge := [TrieEdge.commit 't' Token.FLOAT 5]

def edges_GOT_fo : List TrieEdge := [TrieEdge.commit 'r' Token.FOR 3]

def edges_GOT_g : List TrieEdge := [TrieEdge.go 'o' St.GOT_go]

def edges_GOT_go : List TrieEdge := [TrieEdge.go 't' St.GOT_got]

def edges_GOT_got : List TrieEdge := [TrieEdge.commit 'o' Token.GOTO 4]

def edges_GOT_i : List TrieEdge := [TrieEdge.commit 'f' Token.IF 2,
    TrieEdge.go 'n' St.GOT_in]

def edges_GOT_in : List TrieEdge := [TrieEdge.go 'l' St.GOT_inl,
    TrieEdge.commit 't' Token.INT 3]

def edges_GOT_inl : List TrieEdge := [TrieEdge.go 'i' St.GOT_inli]

def edges_GOT_inli : List TrieEdge := [TrieEdge.go 'n' St.GOT_inlin]

def edges_GOT_inlin : List TrieEdge := [TrieEdge.commit 'e' Token.INLINE 6]

def edges_GOT_l : List TrieEdge := [TrieEdge.go 'o' St.GOT_lo]

def edges_GOT_lo : List TrieEdge := [TrieEdge.go 'n' St.GOT_lon]

def edges_GOT_lon : List TrieEdge := [TrieEdge.commit 'g' Token.LONG 4]

def edges_GOT_n : List TrieEdge := [TrieEdge.go 'u' St.GOT_nu]

def edges_GOT_nu : List TrieEdge := [TrieEdge.go 'l' St.GOT_nul]

def edges_GOT_nul : List TrieEdge := [TrieEdge.go 'l' St.GOT_null]

def edges_GOT_null : List TrieEdge := [TrieEdge.go 'p' St.GOT_nullp]

def edges_GOT_nullp : List TrieEdge := [TrieEdge.go 't' St.GOT_nullpt]

def edges_GOT_nullpt : List TrieEdge := [TrieEdge.commit 'r' Token.NULLPTR 7]

def edges_GOT_r : List TrieEdge := [TrieEdge.go 'e' St.GOT_re]

def edges_GOT_re : List TrieEdge := [TrieEdge.go 'g' St.GOT_reg,
    TrieEdge.go 's' St.GOT_res,
    TrieEdge.go 't' St.GOT_ret]

def edges_GOT_reg : List TrieEdge := [TrieEdge.go 'i' St.GOT_regi]

def edges_GOT_regi : List TrieEdge := [TrieEdge.go 's' St.GOT_regis]

def edges_GOT_regis : List TrieEdge := [TrieEdge.go 't' St.GOT_regist]

def edges_GOT_regist : List TrieEdge := [TrieEdge.go 'e' St.GOT_registe]

def edges_GOT_registe : List TrieEdge := [TrieEdge.commit 'r' Token.REGISTER 8]

def edges_GOT_res : List TrieEdge := [TrieEdge.go 't' St.GOT_rest]

def edges_GOT_rest : List TrieEdge := [TrieEdge.go 'r' St.GOT_restr]

def edges_GOT_restr : List TrieEdge := [TrieEdge.go 'i' St.GOT_restri]

def edges_GOT_restri : List TrieEdge := [TrieEdge.go 'c' St.GOT_restric]

def edges_GOT_restric : List TrieEdge := [TrieEdge.commit 't' Token.RESTRICT 8]

def edges_GOT_ret : List TrieEdge := [TrieEdge.go 'u' St.GOT_retu]

def edges_GOT_retu : List TrieEdge := [TrieEdge.go 'r' St.GOT_retur]

def edges_GOT_retur : List TrieEdge := [TrieEdge.commit 'n' Token.RETURN 6]

def edges_GOT_s : List TrieEdge := [TrieEdge.go 'h' St.GOT_sh,
    TrieEdge.go 'i' St.GOT_si,
    TrieEdge.go 't' St.GOT_st,
    TrieEdge.go 'w' St.GOT_sw]

def edges_GOT_sh : List TrieEdge := [TrieEdge.go 'o' St.GOT_sho]

def edges_GOT_sho : List TrieEdge := [TrieEdge.go 'r' St.GOT_shor]

def edges_GOT_shor : List TrieEdge := [TrieEdge.commit 't' Token.SHORT 5]

def edges_GOT_si : List TrieEdge := [TrieEdge.go 'g' St.GOT_sig,
    TrieEdge.go 'z' St.GOT_siz]

def edges_GOT_sig : List TrieEdge := [TrieEdge.go 'n' St.GOT_sign]

def edges_GOT_sign : List TrieEdge := [TrieEdge.go 'e' St.GOT_signe]

def edges_GOT_signe : List TrieEdge := [TrieEdge.commit 'd' Token.SIGNED 6]

def edges_GOT_siz : List TrieEdge := [TrieEdge.go 'e' St.GOT_size]

def edges_GOT_size : List TrieEdge := [TrieEdge.go 'o' St.GOT_sizeo]

def edges_GOT_sizeo : List TrieEdge := [TrieEdge.commit 'f' Token.SIZEOF 6]

def edges_GOT_st : List TrieEdge := [TrieEdge.go 'a' St.GOT_sta,
    TrieEdge.go 'r' St.GOT_str]

def edges_GOT_sta : List TrieEdge := [TrieEdge.go 't' St.GOT_stat]

def edges_GOT_stat : List TrieEdge := [TrieEdge.go 'i' St.GOT_stati]

def edges_GOT_stati : List TrieEdge := [TrieEdge.peekgo 'c' '_' St.GOT_static_ Token.STATIC 6]

def edges_GOT_static_ : List TrieEdge := [TrieEdge.go 'a' St.GOT_static_a]

def edges_GOT_static_a : List TrieEdge := [TrieEdge.go 's' St.GOT_static_as]

def edges_GOT_static_as : List TrieEdge := [TrieEdge.go 's' St.GOT_static_ass]

def edges_GOT_static_ass : List TrieEdge := [TrieEdge.go 'e' St.GOT_static_asse]

def edges_GOT_static_asse : List TrieEdge := [TrieEdge.go 'r' St.GOT_static_asser]

def edges_GOT_static_asser : List TrieEdge := [TrieEdge.commit 't' Token.STATIC_ASSERT 13]

def edges_GOT_str : List TrieEdge := [TrieEdge.go 'u' St.GOT_stru]

def edges_GOT_stru : List TrieEdge := [TrieEdge.go 'c' St.GOT_struc]

def edges_GOT_struc : List TrieEdge := [TrieEdge.commit 't' Token.STRUCT 6]

def edges_GOT_sw : List TrieEdge := [TrieEdge.go 'i' St.GOT_swi]

def edges_GOT_swi : List TrieEdge := [TrieEdge.go 't' St.GOT_swit]

def edges_GOT_swit : List TrieEdge := [TrieEdge.go 'c' St.GOT_switc]

def edges_GOT_switc : List TrieEdge := [TrieEdge.commit 'h' Token.SWITCH 6]

def edges_GOT_t : List TrieEdge := [TrieEdge.go 'h' St.GOT_th,
    TrieEdge.go 'r' St.GOT_tr,
    TrieEdge.go 'y' St.GOT_ty]

def edges_GOT_th : List TrieEdge := [TrieEdge.go 'r' St.GOT_thr]

def edges_GOT_thr : List TrieEdge := [TrieEdge.go 'e' St.GOT_thre]

def edges_GOT_thre : List TrieEdge := [TrieEdge.go 'a' St.GOT_threa]

def edges_GOT_threa : List TrieEdge := [TrieEdge.go 'd' St.GOT_thread]

def edges_GOT_thread : List TrieEdge := [TrieEdge.go '_' St.GOT_thread_]

def edges_GOT_thread_ : List TrieEdge := [TrieEdge.go 'l' St.GOT_thread_l]

def edges_GOT_thread_l : List TrieEdge := [TrieEdge.go 'o' St.GOT_thread_lo]

def edges_GOT_thread_lo : List TrieEdge := [TrieEdge.go 'c' St.GOT_thread_loc]

def edges_GOT_thread_loc : List TrieEdge := [TrieEdge.go 'a' St.GOT_thread_loca]

def edges_GOT_thread_loca : List TrieEdge := [TrieEdge.commit 'l' Token.THREAD_LOCAL 12]

def edges_GOT_tr : List TrieEdge := [TrieEdge.go 'u' St.GOT_tru]

def edges_GOT_tru : List TrieEdge := [TrieEdge.commit 'e' Token.TRUE 4]

def edges_GOT_ty : List TrieEdge := [TrieEdge.go 'p' St.GOT_typ]

def edges_GOT_typ : List TrieEdge := [TrieEdge.go 'e' St.GOT_type]

def edges_GOT_type : List TrieEdge := [TrieEdge.go 'd' St.GOT_typed,
    TrieEdge.go 'o' St.GOT_typeo]

def edges_GOT_typed : List TrieEdge := [TrieEdge.go 'e' St.GOT_typede]

def edges_GOT_typede : List TrieEdge := [TrieEdge.commit 'f' Token.TYPEDEF 7]

def edges_GOT_typeo : List TrieEdge := [TrieEdge.peekgo 'f' '_' St.GOT_typeof_ Token.TYPEOF 6]

def edges_GOT_typeof_ : List TrieEdge := [TrieEdge.go 'u' St.GOT_typeof_u]

def edges_GOT_typeof_u : List TrieEdge := [TrieEdge.go 'n' St.GOT_typeof_un]

def edges_GOT_typeof_un : List TrieEdge := [TrieEdge.go 'q' St.GOT_typeof_unq]

def edges_GOT_typeof_unq : List TrieEdge := [TrieEdge.go 'u' St.GOT_typeof_unqu]

def edges_GOT_typeof_unqu : List TrieEdge := [TrieEdge.go 'a' St.GOT_typeof_unqua]

def edges_GOT_typeof_unqua : List TrieEdge := [TrieEdge.commit 'l' Token.TYPEOF_UNQUAL 13]

def edges_GOT_U : List TrieEdge := [TrieEdge.go '\'' St.GOT_CHAR_CONST_START,
    TrieEdge.go '\"' St.GOT_STRING_LIT_START]

def edges_GOT_L : List TrieEdge := [TrieEdge.go '\'' St.GOT_CHAR_CONST_START,
    TrieEdge.go '\"' St.GOT_STRING_LIT_START]

def edges_GOT_un : List TrieEdge := [TrieEdge.go 'i' St.GOT_uni,
    TrieEdge.go 's' St.GOT_uns]

def edges_GOT_uni : List TrieEdge := [TrieEdge.go 'o' St.GOT_unio]

def edges_GOT_unio : List TrieEdge := [TrieEdge.commit 'n' Token.UNION 5]

def edges_GOT_uns : List TrieEdge := [TrieEdge.go 'i' St.GOT_unsi]

def edges_GOT_unsi : List TrieEdge := [TrieEdge.go 'g' St.GOT_unsig]

def edges_GOT_unsig : List TrieEdge := [TrieEdge.go 'n' St.GOT_unsign]

def edges_GOT_unsign : List TrieEdge := [TrieEdge.go 'e' St.GOT_unsigne]

def edges_GOT_unsigne : List TrieEdge := [TrieEdge.commit 'd' Token.UNSIGNED 8]

def edges_GOT_v : List TrieEdge := [TrieEdge.go 'o' St.GOT_vo]

def edges_GOT_vo : List TrieEdge := [TrieEdge.go 'i' St.GOT_voi,
    TrieEdge.go 'l' St.GOT_vol]

def edges_GOT_voi : List TrieEdge := [TrieEdge.commit 'd' Token.VOID 4]

def edges_GOT_vol : List TrieEdge := [TrieEdge.go 'a' St.GOT_vola]

def edges_GOT_vola : List TrieEdge := [TrieEdge.go 't' St.GOT_volat]

def edges_GOT_volat : List TrieEdge := [TrieEdge.go 'i' St.GOT_volati]

def edges_GOT_volati : List TrieEdge := [TrieEdge.go 'l' St.GOT_volatil]

def edges_GOT_volatil : List TrieEdge := [TrieEdge.commit 'e' Token.VOLATILE 8]

def edges_GOT_w : List TrieEdge := [TrieEdge.go 'h' St.GOT_wh]

def edges_GOT_wh : List TrieEdge := [TrieEdge.go 'i' St.GOT_whi]

def edges_GOT_whi : List TrieEdge := [TrieEdge.go 'l' St.GOT_whil]

def edges_GOT_whil : List TrieEdge := [TrieEdge.commit 'e' Token.WHILE 5]

def step_THE_END (c : Option Char) (input lex : List Char) (states : List St)
    (row col : Nat) (errs : List Diag) : StepRes :=
  ret Token.END 0 input lex row col errs

def step_START (c : Option Char) (input lex : List Char) (states : List St)
    (row col : Nat) (errs : List Diag) : StepRes :=
  match c with
  | none => holdst St.THE_END c input lex states row col errs
  | some '~' => ret Token.BIT_NOT 1 input lex row col errs
  | some ',' => ret Token.COMMA 1 input lex row col errs
  | some '?' => ret Token.QUESTION 1 input lex row col errs
  | some ':' => ret Token.COLON 1 input lex row col errs
  | some '(' => ret Token.LPAREN 1 input lex row col errs
  | some ')' => ret Token.RPAREN 1 input lex row col errs
  | some '{' => ret Token.LBRACE 1 input lex row col errs
  | some '}' => ret Token.RBRACE 1 input lex row col errs
  | some '[' => ret Token.LSQUARE 1 input lex row col errs
  | some ']' => ret Token.RSQUARE 1 input lex row col errs
  | some ';' => ret Token.SEMI 1 input lex row col errs
  | some '%' =>
    if input.head? = some '=' then
      let p := advance input lex
      ret Token.MOD_ASSIGN 2 p.1 p.2 row col errs
    else ret Token.MOD 1 input lex row col errs
  | some '/' =>
    if input.head? = some '=' then
      let p := advance input lex
      ret Token.DIV_ASSIGN 2 p.1 p.2 row col errs
    else ret Token.DIV 1 input lex row col errs
  | some '*' =>
    if input.head? = some '=' then
      let p := advance input lex
      ret Token.MUL_ASSIGN 2 p.1 p.2 row col errs
    else ret Token.STAR 1 input lex row col errs
  | some '=' =>
    if input.head? = some '=' then
      let p := advance input lex
      ret Token.EQUALS 2 p.1 p.2 row col errs
    else ret Token.ASSIGN 1 input lex row col errs
  | some '!' =>
    if input.head? = some '=' then
      let p := advance input lex
      ret Token.NOTEQUALS 2 p.1 p.2 row col errs
    else ret Token.LOG_NOT 1 input lex row col errs
  | some '^' =>
    if input.head? = some '=' then
      let p := advance input lex
      ret Token.XOR_ASSIGN 2 p.1 p.2 row col errs
    else ret Token.BIT_XOR 1 input lex row col errs
  | some '.' =>
    if input.head? = some '.' then
      let p := advance input lex
      if p.1.head? = some '.' then
        let q := advance p.1 p.2
        ret Token.ELLIPSIS 3 q.1 q.2 row col errs
      else
        let b := backup (some '.') p.1 p.2
        ret Token.DOT 1 b.1 b.2 row col errs
    else if isdigitO input.head? then
      nextst St.GOT_FLOAT_CONST_DOT_DIGIT c input lex states row col errs
    else ret Token.DOT 1 input lex row col errs
  | some '|' =>
    if input.head? = some '|' then
      let p := advance input lex
      ret Token.LOG_OR 2 p.1 p.2 row col errs
    else if input.head? = some '=' then
      let p := advance input lex
      ret Token.OR_ASSIGN 2 p.1 p.2 row col errs
    else ret Token.BIT_OR 1 input lex row col errs
  | some '&' =>
    if input.head? = some '&' then
      let p := advance input lex
      ret Token.LOG_AND 2 p.1 p.2 row col errs
    else if input.head? = some '=' then
      let p := advance input lex
      ret Token.AND_ASSIGN 2 p.1 p.2 row col errs
    else ret Token.AMP 1 input lex row col errs
  | some '+' =>
    if input.head? = some '+' then
      let p := advance input lex
      ret Token.INCR 2 p.1 p.2 row col errs
    else if input.head? = some '=' then
      let p := advance input lex
      ret Token.ADD_ASSIGN 2 p.1 p.2 row col errs
    else ret Token.PLUS 1 input lex row col errs
  | some '-' =>
    if input.head? = some '-' then
      let p := advance input lex
      ret Token.DECR 2 p.1 p.2 row col errs
    else if input.head? = some '=' then
      let p := advance input lex
      ret Token.SUB_ASSIGN 2 p.1 p.2 row col errs
    else if input.head? = some '>' then
      let p := advance input lex
      ret Token.ARROW 2 p.1 p.2 row col errs
    else ret Token.MINUS 1 input lex row col errs
  | some '>' => nextst St.GOT_GT c input lex states row col errs
  | some '<' => nextst St.GOT_LT c input lex states row col errs
  | some '\'' => nextst St.GOT_CHAR_CONST_START c input lex states row col errs
  | some '\"' => nextst St.GOT_STRING_LIT_START c input lex states row col errs
  | some '0' =>
    if input.head? = some 'x' ∨ input.head? = some 'X' then
      let p := advance input lex
      nextst St.GOT_0x c p.1 p.2 states row col errs
    else if input.head? = some 'b' ∨ input.head? = some 'B' then
      let p := advance input lex
      nextst St.GOT_BIN_CONST_START c p.1 p.2 states row col errs
    else nextst St.GOT_OCT_LITERAL c input lex states row col errs
  | some '1' => holdst St.GOT_INT_LITERAL c input lex states row col errs
  | some '2' => holdst St.GOT_INT_LITERAL c input lex states row col errs
  | some '3' => holdst St.GOT_INT_LITERAL c input lex states row col errs
  | some '4' => holdst St.GOT_INT_LITERAL c input lex states row col errs
  | some '5' => holdst St.GOT_INT_LITERAL c input lex states row col errs
  | some '6' => holdst St.GOT_INT_LITERAL c input lex states row col errs
  | some '7' => holdst St.GOT_INT_LITERAL c input lex states row col errs
  | some '8' => holdst St.GOT_INT_LITERAL c input lex states row col errs
  | some '9' => holdst St.GOT_INT_LITERAL c input lex states row col errs
  | some 'a' => nextst St.GOT_a c input lex states row col errs
  | some 'b' => nextst St.GOT_b c input lex states row col errs
  | some 'c' => nextst St.GOT_c c input lex states row col errs
  | some 'd' => nextst St.GOT_d c input lex states row col errs
  | some 'e' => nextst St.GOT_e c input lex states row col errs
  | some 'f' => nextst St.GOT_f c input lex states row col errs
  | some 'g' => nextst St.GOT_g c input lex states row col errs
  | some 'i' => nextst St.GOT_i c input lex states row col errs
  | some 'l' => nextst St.GOT_l c input lex states row col errs
  | some 'L' => nextst St.GOT_L c input lex states row col errs
  | some 'n' => nextst St.GOT_n c input lex states row col errs
  | some 'r' => nextst St.GOT_r c input lex states row col errs
  | some 's' => nextst St.GOT_s c input lex states row col errs
  | some 't' => nextst St.GOT_t c input lex states row col errs
  | some 'u' => nextst St.GOT_u c input lex states row col errs
  | some 'U' => nextst St.GOT_U c input lex states row col errs
  | some 'v' => nextst St.GOT_v c input lex states row col errs
  | some 'w' => nextst St.GOT_w c input lex states row col errs
  | some '_' => nextst St.GOT__ c input lex states row col errs
  | some ch =>
    if is_ident_start ch then holdst St.GOT_IDENT c input lex states row col errs
    else
      let e2 := errs ++ [⟨row, col, skipMsg ch⟩]
      let w := eatWs input row (col + 1)
      StepRes.cont ⟨St.START, states, w.input, lex, w.row, w.col, true, w.c, e2⟩

def step_GOT_GT (c : Option Char) (input lex : List Char) (states : List St)
    (row col : Nat) (errs : List Diag) : StepRes :=
  match c with
  | some '=' => ret Token.GREATER_OR_EQUAL 2 input lex row col errs
  | some '>' =>
    if input.head? = some '=' then
      let p := advance input lex
      ret Token.RSHIFT_ASSIGN 3 p.1 p.2 row col errs
    else ret Token.RSHIFT 2 input lex row col errs
  | _ =>
    let b := backup c input lex
    ret Token.GREATER 1 b.1 b.2 row col errs

def step_GOT_LT (c : Option Char) (input lex : List Char) (states : List St)
    (row col : Nat) (errs : List Diag) : StepRes :=
  match c with
  | some '=' => ret Token.LESS_OR_EQUAL 2 input lex row col errs
  | some '<' =>
    if input.head? = some '=' then
      let p := advance input lex
      ret Token.LSHIFT_ASSIGN 3 p.1 p.2 row col errs
    else ret Token.LSHIFT 2 input lex row col errs
  | _ =>
    let b := backup c input lex
    ret Token.LESS 1 b.1 b.2 row col errs

def step_GOT_IDENT (c : Option Char) (input lex : List Char) (states : List St)
    (row col : Nat) (errs : List Diag) : StepRes :=
  if isIdentContO c then nextst St.GOT_IDENT c input lex states row col errs
  else
    let b := backup c input lex
    ret Token.IDENTIFIER b.2.length b.1 b.2 row col errs

def step_GOT_u (c : Option Char) (input lex : List Char) (states : List St)
    (row col : Nat) (errs : List Diag) : StepRes :=
  match c with
  | some 'n' => nextst St.GOT_un c input lex states row col errs
  | some '8' =>
    if input.head? = some '\'' then
      let p := advance input lex
      nextst St.GOT_CHAR_CONST_START c p.1 p.2 states row col errs
    else if input.head? = some '\"' then
      let p := advance input lex
      nextst St.GOT_STRING_LIT_START c p.1 p.2 states row col errs
    else nextst St.GOT_IDENT c input lex states row col errs
  | some '\'' => nextst St.GOT_CHAR_CONST_START c input lex states row col errs
  | some '\"' => nextst St.GOT_STRING_LIT_START c input lex states row col errs
  | _ => holdst St.GOT_IDENT c input lex states row col errs

def step_GOT_INT_LITERAL (c : Option Char) (input lex : List Char) (states : List St)
    (row col : Nat) (errs : List Diag) : StepRes :=
  if isdigitO c && isdigitO input.head? then
    nextst St.GOT_INT_LITERAL c input lex states row col errs
  else if isdigitO c then
    if isIntSuffixStartO input.head? then
      nextst St.GOT_INT_SUFFIX_START c input lex states row col errs
    else if input.head? = some 'e' ∨ input.head? = some 'E' then
      let p := advance input lex
      nextst St.GOT_FLOAT_CONST_e c p.1 p.2 states row col errs
    else if input.head? = some '.' then
      let p := advance input lex
      nextst St.GOT_FLOAT_CONST_DOT c p.1 p.2 states row col errs
    else if input.head? = some '\'' then
      let p := advance input lex
      nextst St.GOT_INT_LITERAL c p.1 p.2 states row col errs
    else ret Token.INTEGER_LIT lex.length input lex row col errs
  else if isIntSuffixStartO c then
    holdst St.GOT_INT_SUFFIX_START c input lex states row col errs
  else if c = some 'e' ∨ c = some 'E' then
    nextst St.GOT_FLOAT_CONST_e c input lex states row col errs
  else if c = some '.' then
    nextst St.GOT_FLOAT_CONST_DOT c input lex states row col errs
  else if c = some '\'' then
    nextst St.GOT_INT_LITERAL c input lex states row col errs
  else
    let b := backup c input lex
    ret Token.INTEGER_LIT b.2.length b.1 b.2 row col errs

def step_GOT_OCT_LITERAL (c : Option Char) (input lex : List Char) (states : List St)
    (row col : Nat) (errs : List Diag) : StepRes :=
  if c = some '\'' ∨ (isoctO c ∧ isoctO input.head?) then
    nextst St.GOT_OCT_LITERAL c input lex states row col errs
  else if isoctO c then
    if isIntSuffixStartO input.head? then
      nextst St.GOT_INT_SUFFIX_START c input lex states row col errs
    else if input.head? = some 'e' ∨ input.head? = some 'E' then
      let p := advance input lex
      nextst St.GOT_FLOAT_CONST_e c p.1 p.2 states row col errs
    else if input.head? = some '.' then
      let p := advance input lex
      nextst St.GOT_FLOAT_CONST_DOT c p.1 p.2 states row col errs
    else if input.head? = some '\'' then
      let p := advance input lex
      nextst St.GOT_OCT_LITERAL c p.1 p.2 states row col errs
    else if isdigitO input.head? then
      nextst St.GOT_INT_LITERAL c input lex states row col errs
    else ret Token.INTEGER_LIT lex.length input lex row col errs
  else if isIntSuffixStartO c then
    holdst St.GOT_INT_SUFFIX_START c input lex states row col errs
  else if c = some 'e' ∨ c = some 'E' then
    nextst St.GOT_FLOAT_CONST_e c input lex states row col errs
  else if c = some '.' then
    nextst St.GOT_FLOAT_CONST_DOT c input lex states row col errs
  else
    let b := backup c input lex
    ret Token.INTEGER_LIT b.2.length b.1 b.2 row col errs

def step_GOT_0x (c : Option Char) (input lex : List Char) (states : List St)
    (row col : Nat) (errs : List Diag) : StepRes :=
  if isxdigitO c then holdst St.GOT_HEX_LITERAL c input lex states row col errs
  else if c = some '.' then nextst St.GOT_0x_DOT c input lex states row col errs
  else
    let e2 := errs ++ [⟨row, col, "Hexadecimal prefix must be followed by a hexadecimal digit.\n"⟩]
    let b := backup c input lex
    rinvalid b.1 b.2 row col e2

def step_GOT_0x_DOT (c : Option Char) (input lex : List Char) (states : List St)
    (row col : Nat) (errs : List Diag) : StepRes :=
  if isxdigitO c then nextst St.GOT_HEX_CONST_DOT_XDIGIT c input lex states row col errs
  else
    let e2 := errs ++ [⟨row, col, "Missing digits in hexadecimal constant.\n"⟩]
    let b := backup c input lex
    rinvalid b.1 b.2 row col e2

def step_GOT_HEX_LITERAL (c : Option Char) (input lex : List Char) (states : List St)
    (row col : Nat) (errs : List Diag) : StepRes :=
  if isxdigitO c && isxdigitO input.head? then
    nextst St.GOT_HEX_LITERAL c input lex states row col errs
  else if isxdigitO c then
    if isIntSuffixStartO input.head? then
      nextst St.GOT_INT_SUFFIX_START c input lex states row col errs
    else if input.head? = some '.' then
      let p := advance input lex
      nextst St.GOT_HEX_CONST_DOT c p.1 p.2 states row col errs
    else if input.head? = some 'p' ∨ input.head? = some 'P' then
      let p := advance input lex
      nextst St.GOT_HEX_CONST_p c p.1 p.2 states row col errs
    else if input.head? = some '\'' then
      let p := advance input lex
      nextst St.GOT_HEX_LITERAL c p.1 p.2 states row col errs
    else ret Token.INTEGER_LIT lex.length input lex row col errs
  else if isIntSuffixStartO c then
    holdst St.GOT_INT_SUFFIX_START c input lex states row col errs
  else if c = some '.' then
    nextst St.GOT_HEX_CONST_DOT c input lex states row col errs
  else if c = some 'p' ∨ c = some 'P' then
    nextst St.GOT_HEX_CONST_p c input lex states row col errs
  else if c = some '\'' then
    nextst St.GOT_HEX_LITERAL c input lex states row col errs
  else
    let b := backup c input lex
    ret Token.INTEGER_LIT b.2.length b.1 b.2 row col errs

def step_GOT_CHAR_CONST_START (c : Option Char) (input lex : List Char) (states : List St)
    (row col : Nat) (errs : List Diag) : StepRes :=
  match c with
  | some '\'' =>
    let e2 := errs ++ [⟨row, col, "Character constant cannot be empty.\n"⟩]
    rinvalid input lex row col e2
  | some '\n' =>
    let e2 := errs ++ [⟨row, col, "Unterminated character constant detected.\n"⟩]
    let b := backup c input lex
    rinvalid b.1 b.2 row col e2
  | some '\\' =>
    StepRes.cont ⟨St.GOT_ESCAPE_SEQUENCE, St.GOT_CHAR_CONST_CONT :: states,
      input, lex, row, col, false, c, errs⟩
  | _ => nextst St.GOT_CHAR_CONST_CONT c input lex states row col errs

def step_GOT_CHAR_CONST_CONT (c : Option Char) (input lex : List Char) (states : List St)
    (row col : Nat) (errs : List Diag) : StepRes :=
  match c with
  | some '\'' => ret Token.INTEGER_LIT lex.length input lex row col errs
  | none =>
    let e2 := errs ++ [⟨row, col, "Unterminated character constant detected.\n"⟩]
    let b := backup c input lex
    rinvalid b.1 b.2 row col e2
  | some '\n' =>
    let e2 := errs ++ [⟨row, col, "Unterminated character constant detected.\n"⟩]
    let b := backup c input lex
    rinvalid b.1 b.2 row col e2
  | some '\\' =>
    StepRes.cont ⟨St.GOT_ESCAPE_SEQUENCE, St.GOT_CHAR_CONST_CONT :: states,
      input, lex, row, col, false, c, errs⟩
  | _ => nextst St.GOT_CHAR_CONST_CONT c input lex states row col errs

def step_GOT_FLOAT_CONST_DOT (c : Option Char) (input lex : List Char) (states : List St)
    (row col : Nat) (errs : List Diag) : StepRes :=
  if isdigitO c then nextst St.GOT_FLOAT_CONST_DOT_DIGIT c input lex states row col errs
  else if c = some 'e' ∨ c = some 'E' then
    nextst St.GOT_FLOAT_CONST_e c input lex states row col errs
  else if isFloatSufO c then
    holdst St.GOT_FLOAT_CONST_e_SIGN_DIG c input lex states row col errs
  else
    let b := backup c input lex
    ret Token.FLOAT_LIT b.2.length b.1 b.2 row col errs

def step_GOT_FLOAT_CONST_DOT_DIGIT (c : Option Char) (input lex : List Char) (states : List St)
    (row col : Nat) (errs : List Diag) : StepRes :=
  match c with
  | some 'e' | some 'E' => nextst St.GOT_FLOAT_CONST_e c input lex states row col errs
  | some 'f' | some 'F' | some 'l' | some 'L' | some 'd' | some 'D' =>
    holdst St.GOT_FLOAT_CONST_e_SIGN_DIG c input lex states row col errs
  | _ =>
    if isdigitO c then nextst St.GOT_FLOAT_CONST_DOT_DIGIT c input lex states row col errs
    else
      let b := backup c input lex
      ret Token.FLOAT_LIT b.2.length b.1 b.2 row col errs

def step_GOT_FLOAT_CONST_e (c : Option Char) (input lex : List Char) (states : List St)
    (row col : Nat) (errs : List Diag) : StepRes :=
  match c with
  | some '-' | some '+' => nextst St.GOT_FLOAT_CONST_e_SIGN c input lex states row col errs
  | _ =>
    if isdigitO c then nextst St.GOT_FLOAT_CONST_e_SIGN_DIG c input lex states row col errs
    else
      let e2 := errs ++ [⟨row, col, "Floating point constant missing exponent digit(s).\n"⟩]
      let b := backup c input lex
      rinvalid b.1 b.2 row col e2

def step_GOT_FLOAT_CONST_e_SIGN (c : Option Char) (input lex : List Char) (states : List St)
    (row col : Nat) (errs : List Diag) : StepRes :=
  if isdigitO c then nextst St.GOT_FLOAT_CONST_e_SIGN_DIG c input lex states row col errs
  else
    let e2 := errs ++ [⟨row, col, "Floating point constant missing exponent digit(s).\n"⟩]
    let b := backup c input lex
    rinvalid b.1 b.2 row col e2

def step_GOT_FLOAT_CONST_e_SIGN_DIG (c : Option Char) (input lex : List Char) (states : List St)
    (row col : Nat) (errs : List Diag) : StepRes :=
  match c with
  | some 'f' | some 'F' | some 'l' | some 'L' =>
    ret Token.FLOAT_LIT lex.length input lex row col errs
  | some 'd' => nextst St.GOT_FLOAT_CONST_e_SUFd c input lex states row col errs
  | some 'D' => nextst St.GOT_FLOAT_CONST_e_SUFD c input lex states row col errs
  | some '\'' => nextst St.GOT_FLOAT_CONST_e_SIGN_DIG c input lex states row col errs
  | _ =>
    if isdigitO c then nextst St.GOT_FLOAT_CONST_e_SIGN_DIG c input lex states row col errs
    else
      let b := backup c input lex
      ret Token.FLOAT_LIT b.2.length b.1 b.2 row col errs

def step_GOT_FLOAT_CONST_e_SUFd (c : Option Char) (input lex : List Char) (states : List St)
    (row col : Nat) (errs : List Diag) : StepRes :=
  match c with
  | some 'f' | some 'd' | some 'l' =>
    ret Token.FLOAT_LIT lex.length input lex row col errs
  | _ =>
    let e2 := errs ++ [⟨row, col, "Valid floating point constant suffixes are \x7bdf dd dl\x7d.\n"⟩]
    let b := backup c input lex
    rinvalid b.1 b.2 row col e2

def step_GOT_FLOAT_CONST_e_SUFD (c : Option Char) (input lex : List Char) (states : List St)
    (row col : Nat) (errs : List Diag) : StepRes :=
  match c with
  | some 'F' | some 'D' | some 'L' =>
    ret Token.FLOAT_LIT lex.length input lex row col errs
  | _ =>
    let e2 := errs ++ [⟨row, col, "Valid floating point constant suffixes are \x7bDF DD DL\x7d.\n"⟩]
    let b := backup c input lex
    rinvalid b.1 b.2 row col e2

def step_GOT_HEX_CONST_DOT (c : Option Char) (input lex : List Char) (states : List St)
    (row col : Nat) (errs : List Diag) : StepRes :=
  if isxdigitO c then nextst St.GOT_HEX_CONST_DOT_XDIGIT c input lex states row col errs
  else if c = some 'p' ∨ c = some 'P' then
    nextst St.GOT_HEX_CONST_p c input lex states row col errs
  else
    let e2 := errs ++ [⟨row, col, "Hexadecimal floating-point constant missing exponent field.\n"⟩]
    let b := backup c input lex
    rinvalid b.1 b.2 row col e2

def step_GOT_HEX_CONST_DOT_XDIGIT (c : Option Char) (input lex : List Char) (states : List St)
    (row col : Nat) (errs : List Diag) : StepRes :=
  match c with
  | some 'p' | some 'P' => nextst St.GOT_HEX_CONST_p c input lex states row col errs
  | some '\'' => nextst St.GOT_HEX_CONST_DOT_XDIGIT c input lex states row col errs
  | _ =>
    if isxdigitO c then nextst St.GOT_HEX_CONST_DOT_XDIGIT c input lex states row col errs
    else
      let e2 := errs ++ [⟨row, col, "Hexadecimal floating-point constant missing exponent field.\n"⟩]
      let b := backup c input lex
      rinvalid b.1 b.2 row col e2

def step_GOT_HEX_CONST_p (c : Option Char) (input lex : List Char) (states : List St)
    (row col : Nat) (errs : List Diag) : StepRes :=
  match c with
  | some '-' | some '+' => nextst St.GOT_HEX_CONST_p_SIGN c input lex states row col errs
  | _ =>
    if isdigitO c then nextst St.GOT_HEX_CONST_p_SIGN_DIG c input lex states row col errs
    else
      let e2 := errs ++ [⟨row, col, "Floating point constant missing exponent digit(s).\n"⟩]
      let b := backup c input lex
      rinvalid b.1 b.2 row col e2

def step_GOT_HEX_CONST_p_SIGN_DIG (c : Option Char) (input lex : List Char) (states : List St)
    (row col : Nat) (errs : List Diag) : StepRes :=
  match c with
  | some 'f' | some 'F' | some 'l' | some 'L' =>
    ret Token.FLOAT_LIT lex.length input lex row col errs
  | _ =>
    if isdigitO c then nextst St.GOT_HEX_CONST_p_SIGN_DIG c input lex states row col errs
    else
      let b := backup c input lex
      ret Token.FLOAT_LIT b.2.length b.1 b.2 row col errs

def step_GOT_HEX_CONST_p_SIGN (c : Option Char) (input lex : List Char) (states : List St)
    (row col : Nat) (errs : List Diag) : StepRes :=
  if isdigitO c then nextst St.GOT_HEX_CONST_p_SIGN_DIG c input lex states row col errs
  else
    let e2 := errs ++ [⟨row, col, "Floating point constant missing exponent digit(s).\n"⟩]
    let b := backup c input lex
    rinvalid b.1 b.2 row col e2

def step_GOT_BIN_CONST_START (c : Option Char) (input lex : List Char) (states : List St)
    (row col : Nat) (errs : List Diag) : StepRes :=
  match c with
  | some '0' | some '1' => nextst St.GOT_BIN_CONST_CONT c input lex states row col errs
  | _ =>
    let e2 := errs ++ [⟨row, col, "Binary constant must begin with a 0 or 1.\n"⟩]
    let b := backup c input lex
    rinvalid b.1 b.2 row col e2

def step_GOT_BIN_CONST_CONT (c : Option Char) (input lex : List Char) (states : List St)
    (row col : Nat) (errs : List Diag) : StepRes :=
  if isIntSuffixStartO c then
    holdst St.GOT_INT_SUFFIX_START c input lex states row col errs
  else if c = some '0' ∨ c = some '1' ∨ c = some '\'' then
    nextst St.GOT_BIN_CONST_CONT c input lex states row col errs
  else
    let b := backup c input lex
    ret Token.INTEGER_LIT b.2.length b.1 b.2 row col errs

def step_GOT_INT_SUFFIX_START (c : Option Char) (input lex : List Char) (states : List St)
    (row col : Nat) (errs : List Diag) : StepRes :=
  match c with
  | some 'u' => nextst St.GOT_INT_SUFFIX_u c input lex states row col errs
  | some 'U' => nextst St.GOT_INT_SUFFIX_U c input lex states row col errs
  | some 'l' => nextst St.GOT_INT_SUFFIX_l c input lex states row col errs
  | some 'L' => nextst St.GOT_INT_SUFFIX_L c input lex states row col errs
  | some 'w' => nextst St.GOT_INT_SUFFIX_w c input lex states row col errs
  | some 'W' => nextst St.GOT_INT_SUFFIX_W c input lex states row col errs
  | _ => nextst St.GOT_INT_SUFFIX_START c input lex states row col errs

def step_GOT_INT_SUFFIX_u (c : Option Char) (input lex : List Char) (states : List St)
    (row col : Nat) (errs : List Diag) : StepRes :=
  match c with
  | some 'l' =>
    if input.head? = some 'l' then
      let p := advance input lex
      ret Token.INTEGER_LIT p.2.length p.1 p.2 row col errs
    else ret Token.INTEGER_LIT lex.length input lex row col errs
  | some 'L' =>
    if input.head? = some 'L' then
      let p := advance input lex
      ret Token.INTEGER_LIT p.2.length p.1 p.2 row col errs
    else ret Token.INTEGER_LIT lex.length input lex row col errs
  | some 'w' =>
    if input.head? = some 'b' then
      let p := advance input lex
      ret Token.INTEGER_LIT p.2.length p.1 p.2 row col errs
    else
      let e2 := errs ++ [⟨row, col, "Invalid integer suffix after u.\n"⟩]
      rinvalid input lex row col e2
  | some 'W' =>
    if input.head? = some 'B' then
      let p := advance input lex
      ret Token.INTEGER_LIT p.2.length p.1 p.2 row col errs
    else
      let e2 := errs ++ [⟨row, col, "Invalid integer suffix after u.\n"⟩]
      rinvalid input lex row col e2
  | _ =>
    let e2 := errs ++ [⟨row, col, "Invalid integer suffix after u.\n"⟩]
    rinvalid input lex row col e2

def step_GOT_INT_SUFFIX_U (c : Option Char) (input lex : List Char) (states : List St)
    (row col : Nat) (errs : List Diag) : StepRes :=
  match c with
  | some 'l' =>
    if input.head? = some 'l' then
      let p := advance input lex
      ret Token.INTEGER_LIT p.2.length p.1 p.2 row col errs
    else ret Token.INTEGER_LIT lex.length input lex row col errs
  | some 'L' =>
    if input.head? = some 'L' then
      let p := advance input lex
      ret Token.INTEGER_LIT p.2.length p.1 p.2 row col errs
    else ret Token.INTEGER_LIT lex.length input lex row col errs
  | some 'w' =>
    if input.head? = some 'b' then
      let p := advance input lex
      ret Token.INTEGER_LIT p.2.length p.1 p.2 row col errs
    else
      let e2 := errs ++ [⟨row, col, "Invalid integer suffix after U.\n"⟩]
      rinvalid input lex row col e2
  | some 'W' =>
    if input.head? = some 'B' then
      let p := advance input lex
      ret Token.INTEGER_LIT p.2.length p.1 p.2 row col errs
    else
      let e2 := errs ++ [⟨row, col, "Invalid integer suffix after U.\n"⟩]
      rinvalid input lex row col e2
  | _ =>
    let e2 := errs ++ [⟨row, col, "Invalid integer suffix after U.\n"⟩]
    rinvalid input lex row col e2

def step_GOT_INT_SUFFIX_l (c : Option Char) (input lex : List Char) (states : List St)
    (row col : Nat) (errs : List Diag) : StepRes :=
  match c with
  | some 'l' =>
    if input.head? = some 'u' ∨ input.head? = some 'U' then
      let p := advance input lex
      ret Token.INTEGER_LIT p.2.length p.1 p.2 row col errs
    else ret Token.INTEGER_LIT lex.length input lex row col errs
  | some 'u' | some 'U' => ret Token.INTEGER_LIT lex.length input lex row col errs
  | _ =>
    let b := backup c input lex
    ret Token.INTEGER_LIT b.2.length b.1 b.2 row col errs

def step_GOT_INT_SUFFIX_L (c : Option Char) (input lex : List Char) (states : List St)
    (row col : Nat) (errs : List Diag) : StepRes :=
  match c with
  | some 'L' =>
    if input.head? = some 'u' ∨ input.head? = some 'U' then
      let p := advance input lex
      ret Token.INTEGER_LIT p.2.length p.1 p.2 row col errs
    else ret Token.INTEGER_LIT lex.length input lex row col errs
  | some 'u' | some 'U' => ret Token.INTEGER_LIT lex.length input lex row col errs
  | _ =>
    let b := backup c input lex
    ret Token.INTEGER_LIT b.2.length b.1 b.2 row col errs

def step_GOT_INT_SUFFIX_w (c : Option Char) (input lex : List Char) (states : List St)
    (row col : Nat) (errs : List Diag) : StepRes :=
  match c with
  | some 'b' =>
    if input.head? = some 'u' ∨ input.head? = some 'U' then
      let p := advance input lex
      ret Token.INTEGER_LIT p.2.length p.1 p.2 row col errs
    else ret Token.INTEGER_LIT lex.length input lex row col errs
  | _ =>
    let e2 := errs ++ [⟨row, col, "Invalid integer suffix after w.\n"⟩]
    rinvalid input lex row col e2

def step_GOT_INT_SUFFIX_W (c : Option Char) (input lex : List Char) (states : List St)
    (row col : Nat) (errs : List Diag) : StepRes :=
  match c with
  | some 'B' =>
    if input.head? = some 'u' ∨ input.head? = some 'U' then
      let p := advance input lex
      ret Token.INTEGER_LIT p.2.length p.1 p.2 row col errs
    else ret Token.INTEGER_LIT lex.length input lex row col errs
  | _ =>
    let e2 := errs ++ [⟨row, col, "Invalid integer suffix after W.\n"⟩]
    rinvalid input lex row col e2

def step_GOT_STRING_LIT_START (c : Option Char) (input lex : List Char) (states : List St)
    (row col : Nat) (errs : List Diag) : StepRes :=
  match c with
  | some '\"' => ret Token.STRING_LIT lex.length input lex row col errs
  | none =>
    let e2 := errs ++ [⟨row, col, "Unterminated string literal detected.\n"⟩]
    let b := backup c input lex
    rinvalid b.1 b.2 row col e2
  | some '\n' =>
    let e2 := errs ++ [⟨row, col, "Unterminated string literal detected.\n"⟩]
    let b := backup c input lex
    rinvalid b.1 b.2 row col e2
  | some '\\' =>
    StepRes.cont ⟨St.GOT_ESCAPE_SEQUENCE, St.GOT_STRING_LIT_START :: states,
      input, lex, row, col, false, c, errs⟩
  | _ => nextst St.GOT_STRING_LIT_START c input lex states row col errs

def step_GOT_ESCAPE_SEQUENCE (c : Option Char) (input lex : List Char) (states : List St)
    (row col : Nat) (errs : List Diag) : StepRes :=
  if isSimpleEscO c then
    let p := popStack St.GOT_ESCAPE_SEQUENCE states
    StepRes.cont ⟨p.1, p.2, input, lex, row, col, false, c, errs⟩
  else if isoctO c then nextst St.GOT_ESCAPE_SEQUENCE_BS_OCT1 c input lex states row col errs
  else if c = some 'x' then nextst St.GOT_ESCAPE_SEQUENCE_BS_x c input lex states row col errs
  else if c = some 'u' then nextst St.GOT_ESCAPE_SEQUENCE_BS_u0 c input lex states row col errs
  else if c = some 'U' then nextst St.GOT_ESCAPE_SEQUENCE_BS_U0 c input lex states row col errs
  else
    let e2 := errs ++ [⟨row, col, "Invalid escape sequence.\n"⟩]
    rinvalid input lex row col e2

def step_GOT_ESCAPE_SEQUENCE_BS_OCT1 (c : Option Char) (input lex : List Char) (states : List St)
    (row col : Nat) (errs : List Diag) : StepRes :=
  if isoctO c then nextst St.GOT_ESCAPE_SEQUENCE_BS_OCT2 c input lex states row col errs
  else
    let p := popStack St.GOT_ESCAPE_SEQUENCE_BS_OCT1 states
    StepRes.cont ⟨p.1, p.2, input, lex, row, col, true, c, errs⟩

def step_GOT_ESCAPE_SEQUENCE_BS_OCT2 (c : Option Char) (input lex : List Char) (states : List St)
    (row col : Nat) (errs : List Diag) : StepRes :=
  if isoctO c then
    let p := popStack St.GOT_ESCAPE_SEQUENCE_BS_OCT2 states
    StepRes.cont ⟨p.1, p.2, input, lex, row, col, false, c, errs⟩
  else
    let p := popStack St.GOT_ESCAPE_SEQUENCE_BS_OCT2 states
    StepRes.cont ⟨p.1, p.2, input, lex, row, col, true, c, errs⟩

def step_GOT_ESCAPE_SEQUENCE_BS_x (c : Option Char) (input lex : List Char) (states : List St)
    (row col : Nat) (errs : List Diag) : StepRes :=
  if isxdigitO c then nextst St.GOT_ESCAPE_SEQUENCE_BS_x_XDIGIT c input lex states row col errs
  else
    let e2 := errs ++ [⟨row, col, "Missing digits in hexadecimal escape sequence.\n"⟩]
    rinvalid input lex row col e2

def step_GOT_ESCAPE_SEQUENCE_BS_x_XDIGIT (c : Option Char) (input lex : List Char) (states : List St)
    (row col : Nat) (errs : List Diag) : StepRes :=
  if isxdigitO c then nextst St.GOT_ESCAPE_SEQUENCE_BS_x_XDIGIT c input lex states row col errs
  else
    let p := popStack St.GOT_ESCAPE_SEQUENCE_BS_x_XDIGIT states
    StepRes.cont ⟨p.1, p.2, input, lex, row, col, true, c, errs⟩

def step_GOT_ESCAPE_SEQUENCE_BS_u0 (c : Option Char) (input lex : List Char) (states : List St)
    (row col : Nat) (errs : List Diag) : StepRes :=
  if isxdigitO c then nextst St.GOT_ESCAPE_SEQUENCE_BS_u1 c input lex states row col errs
  else
    let e2 := errs ++ [⟨row, col, "universal character name must have the form \\uhhhh.\n"⟩]
    rinvalid input lex row col e2

def step_GOT_ESCAPE_SEQUENCE_BS_u1 (c : Option Char) (input lex : List Char) (states : List St)
    (row col : Nat) (errs : List Diag) : StepRes :=
  if isxdigitO c then nextst St.GOT_ESCAPE_SEQUENCE_BS_u2 c input lex states row col errs
  else
    let e2 := errs ++ [⟨row, col, "universal character name must have the form \\uhhhh.\n"⟩]
    rinvalid input lex row col e2

def step_GOT_ESCAPE_SEQUENCE_BS_u2 (c : Option Char) (input lex : List Char) (states : List St)
    (row col : Nat) (errs : List Diag) : StepRes :=
  if isxdigitO c then nextst St.GOT_ESCAPE_SEQUENCE_BS_u3 c input lex states row col errs
  else
    let e2 := errs ++ [⟨row, col, "universal character name must have the form \\uhhhh.\n"⟩]
    rinvalid input lex row col e2

def step_GOT_ESCAPE_SEQUENCE_BS_u3 (c : Option Char) (input lex : List Char) (states : List St)
    (row col : Nat) (errs : List Diag) : StepRes :=
  if isxdigitO c then (let p := popStack St.GOT_ESCAPE_SEQUENCE_BS_u3 states
    StepRes.cont ⟨p.1, p.2, input, lex, row, col, false, c, errs⟩)
  else
    let e2 := errs ++ [⟨row, col, "universal character name must have the form \\uhhhh.\n"⟩]
    rinvalid input lex row col e2

def step_GOT_ESCAPE_SEQUENCE_BS_U0 (c : Option Char) (input lex : List Char) (states : List St)
    (row col : Nat) (errs : List Diag) : StepRes :=
  if isxdigitO c then nextst St.GOT_ESCAPE_SEQUENCE_BS_U1 c input lex states row col errs
  else
    let e2 := errs ++ [⟨row, col, "Universal character name must have the form \\Uhhhhhhhh.\n"⟩]
    rinvalid input lex row col e2

def step_GOT_ESCAPE_SEQUENCE_BS_U1 (c : Option Char) (input lex : List Char) (states : List St)
    (row col : Nat) (errs : List Diag) : StepRes :=
  if isxdigitO c then nextst St.GOT_ESCAPE_SEQUENCE_BS_U2 c input lex states row col errs
  else
    let e2 := errs ++ [⟨row, col, "Universal character name must have the form \\Uhhhhhhhh.\n"⟩]
    rinvalid input lex row col e2

def step_GOT_ESCAPE_SEQUENCE_BS_U2 (c : Option Char) (input lex : List Char) (states : List St)
    (row col : Nat) (errs : List Diag) : StepRes :=
  if isxdigitO c then nextst St.GOT_ESCAPE_SEQUENCE_BS_U3 c input lex states row col errs
  else
    let e2 := errs ++ [⟨row, col, "Universal character name must have the form \\Uhhhhhhhh.\n"⟩]
    rinvalid input lex row col e2

def step_GOT_ESCAPE_SEQUENCE_BS_U3 (c : Option Char) (input lex : List Char) (states : List St)
    (row col : Nat) (errs : List Diag) : StepRes :=
  if isxdigitO c then nextst St.GOT_ESCAPE_SEQUENCE_BS_U4 c input lex states row col errs
  else
    let e2 := errs ++ [⟨row, col, "Universal character name must have the form \\Uhhhhhhhh.\n"⟩]
    rinvalid input lex row col e2

def step_GOT_ESCAPE_SEQUENCE_BS_U4 (c : Option Char) (input lex : List Char) (states : List St)
    (row col : Nat) (errs : List Diag) : StepRes :=
  if isxdigitO c then nextst St.GOT_ESCAPE_SEQUENCE_BS_U5 c input lex states row col errs
  else
    let e2 := errs ++ [⟨row, col, "Universal character name must have the form \\Uhhhhhhhh.\n"⟩]
    rinvalid input lex row col e2

def step_GOT_ESCAPE_SEQUENCE_BS_U5 (c : Option Char) (input lex : List Char) (states : List St)
    (row col : Nat) (errs : List Diag) : StepRes :=
  if isxdigitO c then nextst St.GOT_ESCAPE_SEQUENCE_BS_U6 c input lex states row col errs
  else
    let e2 := errs ++ [⟨row, col, "Universal character name must have the form \\Uhhhhhhhh.\n"⟩]
    rinvalid input lex row col e2

def step_GOT_ESCAPE_SEQUENCE_BS_U6 (c : Option Char) (input lex : List Char) (states : List St)
    (row col : Nat) (errs : List Diag) : StepRes :=
  if isxdigitO c then nextst St.GOT_ESCAPE_SEQUENCE_BS_U7 c input lex states row col errs
  else
    let e2 := errs ++ [⟨row, col, "Universal character name must have the form \\Uhhhhhhhh.\n"⟩]
    rinvalid input lex row col e2

def step_GOT_ESCAPE_SEQUENCE_BS_U7 (c : Option Char) (input lex : List Char) (states : List St)
    (row col : Nat) (errs : List Diag) : StepRes :=
  if isxdigitO c then (let p := popStack St.GOT_ESCAPE_SEQUENCE_BS_U7 states
    StepRes.cont ⟨p.1, p.2, input, lex, row, col, false, c, errs⟩)
  else
    let e2 := errs ++ [⟨row, col, "Universal character name must have the form \\Uhhhhhhhh.\n"⟩]
    rinvalid input lex row col e2

/-- One iteration of the `while (true)` body of `Lexer::scan_token`,
after the character-read step: the big `switch (st)`. -/
def iterSt (st : St) (c : Option Char) (input lex : List Char) (states : List St)
    (row col : Nat) (errs : List Diag) : StepRes :=
  match st with
  | St.THE_END => step_THE_END c input lex states row col errs
  | St.START => step_START c input lex states row col errs
  | St.GOT_GT => step_GOT_GT c input lex states row col errs
  | St.GOT_LT => step_GOT_LT c input lex states row col errs
  | St.GOT_IDENT => step_GOT_IDENT c input lex states row col errs
  | St.GOT__ => trieStep edges_GOT__ c input lex states row col errs
  | St.GOT__A => trieStep edges_GOT__A c input lex states row col errs
  | St.GOT__Al => trieStep edges_GOT__Al c input lex states row col errs
  | St.GOT__Ali => trieStep edges_GOT__Ali c input lex states row col errs
  | St.GOT__Alig => trieStep edges_GOT__Alig c input lex states row col errs
  | St.GOT__Align => trieStep edges_GOT__Align c input lex states row col errs
  | St.GOT__Aligna => trieStep edges_GOT__Aligna c input lex states row col errs
  | St.GOT__Aligno => trieStep edges_GOT__Aligno c input lex states row col errs
  | St.GOT__At => trieStep edges_GOT__At c input lex states row col errs
  | St.GOT__Ato => trieStep edges_GOT__Ato c input lex states row col errs
  | St.GOT__Atom => trieStep edges_GOT__Atom c input lex states row col errs
  | St.GOT__Atomi => trieStep edges_GOT__Atomi c input lex states row col errs
  | St.GOT__B => trieStep edges_GOT__B c input lex states row col errs
  | St.GOT__Bi => trieStep edges_GOT__Bi c input lex states row col errs
  | St.GOT__Bit => trieStep edges_GOT__Bit c input lex states row col errs
  | St.GOT__BitI => trieStep edges_GOT__BitI c input lex states row col errs
  | St.GOT__BitIn => trieStep edges_GOT__BitIn c input lex states row col errs
  | St.GOT__Bo => trieStep edges_GOT__Bo c input lex states row col errs
  | St.GOT__Boo => trieStep edges_GOT__Boo c input lex states row col errs
  | St.GOT__C => trieStep edges_GOT__C c input lex states row col errs
  | St.GOT__Co => trieStep edges_GOT__Co c input lex states row col errs
  | St.GOT__Com => trieStep edges_GOT__Com c input lex states row col errs
  | St.GOT__Comp => trieStep edges_GOT__Comp c input lex states row col errs
  | St.GOT__Compl => trieStep edges_GOT__Compl c input lex states row col errs
  | St.GOT__Comple => trieStep edges_GOT__Comple c input lex states row col errs
  | St.GOT__D => trieStep edges_GOT__D c input lex states row col errs
  | St.GOT__De => trieStep edges_GOT__De c input lex states row col errs
  | St.GOT__Dec => trieStep edges_GOT__Dec c input lex states row col errs
  | St.GOT__Deci => trieStep edges_GOT__Deci c input lex states row col errs
  | St.GOT__Decim => trieStep edges_GOT__Decim c input lex states row col errs
  | St.GOT__Decima => trieStep edges_GOT__Decima c input lex states row col errs
  | St.GOT__Decimal => trieStep edges_GOT__Decimal c input lex states row col errs
  | St.GOT__Decimal1 => trieStep edges_GOT__Decimal1 c input lex states row col errs
  | St.GOT__Decimal12 => trieStep edges_GOT__Decimal12 c input lex states row col errs
  | St.GOT__Decimal3 => trieStep edges_GOT__Decimal3 c input lex states row col errs
  | St.GOT__Decimal6 => trieStep edges_GOT__Decimal6 c input lex states row col errs
  | St.GOT__G => trieStep edges_GOT__G c input lex states row col errs
  | St.GOT__Ge => trieStep edges_GOT__Ge c input lex states row col errs
  | St.GOT__Gen => trieStep edges_GOT__Gen c input lex states row col errs
  | St.GOT__Gene => trieStep edges_GOT__Gene c input lex states row col errs
  | St.GOT__Gener => trieStep edges_GOT__Gener c input lex states row col errs
  | St.GOT__Generi => trieStep edges_GOT__Generi c input lex states row col errs
  | St.GOT__I => trieStep edges_GOT__I c input lex states row col errs
  | St.GOT__Im => trieStep edges_GOT__Im c input lex states row col errs
  | St.GOT__Ima => trieStep edges_GOT__Ima c input lex states row col errs
  | St.GOT__Imag => trieStep edges_GOT__Imag c input lex states row col errs
  | St.GOT__Imagi => trieStep edges_GOT__Imagi c input lex states row col errs
  | St.GOT__Imagin => trieStep edges_GOT__Imagin c input lex states row col errs
  | St.GOT__Imagina => trieStep edges_GOT__Imagina c input lex states row col errs
  | St.GOT__Imaginar => trieStep edges_GOT__Imaginar c input lex states row col errs
  | St.GOT__N => trieStep edges_GOT__N c input lex states row col errs
  | St.GOT__No => trieStep edges_GOT__No c input lex states row col errs
  | St.GOT__Nor => trieStep edges_GOT__Nor c input lex states row col errs
  | St.GOT__Nore => trieStep edges_GOT__Nore c input lex states row col errs
  | St.GOT__Noret => trieStep edges_GOT__Noret c input lex states row col errs
  | St.GOT__Noretu => trieStep edges_GOT__Noretu c input lex states row col errs
  | St.GOT__Noretur => trieStep edges_GOT__Noretur c input lex states row col errs
  | St.GOT__S => trieStep edges_GOT__S c input lex states row col errs
  | St.GOT__St => trieStep edges_GOT__St c input lex states row col errs
  | St.GOT__Sta => trieStep edges_GOT__Sta c input lex states row col errs
  | St.GOT__Stat => trieStep edges_GOT__Stat c input lex states row col errs
  | St.GOT__Stati => trieStep edges_GOT__Stati c input lex states row col errs
  | St.GOT__Static => trieStep edges_GOT__Static c input lex states row col errs
  | St.GOT__Static_ => trieStep edges_GOT__Static_ c input lex states row col errs
  | St.GOT__Static_a => trieStep edges_GOT__Static_a c input lex states row col errs
  | St.GOT__Static_as => trieStep edges_GOT__Static_as c input lex states row col errs
  | St.GOT__Static_ass => trieStep edges_GOT__Static_ass c input lex states row col errs
  | St.GOT__Static_asse => trieStep edges_GOT__Static_asse c input lex states row col errs
  | St.GOT__Static_asser => trieStep edges_GOT__Static_asser c input lex states row col errs
  | St.GOT__T => trieStep edges_GOT__T c input lex states row col errs
  | St.GOT__Th => trieStep edges_GOT__Th c input lex states row col errs
  | St.GOT__Thr => trieStep edges_GOT__Thr c input lex states row col errs
  | St.GOT__Thre => trieStep edges_GOT__Thre c input lex states row col errs
  | St.GOT__Threa => trieStep edges_GOT__Threa c input lex states row col errs
  | St.GOT__Thread => trieStep edges_GOT__Thread c input lex states row col errs
  | St.GOT__Thread_ => trieStep edges_GOT__Thread_ c input lex states row col errs
  | St.GOT__Thread_l => trieStep edges_GOT__Thread_l c input lex states row col errs
  | St.GOT__Thread_lo => trieStep edges_GOT__Thread_lo c input lex states row col errs
  | St.GOT__Thread_loc => trieStep edges_GOT__Thread_loc c input lex states row col errs
  | St.GOT__Thread_loca => trieStep edges_GOT__Thread_loca c input lex states row col errs
  | St.GOT_a => trieStep edges_GOT_a c input lex states row col errs
  | St.GOT_al => trieStep edges_GOT_al c input lex states row col errs
  | St.GOT_ali => trieStep edges_GOT_ali c input lex states row col errs
  | St.GOT_alig => trieStep edges_GOT_alig c input lex states row col errs
  | St.GOT_align => trieStep edges_GOT_align c input lex states row col errs
  | St.GOT_aligna => trieStep edges_GOT_aligna c input lex states row col errs
  | St.GOT_aligno => trieStep edges_GOT_aligno c input lex states row col errs
  | St.GOT_au => trieStep edges_GOT_au c input lex states row col errs
  | St.GOT_aut => trieStep edges_GOT_aut c input lex states row col errs
  | St.GOT_b => trieStep edges_GOT_b c input lex states row col errs
  | St.GOT_bo => trieStep edges_GOT_bo c input lex states row col errs
  | St.GOT_boo => trieStep edges_GOT_boo c input lex states row col errs
  | St.GOT_br => trieStep edges_GOT_br c input lex states row col errs
  | St.GOT_bre => trieStep edges_GOT_bre c input lex states row col errs
  | St.GOT_brea => trieStep edges_GOT_brea c input lex states row col errs
  | St.GOT_c => trieStep edges_GOT_c c input lex states row col errs
  | St.GOT_ca => trieStep edges_GOT_ca c input lex states row col errs
  | St.GOT_cas => trieStep edges_GOT_cas c input lex states row col errs
  | St.GOT_ch => trieStep edges_GOT_ch c input lex states row col errs
  | St.GOT_cha => trieStep edges_GOT_cha c input lex states row col errs
  | St.GOT_co => trieStep edges_GOT_co c input lex states row col errs
  | St.GOT_con => trieStep edges_GOT_con c input lex states row col errs
  | St.GOT_cons => trieStep edges_GOT_cons c input lex states row col errs
  | St.GOT_conste => trieStep edges_GOT_conste c input lex states row col errs
  | St.GOT_constex => trieStep edges_GOT_constex c input lex states row col errs
  | St.GOT_constexp => trieStep edges_GOT_constexp c input lex states row col errs
  | St.GOT_cont => trieStep edges_GOT_cont c input lex states row col errs
  | St.GOT_conti => trieStep edges_GOT_conti c input lex states row col errs
  | St.GOT_contin => trieStep edges_GOT_contin c input lex states row col errs
  | St.GOT_continu => trieStep edges_GOT_continu c input lex states row col errs
  | St.GOT_d => trieStep edges_GOT_d c input lex states row col errs
  | St.GOT_de => trieStep edges_GOT_de c input lex states row col errs
  | St.GOT_def => trieStep edges_GOT_def c input lex states row col errs
  | St.GOT_defa => trieStep edges_GOT_defa c input lex states row col errs
  | St.GOT_defau => trieStep edges_GOT_defau c input lex states row col errs
  | St.GOT_defaul => trieStep edges_GOT_defaul c input lex states row col errs
  | St.GOT_dou => trieStep edges_GOT_dou c input lex states row col errs
  | St.GOT_doub => trieStep edges_GOT_doub c input lex states row col errs
  | St.GOT_doubl => trieStep edges_GOT_doubl c input lex states row col errs
  | St.GOT_e => trieStep edges_GOT_e c input lex states row col errs
  | St.GOT_el => trieStep edges_GOT_el c input lex states row col errs
  | St.GOT_els => trieStep edges_GOT_els c input lex states row col errs
  | St.GOT_en => trieStep edges_GOT_en c input lex states row col errs
  | St.GOT_enu => trieStep edges_GOT_enu c input lex states row col errs
  | St.GOT_ex => trieStep edges_GOT_ex c input lex states row col errs
  | St.GOT_ext => trieStep edges_GOT_ext c input lex states row col errs
  | St.GOT_exte => trieStep edges_GOT_exte c input lex states row col errs
  | St.GOT_exter => trieStep edges_GOT_exter c input lex states row col errs
  | St.GOT_f => trieStep edges_GOT_f c input lex states row col errs
  | St.GOT_fa => trieStep edges_GOT_fa c input lex states row col errs
  | St.GOT_fal => trieStep edges_GOT_fal c input lex states row col errs
  | St.GOT_fals => trieStep edges_GOT_fals c input lex states row col errs
  | St.GOT_fl => trieStep edges_GOT_fl c input lex states row col errs
  | St.GOT_flo => trieStep edges_GOT_flo c input lex states row col errs
  | St.GOT_floa => trieStep edges_GOT_floa c input lex states row col errs
  | St.GOT_fo => trieStep edges_GOT_fo c input lex states row col errs
  | St.GOT_g => trieStep edges_GOT_g c input lex states row col errs
  | St.GOT_go => trieStep edges_GOT_go c input lex states row col errs
  | St.GOT_got => trieStep edges_GOT_got c input lex states row col errs
  | St.GOT_i => trieStep edges_GOT_i c input lex states row col errs
  | St.GOT_in => trieStep edges_GOT_in c input lex states row col errs
  | St.GOT_inl => trieStep edges_GOT_inl c input lex states row col errs
  | St.GOT_inli => trieStep edges_GOT_inli c input lex states row col errs
  | St.GOT_inlin => trieStep edges_GOT_inlin c input lex states row col errs
  | St.GOT_l => trieStep edges_GOT_l c input lex states row col errs
  | St.GOT_lo => trieStep edges_GOT_lo c input lex states row col errs
  | St.GOT_lon => trieStep edges_GOT_lon c input lex states row col errs
  | St.GOT_n => trieStep edges_GOT_n c input lex states row col errs
  | St.GOT_nu => trieStep edges_GOT_nu c input lex states row col errs
  | St.GOT_nul => trieStep edges_GOT_nul c input lex states row col errs
  | St.GOT_null => trieStep edges_GOT_null c input lex states row col errs
  | St.GOT_nullp => trieStep edges_GOT_nullp c input lex states row col errs
  | St.GOT_nullpt => trieStep edges_GOT_nullpt c input lex states row col errs
  | St.GOT_r => trieStep edges_GOT_r c input lex states row col errs
  | St.GOT_re => trieStep edges_GOT_re c input lex states row col errs
  | St.GOT_reg => trieStep edges_GOT_reg c input lex states row col errs
  | St.GOT_regi => trieStep edges_GOT_regi c input lex states row col errs
  | St.GOT_regis => trieStep edges_GOT_regis c input lex states row col errs
  | St.GOT_regist => trieStep edges_GOT_regist c input lex states row col errs
  | St.GOT_registe => trieStep edges_GOT_registe c input lex states row col errs
  | St.GOT_res => trieStep edges_GOT_res c input lex states row col errs
  | St.GOT_rest => trieStep edges_GOT_rest c input lex states row col errs
  | St.GOT_restr => trieStep edges_GOT_restr c input lex states row col errs
  | St.GOT_restri => trieStep edges_GOT_restri c input lex states row col errs
  | St.GOT_restric => trieStep edges_GOT_restric c input lex states row col errs
  | St.GOT_ret => trieStep edges_GOT_ret c input lex states row col errs
  | St.GOT_retu => trieStep edges_GOT_retu c input lex states row col errs
  | St.GOT_retur => trieStep edges_GOT_retur c input lex states row col errs
  | St.GOT_s => trieStep edges_GOT_s c input lex states row col errs
  | St.GOT_sh => trieStep edges_GOT_sh c input lex states row col errs
  | St.GOT_sho => trieStep edges_GOT_sho c input lex states row col errs
  | St.GOT_shor => trieStep edges_GOT_shor c input lex states row col errs
  | St.GOT_si => trieStep edges_GOT_si c input lex states row col errs
  | St.GOT_sig => trieStep edges_GOT_sig c input lex states row col errs
  | St.GOT_sign => trieStep edges_GOT_sign c input lex states row col errs
  | St.GOT_signe => trieStep edges_GOT_signe c input lex states row col errs
  | St.GOT_siz => trieStep edges_GOT_siz c input lex states row col errs
  | St.GOT_size => trieStep edges_GOT_size c input lex states row col errs
  | St.GOT_sizeo => trieStep edges_GOT_sizeo c input lex states row col errs
  | St.GOT_st => trieStep edges_GOT_st c input lex states row col errs
  | St.GOT_sta => trieStep edges_GOT_sta c input lex states row col errs
  | St.GOT_stat => trieStep edges_GOT_stat c input lex states row col errs
  | St.GOT_stati => trieStep edges_GOT_stati c input lex states row col errs
  | St.GOT_static_ => trieStep edges_GOT_static_ c input lex states row col errs
  | St.GOT_static_a => trieStep edges_GOT_static_a c input lex states row col errs
  | St.GOT_static_as => trieStep edges_GOT_static_as c input lex states row col errs
  | St.GOT_static_ass => trieStep edges_GOT_static_ass c input lex states row col errs
  | St.GOT_static_asse => trieStep edges_GOT_static_asse c input lex states row col errs
  | St.GOT_static_asser => trieStep edges_GOT_static_asser c input lex states row col errs
  | St.GOT_str => trieStep edges_GOT_str c input lex states row col errs
  | St.GOT_stru => trieStep edges_GOT_stru c input lex states row col errs
  | St.GOT_struc => trieStep edges_GOT_struc c input lex states row col errs
  | St.GOT_sw => trieStep edges_GOT_sw c input lex states row col errs
  | St.GOT_swi => trieStep edges_GOT_swi c input lex states row col errs
  | St.GOT_swit => trieStep edges_GOT_swit c input lex states row col errs
  | St.GOT_switc => trieStep edges_GOT_switc c input lex states row col errs
  | St.GOT_t => trieStep edges_GOT_t c input lex states row col errs
  | St.GOT_th => trieStep edges_GOT_th c input lex states row col errs
  | St.GOT_thr => trieStep edges_GOT_thr c input lex states row col errs
  | St.GOT_thre => trieStep edges_GOT_thre c input lex states row col errs
  | St.GOT_threa => trieStep edges_GOT_threa c input lex states row col errs
  | St.GOT_thread => trieStep edges_GOT_thread c input lex states row col errs
  | St.GOT_thread_ => trieStep edges_GOT_thread_ c input lex states row col errs
  | St.GOT_thread_l => trieStep edges_GOT_thread_l c input lex states row col errs
  | St.GOT_thread_lo => trieStep edges_GOT_thread_lo c input lex states row col errs
  | St.GOT_thread_loc => trieStep edges_GOT_thread_loc c input lex states row col errs
  | St.GOT_thread_loca => trieStep edges_GOT_thread_loca c input lex states row col errs
  | St.GOT_tr => trieStep edges_GOT_tr c input lex states row col errs
  | St.GOT_tru => trieStep edges_GOT_tru c input lex states row col errs
  | St.GOT_ty => trieStep edges_GOT_ty c input lex states row col errs
  | St.GOT_typ => trieStep edges_GOT_typ c input lex states row col errs
  | St.GOT_type => trieStep edges_GOT_type c input lex states row col errs
  | St.GOT_typed => trieStep edges_GOT_typed c input lex states row col errs
  | St.GOT_typede => trieStep edges_GOT_typede c input lex states row col errs
  | St.GOT_typeo => trieStep edges_GOT_typeo c input lex states row col errs
  | St.GOT_typeof_ => trieStep edges_GOT_typeof_ c input lex states row col errs
  | St.GOT_typeof_u => trieStep edges_GOT_typeof_u c input lex states row col errs
  | St.GOT_typeof_un => trieStep edges_GOT_typeof_un c input lex states row col errs
  | St.GOT_typeof_unq => trieStep edges_GOT_typeof_unq c input lex states row col errs
  | St.GOT_typeof_unqu => trieStep edges_GOT_typeof_unqu c input lex states row col errs
  | St.GOT_typeof_unqua => trieStep edges_GOT_typeof_unqua c input lex states row col errs
  | St.GOT_u => step_GOT_u c input lex states row col errs
  | St.GOT_U => trieStep edges_GOT_U c input lex states row col errs
  | St.GOT_L => trieStep edges_GOT_L c input lex states row col errs
  | St.GOT_un => trieStep edges_GOT_un c input lex states row col errs
  | St.GOT_uni => trieStep edges_GOT_uni c input lex states row col errs
  | St.GOT_unio => trieStep edges_GOT_unio c input lex states row col errs
  | St.GOT_uns => trieStep edges_GOT_uns c input lex states row col errs
  | St.GOT_unsi => trieStep edges_GOT_unsi c input lex states row col errs
  | St.GOT_unsig => trieStep edges_GOT_unsig c input lex states row col errs
  | St.GOT_unsign => trieStep edges_GOT_unsign c input lex states row col errs
  | St.GOT_unsigne => trieStep edges_GOT_unsigne c input lex states row col errs
  | St.GOT_v => trieStep edges_GOT_v c input lex states row col errs
  | St.GOT_vo => trieStep edges_GOT_vo c input lex states row col errs
  | St.GOT_voi => trieStep edges_GOT_voi c input lex states row col errs
  | St.GOT_vol => trieStep edges_GOT_vol c input lex states row col errs
  | St.GOT_vola => trieStep edges_GOT_vola c input lex states row col errs
  | St.GOT_volat => trieStep edges_GOT_volat c input lex states row col errs
  | St.GOT_volati => trieStep edges_GOT_volati c input lex states row col errs
  | St.GOT_volatil => trieStep edges_GOT_volatil c input lex states row col errs
  | St.GOT_w => trieStep edges_GOT_w c input lex states row col errs
  | St.GOT_wh => trieStep edges_GOT_wh c input lex states row col errs
  | St.GOT_whi => trieStep edges_GOT_whi c input lex states row col errs
  | St.GOT_whil => trieStep edges_GOT_whil c input lex states row col errs
  | St.GOT_INT_LITERAL => step_GOT_INT_LITERAL c input lex states row col errs
  | St.GOT_OCT_LITERAL => step_GOT_OCT_LITERAL c input lex states row col errs
  | St.GOT_0x => step_GOT_0x c input lex states row col errs
  | St.GOT_0x_DOT => step_GOT_0x_DOT c input lex states row col errs
  | St.GOT_HEX_LITERAL => step_GOT_HEX_LITERAL c input lex states row col errs
  | St.GOT_CHAR_CONST_START => step_GOT_CHAR_CONST_START c input lex states row col errs
  | St.GOT_CHAR_CONST_CONT => step_GOT_CHAR_CONST_CONT c input lex states row col errs
  | St.GOT_FLOAT_CONST_DOT => step_GOT_FLOAT_CONST_DOT c input lex states row col errs
  | St.GOT_FLOAT_CONST_DOT_DIGIT => step_GOT_FLOAT_CONST_DOT_DIGIT c input lex states row col errs
  | St.GOT_FLOAT_CONST_e => step_GOT_FLOAT_CONST_e c input lex states row col errs
  | St.GOT_FLOAT_CONST_e_SIGN => step_GOT_FLOAT_CONST_e_SIGN c input lex states row col errs
  | St.GOT_FLOAT_CONST_e_SIGN_DIG => step_GOT_FLOAT_CONST_e_SIGN_DIG c input lex states row col errs
  | St.GOT_FLOAT_CONST_e_SUFd => step_GOT_FLOAT_CONST_e_SUFd c input lex states row col errs
  | St.GOT_FLOAT_CONST_e_SUFD => step_GOT_FLOAT_CONST_e_SUFD c input lex states row col errs
  | St.GOT_HEX_CONST_DOT => step_GOT_HEX_CONST_DOT c input lex states row col errs
  | St.GOT_HEX_CONST_DOT_XDIGIT => step_GOT_HEX_CONST_DOT_XDIGIT c input lex states row col errs
  | St.GOT_HEX_CONST_p => step_GOT_HEX_CONST_p c input lex states row col errs
  | St.GOT_HEX_CONST_p_SIGN_DIG => step_GOT_HEX_CONST_p_SIGN_DIG c input lex states row col errs
  | St.GOT_HEX_CONST_p_SIGN => step_GOT_HEX_CONST_p_SIGN c input lex states row col errs
  | St.GOT_BIN_CONST_START => step_GOT_BIN_CONST_START c input lex states row col errs
  | St.GOT_BIN_CONST_CONT => step_GOT_BIN_CONST_CONT c input lex states row col errs
  | St.GOT_INT_SUFFIX_START => step_GOT_INT_SUFFIX_START c input lex states row col errs
  | St.GOT_INT_SUFFIX_u => step_GOT_INT_SUFFIX_u c input lex states row col errs
  | St.GOT_INT_SUFFIX_U => step_GOT_INT_SUFFIX_U c input lex states row col errs
  | St.GOT_INT_SUFFIX_l => step_GOT_INT_SUFFIX_l c input lex states row col errs
  | St.GOT_INT_SUFFIX_L => step_GOT_INT_SUFFIX_L c input lex states row col errs
  | St.GOT_INT_SUFFIX_w => step_GOT_INT_SUFFIX_w c input lex states row col errs
  | St.GOT_INT_SUFFIX_W => step_GOT_INT_SUFFIX_W c input lex states row col errs
  | St.GOT_STRING_LIT_START => step_GOT_STRING_LIT_START c input lex states row col errs
  | St.GOT_ESCAPE_SEQUENCE => step_GOT_ESCAPE_SEQUENCE c input lex states row col errs
  | St.GOT_ESCAPE_SEQUENCE_BS_OCT1 => step_GOT_ESCAPE_SEQUENCE_BS_OCT1 c input lex states row col errs
  | St.GOT_ESCAPE_SEQUENCE_BS_OCT2 => step_GOT_ESCAPE_SEQUENCE_BS_OCT2 c input lex states row col errs
  | St.GOT_ESCAPE_SEQUENCE_BS_x => step_GOT_ESCAPE_SEQUENCE_BS_x c input lex states row col errs
  | St.GOT_ESCAPE_SEQUENCE_BS_x_XDIGIT => step_GOT_ESCAPE_SEQUENCE_BS_x_XDIGIT c input lex states row col errs
  | St.GOT_ESCAPE_SEQUENCE_BS_u0 => step_GOT_ESCAPE_SEQUENCE_BS_u0 c input lex states row col errs
  | St.GOT_ESCAPE_SEQUENCE_BS_u1 => step_GOT_ESCAPE_SEQUENCE_BS_u1 c input lex states row col errs
  | St.GOT_ESCAPE_SEQUENCE_BS_u2 => step_GOT_ESCAPE_SEQUENCE_BS_u2 c input lex states row col errs
  | St.GOT_ESCAPE_SEQUENCE_BS_u3 => step_GOT_ESCAPE_SEQUENCE_BS_u3 c input lex states row col errs
  | St.GOT_ESCAPE_SEQUENCE_BS_U0 => step_GOT_ESCAPE_SEQUENCE_BS_U0 c input lex states row col errs
  | St.GOT_ESCAPE_SEQUENCE_BS_U1 => step_GOT_ESCAPE_SEQUENCE_BS_U1 c input lex states row col errs
  | St.GOT_ESCAPE_SEQUENCE_BS_U2 => step_GOT_ESCAPE_SEQUENCE_BS_U2 c input lex states row col errs
  | St.GOT_ESCAPE_SEQUENCE_BS_U3 => step_GOT_ESCAPE_SEQUENCE_BS_U3 c input lex states row col errs
  | St.GOT_ESCAPE_SEQUENCE_BS_U4 => step_GOT_ESCAPE_SEQUENCE_BS_U4 c input lex states row col errs
  | St.GOT_ESCAPE_SEQUENCE_BS_U5 => step_GOT_ESCAPE_SEQUENCE_BS_U5 c input lex states row col errs
  | St.GOT_ESCAPE_SEQUENCE_BS_U6 => step_GOT_ESCAPE_SEQUENCE_BS_U6 c input lex states row col errs
  | St.GOT_ESCAPE_SEQUENCE_BS_U7 => step_GOT_ESCAPE_SEQUENCE_BS_U7 c input lex states row col errs

/-- One iteration of the `while (true)` loop: the read-or-hold step at
the top of the body, then the state dispatch. -/
def iter (cfg : Cfg) : StepRes :=
  if cfg.hold then
    iterSt cfg.st cfg.c cfg.input cfg.lex cfg.states cfg.row cfg.col cfg.errs
  else
    match cfg.input with
    | [] => iterSt cfg.st none [] cfg.lex cfg.states cfg.row cfg.col cfg.errs
    | ch :: rest =>
      iterSt cfg.st (some ch) rest (cfg.lex ++ [ch]) cfg.states cfg.row cfg.col cfg.errs

/-- Run the loop on fuel (`none` = fuel ran out; proved impossible below). -/
def run : Nat → Cfg → Option Done
  | 0, _ => none
  | n + 1, cfg =>
    match iter cfg with
    | StepRes.done d => some d
    | StepRes.cont cfg2 => run n cfg2

/-- `Lexer::scan_token()`: eat whitespace, push the first character onto
    `lex`, then run the automaton from `START` with `_hold` set. -/
def scanToken (input : List Char) (row col : Nat) : Option Done :=
  let w := eatWs input row col
  let lex : List Char := match w.c with | some ch => [ch] | none => []
  run (8 * input.length + 16) ⟨St.START, [St.START], w.input, lex, w.row, w.col, true, w.c, []⟩

/-! ### The Lexer lookahead queue and the batch driver -/

/-- `Lexer` object state: the lookahead queue, the borrowed source's
    remaining input, the cursor, and all diagnostics so far. -/
structure LexerSt where
  q : List Lexeme
  input : List Char
  row : Nat
  col : Nat
  errs : List Diag
  deriving Repr

/-- `Lexer::Lexer`: construction performs one eager scan into the queue. -/
def mkLexer (s : List Char) : Option LexerSt :=
  match scanToken s 1 1 with
  | none => none
  | some d => some ⟨[d.lexeme], d.rest, d.row, d.col, d.errs⟩

/-- `Lexer::peek`: front of the queue, without removing it. -/
def LexerSt.peek (ls : LexerSt) : Option Lexeme := ls.q.head?

/-- `Lexer::eat`: pop the front; if the queue became empty, refill it
    with one fresh scan. -/
def LexerSt.eat (ls : LexerSt) : Option (Lexeme × LexerSt) :=
  match ls.q with
  | [] => none
  | l :: rest =>
    if rest.isEmpty then
      match scanToken ls.input ls.row ls.col with
      | none => none
      | some d => some (l, ⟨[d.lexeme], d.rest, d.row, d.col, ls.errs ++ d.errs⟩)
    else some (l, ⟨rest, ls.input, ls.row, ls.col, ls.errs⟩)

def preloadLoop : Nat → LexerSt → Option LexerSt
  | 0, ls => some ls
  | n + 1, ls =>
    match scanToken ls.input ls.row ls.col with
    | none => none
    | some d =>
      let ls2 : LexerSt := ⟨ls.q ++ [d.lexeme], d.rest, d.row, d.col, ls.errs ++ d.errs⟩
      if d.lexeme.token = Token.END then some ls2 else preloadLoop n ls2

/-- `Lexer::preload(n)`: prefetch up to `n` more tokens, stopping early
    at `END`; a no-op when the queue already ends in `END`. -/
def LexerSt.preload (n : Nat) (ls : LexerSt) : Option LexerSt :=
  match ls.q.getLast? with
  | none => none
  | some b => if b.token = Token.END then some ls else preloadLoop n ls

def batchLoop : Nat → LexerSt → List Lexeme → Option (List Lexeme)
  | 0, _, _ => none
  | n + 1, ls, acc =>
    match ls.q.head? with
    | none => none
    | some l =>
      if l.token = Token.END then some (acc ++ [l])
      else
        match ls.eat with
        | none => none
        | some (l2, ls2) => batchLoop n ls2 (acc ++ [l2])

/-- `scan_tokens`: batch-scan a whole string — `while (peek != END)
    v.push_back(eat()); v.push_back(peek());` (fuel `|s| + 2` suffices,
    as proved below). -/
def scan_tokens (s : List Char) : Option (List Lexeme) :=
  match mkLexer s with
  | none => none
  | some ls => batchLoop (s.length + 2) ls []

/-- The full reserved-keyword catalog: each keyword with its token
    (collected from the commit edges of the trie). -/
def kwList : List (Token × List Char) := [
  (Token.«_ALIGNAS», "_Alignas".data),
  (Token.«_ALIGNOF», "_Alignof".data),
  (Token.«_ATOMIC», "_Atomic".data),
  (Token.«_BITINT», "_BitInt".data),
  (Token.«_BOOL», "_Bool".data),
  (Token.«_COMPLEX», "_Complex".data),
  (Token.«_DECIMAL128», "_Decimal128".data),
  (Token.«_DECIMAL32», "_Decimal32".data),
  (Token.«_DECIMAL64», "_Decimal64".data),
  (Token.«_GENERIC», "_Generic".data),
  (Token.«_IMAGINARY», "_Imaginary".data),
  (Token.«_NORETURN», "_Noreturn".data),
  (Token.«_STATIC_ASSERT», "_Static_assert".data),
  (Token.«_THREAD_LOCAL», "_Thread_local".data),
  (Token.ALIGNAS, "alignas".data),
  (Token.ALIGNOF, "alignof".data),
  (Token.AUTO, "auto".data),
  (Token.BOOL, "bool".data),
  (Token.BREAK, "break".data),
  (Token.CASE, "case".data),
  (Token.CHAR, "char".data),
  (Token.CONST, "const".data),
  (Token.CONSTEXPR, "constexpr".data),
  (Token.CONTINUE, "continue".data),
  (Token.DEFAULT, "default".data),
  (Token.DO, "do".data),
  (Token.DOUBLE, "double".data),
  (Token.ELSE, "else".data),
  (Token.ENUM, "enum".data),
  (Token.EXTERN, "extern".data),
  (Token.FALSE, "false".data),
  (Token.FLOAT, "float".data),
  (Token.FOR, "for".data),
  (Token.GOTO, "goto".data),
  (Token.IF, "if".data),
  (Token.INLINE, "inline".data),
  (Token.INT, "int".data),
  (Token.LONG, "long".data),
  (Token.NULLPTR, "nullptr".data),
  (Token.REGISTER, "register".data),
  (Token.RESTRICT, "restrict".data),
  (Token.RETURN, "return".data),
  (Token.SHORT, "short".data),
  (Token.SIGNED, "signed".data),
  (Token.SIZEOF, "sizeof".data),
  (Token.STATIC, "static".data),
  (Token.STATIC_ASSERT, "static_assert".data),
  (Token.STRUCT, "struct".data),
  (Token.SWITCH, "switch".data),
  (Token.THREAD_LOCAL, "thread_local".data),
  (Token.TRUE, "true".data),
  (Token.TYPEDEF, "typedef".data),
  (Token.TYPEOF, "typeof".data),
  (Token.TYPEOF_UNQUAL, "typeof_unqual".data),
  (Token.UNION, "union".data),
  (Token.UNSIGNED, "unsigned".data),
  (Token.VOID, "void".data),
  (Token.VOLATILE, "volatile".data),
  (Token.WHILE, "while".data)]

/-- The table of each trie state (empty for non-trie states). -/
def edgesOf : St → List TrieEdge
  | St.GOT__ => edges_GOT__
  | St.GOT__A => edges_GOT__A
  | St.GOT__Al => edges_GOT__Al
  | St.GOT__Ali => edges_GOT__Ali
  | St.GOT__Alig => edges_GOT__Alig
  | St.GOT__Align => edges_GOT__Align
  | St.GOT__Aligna => edges_GOT__Aligna
  | St.GOT__Aligno => edges_GOT__Aligno
  | St.GOT__At => edges_GOT__At
  | St.GOT__Ato => edges_GOT__Ato
  | St.GOT__Atom => edges_GOT__Atom
  | St.GOT__Atomi => edges_GOT__Atomi
  | St.GOT__B => edges_GOT__B
  | St.GOT__Bi => edges_GOT__Bi
  | St.GOT__Bit => edges_GOT__Bit
  | St.GOT__BitI => edges_GOT__BitI
  | St.GOT__BitIn => edges_GOT__BitIn
  | St.GOT__Bo => edges_GOT__Bo
  | St.GOT__Boo => edges_GOT__Boo
  | St.GOT__C => edges_GOT__C
  | St.GOT__Co => edges_GOT__Co
  | St.GOT__Com => edges_GOT__Com
  | St.GOT__Comp => edges_GOT__Comp
  | St.GOT__Compl => edges_GOT__Compl
  | St.GOT__Comple => edges_GOT__Comple
  | St.GOT__D => edges_GOT__D
  | St.GOT__De => edges_GOT__De
  | St.GOT__Dec => edges_GOT__Dec
  | St.GOT__Deci => edges_GOT__Deci
  | St.GOT__Decim => edges_GOT__Decim
  | St.GOT__Decima => edges_GOT__Decima
  | St.GOT__Decimal => edges_GOT__Decimal
  | St.GOT__Decimal1 => edges_GOT__Decimal1
  | St.GOT__Decimal12 => edges_GOT__Decimal12
  | St.GOT__Decimal3 => edges_GOT__Decimal3
  | St.GOT__Decimal6 => edges_GOT__Decimal6
  | St.GOT__G => edges_GOT__G
  | St.GOT__Ge => edges_GOT__Ge
  | St.GOT__Gen => edges_GOT__Gen
  | St.GOT__Gene => edges_GOT__Gene
  | St.GOT__Gener => edges_GOT__Gener
  | St.GOT__Generi => edges_GOT__Generi
  | St.GOT__I => edges_GOT__I
  | St.GOT__Im => edges_GOT__Im
  | St.GOT__Ima => edges_GOT__Ima
  | St.GOT__Imag => edges_GOT__Imag
  | St.GOT__Imagi => edges_GOT__Imagi
  | St.GOT__Imagin => edges_GOT__Imagin
  | St.GOT__Imagina => edges_GOT__Imagina
  | St.GOT__Imaginar => edges_GOT__Imaginar
  | St.GOT__N => edges_GOT__N
  | St.GOT__No => edges_GOT__No
  | St.GOT__Nor => edges_GOT__Nor
  | St.GOT__Nore => edges_GOT__Nore
  | St.GOT__Noret => edges_GOT__Noret
  | St.GOT__Noretu => edges_GOT__Noretu
  | St.GOT__Noretur => edges_GOT__Noretur
  | St.GOT__S => edges_GOT__S
  | St.GOT__St => edges_GOT__St
  | St.GOT__Sta => edges_GOT__Sta
  | St.GOT__Stat => edges_GOT__Stat
  | St.GOT__Stati => edges_GOT__Stati
  | St.GOT__Static => edges_GOT__Static
  | St.GOT__Static_ => edges_GOT__Static_
  | St.GOT__Static_a => edges_GOT__Static_a
  | St.GOT__Static_as => edges_GOT__Static_as
  | St.GOT__Static_ass => edges_GOT__Static_ass
  | St.GOT__Static_asse => edges_GOT__Static_asse
  | St.GOT__Static_asser => edges_GOT__Static_asser
  | St.GOT__T => edges_GOT__T
  | St.GOT__Th => edges_GOT__Th
  | St.GOT__Thr => edges_GOT__Thr
  | St.GOT__Thre => edges_GOT__Thre
  | St.GOT__Threa => edges_GOT__Threa
  | St.GOT__Thread => edges_GOT__Thread
  | St.GOT__Thread_ => edges_GOT__Thread_
  | St.GOT__Thread_l => edges_GOT__Thread_l
  | St.GOT__Thread_lo => edges_GOT__Thread_lo
  | St.GOT__Thread_loc => edges_GOT__Thread_loc
  | St.GOT__Thread_loca => edges_GOT__Thread_loca
  | St.GOT_a => edges_GOT_a
  | St.GOT_al => edges_GOT_al
  | St.GOT_ali => edges_GOT_ali
  | St.GOT_alig => edges_GOT_alig
  | St.GOT_align => edges_GOT_align
  | St.GOT_aligna => edges_GOT_aligna
  | St.GOT_aligno => edges_GOT_aligno
  | St.GOT_au => edges_GOT_au
  | St.GOT_aut => edges_GOT_aut
  | St.GOT_b => edges_GOT_b
  | St.GOT_bo => edges_GOT_bo
  | St.GOT_boo => edges_GOT_boo
  | St.GOT_br => edges_GOT_br
  | St.GOT_bre => edges_GOT_bre
  | St.GOT_brea => edges_GOT_brea
  | St.GOT_c => edges_GOT_c
  | St.GOT_ca => edges_GOT_ca
  | St.GOT_cas => edges_GOT_cas
  | St.GOT_ch => edges_GOT_ch
  | St.GOT_cha => edges_GOT_cha
  | St.GOT_co => edges_GOT_co
  | St.GOT_con => edges_GOT_con
  | St.GOT_cons => edges_GOT_cons
  | St.GOT_conste => edges_GOT_conste
  | St.GOT_constex => edges_GOT_constex
  | St.GOT_constexp => edges_GOT_constexp
  | St.GOT_cont => edges_GOT_cont
  | St.GOT_conti => edges_GOT_conti
  | St.GOT_contin => edges_GOT_contin
  | St.GOT_continu => edges_GOT_continu
  | St.GOT_d => edges_GOT_d
  | St.GOT_de => edges_GOT_de
  | St.GOT_def => edges_GOT_def
  | St.GOT_defa => edges_GOT_defa
  | St.GOT_defau => edges_GOT_defau
  | St.GOT_defaul => edges_GOT_defaul
  | St.GOT_dou => edges_GOT_dou
  | St.GOT_doub => edges_GOT_doub
  | St.GOT_doubl => edges_GOT_doubl
  | St.GOT_e => edges_GOT_e
  | St.GOT_el => edges_GOT_el
  | St.GOT_els => edges_GOT_els
  | St.GOT_en => edges_GOT_en
  | St.GOT_enu => edges_GOT_enu
  | St.GOT_ex => edges_GOT_ex
  | St.GOT_ext => edges_GOT_ext
  | St.GOT_exte => edges_GOT_exte
  | St.GOT_exter => edges_GOT_exter
  | St.GOT_f => edges_GOT_f
  | St.GOT_fa => edges_GOT_fa
  | St.GOT_fal => edges_GOT_fal
  | St.GOT_fals => edges_GOT_fals
  | St.GOT_fl => edges_GOT_fl
  | St.GOT_flo => edges_GOT_flo
  | St.GOT_floa => edges_GOT_floa
  | St.GOT_fo => edges_GOT_fo
  | St.GOT_g => edges_GOT_g
  | St.GOT_go => edges_GOT_go
  | St.GOT_got => edges_GOT_got
  | St.GOT_i => edges_GOT_i
  | St.GOT_in => edges_GOT_in
  | St.GOT_inl => edges_GOT_inl
  | St.GOT_inli => edges_GOT_inli
  | St.GOT_inlin => edges_GOT_inlin
  | St.GOT_l => edges_GOT_l
  | St.GOT_lo => edges_GOT_lo
  | St.GOT_lon => edges_GOT_lon
  | St.GOT_n => edges_GOT_n
  | St.GOT_nu => edges_GOT_nu
  | St.GOT_nul => edges_GOT_nul
  | St.GOT_null => edges_GOT_null
  | St.GOT_nullp => edges_GOT_nullp
  | St.GOT_nullpt => edges_GOT_nullpt
  | St.GOT_r => edges_GOT_r
  | St.GOT_re => edges_GOT_re
  | St.GOT_reg => edges_GOT_reg
  | St.GOT_regi => edges_GOT_regi
  | St.GOT_regis => edges_GOT_regis
  | St.GOT_regist => edges_GOT_regist
  | St.GOT_registe => edges_GOT_registe
  | St.GOT_res => edges_GOT_res
  | St.GOT_rest => edges_GOT_rest
  | St.GOT_restr => edges_GOT_restr
  | St.GOT_restri => edges_GOT_restri
  | St.GOT_restric => edges_GOT_restric
  | St.GOT_ret => edges_GOT_ret
  | St.GOT_retu => edges_GOT_retu
  | St.GOT_retur => edges_GOT_retur
  | St.GOT_s => edges_GOT_s
  | St.GOT_sh => edges_GOT_sh
  | St.GOT_sho => edges_GOT_sho
  | St.GOT_shor => edges_GOT_shor
  | St.GOT_si => edges_GOT_si
  | St.GOT_sig => edges_GOT_sig
  | St.GOT_sign => edges_GOT_sign
  | St.GOT_signe => edges_GOT_signe
  | St.GOT_siz => edges_GOT_siz
  | St.GOT_size => edges_GOT_size
  | St.GOT_sizeo => edges_GOT_sizeo
  | St.GOT_st => edges_GOT_st
  | St.GOT_sta => edges_GOT_sta
  | St.GOT_stat => edges_GOT_stat
  | St.GOT_stati => edges_GOT_stati
  | St.GOT_static_ => edges_GOT_static_
  | St.GOT_static_a => edges_GOT_static_a
  | St.GOT_static_as => edges_GOT_static_as
  | St.GOT_static_ass => edges_GOT_static_ass
  | St.GOT_static_asse => edges_GOT_static_asse
  | St.GOT_static_asser => edges_GOT_static_asser
  | St.GOT_str => edges_GOT_str
  | St.GOT_stru => edges_GOT_stru
  | St.GOT_struc => edges_GOT_struc
  | St.GOT_sw => edges_GOT_sw
  | St.GOT_swi => edges_GOT_swi
  | St.GOT_swit => edges_GOT_swit
  | St.GOT_switc => edges_GOT_switc
  | St.GOT_t => edges_GOT_t
  | St.GOT_th => edges_GOT_th
  | St.GOT_thr => edges_GOT_thr
  | St.GOT_thre => edges_GOT_thre
  | St.GOT_threa => edges_GOT_threa
  | St.GOT_thread => edges_GOT_thread
  | St.GOT_thread_ => edges_GOT_thread_
  | St.GOT_thread_l => edges_GOT_thread_l
  | St.GOT_thread_lo => edges_GOT_thread_lo
  | St.GOT_thread_loc => edges_GOT_thread_loc
  | St.GOT_thread_loca => edges_GOT_thread_loca
  | St.GOT_tr => edges_GOT_tr
  | St.GOT_tru => edges_GOT_tru
  | St.GOT_ty => edges_GOT_ty
  | St.GOT_typ => edges_GOT_typ
  | St.GOT_type => edges_GOT_type
  | St.GOT_typed => edges_GOT_typed
  | St.GOT_typede => edges_GOT_typede
  | St.GOT_typeo => edges_GOT_typeo
  | St.GOT_typeof_ => edges_GOT_typeof_
  | St.GOT_typeof_u => edges_GOT_typeof_u
  | St.GOT_typeof_un => edges_GOT_typeof_un
  | St.GOT_typeof_unq => edges_GOT_typeof_unq
  | St.GOT_typeof_unqu => edges_GOT_typeof_unqu
  | St.GOT_typeof_unqua => edges_GOT_typeof_unqua
  | St.GOT_U => edges_GOT_U
  | St.GOT_L => edges_GOT_L
  | St.GOT_un => edges_GOT_un
  | St.GOT_uni => edges_GOT_uni
  | St.GOT_unio => edges_GOT_unio
  | St.GOT_uns => edges_GOT_uns
  | St.GOT_unsi => edges_GOT_unsi
  | St.GOT_unsig => edges_GOT_unsig
  | St.GOT_unsign => edges_GOT_unsign
  | St.GOT_unsigne => edges_GOT_unsigne
  | St.GOT_v => edges_GOT_v
  | St.GOT_vo => edges_GOT_vo
  | St.GOT_voi => edges_GOT_voi
  | St.GOT_vol => edges_GOT_vol
  | St.GOT_vola => edges_GOT_vola
  | St.GOT_volat => edges_GOT_volat
  | St.GOT_volati => edges_GOT_volati
  | St.GOT_volatil => edges_GOT_volatil
  | St.GOT_w => edges_GOT_w
  | St.GOT_wh => edges_GOT_wh
  | St.GOT_whi => edges_GOT_whi
  | St.GOT_whil => edges_GOT_whil
  | _ => []

/-- Whether a state is one of the regular keyword-trie states. -/
def isTrieSt : St → Bool
  | St.GOT__ | St.GOT__A | St.GOT__Al | St.GOT__Ali | St.GOT__Alig
  | St.GOT__Align | St.GOT__Aligna | St.GOT__Aligno | St.GOT__At | St.GOT__Ato
  | St.GOT__Atom | St.GOT__Atomi | St.GOT__B | St.GOT__Bi | St.GOT__Bit
  | St.GOT__BitI | St.GOT__BitIn | St.GOT__Bo | St.GOT__Boo | St.GOT__C
  | St.GOT__Co | St.GOT__Com | St.GOT__Comp | St.GOT__Compl | St.GOT__Comple
  | St.GOT__D | St.GOT__De | St.GOT__Dec | St.GOT__Deci | St.GOT__Decim
  | St.GOT__Decima | St.GOT__Decimal | St.GOT__Decimal1 | St.GOT__Decimal12 | St.GOT__Decimal3
  | St.GOT__Decimal6 | St.GOT__G | St.GOT__Ge | St.GOT__Gen | St.GOT__Gene
  | St.GOT__Gener | St.GOT__Generi | St.GOT__I | St.GOT__Im | St.GOT__Ima
  | St.GOT__Imag | St.GOT__Imagi | St.GOT__Imagin | St.GOT__Imagina | St.GOT__Imaginar
  | St.GOT__N | St.GOT__No | St.GOT__Nor | St.GOT__Nore | St.GOT__Noret
  | St.GOT__Noretu | St.GOT__Noretur | St.GOT__S | St.GOT__St | St.GOT__Sta
  | St.GOT__Stat | St.GOT__Stati | St.GOT__Static | St.GOT__Static_ | St.GOT__Static_a
  | St.GOT__Static_as | St.GOT__Static_ass | St.GOT__Static_asse | St.GOT__Static_asser | St.GOT__T
  | St.GOT__Th | St.GOT__Thr | St.GOT__Thre | St.GOT__Threa | St.GOT__Thread
  | St.GOT__Thread_ | St.GOT__Thread_l | St.GOT__Thread_lo | St.GOT__Thread_loc | St.GOT__Thread_loca
  | St.GOT_a | St.GOT_al | St.GOT_ali | St.GOT_alig | St.GOT_align
  | St.GOT_aligna | St.GOT_aligno | St.GOT_au | St.GOT_aut | St.GOT_b
  | St.GOT_bo | St.GOT_boo | St.GOT_br | St.GOT_bre | St.GOT_brea
  | St.GOT_c | St.GOT_ca | St.GOT_cas | St.GOT_ch | St.GOT_cha
  | St.GOT_co | St.GOT_con | St.GOT_cons | St.GOT_conste | St.GOT_constex
  | St.GOT_constexp | St.GOT_cont | St.GOT_conti | St.GOT_contin | St.GOT_continu
  | St.GOT_d | St.GOT_de | St.GOT_def | St.GOT_defa | St.GOT_defau
  | St.GOT_defaul | St.GOT_dou | St.GOT_doub | St.GOT_doubl | St.GOT_e
  | St.GOT_el | St.GOT_els | St.GOT_en | St.GOT_enu | St.GOT_ex
  | St.GOT_ext | St.GOT_exte | St.GOT_exter | St.GOT_f | St.GOT_fa
  | St.GOT_fal | St.GOT_fals | St.GOT_fl | St.GOT_flo | St.GOT_floa
  | St.GOT_fo | St.GOT_g | St.GOT_go | St.GOT_got | St.GOT_i
  | St.GOT_in | St.GOT_inl | St.GOT_inli | St.GOT_inlin | St.GOT_l
  | St.GOT_lo | St.GOT_lon | St.GOT_n | St.GOT_nu | St.GOT_nul
  | St.GOT_null | St.GOT_nullp | St.GOT_nullpt | St.GOT_r | St.GOT_re
  | St.GOT_reg | St.GOT_regi | St.GOT_regis | St.GOT_regist | St.GOT_registe
  | St.GOT_res | St.GOT_rest | St.GOT_restr | St.GOT_restri | St.GOT_restric
  | St.GOT_ret | St.GOT_retu | St.GOT_retur | St.GOT_s | St.GOT_sh
  | St.GOT_sho | St.GOT_shor | St.GOT_si | St.GOT_sig | St.GOT_sign
  | St.GOT_signe | St.GOT_siz | St.GOT_size | St.GOT_sizeo | St.GOT_st
  | St.GOT_sta | St.GOT_stat | St.GOT_stati | St.GOT_static_ | St.GOT_static_a
  | St.GOT_static_as | St.GOT_static_ass | St.GOT_static_asse | St.GOT_static_asser | St.GOT_str
  | St.GOT_stru | St.GOT_struc | St.GOT_sw | St.GOT_swi | St.GOT_swit
  | St.GOT_switc | St.GOT_t | St.GOT_th | St.GOT_thr | St.GOT_thre
  | St.GOT_threa | St.GOT_thread | St.GOT_thread_ | St.GOT_thread_l | St.GOT_thread_lo
  | St.GOT_thread_loc | St.GOT_thread_loca | St.GOT_tr | St.GOT_tru | St.GOT_ty
  | St.GOT_typ | St.GOT_type | St.GOT_typed | St.GOT_typede | St.GOT_typeo
  | St.GOT_typeof_ | St.GOT_typeof_u | St.GOT_typeof_un | St.GOT_typeof_unq | St.GOT_typeof_unqu
  | St.GOT_typeof_unqua | St.GOT_U | St.GOT_L | St.GOT_un | St.GOT_uni
  | St.GOT_unio | St.GOT_uns | St.GOT_unsi | St.GOT_unsig | St.GOT_unsign
  | St.GOT_unsigne | St.GOT_v | St.GOT_vo | St.GOT_voi | St.GOT_vol
  | St.GOT_vola | St.GOT_volat | St.GOT_volati | St.GOT_volatil | St.GOT_w
  | St.GOT_wh | St.GOT_whi | St.GOT_whil => true
  | _ => false

/-! ### Proof-support definitions -/

/-- First edge of a table matching a character (the `case` label search
    order of the switch). -/
def findEdge : List TrieEdge → Char → Option TrieEdge
  | [], _ => none
  | e :: rest, ch =>
    match e with
    | TrieEdge.go ech s' => if ch = ech then some (TrieEdge.go ech s') else findEdge rest ch
    | TrieEdge.commit ech t n => if ch = ech then some (TrieEdge.commit ech t n) else findEdge rest ch
    | TrieEdge.peekgo ech pk s' t n =>
      if ch = ech then some (TrieEdge.peekgo ech pk s' t n) else findEdge rest ch

/-- Decidable certificate that, from trie state `s`, scanning the listed
    keyword characters followed by one abstract identifier-continuation
    character always ends in the generic identifier continuation. -/
def walkOK (s : St) : List Char → Bool
  | [] =>
    (edgesOf s).all fun e =>
      match e with
      | TrieEdge.go _ s' => isTrieSt s'
      | _ => false
  | k :: rest =>
    match findEdge (edgesOf s) k with
    | none => true
    | some (TrieEdge.go _ s') => isTrieSt s' && walkOK s' rest
    | some (TrieEdge.commit _ _ _) => true
    | some (TrieEdge.peekgo _ pk s' _ _) =>
      match rest with
      | [] => isTrieSt s'
      | k2 :: rest2 => if k2 = pk then isTrieSt s' && walkOK s' rest2 else true

/-- Soundness of a trie state's edge list: every `go`/`peekgo` target is
    again a trie state, and committed tokens are never `END`. -/
def isGoSafe : St → Bool
  | St.GOT_CHAR_CONST_START | St.GOT_STRING_LIT_START => true
  | _ => false

def edgesTrieOK (es : List TrieEdge) : Bool :=
  es.all fun e =>
    match e with
    | TrieEdge.go _ s' => isTrieSt s' || isGoSafe s'
    | TrieEdge.commit _ t _ => decide (t ≠ Token.END)
    | TrieEdge.peekgo _ _ s' t _ => isTrieSt s' && decide (t ≠ Token.END)

/-! ### Termination measure and loop invariant for `run` -/

/-- The escape-sequence sub-automaton (entered with a return state pushed). -/
def escFamily (st : St) : Bool :=
  match st with
  | St.GOT_ESCAPE_SEQUENCE | St.GOT_ESCAPE_SEQUENCE_BS_OCT1
  | St.GOT_ESCAPE_SEQUENCE_BS_OCT2 | St.GOT_ESCAPE_SEQUENCE_BS_x
  | St.GOT_ESCAPE_SEQUENCE_BS_x_XDIGIT
  | St.GOT_ESCAPE_SEQUENCE_BS_u0 | St.GOT_ESCAPE_SEQUENCE_BS_u1
  | St.GOT_ESCAPE_SEQUENCE_BS_u2 | St.GOT_ESCAPE_SEQUENCE_BS_u3
  | St.GOT_ESCAPE_SEQUENCE_BS_U0 | St.GOT_ESCAPE_SEQUENCE_BS_U1
  | St.GOT_ESCAPE_SEQUENCE_BS_U2 | St.GOT_ESCAPE_SEQUENCE_BS_U3
  | St.GOT_ESCAPE_SEQUENCE_BS_U4 | St.GOT_ESCAPE_SEQUENCE_BS_U5
  | St.GOT_ESCAPE_SEQUENCE_BS_U6 | St.GOT_ESCAPE_SEQUENCE_BS_U7 => true
  | _ => false

/-- Rank of a state for the hold-chain part of the termination measure:
    along iterations that consume no input the rank strictly drops. -/
def rankSt (st : St) (hold : Bool) (cSome : Bool) : Nat :=
  if st = St.THE_END then 1
  else if st = St.START then (if hold && cSome then 6 else 2)
  else if isTrieSt st then (if hold then 4 else 2)
  else
    match st with
    | St.GOT_0x => if hold then 5 else 1
    | St.GOT_IDENT => if hold && cSome then 2 else 1
    | St.GOT_INT_LITERAL => if hold then 4 else 1
    | St.GOT_OCT_LITERAL => if hold then 4 else 1
    | St.GOT_HEX_LITERAL => if hold then 4 else 1
    | St.GOT_BIN_CONST_CONT => if hold then 4 else 1
    | St.GOT_FLOAT_CONST_DOT => if hold then 4 else 1
    | St.GOT_FLOAT_CONST_DOT_DIGIT => if hold then 4 else 1
    | St.GOT_FLOAT_CONST_e_SIGN_DIG => if hold then 3 else 1
    | St.GOT_INT_SUFFIX_START => if hold then 3 else 1
    | St.GOT_CHAR_CONST_CONT => if hold then 3 else 1
    | St.GOT_STRING_LIT_START => if hold then 3 else 1
    | St.GOT_ESCAPE_SEQUENCE => if hold then 5 else 2
    | St.GOT_ESCAPE_SEQUENCE_BS_OCT1 => if hold then 5 else 4
    | St.GOT_ESCAPE_SEQUENCE_BS_OCT2 => if hold then 5 else 4
    | St.GOT_ESCAPE_SEQUENCE_BS_x => if hold then 5 else 2
    | St.GOT_ESCAPE_SEQUENCE_BS_x_XDIGIT => if hold then 5 else 4
    | _ => if hold then 4 else 2

def rank (cfg : Cfg) : Nat := rankSt cfg.st cfg.hold cfg.c.isSome

/-- The termination measure: remaining input dominates, rank breaks ties. -/
def meas (cfg : Cfg) : Nat := 8 * cfg.input.length + rank cfg

/-- The budget: remaining input plus accumulated lexeme text never grows. -/
def sumC (cfg : Cfg) : Nat := cfg.input.length + cfg.lex.length

/-- Lexeme-length lower bound carried while a character is held: states
    enterable straight from `START` may hold a one-character `lex` but then
    the held character keeps them running; all others hold at least two. -/
def lexBound (st : St) (ch : Char) (lex : List Char) : Prop :=
  if st = St.START ∨ st = St.THE_END then True
  else if st = St.GOT_INT_LITERAL then 2 ≤ lex.length ∨ isdigit ch = true
  else if st = St.GOT_IDENT then 2 ≤ lex.length ∨ is_ident_cont ch = true
  else 2 ≤ lex.length

/-- The loop invariant of `scan_token`'s `while (true)` loop. -/
def Jinv (cfg : Cfg) : Prop :=
  (cfg.hold = true → cfg.c = none → cfg.input = []) ∧
  (escFamily cfg.st = true →
    cfg.states.head? = some St.GOT_CHAR_CONST_CONT ∨
    cfg.states.head? = some St.GOT_STRING_LIT_START) ∧
  (cfg.st = St.GOT_INT_SUFFIX_START →
    (cfg.hold = true ∧ isIntSuffixStartO cfg.c = true) ∨
    (cfg.hold = false ∧ isIntSuffixStartO cfg.input.head? = true)) ∧
  (cfg.st = St.THE_END → cfg.input = []) ∧
  (cfg.st ≠ St.START → cfg.st ≠ St.THE_END → cfg.lex ≠ []) ∧
  (cfg.hold = true → cfg.c ≠ none → cfg.lex ≠ []) ∧
  (cfg.hold = true → ∀ ch, cfg.c = some ch → lexBound cfg.st ch cfg.lex)

/-- What a completed scan guarantees, relative to a budget `S`. -/
def DoneBnd (S : Nat) (d : Done) : Prop :=
  d.rest.length + d.lexeme.text.length ≤ S ∧
  (d.lexeme.token = Token.END → d.rest = []) ∧
  (d.lexeme.token ≠ Token.END → d.lexeme.text ≠ [])

/-- What a single state dispatch guarantees: done within budget `S`, or a
    continuation satisfying the invariant whose measure is at most `B`. -/
def StepOK (S B : Nat) (res : StepRes) : Prop :=
  (∃ d, res = StepRes.done d ∧ DoneBnd S d) ∨
  (∃ cfg', res = StepRes.cont cfg' ∧ Jinv cfg' ∧
    8 * cfg'.input.length + rank cfg' ≤ B ∧
    cfg'.input.length + cfg'.lex.length ≤ S)

/-- One loop iteration from an invariant configuration either finishes
    within budget or continues with the invariant kept and the measure
    strictly smaller. -/
def Prog (cfg : Cfg) : Prop :=
  (∃ d, iter cfg = StepRes.done d ∧ DoneBnd (sumC cfg) d) ∨
  (∃ cfg', iter cfg = StepRes.cont cfg' ∧ Jinv cfg' ∧
    meas cfg' < meas cfg ∧ sumC cfg' ≤ sumC cfg)

end CLexer

namespace CLexer

/-- Re-invoking the scanner from where a previous scan stopped. -/
def rescan (d : Done) : Option Done := scanToken d.rest d.row d.col

/-- The END result produced at cursor position (r, c). -/
def endDone (r c : Nat) : Done := ⟨⟨[], Token.END, r, c⟩, [], r, c, []⟩

/-! ### Basic evaluation lemmas -/

theorem iterSt_GOT_IDENT (c : Option Char) (i l : List Char) (stk : List St)
    (r cl : Nat) (e : List Diag) :
    iterSt St.GOT_IDENT c i l stk r cl e = step_GOT_IDENT c i l stk r cl e := rfl

theorem iterSt_START (c : Option Char) (i l : List Char) (stk : List St)
    (r cl : Nat) (e : List Diag) :
    iterSt St.START c i l stk r cl e = step_START c i l stk r cl e := rfl

theorem iterSt_THE_END (c : Option Char) (i l : List Char) (stk : List St)
    (r cl : Nat) (e : List Diag) :
    iterSt St.THE_END c i l stk r cl e = step_THE_END c i l stk r cl e := rfl

theorem iterSt_eq_trieStep (s : St) (hs : isTrieSt s = true) (c : Option Char)
    (input lex : List Char) (stk : List St) (row col : Nat) (errs : List Diag) :
    iterSt s c input lex stk row col errs = trieStep (edgesOf s) c input lex stk row col errs := by
  cases s
  all_goals try (exact absurd hs (by decide))
  all_goals rfl

theorem trieFind_eq_findEdge (es : List TrieEdge) (ch : Char) (input lex : List Char)
    (stk : List St) (row col : Nat) (errs : List Diag) :
    trieFind es ch input lex stk row col errs =
      match findEdge es ch with
      | none => holdst St.GOT_IDENT (some ch) input lex stk row col errs
      | some (TrieEdge.go _ s') => nextst s' (some ch) input lex stk row col errs
      | some (TrieEdge.commit _ t n) =>
        if isIdentContO input.head? then
          nextst St.GOT_IDENT (some ch) input lex stk row col errs
        else ret t n input lex row col errs
      | some (TrieEdge.peekgo _ pk s' t n) =>
        if input.head? = some pk then
          let p := advance input lex
          nextst s' (some ch) p.1 p.2 stk row col errs
        else if isIdentContO input.head? then
          nextst St.GOT_IDENT (some ch) input lex stk row col errs
        else ret t n input lex row col errs := by
  induction es with
  | nil => rfl
  | cons e rest ih =>
    cases e with
    | go ech s' =>
      by_cases h : ch = ech <;> simp [trieFind, findEdge, h, ih]
    | commit ech t n =>
      by_cases h : ch = ech <;> simp [trieFind, findEdge, h, ih]
    | peekgo ech pk s' t n =>
      by_cases h : ch = ech <;> simp [trieFind, findEdge, h, ih]

/-- Scanning from `GOT_IDENT` over a run of identifier-continuation
    characters consumes them all and returns one IDENTIFIER. -/
theorem run_ident (rest : List Char) : ∀ (n : Nat) (lex : List Char) (stk : List St)
    (row col : Nat) (cp : Option Char) (errs : List Diag),
    (∀ k ∈ rest, is_ident_cont k = true) → rest.length + 1 ≤ n →
    run n ⟨St.GOT_IDENT, stk, rest, lex, row, col, false, cp, errs⟩
      = some ⟨⟨lex ++ rest, Token.IDENTIFIER, row, col⟩, [], row,
          col + (lex ++ rest).length, errs⟩ := by
  induction rest with
  | nil =>
    intro n lex stk row col cp errs _ hn
    match n, hn with
    | m + 1, _ =>
      simp [run, iter, iterSt_GOT_IDENT, step_GOT_IDENT, isIdentContO, backup, ret]
  | cons k rest' ih =>
    intro n lex stk row col cp errs hall hn
    match n, hn with
    | m + 1, hn =>
      have hk : is_ident_cont k = true := hall k (List.mem_cons_self k rest')
      have := ih m (lex ++ [k]) stk row col (some k) errs
        (fun x hx => hall x (List.mem_cons_of_mem k hx)) (by simp at hn ⊢; omega)
      simp [run, iter, iterSt_GOT_IDENT, step_GOT_IDENT, isIdentContO, hk, nextst, this]

theorem findEdge_mem {es : List TrieEdge} {ch : Char} {e : TrieEdge}
    (h : findEdge es ch = some e) : e ∈ es := by
  induction es with
  | nil => simp [findEdge] at h
  | cons e0 rest ih =>
    cases e0 <;> simp only [findEdge] at h <;> split at h <;>
      first
        | (exact List.mem_cons_of_mem _ (ih h))
        | (cases h; exact List.mem_cons_self _ _)

/-- A trie state at end of input falls through to `GOT_IDENT` and
    returns an IDENTIFIER for the accumulated text. -/
theorem run_trie_eof (s : St) (hs : isTrieSt s = true) (n : Nat) (lex : List Char)
    (stk : List St) (row col : Nat) (cp : Option Char) (errs : List Diag)
    (hn : 3 ≤ n) :
    run n ⟨s, stk, [], lex, row, col, false, cp, errs⟩
      = some ⟨⟨lex, Token.IDENTIFIER, row, col⟩, [], row, col + lex.length, errs⟩ := by
  match n, hn with
  | m + 2, _ =>
    simp [run, iter, iterSt_eq_trieStep s hs, trieStep, holdst,
      iterSt_GOT_IDENT, step_GOT_IDENT, isIdentContO, backup, ret]

/-- End-of-keyword case of the walk: one abstract continuation character
    remains. -/
theorem run_walk_nil (n : Nat) (s : St) (lex : List Char) (stk : List St)
    (row col : Nat) (cp : Option Char) (errs : List Diag) (ch : Char)
    (hs : isTrieSt s = true) (hwalk : walkOK s [] = true)
    (hch : is_ident_cont ch = true) (hn : 4 ≤ n) :
    run n ⟨s, stk, [] ++ [ch], lex, row, col, false, cp, errs⟩
      = some ⟨⟨(lex ++ []) ++ [ch], Token.IDENTIFIER, row, col⟩, [], row,
          col + ((lex ++ []) ++ [ch]).length, errs⟩ := by
  match n, hn with
  | n' + 1, hn =>
    rw [show run (n' + 1) ⟨s, stk, [] ++ [ch], lex, row, col, false, cp, errs⟩
        = match iterSt s (some ch) [] (lex ++ [ch]) stk row col errs with
          | StepRes.done d => some d
          | StepRes.cont cfg2 => run n' cfg2 from rfl]
    rw [iterSt_eq_trieStep s hs]
    simp only [trieStep, trieFind_eq_findEdge]
    match hfe : findEdge (edgesOf s) ch with
    | none =>
      match n', hn with
      | n'' + 1, hn =>
        simp only [holdst, run, iter, iterSt_GOT_IDENT, step_GOT_IDENT, isIdentContO, hch,
          nextst, eq_self_iff_true, if_true, if_false, Bool.false_eq_true]
        rw [run_ident [] n'' (lex ++ [ch]) stk row col (some ch) errs (by simp) (by simp; omega)]
        simp
    | some (TrieEdge.go ech s') =>
      have hmem := findEdge_mem hfe
      simp only [walkOK, List.all_eq_true] at hwalk
      have hP := hwalk _ hmem
      simp only [nextst]
      rw [run_trie_eof s' hP n' (lex ++ [ch]) stk row col (some ch) errs (by omega)]
      simp
    | some (TrieEdge.commit ech t nn) =>
      have hmem := findEdge_mem hfe
      simp only [walkOK, List.all_eq_true] at hwalk
      exact absurd (hwalk _ hmem) (by simp)
    | some (TrieEdge.peekgo ech pk s' t nn) =>
      have hmem := findEdge_mem hfe
      simp only [walkOK, List.all_eq_true] at hwalk
      exact absurd (hwalk _ hmem) (by simp)

/-- The central keyword-walk lemma: from any trie state, scanning the
    certified remaining keyword characters followed by one abstract
    identifier-continuation character always produces a single
    IDENTIFIER lexeme spanning everything scanned. -/
theorem run_walk (m : Nat) : ∀ (suffix : List Char), suffix.length ≤ m →
    ∀ (n : Nat) (s : St) (lex : List Char) (stk : List St) (row col : Nat)
      (cp : Option Char) (errs : List Diag) (ch : Char),
    isTrieSt s = true → walkOK s suffix = true →
    (∀ k ∈ suffix, is_ident_cont k = true) → is_ident_cont ch = true →
    2 * suffix.length + 4 ≤ n →
    run n ⟨s, stk, suffix ++ [ch], lex, row, col, false, cp, errs⟩
      = some ⟨⟨(lex ++ suffix) ++ [ch], Token.IDENTIFIER, row, col⟩, [], row,
          col + ((lex ++ suffix) ++ [ch]).length, errs⟩ := by
  induction m with
  | zero =>
    intro suffix hlen n s lex stk row col cp errs ch hs hwalk hall hch hn
    have hsuf : suffix = [] := List.length_eq_zero.mp (Nat.le_zero.mp hlen)
    subst hsuf
    exact run_walk_nil n s lex stk row col cp errs ch hs hwalk hch (by omega)
  | succ m ih =>
    intro suffix hlen n s lex stk row col cp errs ch hs hwalk hall hch hn
    match suffix, hall, hwalk, hlen, hn with
    | [], hall, hwalk, hlen, hn =>
      exact run_walk_nil n s lex stk row col cp errs ch hs hwalk hch (by omega)
    | k :: rest, hall, hwalk, hlen, hn =>
      have hk : is_ident_cont k = true := hall k (List.mem_cons_self k rest)
      have hallr : ∀ x ∈ rest, is_ident_cont x = true :=
        fun x hx => hall x (List.mem_cons_of_mem k hx)
      match n, hn with
      | n' + 1, hn =>
        rw [show run (n' + 1) ⟨s, stk, (k :: rest) ++ [ch], lex, row, col, false, cp, errs⟩
            = match iterSt s (some k) (rest ++ [ch]) (lex ++ [k]) stk row col errs with
              | StepRes.done d => some d
              | StepRes.cont cfg2 => run n' cfg2 from rfl]
        rw [iterSt_eq_trieStep s hs]
        simp only [trieStep, trieFind_eq_findEdge]
        have hheadcont : isIdentContO (rest ++ [ch]).head? = true := by
          cases rest with
          | nil => simpa [isIdentContO] using hch
          | cons k2 rest2 =>
            simpa [isIdentContO] using hallr k2 (List.mem_cons_self k2 rest2)
        match hfe : findEdge (edgesOf s) k with
        | none =>
          match n', hn with
          | n'' + 1, hn =>
            simp only [holdst, run, iter, iterSt_GOT_IDENT, step_GOT_IDENT, isIdentContO, hk,
              nextst, eq_self_iff_true, if_true, if_false, Bool.false_eq_true]
            rw [run_ident (rest ++ [ch]) n'' (lex ++ [k]) stk row col (some k) errs
              (by
                intro x hx
                rcases List.mem_append.mp hx with hx | hx
                · exact hallr x hx
                · simpa using (by simp at hx; subst hx; exact hch))
              (by simp at hn ⊢; omega)]
            simp
        | some (TrieEdge.go ech s') =>
          simp only [walkOK, hfe, Bool.and_eq_true] at hwalk
          simp only [nextst]
          rw [ih rest (by simp at hlen; omega) n' s' (lex ++ [k]) stk row col (some k) errs ch
            hwalk.1 hwalk.2 hallr hch (by simp at hn ⊢; omega)]
          simp
        | some (TrieEdge.commit ech t nn) =>
          simp only [hheadcont, if_true, nextst]
          rw [run_ident (rest ++ [ch]) n' (lex ++ [k]) stk row col (some k) errs
            (by
              intro x hx
              rcases List.mem_append.mp hx with hx | hx
              · exact hallr x hx
              · simpa using (by simp at hx; subst hx; exact hch))
            (by simp at hn ⊢; omega)]
          simp
        | some (TrieEdge.peekgo ech pk s' t nn) =>
          simp only [walkOK, hfe] at hwalk
          cases rest with
          | nil =>
            by_cases hpk : ch = pk
            · subst hpk
              simp only [eq_self_iff_true, if_true] at hwalk
              simp only [List.nil_append, List.head?, eq_self_iff_true, if_true, advance, nextst]
              rw [run_trie_eof s' hwalk n' ((lex ++ [k]) ++ [ch]) stk row col (some k) errs
                (by omega)]
            · have hne : (([] ++ [ch] : List Char).head? = some pk) = False := by
                simpa using hpk
              simp only [hne, if_false, hheadcont, eq_self_iff_true, if_true, nextst]
              rw [run_ident ([] ++ [ch]) n' (lex ++ [k]) stk row col (some k) errs
                (by simpa using hch) (by simp at hn ⊢; omega)]
              simp
          | cons k2 rest2 =>
            by_cases hpk : k2 = pk
            · subst hpk
              simp only [eq_self_iff_true, if_true, Bool.and_eq_true] at hwalk
              simp only [List.cons_append, List.head?, eq_self_iff_true, if_true, advance, nextst]
              rw [ih rest2 (by simp at hlen; omega) n' s' ((lex ++ [k]) ++ [k2]) stk row col
                (some k) errs ch hwalk.1 hwalk.2
                (fun x hx => hallr x (List.mem_cons_of_mem k2 hx)) hch
                (by simp at hn ⊢; omega)]
              simp
            · have hne : (((k2 :: rest2) ++ [ch] : List Char).head? = some pk) = False := by
                simpa using hpk
              simp only [hne, if_false, hheadcont, eq_self_iff_true, if_true, nextst]
              rw [run_ident ((k2 :: rest2) ++ [ch]) n' (lex ++ [k]) stk row col (some k) errs
                (by
                  intro x hx
                  rcases List.mem_append.mp hx with hx | hx
                  · exact hallr x hx
                  · simpa using (by simp at hx; subst hx; exact hch))
                (by simp at hn ⊢; omega)]
              simp

theorem scanToken_nil (row col : Nat) :
    scanToken [] row col = some ⟨⟨[], Token.END, row, col⟩, [], row, col, []⟩ := rfl

/-- Batch glue: a scan that returns one non-END lexeme consuming the whole
    input makes `scan_tokens` produce exactly that lexeme followed by END. -/
theorem scan_tokens_of_single (s : List Char) (l : Lexeme) (cl : Nat) (es : List Diag)
    (hscan : scanToken s 1 1 = some ⟨l, [], 1, cl, es⟩) (hne : ¬ l.token = Token.END) :
    scan_tokens s = some [l, ⟨[], Token.END, 1, cl⟩] := by
  unfold scan_tokens mkLexer
  rw [hscan]
  show batchLoop (s.length + 1 + 1) ⟨[l], [], 1, cl, es⟩ [] = _
  simp only [batchLoop, List.head?, LexerSt.eat, List.isEmpty, scanToken_nil]
  rw [if_neg hne]
  simp [batchLoop]

theorem c1k_HAlignas (ch : Char) (h : is_ident_cont ch = true) :
    scan_tokens (['_', 'A', 'l', 'i', 'g', 'n', 'a', 's'] ++ [ch]) =
      some [⟨['_', 'A', 'l', 'i', 'g', 'n', 'a', 's'] ++ [ch], Token.IDENTIFIER, 1, 1⟩, ⟨[], Token.END, 1, 10⟩] := by
  apply scan_tokens_of_single (['_', 'A', 'l', 'i', 'g', 'n', 'a', 's'] ++ [ch])
    ⟨['_', 'A', 'l', 'i', 'g', 'n', 'a', 's'] ++ [ch], Token.IDENTIFIER, 1, 1⟩ 10 []
  · have h1 : scanToken (['_', 'A', 'l', 'i', 'g', 'n', 'a', 's'] ++ [ch]) 1 1
        = run 87 ⟨St.GOT__, [St.START], ['A', 'l', 'i', 'g', 'n', 'a', 's'] ++ [ch], ['_'], 1, 1, false,
            some '_', []⟩ := rfl
    rw [h1, run_walk 7 ['A', 'l', 'i', 'g', 'n', 'a', 's'] (le_refl _) 87 St.GOT__ ['_']
      [St.START] 1 1 (some '_') [] ch (by decide) (by decide) (by decide) h (by decide)]
    simp
  · simp

theorem c1k_HAlignof (ch : Char) (h : is_ident_cont ch = true) :
    scan_tokens (['_', 'A', 'l', 'i', 'g', 'n', 'o', 'f'] ++ [ch]) =
      some [⟨['_', 'A', 'l', 'i', 'g', 'n', 'o', 'f'] ++ [ch], Token.IDENTIFIER, 1, 1⟩, ⟨[], Token.END, 1, 10⟩] := by
  apply scan_tokens_of_single (['_', 'A', 'l', 'i', 'g', 'n', 'o', 'f'] ++ [ch])
    ⟨['_', 'A', 'l', 'i', 'g', 'n', 'o', 'f'] ++ [ch], Token.IDENTIFIER, 1, 1⟩ 10 []
  · have h1 : scanToken (['_', 'A', 'l', 'i', 'g', 'n', 'o', 'f'] ++ [ch]) 1 1
        = run 87 ⟨St.GOT__, [St.START], ['A', 'l', 'i', 'g', 'n', 'o', 'f'] ++ [ch], ['_'], 1, 1, false,
            some '_', []⟩ := rfl
    rw [h1, run_walk 7 ['A', 'l', 'i', 'g', 'n', 'o', 'f'] (le_refl _) 87 St.GOT__ ['_']
      [St.START] 1 1 (some '_') [] ch (by decide) (by decide) (by decide) h (by decide)]
    simp
  · simp

theorem c1k_HAtomic (ch : Char) (h : is_ident_cont ch = true) :
    scan_tokens (['_', 'A', 't', 'o', 'm', 'i', 'c'] ++ [ch]) =
      some [⟨['_', 'A', 't', 'o', 'm', 'i', 'c'] ++ [ch], Token.IDENTIFIER, 1, 1⟩, ⟨[], Token.END, 1, 9⟩] := by
  apply scan_tokens_of_single (['_', 'A', 't', 'o', 'm', 'i', 'c'] ++ [ch])
    ⟨['_', 'A', 't', 'o', 'm', 'i', 'c'] ++ [ch], Token.IDENTIFIER, 1, 1⟩ 9 []
  · have h1 : scanToken (['_', 'A', 't', 'o', 'm', 'i', 'c'] ++ [ch]) 1 1
        = run 79 ⟨St.GOT__, [St.START], ['A', 't', 'o', 'm', 'i', 'c'] ++ [ch], ['_'], 1, 1, false,
            some '_', []⟩ := rfl
    rw [h1, run_walk 6 ['A', 't', 'o', 'm', 'i', 'c'] (le_refl _) 79 St.GOT__ ['_']
      [St.START] 1 1 (some '_') [] ch (by decide) (by decide) (by decide) h (by decide)]
    simp
  · simp

theorem c1k_HBitInt (ch : Char) (h : is_ident_cont ch = true) :
    scan_tokens (['_', 'B', 'i', 't', 'I', 'n', 't'] ++ [ch]) =
      some [⟨['_', 'B', 'i', 't', 'I', 'n', 't'] ++ [ch], Token.IDENTIFIER, 1, 1⟩, ⟨[], Token.END, 1, 9⟩] := by
  apply scan_tokens_of_single (['_', 'B', 'i', 't', 'I', 'n', 't'] ++ [ch])
    ⟨['_', 'B', 'i', 't', 'I', 'n', 't'] ++ [ch], Token.IDENTIFIER, 1, 1⟩ 9 []
  · have h1 : scanToken (['_', 'B', 'i', 't', 'I', 'n', 't'] ++ [ch]) 1 1
        = run 79 ⟨St.GOT__, [St.START], ['B', 'i', 't', 'I', 'n', 't'] ++ [ch], ['_'], 1, 1, false,
            some '_', []⟩ := rfl
    rw [h1, run_walk 6 ['B', 'i', 't', 'I', 'n', 't'] (le_refl _) 79 St.GOT__ ['_']
      [St.START] 1 1 (some '_') [] ch (by decide) (by decide) (by decide) h (by decide)]
    simp
  · simp

theorem c1k_HBool (ch : Char) (h : is_ident_cont ch = true) :
    scan_tokens (['_', 'B', 'o', 'o', 'l'] ++ [ch]) =
      some [⟨['_', 'B', 'o', 'o', 'l'] ++ [ch], Token.IDENTIFIER, 1, 1⟩, ⟨[], Token.END, 1, 7⟩] := by
  apply scan_tokens_of_single (['_', 'B', 'o', 'o', 'l'] ++ [ch])
    ⟨['_', 'B', 'o', 'o', 'l'] ++ [ch], Token.IDENTIFIER, 1, 1⟩ 7 []
  · have h1 : scanToken (['_', 'B', 'o', 'o', 'l'] ++ [ch]) 1 1
        = run 63 ⟨St.GOT__, [St.START], ['B', 'o', 'o', 'l'] ++ [ch], ['_'], 1, 1, false,
            some '_', []⟩ := rfl
    rw [h1, run_walk 4 ['B', 'o', 'o', 'l'] (le_refl _) 63 St.GOT__ ['_']
      [St.START] 1 1 (some '_') [] ch (by decide) (by decide) (by decide) h (by decide)]
    simp
  · simp

theorem c1k_HComplex (ch : Char) (h : is_ident_cont ch = true) :
    scan_tokens (['_', 'C', 'o', 'm', 'p', 'l', 'e', 'x'] ++ [ch]) =
      some [⟨['_', 'C', 'o', 'm', 'p', 'l', 'e', 'x'] ++ [ch], Token.IDENTIFIER, 1, 1⟩, ⟨[], Token.END, 1, 10⟩] := by
  apply scan_tokens_of_single (['_', 'C', 'o', 'm', 'p', 'l', 'e', 'x'] ++ [ch])
    ⟨['_', 'C', 'o', 'm', 'p', 'l', 'e', 'x'] ++ [ch], Token.IDENTIFIER, 1, 1⟩ 10 []
  · have h1 : scanToken (['_', 'C', 'o', 'm', 'p', 'l', 'e', 'x'] ++ [ch]) 1 1
        = run 87 ⟨St.GOT__, [St.START], ['C', 'o', 'm', 'p', 'l', 'e', 'x'] ++ [ch], ['_'], 1, 1, false,
            some '_', []⟩ := rfl
    rw [h1, run_walk 7 ['C', 'o', 'm', 'p', 'l', 'e', 'x'] (le_refl _) 87 St.GOT__ ['_']
      [St.START] 1 1 (some '_') [] ch (by decide) (by decide) (by decide) h (by decide)]
    simp
  · simp

theorem c1k_HDecimal128 (ch : Char) (h : is_ident_cont ch = true) :
    scan_tokens (['_', 'D', 'e', 'c', 'i', 'm', 'a', 'l', '1', '2', '8'] ++ [ch]) =
      some [⟨['_', 'D', 'e', 'c', 'i', 'm', 'a', 'l', '1', '2', '8'] ++ [ch], Token.IDENTIFIER, 1, 1⟩, ⟨[], Token.END, 1, 13⟩] := by
  apply scan_tokens_of_single (['_', 'D', 'e', 'c', 'i', 'm', 'a', 'l', '1', '2', '8'] ++ [ch])
    ⟨['_', 'D', 'e', 'c', 'i', 'm', 'a', 'l', '1', '2', '8'] ++ [ch], Token.IDENTIFIER, 1, 1⟩ 13 []
  · have h1 : scanToken (['_', 'D', 'e', 'c', 'i', 'm', 'a', 'l', '1', '2', '8'] ++ [ch]) 1 1
        = run 111 ⟨St.GOT__, [St.START], ['D', 'e', 'c', 'i', 'm', 'a', 'l', '1', '2', '8'] ++ [ch], ['_'], 1, 1, false,
            some '_', []⟩ := rfl
    rw [h1, run_walk 10 ['D', 'e', 'c', 'i', 'm', 'a', 'l', '1', '2', '8'] (le_refl _) 111 St.GOT__ ['_']
      [St.START] 1 1 (some '_') [] ch (by decide) (by decide) (by decide) h (by decide)]
    simp
  · simp

theorem c1k_HDecimal32 (ch : Char) (h : is_ident_cont ch = true) :
    scan_tokens (['_', 'D', 'e', 'c', 'i', 'm', 'a', 'l', '3', '2'] ++ [ch]) =
      some [⟨['_', 'D', 'e', 'c', 'i', 'm', 'a', 'l', '3', '2'] ++ [ch], Token.IDENTIFIER, 1, 1⟩, ⟨[], Token.END, 1, 12⟩] := by
  apply scan_tokens_of_single (['_', 'D', 'e', 'c', 'i', 'm', 'a', 'l', '3', '2'] ++ [ch])
    ⟨['_', 'D', 'e', 'c', 'i', 'm', 'a', 'l', '3', '2'] ++ [ch], Token.IDENTIFIER, 1, 1⟩ 12 []
  · have h1 : scanToken (['_', 'D', 'e', 'c', 'i', 'm', 'a', 'l', '3', '2'] ++ [ch]) 1 1
        = run 103 ⟨St.GOT__, [St.START], ['D', 'e', 'c', 'i', 'm', 'a', 'l', '3', '2'] ++ [ch], ['_'], 1, 1, false,
            some '_', []⟩ := rfl
    rw [h1, run_walk 9 ['D', 'e', 'c', 'i', 'm', 'a', 'l', '3', '2'] (le_refl _) 103 St.GOT__ ['_']
      [St.START] 1 1 (some '_') [] ch (by decide) (by decide) (by decide) h (by decide)]
    simp
  · simp

theorem c1k_HDecimal64 (ch : Char) (h : is_ident_cont ch = true) :
    scan_tokens (['_', 'D', 'e', 'c', 'i', 'm', 'a', 'l', '6', '4'] ++ [ch]) =
      some [⟨['_', 'D', 'e', 'c', 'i', 'm', 'a', 'l', '6', '4'] ++ [ch], Token.IDENTIFIER, 1, 1⟩, ⟨[], Token.END, 1, 12⟩] := by
  apply scan_tokens_of_single (['_', 'D', 'e', 'c', 'i', 'm', 'a', 'l', '6', '4'] ++ [ch])
    ⟨['_', 'D', 'e', 'c', 'i', 'm', 'a', 'l', '6', '4'] ++ [ch], Token.IDENTIFIER, 1, 1⟩ 12 []
  · have h1 : scanToken (['_', 'D', 'e', 'c', 'i', 'm', 'a', 'l', '6', '4'] ++ [ch]) 1 1
        = run 103 ⟨St.GOT__, [St.START], ['D', 'e', 'c', 'i', 'm', 'a', 'l', '6', '4'] ++ [ch], ['_'], 1, 1, false,
            some '_', []⟩ := rfl
    rw [h1, run_walk 9 ['D', 'e', 'c', 'i', 'm', 'a', 'l', '6', '4'] (le_refl _) 103 St.GOT__ ['_']
      [St.START] 1 1 (some '_') [] ch (by decide) (by decide) (by decide) h (by decide)]
    simp
  · simp

theorem c1k_HGeneric (ch : Char) (h : is_ident_cont ch = true) :
    scan_tokens (['_', 'G', 'e', 'n', 'e', 'r', 'i', 'c'] ++ [ch]) =
      some [⟨['_', 'G', 'e', 'n', 'e', 'r', 'i', 'c'] ++ [ch], Token.IDENTIFIER, 1, 1⟩, ⟨[], Token.END, 1, 10⟩] := by
  apply scan_tokens_of_single (['_', 'G', 'e', 'n', 'e', 'r', 'i', 'c'] ++ [ch])
    ⟨['_', 'G', 'e', 'n', 'e', 'r', 'i', 'c'] ++ [ch], Token.IDENTIFIER, 1, 1⟩ 10 []
  · have h1 : scanToken (['_', 'G', 'e', 'n', 'e', 'r', 'i', 'c'] ++ [ch]) 1 1
        = run 87 ⟨St.GOT__, [St.START], ['G', 'e', 'n', 'e', 'r', 'i', 'c'] ++ [ch], ['_'], 1, 1, false,
            some '_', []⟩ := rfl
    rw [h1, run_walk 7 ['G', 'e', 'n', 'e', 'r', 'i', 'c'] (le_refl _) 87 St.GOT__ ['_']
      [St.START] 1 1 (some '_') [] ch (by decide) (by decide) (by decide) h (by decide)]
    simp
  · simp

theorem c1k_HImaginary (ch : Char) (h : is_ident_cont ch = true) :
    scan_tokens (['_', 'I', 'm', 'a', 'g', 'i', 'n', 'a', 'r', 'y'] ++ [ch]) =
      some [⟨['_', 'I', 'm', 'a', 'g', 'i', 'n', 'a', 'r', 'y'] ++ [ch], Token.IDENTIFIER, 1, 1⟩, ⟨[], Token.END, 1, 12⟩] := by
  apply scan_tokens_of_single (['_', 'I', 'm', 'a', 'g', 'i', 'n', 'a', 'r', 'y'] ++ [ch])
    ⟨['_', 'I', 'm', 'a', 'g', 'i', 'n', 'a', 'r', 'y'] ++ [ch], Token.IDENTIFIER, 1, 1⟩ 12 []
  · have h1 : scanToken (['_', 'I', 'm', 'a', 'g', 'i', 'n', 'a', 'r', 'y'] ++ [ch]) 1 1
        = run 103 ⟨St.GOT__, [St.START], ['I', 'm', 'a', 'g', 'i', 'n', 'a', 'r', 'y'] ++ [ch], ['_'], 1, 1, false,
            some '_', []⟩ := rfl
    rw [h1, run_walk 9 ['I', 'm', 'a', 'g', 'i', 'n', 'a', 'r', 'y'] (le_refl _) 103 St.GOT__ ['_']
      [St.START] 1 1 (some '_') [] ch (by decide) (by decide) (by decide) h (by decide)]
    simp
  · simp

theorem c1k_HNoreturn (ch : Char) (h : is_ident_cont ch = true) :
    scan_tokens (['_', 'N', 'o', 'r', 'e', 't', 'u', 'r', 'n'] ++ [ch]) =
      some [⟨['_', 'N', 'o', 'r', 'e', 't', 'u', 'r', 'n'] ++ [ch], Token.IDENTIFIER, 1, 1⟩, ⟨[], Token.END, 1, 11⟩] := by
  apply scan_tokens_of_single (['_', 'N', 'o', 'r', 'e', 't', 'u', 'r', 'n'] ++ [ch])
    ⟨['_', 'N', 'o', 'r', 'e', 't', 'u', 'r', 'n'] ++ [ch], Token.IDENTIFIER, 1, 1⟩ 11 []
  · have h1 : scanToken (['_', 'N', 'o', 'r', 'e', 't', 'u', 'r', 'n'] ++ [ch]) 1 1
        = run 95 ⟨St.GOT__, [St.START], ['N', 'o', 'r', 'e', 't', 'u', 'r', 'n'] ++ [ch], ['_'], 1, 1, false,
            some '_', []⟩ := rfl
    rw [h1, run_walk 8 ['N', 'o', 'r', 'e', 't', 'u', 'r', 'n'] (le_refl _) 95 St.GOT__ ['_']
      [St.START] 1 1 (some '_') [] ch (by decide) (by decide) (by decide) h (by decide)]
    simp
  · simp

theorem c1k_HStaticHassert (ch : Char) (h : is_ident_cont ch = true) :
    scan_tokens (['_', 'S', 't', 'a', 't', 'i', 'c', '_', 'a', 's', 's', 'e', 'r', 't'] ++ [ch]) =
      some [⟨['_', 'S', 't', 'a', 't', 'i', 'c', '_', 'a', 's', 's', 'e', 'r', 't'] ++ [ch], Token.IDENTIFIER, 1, 1⟩, ⟨[], Token.END, 1, 16⟩] := by
  apply scan_tokens_of_single (['_', 'S', 't', 'a', 't', 'i', 'c', '_', 'a', 's', 's', 'e', 'r', 't'] ++ [ch])
    ⟨['_', 'S', 't', 'a', 't', 'i', 'c', '_', 'a', 's', 's', 'e', 'r', 't'] ++ [ch], Token.IDENTIFIER, 1, 1⟩ 16 []
  · have h1 : scanToken (['_', 'S', 't', 'a', 't', 'i', 'c', '_', 'a', 's', 's', 'e', 'r', 't'] ++ [ch]) 1 1
        = run 135 ⟨St.GOT__, [St.START], ['S', 't', 'a', 't', 'i', 'c', '_', 'a', 's', 's', 'e', 'r', 't'] ++ [ch], ['_'], 1, 1, false,
            some '_', []⟩ := rfl
    rw [h1, run_walk 13 ['S', 't', 'a', 't', 'i', 'c', '_', 'a', 's', 's', 'e', 'r', 't'] (le_refl _) 135 St.GOT__ ['_']
      [St.START] 1 1 (some '_') [] ch (by decide) (by decide) (by decide) h (by decide)]
    simp
  · simp

theorem c1k_HThreadHlocal (ch : Char) (h : is_ident_cont ch = true) :
    scan_tokens (['_', 'T', 'h', 'r', 'e', 'a', 'd', '_', 'l', 'o', 'c', 'a', 'l'] ++ [ch]) =
      some [⟨['_', 'T', 'h', 'r', 'e', 'a', 'd', '_', 'l', 'o', 'c', 'a', 'l'] ++ [ch], Token.IDENTIFIER, 1, 1⟩, ⟨[], Token.END, 1, 15⟩] := by
  apply scan_tokens_of_single (['_', 'T', 'h', 'r', 'e', 'a', 'd', '_', 'l', 'o', 'c', 'a', 'l'] ++ [ch])
    ⟨['_', 'T', 'h', 'r', 'e', 'a', 'd', '_', 'l', 'o', 'c', 'a', 'l'] ++ [ch], Token.IDENTIFIER, 1, 1⟩ 15 []
  · have h1 : scanToken (['_', 'T', 'h', 'r', 'e', 'a', 'd', '_', 'l', 'o', 'c', 'a', 'l'] ++ [ch]) 1 1
        = run 127 ⟨St.GOT__, [St.START], ['T', 'h', 'r', 'e', 'a', 'd', '_', 'l', 'o', 'c', 'a', 'l'] ++ [ch], ['_'], 1, 1, false,
            some '_', []⟩ := rfl
    rw [h1, run_walk 12 ['T', 'h', 'r', 'e', 'a', 'd', '_', 'l', 'o', 'c', 'a', 'l'] (le_refl _) 127 St.GOT__ ['_']
      [St.START] 1 1 (some '_') [] ch (by decide) (by decide) (by decide) h (by decide)]
    simp
  · simp

theorem c1k_alignas (ch : Char) (h : is_ident_cont ch = true) :
    scan_tokens (['a', 'l', 'i', 'g', 'n', 'a', 's'] ++ [ch]) =
      some [⟨['a', 'l', 'i', 'g', 'n', 'a', 's'] ++ [ch], Token.IDENTIFIER, 1, 1⟩, ⟨[], Token.END, 1, 9⟩] := by
  apply scan_tokens_of_single (['a', 'l', 'i', 'g', 'n', 'a', 's'] ++ [ch])
    ⟨['a', 'l', 'i', 'g', 'n', 'a', 's'] ++ [ch], Token.IDENTIFIER, 1, 1⟩ 9 []
  · have h1 : scanToken (['a', 'l', 'i', 'g', 'n', 'a', 's'] ++ [ch]) 1 1
        = run 79 ⟨St.GOT_a, [St.START], ['l', 'i', 'g', 'n', 'a', 's'] ++ [ch], ['a'], 1, 1, false,
            some 'a', []⟩ := rfl
    rw [h1, run_walk 6 ['l', 'i', 'g', 'n', 'a', 's'] (le_refl _) 79 St.GOT_a ['a']
      [St.START] 1 1 (some 'a') [] ch (by decide) (by decide) (by decide) h (by decide)]
    simp
  · simp

theorem c1k_alignof (ch : Char) (h : is_ident_cont ch = true) :
    scan_tokens (['a', 'l', 'i', 'g', 'n', 'o', 'f'] ++ [ch]) =
      some [⟨['a', 'l', 'i', 'g', 'n', 'o', 'f'] ++ [ch], Token.IDENTIFIER, 1, 1⟩, ⟨[], Token.END, 1, 9⟩] := by
  apply scan_tokens_of_single (['a', 'l', 'i', 'g', 'n', 'o', 'f'] ++ [ch])
    ⟨['a', 'l', 'i', 'g', 'n', 'o', 'f'] ++ [ch], Token.IDENTIFIER, 1, 1⟩ 9 []
  · have h1 : scanToken (['a', 'l', 'i', 'g', 'n', 'o', 'f'] ++ [ch]) 1 1
        = run 79 ⟨St.GOT_a, [St.START], ['l', 'i', 'g', 'n', 'o', 'f'] ++ [ch], ['a'], 1, 1, false,
            some 'a', []⟩ := rfl
    rw [h1, run_walk 6 ['l', 'i', 'g', 'n', 'o', 'f'] (le_refl _) 79 St.GOT_a ['a']
      [St.START] 1 1 (some 'a') [] ch (by decide) (by decide) (by decide) h (by decide)]
    simp
  · simp

theorem c1k_auto (ch : Char) (h : is_ident_cont ch = true) :
    scan_tokens (['a', 'u', 't', 'o'] ++ [ch]) =
      some [⟨['a', 'u', 't', 'o'] ++ [ch], Token.IDENTIFIER, 1, 1⟩, ⟨[], Token.END, 1, 6⟩] := by
  apply scan_tokens_of_single (['a', 'u', 't', 'o'] ++ [ch])
    ⟨['a', 'u', 't', 'o'] ++ [ch], Token.IDENTIFIER, 1, 1⟩ 6 []
  · have h1 : scanToken (['a', 'u', 't', 'o'] ++ [ch]) 1 1
        = run 55 ⟨St.GOT_a, [St.START], ['u', 't', 'o'] ++ [ch], ['a'], 1, 1, false,
            some 'a', []⟩ := rfl
    rw [h1, run_walk 3 ['u', 't', 'o'] (le_refl _) 55 St.GOT_a ['a']
      [St.START] 1 1 (some 'a') [] ch (by decide) (by decide) (by decide) h (by decide)]
    simp
  · simp

theorem c1k_bool (ch : Char) (h : is_ident_cont ch = true) :
    scan_tokens (['b', 'o', 'o', 'l'] ++ [ch]) =
      some [⟨['b', 'o', 'o', 'l'] ++ [ch], Token.IDENTIFIER, 1, 1⟩, ⟨[], Token.END, 1, 6⟩] := by
  apply scan_tokens_of_single (['b', 'o', 'o', 'l'] ++ [ch])
    ⟨['b', 'o', 'o', 'l'] ++ [ch], Token.IDENTIFIER, 1, 1⟩ 6 []
  · have h1 : scanToken (['b', 'o', 'o', 'l'] ++ [ch]) 1 1
        = run 55 ⟨St.GOT_b, [St.START], ['o', 'o', 'l'] ++ [ch], ['b'], 1, 1, false,
            some 'b', []⟩ := rfl
    rw [h1, run_walk 3 ['o', 'o', 'l'] (le_refl _) 55 St.GOT_b ['b']
      [St.START] 1 1 (some 'b') [] ch (by decide) (by decide) (by decide) h (by decide)]
    simp
  · simp

theorem c1k_break (ch : Char) (h : is_ident_cont ch = true) :
    scan_tokens (['b', 'r', 'e', 'a', 'k'] ++ [ch]) =
      some [⟨['b', 'r', 'e', 'a', 'k'] ++ [ch], Token.IDENTIFIER, 1, 1⟩, ⟨[], Token.END, 1, 7⟩] := by
  apply scan_tokens_of_single (['b', 'r', 'e', 'a', 'k'] ++ [ch])
    ⟨['b', 'r', 'e', 'a', 'k'] ++ [ch], Token.IDENTIFIER, 1, 1⟩ 7 []
  · have h1 : scanToken (['b', 'r', 'e', 'a', 'k'] ++ [ch]) 1 1
        = run 63 ⟨St.GOT_b, [St.START], ['r', 'e', 'a', 'k'] ++ [ch], ['b'], 1, 1, false,
            some 'b', []⟩ := rfl
    rw [h1, run_walk 4 ['r', 'e', 'a', 'k'] (le_refl _) 63 St.GOT_b ['b']
      [St.START] 1 1 (some 'b') [] ch (by decide) (by decide) (by decide) h (by decide)]
    simp
  · simp

theorem c1k_case (ch : Char) (h : is_ident_cont ch = true) :
    scan_tokens (['c', 'a', 's', 'e'] ++ [ch]) =
      some [⟨['c', 'a', 's', 'e'] ++ [ch], Token.IDENTIFIER, 1, 1⟩, ⟨[], Token.END, 1, 6⟩] := by
  apply scan_tokens_of_single (['c', 'a', 's', 'e'] ++ [ch])
    ⟨['c', 'a', 's', 'e'] ++ [ch], Token.IDENTIFIER, 1, 1⟩ 6 []
  · have h1 : scanToken (['c', 'a', 's', 'e'] ++ [ch]) 1 1
        = run 55 ⟨St.GOT_c, [St.START], ['a', 's', 'e'] ++ [ch], ['c'], 1, 1, false,
            some 'c', []⟩ := rfl
    rw [h1, run_walk 3 ['a', 's', 'e'] (le_refl _) 55 St.GOT_c ['c']
      [St.START] 1 1 (some 'c') [] ch (by decide) (by decide) (by decide) h (by decide)]
    simp
  · simp

theorem c1k_char (ch : Char) (h : is_ident_cont ch = true) :
    scan_tokens (['c', 'h', 'a', 'r'] ++ [ch]) =
      some [⟨['c', 'h', 'a', 'r'] ++ [ch], Token.IDENTIFIER, 1, 1⟩, ⟨[], Token.END, 1, 6⟩] := by
  apply scan_tokens_of_single (['c', 'h', 'a', 'r'] ++ [ch])
    ⟨['c', 'h', 'a', 'r'] ++ [ch], Token.IDENTIFIER, 1, 1⟩ 6 []
  · have h1 : scanToken (['c', 'h', 'a', 'r'] ++ [ch]) 1 1
        = run 55 ⟨St.GOT_c, [St.START], ['h', 'a', 'r'] ++ [ch], ['c'], 1, 1, false,
            some 'c', []⟩ := rfl
    rw [h1, run_walk 3 ['h', 'a', 'r'] (le_refl _) 55 St.GOT_c ['c']
      [St.START] 1 1 (some 'c') [] ch (by decide) (by decide) (by decide) h (by decide)]
    simp
  · simp

theorem c1k_const (ch : Char) (h : is_ident_cont ch = true) :
    scan_tokens (['c', 'o', 'n', 's', 't'] ++ [ch]) =
      some [⟨['c', 'o', 'n', 's', 't'] ++ [ch], Token.IDENTIFIER, 1, 1⟩, ⟨[], Token.END, 1, 7⟩] := by
  apply scan_tokens_of_single (['c', 'o', 'n', 's', 't'] ++ [ch])
    ⟨['c', 'o', 'n', 's', 't'] ++ [ch], Token.IDENTIFIER, 1, 1⟩ 7 []
  · have h1 : scanToken (['c', 'o', 'n', 's', 't'] ++ [ch]) 1 1
        = run 63 ⟨St.GOT_c, [St.START], ['o', 'n', 's', 't'] ++ [ch], ['c'], 1, 1, false,
            some 'c', []⟩ := rfl
    rw [h1, run_walk 4 ['o', 'n', 's', 't'] (le_refl _) 63 St.GOT_c ['c']
      [St.START] 1 1 (some 'c') [] ch (by decide) (by decide) (by decide) h (by decide)]
    simp
  · simp

theorem c1k_constexpr (ch : Char) (h : is_ident_cont ch = true) :
    scan_tokens (['c', 'o', 'n', 's', 't', 'e', 'x', 'p', 'r'] ++ [ch]) =
      some [⟨['c', 'o', 'n', 's', 't', 'e', 'x', 'p', 'r'] ++ [ch], Token.IDENTIFIER, 1, 1⟩, ⟨[], Token.END, 1, 11⟩] := by
  apply scan_tokens_of_single (['c', 'o', 'n', 's', 't', 'e', 'x', 'p', 'r'] ++ [ch])
    ⟨['c', 'o', 'n', 's', 't', 'e', 'x', 'p', 'r'] ++ [ch], Token.IDENTIFIER, 1, 1⟩ 11 []
  · have h1 : scanToken (['c', 'o', 'n', 's', 't', 'e', 'x', 'p', 'r'] ++ [ch]) 1 1
        = run 95 ⟨St.GOT_c, [St.START], ['o', 'n', 's', 't', 'e', 'x', 'p', 'r'] ++ [ch], ['c'], 1, 1, false,
            some 'c', []⟩ := rfl
    rw [h1, run_walk 8 ['o', 'n', 's', 't', 'e', 'x', 'p', 'r'] (le_refl _) 95 St.GOT_c ['c']
      [St.START] 1 1 (some 'c') [] ch (by decide) (by decide) (by decide) h (by decide)]
    simp
  · simp

theorem c1k_continue (ch : Char) (h : is_ident_cont ch = true) :
    scan_tokens (['c', 'o', 'n', 't', 'i', 'n', 'u', 'e'] ++ [ch]) =
      some [⟨['c', 'o', 'n', 't', 'i', 'n', 'u', 'e'] ++ [ch], Token.IDENTIFIER, 1, 1⟩, ⟨[], Token.END, 1, 10⟩] := by
  apply scan_tokens_of_single (['c', 'o', 'n', 't', 'i', 'n', 'u', 'e'] ++ [ch])
    ⟨['c', 'o', 'n', 't', 'i', 'n', 'u', 'e'] ++ [ch], Token.IDENTIFIER, 1, 1⟩ 10 []
  · have h1 : scanToken (['c', 'o', 'n', 't', 'i', 'n', 'u', 'e'] ++ [ch]) 1 1
        = run 87 ⟨St.GOT_c, [St.START], ['o', 'n', 't', 'i', 'n', 'u', 'e'] ++ [ch], ['c'], 1, 1, false,
            some 'c', []⟩ := rfl
    rw [h1, run_walk 7 ['o', 'n', 't', 'i', 'n', 'u', 'e'] (le_refl _) 87 St.GOT_c ['c']
      [St.START] 1 1 (some 'c') [] ch (by decide) (by decide) (by decide) h (by decide)]
    simp
  · simp

theorem c1k_default (ch : Char) (h : is_ident_cont ch = true) :
    scan_tokens (['d', 'e', 'f', 'a', 'u', 'l', 't'] ++ [ch]) =
      some [⟨['d', 'e', 'f', 'a', 'u', 'l', 't'] ++ [ch], Token.IDENTIFIER, 1, 1⟩, ⟨[], Token.END, 1, 9⟩] := by
  apply scan_tokens_of_single (['d', 'e', 'f', 'a', 'u', 'l', 't'] ++ [ch])
    ⟨['d', 'e', 'f', 'a', 'u', 'l', 't'] ++ [ch], Token.IDENTIFIER, 1, 1⟩ 9 []
  · have h1 : scanToken (['d', 'e', 'f', 'a', 'u', 'l', 't'] ++ [ch]) 1 1
        = run 79 ⟨St.GOT_d, [St.START], ['e', 'f', 'a', 'u', 'l', 't'] ++ [ch], ['d'], 1, 1, false,
            some 'd', []⟩ := rfl
    rw [h1, run_walk 6 ['e', 'f', 'a', 'u', 'l', 't'] (le_refl _) 79 St.GOT_d ['d']
      [St.START] 1 1 (some 'd') [] ch (by decide) (by decide) (by decide) h (by decide)]
    simp
  · simp

theorem c1k_do (ch : Char) (h : is_ident_cont ch = true) :
    scan_tokens (['d', 'o'] ++ [ch]) =
      some [⟨['d', 'o'] ++ [ch], Token.IDENTIFIER, 1, 1⟩, ⟨[], Token.END, 1, 4⟩] := by
  apply scan_tokens_of_single (['d', 'o'] ++ [ch])
    ⟨['d', 'o'] ++ [ch], Token.IDENTIFIER, 1, 1⟩ 4 []
  · have h1 : scanToken (['d', 'o'] ++ [ch]) 1 1
        = run 39 ⟨St.GOT_d, [St.START], ['o'] ++ [ch], ['d'], 1, 1, false,
            some 'd', []⟩ := rfl
    rw [h1, run_walk 1 ['o'] (le_refl _) 39 St.GOT_d ['d']
      [St.START] 1 1 (some 'd') [] ch (by decide) (by decide) (by decide) h (by decide)]
    simp
  · simp

theorem c1k_double (ch : Char) (h : is_ident_cont ch = true) :
    scan_tokens (['d', 'o', 'u', 'b', 'l', 'e'] ++ [ch]) =
      some [⟨['d', 'o', 'u', 'b', 'l', 'e'] ++ [ch], Token.IDENTIFIER, 1, 1⟩, ⟨[], Token.END, 1, 8⟩] := by
  apply scan_tokens_of_single (['d', 'o', 'u', 'b', 'l', 'e'] ++ [ch])
    ⟨['d', 'o', 'u', 'b', 'l', 'e'] ++ [ch], Token.IDENTIFIER, 1, 1⟩ 8 []
  · have h1 : scanToken (['d', 'o', 'u', 'b', 'l', 'e'] ++ [ch]) 1 1
        = run 71 ⟨St.GOT_d, [St.START], ['o', 'u', 'b', 'l', 'e'] ++ [ch], ['d'], 1, 1, false,
            some 'd', []⟩ := rfl
    rw [h1, run_walk 5 ['o', 'u', 'b', 'l', 'e'] (le_refl _) 71 St.GOT_d ['d']
      [St.START] 1 1 (some 'd') [] ch (by decide) (by decide) (by decide) h (by decide)]
    simp
  · simp

theorem c1k_else (ch : Char) (h : is_ident_cont ch = true) :
    scan_tokens (['e', 'l', 's', 'e'] ++ [ch]) =
      some [⟨['e', 'l', 's', 'e'] ++ [ch], Token.IDENTIFIER, 1, 1⟩, ⟨[], Token.END, 1, 6⟩] := by
  apply scan_tokens_of_single (['e', 'l', 's', 'e'] ++ [ch])
    ⟨['e', 'l', 's', 'e'] ++ [ch], Token.IDENTIFIER, 1, 1⟩ 6 []
  · have h1 : scanToken (['e', 'l', 's', 'e'] ++ [ch]) 1 1
        = run 55 ⟨St.GOT_e, [St.START], ['l', 's', 'e'] ++ [ch], ['e'], 1, 1, false,
            some 'e', []⟩ := rfl
    rw [h1, run_walk 3 ['l', 's', 'e'] (le_refl _) 55 St.GOT_e ['e']
      [St.START] 1 1 (some 'e') [] ch (by decide) (by decide) (by decide) h (by decide)]
    simp
  · simp

theorem c1k_enum (ch : Char) (h : is_ident_cont ch = true) :
    scan_tokens (['e', 'n', 'u', 'm'] ++ [ch]) =
      some [⟨['e', 'n', 'u', 'm'] ++ [ch], Token.IDENTIFIER, 1, 1⟩, ⟨[], Token.END, 1, 6⟩] := by
  apply scan_tokens_of_single (['e', 'n', 'u', 'm'] ++ [ch])
    ⟨['e', 'n', 'u', 'm'] ++ [ch], Token.IDENTIFIER, 1, 1⟩ 6 []
  · have h1 : scanToken (['e', 'n', 'u', 'm'] ++ [ch]) 1 1
        = run 55 ⟨St.GOT_e, [St.START], ['n', 'u', 'm'] ++ [ch], ['e'], 1, 1, false,
            some 'e', []⟩ := rfl
    rw [h1, run_walk 3 ['n', 'u', 'm'] (le_refl _) 55 St.GOT_e ['e']
      [St.START] 1 1 (some 'e') [] ch (by decide) (by decide) (by decide) h (by decide)]
    simp
  · simp

theorem c1k_extern (ch : Char) (h : is_ident_cont ch = true) :
    scan_tokens (['e', 'x', 't', 'e', 'r', 'n'] ++ [ch]) =
      some [⟨['e', 'x', 't', 'e', 'r', 'n'] ++ [ch], Token.IDENTIFIER, 1, 1⟩, ⟨[], Token.END, 1, 8⟩] := by
  apply scan_tokens_of_single (['e', 'x', 't', 'e', 'r', 'n'] ++ [ch])
    ⟨['e', 'x', 't', 'e', 'r', 'n'] ++ [ch], Token.IDENTIFIER, 1, 1⟩ 8 []
  · have h1 : scanToken (['e', 'x', 't', 'e', 'r', 'n'] ++ [ch]) 1 1
        = run 71 ⟨St.GOT_e, [St.START], ['x', 't', 'e', 'r', 'n'] ++ [ch], ['e'], 1, 1, false,
            some 'e', []⟩ := rfl
    rw [h1, run_walk 5 ['x', 't', 'e', 'r', 'n'] (le_refl _) 71 St.GOT_e ['e']
      [St.START] 1 1 (some 'e') [] ch (by decide) (by decide) (by decide) h (by decide)]
    simp
  · simp

theorem c1k_false (ch : Char) (h : is_ident_cont ch = true) :
    scan_tokens (['f', 'a', 'l', 's', 'e'] ++ [ch]) =
      some [⟨['f', 'a', 'l', 's', 'e'] ++ [ch], Token.IDENTIFIER, 1, 1⟩, ⟨[], Token.END, 1, 7⟩] := by
  apply scan_tokens_of_single (['f', 'a', 'l', 's', 'e'] ++ [ch])
    ⟨['f', 'a', 'l', 's', 'e'] ++ [ch], Token.IDENTIFIER, 1, 1⟩ 7 []
  · have h1 : scanToken (['f', 'a', 'l', 's', 'e'] ++ [ch]) 1 1
        = run 63 ⟨St.GOT_f, [St.START], ['a', 'l', 's', 'e'] ++ [ch], ['f'], 1, 1, false,
            some 'f', []⟩ := rfl
    rw [h1, run_walk 4 ['a', 'l', 's', 'e'] (le_refl _) 63 St.GOT_f ['f']
      [St.START] 1 1 (some 'f') [] ch (by decide) (by decide) (by decide) h (by decide)]
    simp
  · simp

theorem c1k_float (ch : Char) (h : is_ident_cont ch = true) :
    scan_tokens (['f', 'l', 'o', 'a', 't'] ++ [ch]) =
      some [⟨['f', 'l', 'o', 'a', 't'] ++ [ch], Token.IDENTIFIER, 1, 1⟩, ⟨[], Token.END, 1, 7⟩] := by
  apply scan_tokens_of_single (['f', 'l', 'o', 'a', 't'] ++ [ch])
    ⟨['f', 'l', 'o', 'a', 't'] ++ [ch], Token.IDENTIFIER, 1, 1⟩ 7 []
  · have h1 : scanToken (['f', 'l', 'o', 'a', 't'] ++ [ch]) 1 1
        = run 63 ⟨St.GOT_f, [St.START], ['l', 'o', 'a', 't'] ++ [ch], ['f'], 1, 1, false,
            some 'f', []⟩ := rfl
    rw [h1, run_walk 4 ['l', 'o', 'a', 't'] (le_refl _) 63 St.GOT_f ['f']
      [St.START] 1 1 (some 'f') [] ch (by decide) (by decide) (by decide) h (by decide)]
    simp
  · simp

theorem c1k_for (ch : Char) (h : is_ident_cont ch = true) :
    scan_tokens (['f', 'o', 'r'] ++ [ch]) =
      some [⟨['f', 'o', 'r'] ++ [ch], Token.IDENTIFIER, 1, 1⟩, ⟨[], Token.END, 1, 5⟩] := by
  apply scan_tokens_of_single (['f', 'o', 'r'] ++ [ch])
    ⟨['f', 'o', 'r'] ++ [ch], Token.IDENTIFIER, 1, 1⟩ 5 []
  · have h1 : scanToken (['f', 'o', 'r'] ++ [ch]) 1 1
        = run 47 ⟨St.GOT_f, [St.START], ['o', 'r'] ++ [ch], ['f'], 1, 1, false,
            some 'f', []⟩ := rfl
    rw [h1, run_walk 2 ['o', 'r'] (le_refl _) 47 St.GOT_f ['f']
      [St.START] 1 1 (some 'f') [] ch (by decide) (by decide) (by decide) h (by decide)]
    simp
  · simp

theorem c1k_goto (ch : Char) (h : is_ident_cont ch = true) :
    scan_tokens (['g', 'o', 't', 'o'] ++ [ch]) =
      some [⟨['g', 'o', 't', 'o'] ++ [ch], Token.IDENTIFIER, 1, 1⟩, ⟨[], Token.END, 1, 6⟩] := by
  apply scan_tokens_of_single (['g', 'o', 't', 'o'] ++ [ch])
    ⟨['g', 'o', 't', 'o'] ++ [ch], Token.IDENTIFIER, 1, 1⟩ 6 []
  · have h1 : scanToken (['g', 'o', 't', 'o'] ++ [ch]) 1 1
        = run 55 ⟨St.GOT_g, [St.START], ['o', 't', 'o'] ++ [ch], ['g'], 1, 1, false,
            some 'g', []⟩ := rfl
    rw [h1, run_walk 3 ['o', 't', 'o'] (le_refl _) 55 St.GOT_g ['g']
      [St.START] 1 1 (some 'g') [] ch (by decide) (by decide) (by decide) h (by decide)]
    simp
  · simp

theorem c1k_if (ch : Char) (h : is_ident_cont ch = true) :
    scan_tokens (['i', 'f'] ++ [ch]) =
      some [⟨['i', 'f'] ++ [ch], Token.IDENTIFIER, 1, 1⟩, ⟨[], Token.END, 1, 4⟩] := by
  apply scan_tokens_of_single (['i', 'f'] ++ [ch])
    ⟨['i', 'f'] ++ [ch], Token.IDENTIFIER, 1, 1⟩ 4 []
  · have h1 : scanToken (['i', 'f'] ++ [ch]) 1 1
        = run 39 ⟨St.GOT_i, [St.START], ['f'] ++ [ch], ['i'], 1, 1, false,
            some 'i', []⟩ := rfl
    rw [h1, run_walk 1 ['f'] (le_refl _) 39 St.GOT_i ['i']
      [St.START] 1 1 (some 'i') [] ch (by decide) (by decide) (by decide) h (by decide)]
    simp
  · simp

theorem c1k_inline (ch : Char) (h : is_ident_cont ch = true) :
    scan_tokens (['i', 'n', 'l', 'i', 'n', 'e'] ++ [ch]) =
      some [⟨['i', 'n', 'l', 'i', 'n', 'e'] ++ [ch], Token.IDENTIFIER, 1, 1⟩, ⟨[], Token.END, 1, 8⟩] := by
  apply scan_tokens_of_single (['i', 'n', 'l', 'i', 'n', 'e'] ++ [ch])
    ⟨['i', 'n', 'l', 'i', 'n', 'e'] ++ [ch], Token.IDENTIFIER, 1, 1⟩ 8 []
  · have h1 : scanToken (['i', 'n', 'l', 'i', 'n', 'e'] ++ [ch]) 1 1
        = run 71 ⟨St.GOT_i, [St.START], ['n', 'l', 'i', 'n', 'e'] ++ [ch], ['i'], 1, 1, false,
            some 'i', []⟩ := rfl
    rw [h1, run_walk 5 ['n', 'l', 'i', 'n', 'e'] (le_refl _) 71 St.GOT_i ['i']
      [St.START] 1 1 (some 'i') [] ch (by decide) (by decide) (by decide) h (by decide)]
    simp
  · simp

theorem c1k_int (ch : Char) (h : is_ident_cont ch = true) :
    scan_tokens (['i', 'n', 't'] ++ [ch]) =
      some [⟨['i', 'n', 't'] ++ [ch], Token.IDENTIFIER, 1, 1⟩, ⟨[], Token.END, 1, 5⟩] := by
  apply scan_tokens_of_single (['i', 'n', 't'] ++ [ch])
    ⟨['i', 'n', 't'] ++ [ch], Token.IDENTIFIER, 1, 1⟩ 5 []
  · have h1 : scanToken (['i', 'n', 't'] ++ [ch]) 1 1
        = run 47 ⟨St.GOT_i, [St.START], ['n', 't'] ++ [ch], ['i'], 1, 1, false,
            some 'i', []⟩ := rfl
    rw [h1, run_walk 2 ['n', 't'] (le_refl _) 47 St.GOT_i ['i']
      [St.START] 1 1 (some 'i') [] ch (by decide) (by decide) (by decide) h (by decide)]
    simp
  · simp

theorem c1k_long (ch : Char) (h : is_ident_cont ch = true) :
    scan_tokens (['l', 'o', 'n', 'g'] ++ [ch]) =
      some [⟨['l', 'o', 'n', 'g'] ++ [ch], Token.IDENTIFIER, 1, 1⟩, ⟨[], Token.END, 1, 6⟩] := by
  apply scan_tokens_of_single (['l', 'o', 'n', 'g'] ++ [ch])
    ⟨['l', 'o', 'n', 'g'] ++ [ch], Token.IDENTIFIER, 1, 1⟩ 6 []
  · have h1 : scanToken (['l', 'o', 'n', 'g'] ++ [ch]) 1 1
        = run 55 ⟨St.GOT_l, [St.START], ['o', 'n', 'g'] ++ [ch], ['l'], 1, 1, false,
            some 'l', []⟩ := rfl
    rw [h1, run_walk 3 ['o', 'n', 'g'] (le_refl _) 55 St.GOT_l ['l']
      [St.START] 1 1 (some 'l') [] ch (by decide) (by decide) (by decide) h (by decide)]
    simp
  · simp

theorem c1k_nullptr (ch : Char) (h : is_ident_cont ch = true) :
    scan_tokens (['n', 'u', 'l', 'l', 'p', 't', 'r'] ++ [ch]) =
      some [⟨['n', 'u', 'l', 'l', 'p', 't', 'r'] ++ [ch], Token.IDENTIFIER, 1, 1⟩, ⟨[], Token.END, 1, 9⟩] := by
  apply scan_tokens_of_single (['n', 'u', 'l', 'l', 'p', 't', 'r'] ++ [ch])
    ⟨['n', 'u', 'l', 'l', 'p', 't', 'r'] ++ [ch], Token.IDENTIFIER, 1, 1⟩ 9 []
  · have h1 : scanToken (['n', 'u', 'l', 'l', 'p', 't', 'r'] ++ [ch]) 1 1
        = run 79 ⟨St.GOT_n, [St.START], ['u', 'l', 'l', 'p', 't', 'r'] ++ [ch], ['n'], 1, 1, false,
            some 'n', []⟩ := rfl
    rw [h1, run_walk 6 ['u', 'l', 'l', 'p', 't', 'r'] (le_refl _) 79 St.GOT_n ['n']
      [St.START] 1 1 (some 'n') [] ch (by decide) (by decide) (by decide) h (by decide)]
    simp
  · simp

theorem c1k_register (ch : Char) (h : is_ident_cont ch = true) :
    scan_tokens (['r', 'e', 'g', 'i', 's', 't', 'e', 'r'] ++ [ch]) =
      some [⟨['r', 'e', 'g', 'i', 's', 't', 'e', 'r'] ++ [ch], Token.IDENTIFIER, 1, 1⟩, ⟨[], Token.END, 1, 10⟩] := by
  apply scan_tokens_of_single (['r', 'e', 'g', 'i', 's', 't', 'e', 'r'] ++ [ch])
    ⟨['r', 'e', 'g', 'i', 's', 't', 'e', 'r'] ++ [ch], Token.IDENTIFIER, 1, 1⟩ 10 []
  · have h1 : scanToken (['r', 'e', 'g', 'i', 's', 't', 'e', 'r'] ++ [ch]) 1 1
        = run 87 ⟨St.GOT_r, [St.START], ['e', 'g', 'i', 's', 't', 'e', 'r'] ++ [ch], ['r'], 1, 1, false,
            some 'r', []⟩ := rfl
    rw [h1, run_walk 7 ['e', 'g', 'i', 's', 't', 'e', 'r'] (le_refl _) 87 St.GOT_r ['r']
      [St.START] 1 1 (some 'r') [] ch (by decide) (by decide) (by decide) h (by decide)]
    simp
  · simp

theorem c1k_restrict (ch : Char) (h : is_ident_cont ch = true) :
    scan_tokens (['r', 'e', 's', 't', 'r', 'i', 'c', 't'] ++ [ch]) =
      some [⟨['r', 'e', 's', 't', 'r', 'i', 'c', 't'] ++ [ch], Token.IDENTIFIER, 1, 1⟩, ⟨[], Token.END, 1, 10⟩] := by
  apply scan_tokens_of_single (['r', 'e', 's', 't', 'r', 'i', 'c', 't'] ++ [ch])
    ⟨['r', 'e', 's', 't', 'r', 'i', 'c', 't'] ++ [ch], Token.IDENTIFIER, 1, 1⟩ 10 []
  · have h1 : scanToken (['r', 'e', 's', 't', 'r', 'i', 'c', 't'] ++ [ch]) 1 1
        = run 87 ⟨St.GOT_r, [St.START], ['e', 's', 't', 'r', 'i', 'c', 't'] ++ [ch], ['r'], 1, 1, false,
            some 'r', []⟩ := rfl
    rw [h1, run_walk 7 ['e', 's', 't', 'r', 'i', 'c', 't'] (le_refl _) 87 St.GOT_r ['r']
      [St.START] 1 1 (some 'r') [] ch (by decide) (by decide) (by decide) h (by decide)]
    simp
  · simp

theorem c1k_return (ch : Char) (h : is_ident_cont ch = true) :
    scan_tokens (['r', 'e', 't', 'u', 'r', 'n'] ++ [ch]) =
      some [⟨['r', 'e', 't', 'u', 'r', 'n'] ++ [ch], Token.IDENTIFIER, 1, 1⟩, ⟨[], Token.END, 1, 8⟩] := by
  apply scan_tokens_of_single (['r', 'e', 't', 'u', 'r', 'n'] ++ [ch])
    ⟨['r', 'e', 't', 'u', 'r', 'n'] ++ [ch], Token.IDENTIFIER, 1, 1⟩ 8 []
  · have h1 : scanToken (['r', 'e', 't', 'u', 'r', 'n'] ++ [ch]) 1 1
        = run 71 ⟨St.GOT_r, [St.START], ['e', 't', 'u', 'r', 'n'] ++ [ch], ['r'], 1, 1, false,
            some 'r', []⟩ := rfl
    rw [h1, run_walk 5 ['e', 't', 'u', 'r', 'n'] (le_refl _) 71 St.GOT_r ['r']
      [St.START] 1 1 (some 'r') [] ch (by decide) (by decide) (by decide) h (by decide)]
    simp
  · simp

theorem c1k_short (ch : Char) (h : is_ident_cont ch = true) :
    scan_tokens (['s', 'h', 'o', 'r', 't'] ++ [ch]) =
      some [⟨['s', 'h', 'o', 'r', 't'] ++ [ch], Token.IDENTIFIER, 1, 1⟩, ⟨[], Token.END, 1, 7⟩] := by
  apply scan_tokens_of_single (['s', 'h', 'o', 'r', 't'] ++ [ch])
    ⟨['s', 'h', 'o', 'r', 't'] ++ [ch], Token.IDENTIFIER, 1, 1⟩ 7 []
  · have h1 : scanToken (['s', 'h', 'o', 'r', 't'] ++ [ch]) 1 1
        = run 63 ⟨St.GOT_s, [St.START], ['h', 'o', 'r', 't'] ++ [ch], ['s'], 1, 1, false,
            some 's', []⟩ := rfl
    rw [h1, run_walk 4 ['h', 'o', 'r', 't'] (le_refl _) 63 St.GOT_s ['s']
      [St.START] 1 1 (some 's') [] ch (by decide) (by decide) (by decide) h (by decide)]
    simp
  · simp

theorem c1k_signed (ch : Char) (h : is_ident_cont ch = true) :
    scan_tokens (['s', 'i', 'g', 'n', 'e', 'd'] ++ [ch]) =
      some [⟨['s', 'i', 'g', 'n', 'e', 'd'] ++ [ch], Token.IDENTIFIER, 1, 1⟩, ⟨[], Token.END, 1, 8⟩] := by
  apply scan_tokens_of_single (['s', 'i', 'g', 'n', 'e', 'd'] ++ [ch])
    ⟨['s', 'i', 'g', 'n', 'e', 'd'] ++ [ch], Token.IDENTIFIER, 1, 1⟩ 8 []
  · have h1 : scanToken (['s', 'i', 'g', 'n', 'e', 'd'] ++ [ch]) 1 1
        = run 71 ⟨St.GOT_s, [St.START], ['i', 'g', 'n', 'e', 'd'] ++ [ch], ['s'], 1, 1, false,
            some 's', []⟩ := rfl
    rw [h1, run_walk 5 ['i', 'g', 'n', 'e', 'd'] (le_refl _) 71 St.GOT_s ['s']
      [St.START] 1 1 (some 's') [] ch (by decide) (by decide) (by decide) h (by decide)]
    simp
  · simp

theorem c1k_sizeof (ch : Char) (h : is_ident_cont ch = true) :
    scan_tokens (['s', 'i', 'z', 'e', 'o', 'f'] ++ [ch]) =
      some [⟨['s', 'i', 'z', 'e', 'o', 'f'] ++ [ch], Token.IDENTIFIER, 1, 1⟩, ⟨[], Token.END, 1, 8⟩] := by
  apply scan_tokens_of_single (['s', 'i', 'z', 'e', 'o', 'f'] ++ [ch])
    ⟨['s', 'i', 'z', 'e', 'o', 'f'] ++ [ch], Token.IDENTIFIER, 1, 1⟩ 8 []
  · have h1 : scanToken (['s', 'i', 'z', 'e', 'o', 'f'] ++ [ch]) 1 1
        = run 71 ⟨St.GOT_s, [St.START], ['i', 'z', 'e', 'o', 'f'] ++ [ch], ['s'], 1, 1, false,
            some 's', []⟩ := rfl
    rw [h1, run_walk 5 ['i', 'z', 'e', 'o', 'f'] (le_refl _) 71 St.GOT_s ['s']
      [St.START] 1 1 (some 's') [] ch (by decide) (by decide) (by decide) h (by decide)]
    simp
  · simp

theorem c1k_static (ch : Char) (h : is_ident_cont ch = true) :
    scan_tokens (['s', 't', 'a', 't', 'i', 'c'] ++ [ch]) =
      some [⟨['s', 't', 'a', 't', 'i', 'c'] ++ [ch], Token.IDENTIFIER, 1, 1⟩, ⟨[], Token.END, 1, 8⟩] := by
  apply scan_tokens_of_single (['s', 't', 'a', 't', 'i', 'c'] ++ [ch])
    ⟨['s', 't', 'a', 't', 'i', 'c'] ++ [ch], Token.IDENTIFIER, 1, 1⟩ 8 []
  · have h1 : scanToken (['s', 't', 'a', 't', 'i', 'c'] ++ [ch]) 1 1
        = run 71 ⟨St.GOT_s, [St.START], ['t', 'a', 't', 'i', 'c'] ++ [ch], ['s'], 1, 1, false,
            some 's', []⟩ := rfl
    rw [h1, run_walk 5 ['t', 'a', 't', 'i', 'c'] (le_refl _) 71 St.GOT_s ['s']
      [St.START] 1 1 (some 's') [] ch (by decide) (by decide) (by decide) h (by decide)]
    simp
  · simp

theorem c1k_staticHassert (ch : Char) (h : is_ident_cont ch = true) :
    scan_tokens (['s', 't', 'a', 't', 'i', 'c', '_', 'a', 's', 's', 'e', 'r', 't'] ++ [ch]) =
      some [⟨['s', 't', 'a', 't', 'i', 'c', '_', 'a', 's', 's', 'e', 'r', 't'] ++ [ch], Token.IDENTIFIER, 1, 1⟩, ⟨[], Token.END, 1, 15⟩] := by
  apply scan_tokens_of_single (['s', 't', 'a', 't', 'i', 'c', '_', 'a', 's', 's', 'e', 'r', 't'] ++ [ch])
    ⟨['s', 't', 'a', 't', 'i', 'c', '_', 'a', 's', 's', 'e', 'r', 't'] ++ [ch], Token.IDENTIFIER, 1, 1⟩ 15 []
  · have h1 : scanToken (['s', 't', 'a', 't', 'i', 'c', '_', 'a', 's', 's', 'e', 'r', 't'] ++ [ch]) 1 1
        = run 127 ⟨St.GOT_s, [St.START], ['t', 'a', 't', 'i', 'c', '_', 'a', 's', 's', 'e', 'r', 't'] ++ [ch], ['s'], 1, 1, false,
            some 's', []⟩ := rfl
    rw [h1, run_walk 12 ['t', 'a', 't', 'i', 'c', '_', 'a', 's', 's', 'e', 'r', 't'] (le_refl _) 127 St.GOT_s ['s']
      [St.START] 1 1 (some 's') [] ch (by decide) (by decide) (by decide) h (by decide)]
    simp
  · simp

theorem c1k_struct (ch : Char) (h : is_ident_cont ch = true) :
    scan_tokens (['s', 't', 'r', 'u', 'c', 't'] ++ [ch]) =
      some [⟨['s', 't', 'r', 'u', 'c', 't'] ++ [ch], Token.IDENTIFIER, 1, 1⟩, ⟨[], Token.END, 1, 8⟩] := by
  apply scan_tokens_of_single (['s', 't', 'r', 'u', 'c', 't'] ++ [ch])
    ⟨['s', 't', 'r', 'u', 'c', 't'] ++ [ch], Token.IDENTIFIER, 1, 1⟩ 8 []
  · have h1 : scanToken (['s', 't', 'r', 'u', 'c', 't'] ++ [ch]) 1 1
        = run 71 ⟨St.GOT_s, [St.START], ['t', 'r', 'u', 'c', 't'] ++ [ch], ['s'], 1, 1, false,
            some 's', []⟩ := rfl
    rw [h1, run_walk 5 ['t', 'r', 'u', 'c', 't'] (le_refl _) 71 St.GOT_s ['s']
      [St.START] 1 1 (some 's') [] ch (by decide) (by decide) (by decide) h (by decide)]
    simp
  · simp

theorem c1k_switch (ch : Char) (h : is_ident_cont ch = true) :
    scan_tokens (['s', 'w', 'i', 't', 'c', 'h'] ++ [ch]) =
      some [⟨['s', 'w', 'i', 't', 'c', 'h'] ++ [ch], Token.IDENTIFIER, 1, 1⟩, ⟨[], Token.END, 1, 8⟩] := by
  apply scan_tokens_of_single (['s', 'w', 'i', 't', 'c', 'h'] ++ [ch])
    ⟨['s', 'w', 'i', 't', 'c', 'h'] ++ [ch], Token.IDENTIFIER, 1, 1⟩ 8 []
  · have h1 : scanToken (['s', 'w', 'i', 't', 'c', 'h'] ++ [ch]) 1 1
        = run 71 ⟨St.GOT_s, [St.START], ['w', 'i', 't', 'c', 'h'] ++ [ch], ['s'], 1, 1, false,
            some 's', []⟩ := rfl
    rw [h1, run_walk 5 ['w', 'i', 't', 'c', 'h'] (le_refl _) 71 St.GOT_s ['s']
      [St.START] 1 1 (some 's') [] ch (by decide) (by decide) (by decide) h (by decide)]
    simp
  · simp

theorem c1k_threadHlocal (ch : Char) (h : is_ident_cont ch = true) :
    scan_tokens (['t', 'h', 'r', 'e', 'a', 'd', '_', 'l', 'o', 'c', 'a', 'l'] ++ [ch]) =
      some [⟨['t', 'h', 'r', 'e', 'a', 'd', '_', 'l', 'o', 'c', 'a', 'l'] ++ [ch], Token.IDENTIFIER, 1, 1⟩, ⟨[], Token.END, 1, 14⟩] := by
  apply scan_tokens_of_single (['t', 'h', 'r', 'e', 'a', 'd', '_', 'l', 'o', 'c', 'a', 'l'] ++ [ch])
    ⟨['t', 'h', 'r', 'e', 'a', 'd', '_', 'l', 'o', 'c', 'a', 'l'] ++ [ch], Token.IDENTIFIER, 1, 1⟩ 14 []
  · have h1 : scanToken (['t', 'h', 'r', 'e', 'a', 'd', '_', 'l', 'o', 'c', 'a', 'l'] ++ [ch]) 1 1
        = run 119 ⟨St.GOT_t, [St.START], ['h', 'r', 'e', 'a', 'd', '_', 'l', 'o', 'c', 'a', 'l'] ++ [ch], ['t'], 1, 1, false,
            some 't', []⟩ := rfl
    rw [h1, run_walk 11 ['h', 'r', 'e', 'a', 'd', '_', 'l', 'o', 'c', 'a', 'l'] (le_refl _) 119 St.GOT_t ['t']
      [St.START] 1 1 (some 't') [] ch (by decide) (by decide) (by decide) h (by decide)]
    simp
  · simp

theorem c1k_true (ch : Char) (h : is_ident_cont ch = true) :
    scan_tokens (['t', 'r', 'u', 'e'] ++ [ch]) =
      some [⟨['t', 'r', 'u', 'e'] ++ [ch], Token.IDENTIFIER, 1, 1⟩, ⟨[], Token.END, 1, 6⟩] := by
  apply scan_tokens_of_single (['t', 'r', 'u', 'e'] ++ [ch])
    ⟨['t', 'r', 'u', 'e'] ++ [ch], Token.IDENTIFIER, 1, 1⟩ 6 []
  · have h1 : scanToken (['t', 'r', 'u', 'e'] ++ [ch]) 1 1
        = run 55 ⟨St.GOT_t, [St.START], ['r', 'u', 'e'] ++ [ch], ['t'], 1, 1, false,
            some 't', []⟩ := rfl
    rw [h1, run_walk 3 ['r', 'u', 'e'] (le_refl _) 55 St.GOT_t ['t']
      [St.START] 1 1 (some 't') [] ch (by decide) (by decide) (by decide) h (by decide)]
    simp
  · simp

theorem c1k_typedef (ch : Char) (h : is_ident_cont ch = true) :
    scan_tokens (['t', 'y', 'p', 'e', 'd', 'e', 'f'] ++ [ch]) =
      some [⟨['t', 'y', 'p', 'e', 'd', 'e', 'f'] ++ [ch], Token.IDENTIFIER, 1, 1⟩, ⟨[], Token.END, 1, 9⟩] := by
  apply scan_tokens_of_single (['t', 'y', 'p', 'e', 'd', 'e', 'f'] ++ [ch])
    ⟨['t', 'y', 'p', 'e', 'd', 'e', 'f'] ++ [ch], Token.IDENTIFIER, 1, 1⟩ 9 []
  · have h1 : scanToken (['t', 'y', 'p', 'e', 'd', 'e', 'f'] ++ [ch]) 1 1
        = run 79 ⟨St.GOT_t, [St.START], ['y', 'p', 'e', 'd', 'e', 'f'] ++ [ch], ['t'], 1, 1, false,
            some 't', []⟩ := rfl
    rw [h1, run_walk 6 ['y', 'p', 'e', 'd', 'e', 'f'] (le_refl _) 79 St.GOT_t ['t']
      [St.START] 1 1 (some 't') [] ch (by decide) (by decide) (by decide) h (by decide)]
    simp
  · simp

theorem c1k_typeof (ch : Char) (h : is_ident_cont ch = true) :
    scan_tokens (['t', 'y', 'p', 'e', 'o', 'f'] ++ [ch]) =
      some [⟨['t', 'y', 'p', 'e', 'o', 'f'] ++ [ch], Token.IDENTIFIER, 1, 1⟩, ⟨[], Token.END, 1, 8⟩] := by
  apply scan_tokens_of_single (['t', 'y', 'p', 'e', 'o', 'f'] ++ [ch])
    ⟨['t', 'y', 'p', 'e', 'o', 'f'] ++ [ch], Token.IDENTIFIER, 1, 1⟩ 8 []
  · have h1 : scanToken (['t', 'y', 'p', 'e', 'o', 'f'] ++ [ch]) 1 1
        = run 71 ⟨St.GOT_t, [St.START], ['y', 'p', 'e', 'o', 'f'] ++ [ch], ['t'], 1, 1, false,
            some 't', []⟩ := rfl
    rw [h1, run_walk 5 ['y', 'p', 'e', 'o', 'f'] (le_refl _) 71 St.GOT_t ['t']
      [St.START] 1 1 (some 't') [] ch (by decide) (by decide) (by decide) h (by decide)]
    simp
  · simp

theorem c1k_typeofHunqual (ch : Char) (h : is_ident_cont ch = true) :
    scan_tokens (['t', 'y', 'p', 'e', 'o', 'f', '_', 'u', 'n', 'q', 'u', 'a', 'l'] ++ [ch]) =
      some [⟨['t', 'y', 'p', 'e', 'o', 'f', '_', 'u', 'n', 'q', 'u', 'a', 'l'] ++ [ch], Token.IDENTIFIER, 1, 1⟩, ⟨[], Token.END, 1, 15⟩] := by
  apply scan_tokens_of_single (['t', 'y', 'p', 'e', 'o', 'f', '_', 'u', 'n', 'q', 'u', 'a', 'l'] ++ [ch])
    ⟨['t', 'y', 'p', 'e', 'o', 'f', '_', 'u', 'n', 'q', 'u', 'a', 'l'] ++ [ch], Token.IDENTIFIER, 1, 1⟩ 15 []
  · have h1 : scanToken (['t', 'y', 'p', 'e', 'o', 'f', '_', 'u', 'n', 'q', 'u', 'a', 'l'] ++ [ch]) 1 1
        = run 127 ⟨St.GOT_t, [St.START], ['y', 'p', 'e', 'o', 'f', '_', 'u', 'n', 'q', 'u', 'a', 'l'] ++ [ch], ['t'], 1, 1, false,
            some 't', []⟩ := rfl
    rw [h1, run_walk 12 ['y', 'p', 'e', 'o', 'f', '_', 'u', 'n', 'q', 'u', 'a', 'l'] (le_refl _) 127 St.GOT_t ['t']
      [St.START] 1 1 (some 't') [] ch (by decide) (by decide) (by decide) h (by decide)]
    simp
  · simp

theorem c1k_union (ch : Char) (h : is_ident_cont ch = true) :
    scan_tokens (['u', 'n', 'i', 'o', 'n'] ++ [ch]) =
      some [⟨['u', 'n', 'i', 'o', 'n'] ++ [ch], Token.IDENTIFIER, 1, 1⟩, ⟨[], Token.END, 1, 7⟩] := by
  apply scan_tokens_of_single (['u', 'n', 'i', 'o', 'n'] ++ [ch])
    ⟨['u', 'n', 'i', 'o', 'n'] ++ [ch], Token.IDENTIFIER, 1, 1⟩ 7 []
  · have h1 : scanToken (['u', 'n', 'i', 'o', 'n'] ++ [ch]) 1 1
        = run 62 ⟨St.GOT_un, [St.START], ['i', 'o', 'n'] ++ [ch], ['u', 'n'], 1, 1, false,
            some 'n', []⟩ := rfl
    rw [h1, run_walk 3 ['i', 'o', 'n'] (le_refl _) 62 St.GOT_un ['u', 'n']
      [St.START] 1 1 (some 'n') [] ch (by decide) (by decide) (by decide) h (by decide)]
    simp
  · simp

theorem c1k_unsigned (ch : Char) (h : is_ident_cont ch = true) :
    scan_tokens (['u', 'n', 's', 'i', 'g', 'n', 'e', 'd'] ++ [ch]) =
      some [⟨['u', 'n', 's', 'i', 'g', 'n', 'e', 'd'] ++ [ch], Token.IDENTIFIER, 1, 1⟩, ⟨[], Token.END, 1, 10⟩] := by
  apply scan_tokens_of_single (['u', 'n', 's', 'i', 'g', 'n', 'e', 'd'] ++ [ch])
    ⟨['u', 'n', 's', 'i', 'g', 'n', 'e', 'd'] ++ [ch], Token.IDENTIFIER, 1, 1⟩ 10 []
  · have h1 : scanToken (['u', 'n', 's', 'i', 'g', 'n', 'e', 'd'] ++ [ch]) 1 1
        = run 86 ⟨St.GOT_un, [St.START], ['s', 'i', 'g', 'n', 'e', 'd'] ++ [ch], ['u', 'n'], 1, 1, false,
            some 'n', []⟩ := rfl
    rw [h1, run_walk 6 ['s', 'i', 'g', 'n', 'e', 'd'] (le_refl _) 86 St.GOT_un ['u', 'n']
      [St.START] 1 1 (some 'n') [] ch (by decide) (by decide) (by decide) h (by decide)]
    simp
  · simp

theorem c1k_void (ch : Char) (h : is_ident_cont ch = true) :
    scan_tokens (['v', 'o', 'i', 'd'] ++ [ch]) =
      some [⟨['v', 'o', 'i', 'd'] ++ [ch], Token.IDENTIFIER, 1, 1⟩, ⟨[], Token.END, 1, 6⟩] := by
  apply scan_tokens_of_single (['v', 'o', 'i', 'd'] ++ [ch])
    ⟨['v', 'o', 'i', 'd'] ++ [ch], Token.IDENTIFIER, 1, 1⟩ 6 []
  · have h1 : scanToken (['v', 'o', 'i', 'd'] ++ [ch]) 1 1
        = run 55 ⟨St.GOT_v, [St.START], ['o', 'i', 'd'] ++ [ch], ['v'], 1, 1, false,
            some 'v', []⟩ := rfl
    rw [h1, run_walk 3 ['o', 'i', 'd'] (le_refl _) 55 St.GOT_v ['v']
      [St.START] 1 1 (some 'v') [] ch (by decide) (by decide) (by decide) h (by decide)]
    simp
  · simp

theorem c1k_volatile (ch : Char) (h : is_ident_cont ch = true) :
    scan_tokens (['v', 'o', 'l', 'a', 't', 'i', 'l', 'e'] ++ [ch]) =
      some [⟨['v', 'o', 'l', 'a', 't', 'i', 'l', 'e'] ++ [ch], Token.IDENTIFIER, 1, 1⟩, ⟨[], Token.END, 1, 10⟩] := by
  apply scan_tokens_of_single (['v', 'o', 'l', 'a', 't', 'i', 'l', 'e'] ++ [ch])
    ⟨['v', 'o', 'l', 'a', 't', 'i', 'l', 'e'] ++ [ch], Token.IDENTIFIER, 1, 1⟩ 10 []
  · have h1 : scanToken (['v', 'o', 'l', 'a', 't', 'i', 'l', 'e'] ++ [ch]) 1 1
        = run 87 ⟨St.GOT_v, [St.START], ['o', 'l', 'a', 't', 'i', 'l', 'e'] ++ [ch], ['v'], 1, 1, false,
            some 'v', []⟩ := rfl
    rw [h1, run_walk 7 ['o', 'l', 'a', 't', 'i', 'l', 'e'] (le_refl _) 87 St.GOT_v ['v']
      [St.START] 1 1 (some 'v') [] ch (by decide) (by decide) (by decide) h (by decide)]
    simp
  · simp

theorem c1k_while (ch : Char) (h : is_ident_cont ch = true) :
    scan_tokens (['w', 'h', 'i', 'l', 'e'] ++ [ch]) =
      some [⟨['w', 'h', 'i', 'l', 'e'] ++ [ch], Token.IDENTIFIER, 1, 1⟩, ⟨[], Token.END, 1, 7⟩] := by
  apply scan_tokens_of_single (['w', 'h', 'i', 'l', 'e'] ++ [ch])
    ⟨['w', 'h', 'i', 'l', 'e'] ++ [ch], Token.IDENTIFIER, 1, 1⟩ 7 []
  · have h1 : scanToken (['w', 'h', 'i', 'l', 'e'] ++ [ch]) 1 1
        = run 63 ⟨St.GOT_w, [St.START], ['h', 'i', 'l', 'e'] ++ [ch], ['w'], 1, 1, false,
            some 'w', []⟩ := rfl
    rw [h1, run_walk 4 ['h', 'i', 'l', 'e'] (le_refl _) 63 St.GOT_w ['w']
      [St.START] 1 1 (some 'w') [] ch (by decide) (by decide) (by decide) h (by decide)]
    simp
  · simp

/-- C1: every keyword scans to itself; with any appended identifier-
    continuation character it scans to one IDENTIFIER over the whole text. -/
theorem c1_keyword_maximal_munch :
    (∀ p ∈ kwList, scan_tokens p.2 =
        some [⟨p.2, p.1, 1, 1⟩, ⟨[], Token.END, 1, p.2.length + 1⟩])
    ∧ (∀ p ∈ kwList, ∀ ch : Char, is_ident_cont ch = true →
        scan_tokens (p.2 ++ [ch]) =
          some [⟨p.2 ++ [ch], Token.IDENTIFIER, 1, 1⟩, ⟨[], Token.END, 1, p.2.length + 2⟩]) := by
  constructor
  · decide
  · intro p hp ch h
    fin_cases hp
    · exact c1k_HAlignas ch h
    · exact c1k_HAlignof ch h
    · exact c1k_HAtomic ch h
    · exact c1k_HBitInt ch h
    · exact c1k_HBool ch h
    · exact c1k_HComplex ch h
    · exact c1k_HDecimal128 ch h
    · exact c1k_HDecimal32 ch h
    · exact c1k_HDecimal64 ch h
    · exact c1k_HGeneric ch h
    · exact c1k_HImaginary ch h
    · exact c1k_HNoreturn ch h
    · exact c1k_HStaticHassert ch h
    · exact c1k_HThreadHlocal ch h
    · exact c1k_alignas ch h
    · exact c1k_alignof ch h
    · exact c1k_auto ch h
    · exact c1k_bool ch h
    · exact c1k_break ch h
    · exact c1k_case ch h
    · exact c1k_char ch h
    · exact c1k_const ch h
    · exact c1k_constexpr ch h
    · exact c1k_continue ch h
    · exact c1k_default ch h
    · exact c1k_do ch h
    · exact c1k_double ch h
    · exact c1k_else ch h
    · exact c1k_enum ch h
    · exact c1k_extern ch h
    · exact c1k_false ch h
    · exact c1k_float ch h
    · exact c1k_for ch h
    · exact c1k_goto ch h
    · exact c1k_if ch h
    · exact c1k_inline ch h
    · exact c1k_int ch h
    · exact c1k_long ch h
    · exact c1k_nullptr ch h
    · exact c1k_register ch h
    · exact c1k_restrict ch h
    · exact c1k_return ch h
    · exact c1k_short ch h
    · exact c1k_signed ch h
    · exact c1k_sizeof ch h
    · exact c1k_static ch h
    · exact c1k_staticHassert ch h
    · exact c1k_struct ch h
    · exact c1k_switch ch h
    · exact c1k_threadHlocal ch h
    · exact c1k_true ch h
    · exact c1k_typedef ch h
    · exact c1k_typeof ch h
    · exact c1k_typeofHunqual ch h
    · exact c1k_union ch h
    · exact c1k_unsigned ch h
    · exact c1k_void ch h
    · exact c1k_volatile ch h
    · exact c1k_while ch h


theorem c1_keyword_maximal_munch_witness :
    scan_tokens "while".data =
        some [⟨"while".data, Token.WHILE, 1, 1⟩, ⟨[], Token.END, 1, "while".data.length + 1⟩]
    ∧ scan_tokens ("while".data ++ ['z']) =
        some [⟨"while".data ++ ['z'], Token.IDENTIFIER, 1, 1⟩,
          ⟨[], Token.END, 1, "while".data.length + 2⟩] :=
  ⟨c1_keyword_maximal_munch.1 (Token.WHILE, "while".data) (by decide),
   c1_keyword_maximal_munch.2 (Token.WHILE, "while".data) (by decide) 'z' (by decide)⟩


/-! ### Support lemmas for the termination proof -/

theorem eatWs_none : ∀ (input : List Char) (r c : Nat),
    (eatWs input r c).c = none → (eatWs input r c).input = [] := by
  intro input
  induction input with
  | nil => intro r c _; rfl
  | cons ch rest ih =>
    intro r c
    simp only [eatWs]
    split
    · split <;> exact ih _ _
    · intro h; simp at h

theorem eatWs_len : ∀ (input : List Char) (r c : Nat),
    (eatWs input r c).input.length ≤ input.length := by
  intro input
  induction input with
  | nil => intro r c; exact le_refl _
  | cons ch rest ih =>
    intro r c
    simp only [eatWs]
    split
    · split <;> exact le_trans (ih _ _) (by simp)
    · simp

theorem eatWs_some_len : ∀ (input : List Char) (r c : Nat) (ch : Char),
    (eatWs input r c).c = some ch → (eatWs input r c).input.length < input.length := by
  intro input
  induction input with
  | nil => intro r c ch h; simp [eatWs] at h
  | cons k rest ih =>
    intro r c ch
    simp only [eatWs]
    split
    · split <;> (intro h; exact lt_of_lt_of_le (ih _ _ _ h) (by simp))
    · intro _; simp

theorem DoneBnd_mono {S T : Nat} {d : Done} (hST : S ≤ T) (h : DoneBnd S d) :
    DoneBnd T d :=
  ⟨le_trans h.1 hST, h.2.1, h.2.2⟩

theorem ident_start_cont (ch : Char) (h : is_ident_start ch = true) :
    is_ident_cont ch = true := by
  unfold is_ident_start at h
  unfold is_ident_cont isalnum
  rcases Bool.or_eq_true_iff.mp h with h1 | h1 <;> simp [h1]

theorem ne_nil_of_two_le {l : List Char} (h : 2 ≤ l.length) : l ≠ [] := by
  intro hn; subst hn; simp at h

theorem ne_nil_of_one_le {l : List Char} (h : 1 ≤ l.length) : l ≠ [] := by
  intro hn; subst hn; simp at h

theorem trie_facts (s : St) (hs : isTrieSt s = true) :
    s ≠ St.THE_END ∧ s ≠ St.START ∧ s ≠ St.GOT_INT_SUFFIX_START ∧
    s ≠ St.GOT_INT_LITERAL ∧ s ≠ St.GOT_IDENT ∧ escFamily s = false := by
  cases s <;> first
    | exact absurd hs (by decide)
    | exact ⟨by decide, by decide, by decide, by decide, by decide, rfl⟩

theorem rankSt_trie (s : St) (hs : isTrieSt s = true) (h b : Bool) :
    rankSt s h b = if h then 4 else 2 := by
  obtain ⟨h1, h2, _, _, _, _⟩ := trie_facts s hs
  unfold rankSt
  rw [if_neg h1, if_neg h2, if_pos hs]

theorem lexBound_trie (s : St) (hs : isTrieSt s = true) (ch : Char) (lex : List Char) :
    lexBound s ch lex = (2 ≤ lex.length) := by
  obtain ⟨h1, h2, _, h4, h5, _⟩ := trie_facts s hs
  unfold lexBound
  rw [if_neg (by simp [h1, h2]), if_neg h4, if_neg h5]

theorem Jinv_plain (st : St) (states : List St) (input lex : List Char) (row col : Nat)
    (c : Option Char) (errs : List Diag)
    (hesc : escFamily st = false) (hsuf : st ≠ St.GOT_INT_SUFFIX_START)
    (hend : st ≠ St.THE_END) (hlex : lex ≠ []) :
    Jinv ⟨st, states, input, lex, row, col, false, c, errs⟩ := by
  refine ⟨?_, ?_, ?_, ?_, ?_, ?_, ?_⟩
  · intro h; simp at h
  · intro h; simp only [] at h; rw [hesc] at h; simp at h
  · intro h; exact absurd h hsuf
  · intro h; exact absurd h hend
  · intro _ _; exact hlex
  · intro h; simp at h
  · intro h; simp at h

theorem Jinv_sufstart (states : List St) (input lex : List Char) (row col : Nat)
    (c : Option Char) (errs : List Diag)
    (hhead : isIntSuffixStartO input.head? = true) (hlex : lex ≠ []) :
    Jinv ⟨St.GOT_INT_SUFFIX_START, states, input, lex, row, col, false, c, errs⟩ := by
  refine ⟨?_, ?_, ?_, ?_, ?_, ?_, ?_⟩
  · intro h; simp at h
  · intro h; simp [escFamily] at h
  · intro _; exact Or.inr ⟨rfl, hhead⟩
  · intro h; simp at h
  · intro _ _; exact hlex
  · intro h; simp at h
  · intro h; simp at h

theorem Jinv_hold (st : St) (states : List St) (input lex : List Char) (row col : Nat)
    (c : Option Char) (errs : List Diag)
    (hesc : escFamily st = false)
    (hsuf : st = St.GOT_INT_SUFFIX_START → isIntSuffixStartO c = true)
    (hend : st ≠ St.THE_END)
    (hnone : c = none → input = [])
    (hlex5 : st ≠ St.START → lex ≠ [])
    (hlex6 : c ≠ none → lex ≠ [])
    (hbound : ∀ ch, c = some ch → lexBound st ch lex) :
    Jinv ⟨st, states, input, lex, row, col, true, c, errs⟩ := by
  refine ⟨?_, ?_, ?_, ?_, ?_, ?_, ?_⟩
  · intro _ h; exact hnone h
  · intro h; simp only [] at h; rw [hesc] at h; simp at h
  · intro h; exact Or.inl ⟨rfl, hsuf h⟩
  · intro h; exact absurd h hend
  · intro h _; exact hlex5 h
  · intro _ h; exact hlex6 h
  · intro _ ch hch; exact hbound ch hch

theorem Jinv_the_end (states : List St) (lex : List Char) (row col : Nat)
    (errs : List Diag) :
    Jinv ⟨St.THE_END, states, [], lex, row, col, true, none, errs⟩ := by
  refine ⟨?_, ?_, ?_, ?_, ?_, ?_, ?_⟩
  · intro _ _; rfl
  · intro h; simp [escFamily] at h
  · intro h; simp at h
  · intro _; rfl
  · intro _ h; exact absurd rfl h
  · intro _ h; exact absurd rfl h
  · intro _ ch hch; simp at hch


theorem go_target_facts (s' : St) (h : (isTrieSt s' || isGoSafe s') = true) :
    escFamily s' = false ∧ s' ≠ St.GOT_INT_SUFFIX_START ∧ s' ≠ St.THE_END ∧
    rankSt s' false true ≤ 2 := by
  cases s' <;> first
    | exact absurd h (by decide)
    | exact ⟨rfl, by decide, by decide, by decide⟩

theorem trieFind_prog (states : List St) (row col : Nat) (errs : List Diag) :
    ∀ (es : List TrieEdge), edgesTrieOK es = true →
    ∀ (ch : Char) (input lex : List Char), 2 ≤ lex.length →
    (∃ d, trieFind es ch input lex states row col errs = StepRes.done d ∧
        DoneBnd (input.length + lex.length) d) ∨
    (∃ cfg', trieFind es ch input lex states row col errs = StepRes.cont cfg' ∧
        Jinv cfg' ∧
        cfg'.input.length + cfg'.lex.length ≤ input.length + lex.length ∧
        8 * cfg'.input.length + rank cfg' ≤ 8 * input.length + 2) := by
  intro es
  induction es with
  | nil =>
    intro _ ch input lex hlex2
    refine Or.inr ⟨⟨St.GOT_IDENT, states, input, lex, row, col, true, some ch, errs⟩,
      rfl, ?_, le_refl _, ?_⟩
    · refine Jinv_hold _ _ _ _ _ _ _ _ rfl (fun h => absurd h (by decide)) (by decide)
        (fun h => absurd h (Option.some_ne_none ch)) (fun _ => ne_nil_of_two_le hlex2)
        (fun _ => ne_nil_of_two_le hlex2) ?_
      intro k _
      unfold lexBound
      rw [if_neg (by decide), if_neg (by decide), if_pos rfl]
      exact Or.inl hlex2
    · show 8 * input.length + rankSt St.GOT_IDENT true true ≤ 8 * input.length + 2
      have hr : rankSt St.GOT_IDENT true true = 2 := rfl
      omega
  | cons e rest ih =>
    intro hok ch input lex hlex2
    rw [edgesTrieOK, List.all_cons, Bool.and_eq_true] at hok
    obtain ⟨he, hrest⟩ := hok
    cases e with
    | go ech s' =>
      simp only [trieFind]
      by_cases hch : ch = ech
      · rw [if_pos hch]
        obtain ⟨f6, f3, f1, fr⟩ := go_target_facts s' he
        refine Or.inr ⟨⟨s', states, input, lex, row, col, false, some ch, errs⟩,
          rfl, ?_, le_refl _, ?_⟩
        · exact Jinv_plain s' states input lex row col (some ch) errs f6 f3 f1
            (ne_nil_of_two_le hlex2)
        · show 8 * input.length + rankSt s' false true ≤ 8 * input.length + 2
          omega
      · rw [if_neg hch]; exact ih hrest ch input lex hlex2
    | commit ech t n =>
      simp only [trieFind]
      by_cases hch : ch = ech
      · rw [if_pos hch]
        have ht : t ≠ Token.END := by simpa using he
        by_cases hcont : isIdentContO input.head? = true
        · rw [if_pos hcont]
          refine Or.inr ⟨⟨St.GOT_IDENT, states, input, lex, row, col, false, some ch, errs⟩,
            rfl, ?_, le_refl _, ?_⟩
          · exact Jinv_plain _ _ _ _ _ _ _ _ rfl (by decide) (by decide)
              (ne_nil_of_two_le hlex2)
          · show 8 * input.length + rankSt St.GOT_IDENT false true ≤ 8 * input.length + 2
            have hr : rankSt St.GOT_IDENT false true = 1 := rfl
            omega
        · rw [if_neg hcont]
          exact Or.inl ⟨_, rfl, le_refl _, fun hEnd => absurd hEnd ht,
            fun _ => ne_nil_of_two_le hlex2⟩
      · rw [if_neg hch]; exact ih hrest ch input lex hlex2
    | peekgo ech pk s' t n =>
      simp only [trieFind]
      by_cases hch : ch = ech
      · rw [if_pos hch]
        rw [Bool.and_eq_true] at he
        obtain ⟨hs', ht'⟩ := he
        have ht : t ≠ Token.END := by simpa using ht'
        by_cases hpk : input.head? = some pk
        · rw [if_pos hpk]
          obtain ⟨tl, rfl⟩ : ∃ tl, input = pk :: tl := by
            cases input with
            | nil => simp at hpk
            | cons a tl =>
              simp at hpk
              exact ⟨tl, by rw [hpk]⟩
          refine Or.inr ⟨⟨s', states, tl, lex ++ [pk], row, col, false, some ch, errs⟩,
            rfl, ?_, ?_, ?_⟩
          · obtain ⟨f1, f2, f3, f4, f5, f6⟩ := trie_facts s' hs'
            exact Jinv_plain s' states tl (lex ++ [pk]) row col (some ch) errs f6 f3 f1
              (by simp)
          · show tl.length + (lex ++ [pk]).length ≤ (pk :: tl).length + lex.length
            simp only [List.length_append, List.length_cons, List.length_nil]
            omega
          · show 8 * tl.length + rankSt s' false true ≤ 8 * (pk :: tl).length + 2
            have hr : rankSt s' false true = 2 := by simp [rankSt_trie s' hs']
            simp only [List.length_cons]
            omega
        · rw [if_neg hpk]
          by_cases hcont : isIdentContO input.head? = true
          · rw [if_pos hcont]
            refine Or.inr ⟨⟨St.GOT_IDENT, states, input, lex, row, col, false, some ch, errs⟩,
              rfl, ?_, le_refl _, ?_⟩
            · exact Jinv_plain _ _ _ _ _ _ _ _ rfl (by decide) (by decide)
                (ne_nil_of_two_le hlex2)
            · show 8 * input.length + rankSt St.GOT_IDENT false true ≤ 8 * input.length + 2
              have hr : rankSt St.GOT_IDENT false true = 1 := rfl
              omega
          · rw [if_neg hcont]
            exact Or.inl ⟨_, rfl, le_refl _, fun hEnd => absurd hEnd ht,
              fun _ => ne_nil_of_two_le hlex2⟩
      · rw [if_neg hch]; exact ih hrest ch input lex hlex2


theorem prog_trie (s : St) (hs : isTrieSt s = true)
    (hedges : edgesTrieOK (edgesOf s) = true)
    (states : List St) (input lex : List Char) (row col : Nat) (hold : Bool)
    (c : Option Char) (errs : List Diag)
    (hJ : Jinv ⟨s, states, input, lex, row, col, hold, c, errs⟩) :
    Prog ⟨s, states, input, lex, row, col, hold, c, errs⟩ := by
  obtain ⟨j1, j2, j3, j4, j5, j6, j7⟩ := hJ
  obtain ⟨f1, f2, f3, f4, f5, f6⟩ := trie_facts s hs
  have hlex : lex ≠ [] := j5 f2 f1
  cases hold with
  | true =>
    cases c with
    | none =>
      have hin : input = [] := j1 rfl rfl
      subst hin
      refine Or.inr ⟨⟨St.GOT_IDENT, states, [], lex, row, col, true, none, errs⟩,
        ?_, ?_, ?_, ?_⟩
      · show iterSt s none [] lex states row col errs = _
        rw [iterSt_eq_trieStep s hs]
        rfl
      · exact Jinv_hold _ _ _ _ _ _ _ _ rfl (fun h => absurd h (by decide)) (by decide)
          (fun _ => rfl) (fun _ => hlex) (fun h => absurd rfl h)
          (fun ch hch => by simp at hch)
      · show 8 * List.length [] + rankSt St.GOT_IDENT true false
            < 8 * List.length [] + rankSt s true false
        have h1 : rankSt St.GOT_IDENT true false = 1 := rfl
        have h2 : rankSt s true false = 4 := by simp [rankSt_trie s hs]
        omega
      · exact le_refl _
    | some ch =>
      have hlex2 : 2 ≤ lex.length := by
        have hb := j7 rfl ch rfl
        rw [lexBound_trie s hs] at hb
        exact hb
      have hstep : iter ⟨s, states, input, lex, row, col, true, some ch, errs⟩
          = trieFind (edgesOf s) ch input lex states row col errs := by
        show iterSt s (some ch) input lex states row col errs = _
        rw [iterSt_eq_trieStep s hs]
        rfl
      rcases trieFind_prog states row col errs (edgesOf s) hedges ch input lex hlex2 with
        ⟨d, hd, hbnd⟩ | ⟨cfg', hc', hJ', hsum, hrank⟩
      · exact Or.inl ⟨d, by rw [hstep, hd], hbnd⟩
      · refine Or.inr ⟨cfg', by rw [hstep, hc'], hJ', ?_, hsum⟩
        show meas cfg' < 8 * input.length + rankSt s true true
        have h2 : rankSt s true true = 4 := by simp [rankSt_trie s hs]
        have h3 : meas cfg' = 8 * cfg'.input.length + rank cfg' := rfl
        omega
  | false =>
    cases input with
    | nil =>
      refine Or.inr ⟨⟨St.GOT_IDENT, states, [], lex, row, col, true, none, errs⟩,
        ?_, ?_, ?_, ?_⟩
      · show iterSt s none [] lex states row col errs = _
        rw [iterSt_eq_trieStep s hs]
        rfl
      · exact Jinv_hold _ _ _ _ _ _ _ _ rfl (fun h => absurd h (by decide)) (by decide)
          (fun _ => rfl) (fun _ => hlex) (fun h => absurd rfl h)
          (fun ch hch => by simp at hch)
      · show 8 * List.length [] + rankSt St.GOT_IDENT true false
            < 8 * List.length [] + rankSt s false (Option.isSome c)
        have h1 : rankSt St.GOT_IDENT true false = 1 := rfl
        have h2 : rankSt s false (Option.isSome c) = 2 := by simp [rankSt_trie s hs]
        omega
      · exact le_refl _
    | cons ch rest =>
      have hlex2 : 2 ≤ (lex ++ [ch]).length := by
        have := List.length_pos.mpr hlex
        simp only [List.length_append, List.length_cons, List.length_nil]
        omega
      have hstep : iter ⟨s, states, ch :: rest, lex, row, col, false, c, errs⟩
          = trieFind (edgesOf s) ch rest (lex ++ [ch]) states row col errs := by
        show iterSt s (some ch) rest (lex ++ [ch]) states row col errs = _
        rw [iterSt_eq_trieStep s hs]
        rfl
      rcases trieFind_prog states row col errs (edgesOf s) hedges ch rest (lex ++ [ch])
          hlex2 with ⟨d, hd, hbnd⟩ | ⟨cfg', hc', hJ', hsum, hrank⟩
      · refine Or.inl ⟨d, by rw [hstep, hd], ?_⟩
        refine DoneBnd_mono ?_ hbnd
        show rest.length + (lex ++ [ch]).length ≤ (ch :: rest).length + lex.length
        simp only [List.length_append, List.length_cons, List.length_nil]
        omega
      · refine Or.inr ⟨cfg', by rw [hstep, hc'], hJ', ?_, ?_⟩
        · show meas cfg' < 8 * (ch :: rest).length + rankSt s false (Option.isSome c)
          have h2 : rankSt s false (Option.isSome c) = 2 := by simp [rankSt_trie s hs]
          have h3 : meas cfg' = 8 * cfg'.input.length + rank cfg' := rfl
          simp only [List.length_cons]
          omega
        · show sumC cfg' ≤ (ch :: rest).length + lex.length
          have h3 : sumC cfg' = cfg'.input.length + cfg'.lex.length := rfl
          simp only [List.length_append, List.length_cons, List.length_nil] at hsum
          simp only [List.length_cons]
          omega


/-- Generic assembly: a state whose dispatch satisfies `StepOK` with
    suitable bounds makes progress in every read/hold mode. -/
theorem prog_generic (X : St) (a b : Nat) (states : List St) (input lex : List Char)
    (row col : Nat) (hold : Bool) (c : Option Char) (errs : List Diag)
    (hX1 : X ≠ St.START) (hX2 : X ≠ St.THE_END)
    (hlb : ∀ (ch : Char) (l : List Char), lexBound X ch l → 2 ≤ l.length)
    (ha1 : a < rankSt X true true) (hb1 : b < rankSt X true false)
    (hb2 : b < rankSt X false false) (hb3 : b < rankSt X false true)
    (ha7 : a ≤ 7)
    (hJ : Jinv ⟨X, states, input, lex, row, col, hold, c, errs⟩)
    (hstep : ∀ (c' : Option Char) (input' lex' : List Char),
        lex' ≠ [] →
        (∀ ch, c' = some ch → 2 ≤ lex'.length) →
        (escFamily X = true →
          states.head? = some St.GOT_CHAR_CONST_CONT ∨
          states.head? = some St.GOT_STRING_LIT_START) →
        (c' = none → input' = []) →
        StepOK (input'.length + lex'.length)
          (8 * input'.length + (if c'.isSome then a else b))
          (iterSt X c' input' lex' states row col errs)) :
    Prog ⟨X, states, input, lex, row, col, hold, c, errs⟩ := by
  obtain ⟨j1, j2, j3, j4, j5, j6, j7⟩ := hJ
  have hlex : lex ≠ [] := j5 hX1 hX2
  cases hold with
  | true =>
    cases c with
    | none =>
      have hin : input = [] := j1 rfl rfl
      subst hin
      have hs := hstep none [] lex hlex (fun ch h => absurd h (by simp)) j2 (fun _ => rfl)
      simp only [Option.isSome_none, Bool.false_eq_true, if_false, List.length_nil] at hs
      rcases hs with ⟨d, hd, hbnd⟩ | ⟨cfg', hc', hJ', hrk, hsum⟩
      · exact Or.inl ⟨d, hd, hbnd⟩
      · refine Or.inr ⟨cfg', hc', hJ', ?_, hsum⟩
        show meas cfg' < 8 * List.length ([] : List Char) + rankSt X true false
        have h3 : meas cfg' = 8 * cfg'.input.length + rank cfg' := rfl
        simp only [List.length_nil]
        omega
    | some ch =>
      have hb2l : 2 ≤ lex.length := hlb ch lex (j7 rfl ch rfl)
      have hs := hstep (some ch) input lex hlex (fun _ _ => hb2l) j2
        (fun h => absurd h (by simp))
      simp only [Option.isSome_some, if_true] at hs
      rcases hs with ⟨d, hd, hbnd⟩ | ⟨cfg', hc', hJ', hrk, hsum⟩
      · exact Or.inl ⟨d, hd, hbnd⟩
      · refine Or.inr ⟨cfg', hc', hJ', ?_, hsum⟩
        show meas cfg' < 8 * input.length + rankSt X true true
        have h3 : meas cfg' = 8 * cfg'.input.length + rank cfg' := rfl
        omega
  | false =>
    cases input with
    | nil =>
      have hs := hstep none [] lex hlex (fun ch h => absurd h (by simp)) j2 (fun _ => rfl)
      simp only [Option.isSome_none, Bool.false_eq_true, if_false, List.length_nil] at hs
      rcases hs with ⟨d, hd, hbnd⟩ | ⟨cfg', hc', hJ', hrk, hsum⟩
      · exact Or.inl ⟨d, hd, hbnd⟩
      · refine Or.inr ⟨cfg', hc', hJ', ?_, hsum⟩
        show meas cfg' < 8 * List.length ([] : List Char) + rankSt X false (Option.isSome c)
        have h3 : meas cfg' = 8 * cfg'.input.length + rank cfg' := rfl
        have hb4 : b < rankSt X false (Option.isSome c) := by
          cases c with
          | none => exact hb2
          | some k => exact hb3
        simp only [List.length_nil]
        omega
    | cons ch rest =>
      have hlen1 : 1 ≤ lex.length := List.length_pos.mpr hlex
      have hs := hstep (some ch) rest (lex ++ [ch]) (by simp)
        (fun _ _ => by
          simp only [List.length_append, List.length_cons, List.length_nil]
          omega)
        j2 (fun h => absurd h (by simp))
      simp only [Option.isSome_some, if_true] at hs
      rcases hs with ⟨d, hd, hbnd⟩ | ⟨cfg', hc', hJ', hrk, hsum⟩
      · refine Or.inl ⟨d, hd, ?_⟩
        refine DoneBnd_mono ?_ hbnd
        show rest.length + (lex ++ [ch]).length ≤ (ch :: rest).length + lex.length
        simp only [List.length_append, List.length_cons, List.length_nil]
        omega
      · refine Or.inr ⟨cfg', hc', hJ', ?_, ?_⟩
        · show meas cfg' < 8 * (ch :: rest).length + rankSt X false (Option.isSome c)
          have h3 : meas cfg' = 8 * cfg'.input.length + rank cfg' := rfl
          simp only [List.length_cons]
          omega
        · show sumC cfg' ≤ (ch :: rest).length + lex.length
          have h3 : sumC cfg' = cfg'.input.length + cfg'.lex.length := rfl
          simp only [List.length_append, List.length_cons, List.length_nil] at hsum
          simp only [List.length_cons]
          omega


theorem Jinv_esc (st : St) (states : List St) (input lex : List Char) (row col : Nat)
    (c : Option Char) (errs : List Diag)
    (hstk : states.head? = some St.GOT_CHAR_CONST_CONT ∨
      states.head? = some St.GOT_STRING_LIT_START)
    (hsuf : st ≠ St.GOT_INT_SUFFIX_START) (hend : st ≠ St.THE_END) (hlex : lex ≠ []) :
    Jinv ⟨st, states, input, lex, row, col, false, c, errs⟩ := by
  refine ⟨?_, ?_, ?_, ?_, ?_, ?_, ?_⟩
  · intro h; simp at h
  · intro _; exact hstk
  · intro h; exact absurd h hsuf
  · intro h; exact absurd h hend
  · intro _ _; exact hlex
  · intro h; simp at h
  · intro h; simp at h

theorem lexBound_other (st : St) (h1 : ¬(st = St.START ∨ st = St.THE_END))
    (h2 : st ≠ St.GOT_INT_LITERAL) (h3 : st ≠ St.GOT_IDENT) (ch : Char)
    (lex : List Char) : lexBound st ch lex = (2 ≤ lex.length) := by
  unfold lexBound
  rw [if_neg h1, if_neg h2, if_neg h3]

theorem stepok_GOT_GT (states : List St) (row col : Nat) (errs : List Diag)
    (c' : Option Char) (input' lex' : List Char)
    (hlex : lex' ≠ [])
    (hlex2 : ∀ ch, c' = some ch → 2 ≤ lex'.length)
    (hstk : escFamily St.GOT_GT = true →
      states.head? = some St.GOT_CHAR_CONST_CONT ∨
      states.head? = some St.GOT_STRING_LIT_START)
    (hin : c' = none → input' = []) :
    StepOK (input'.length + lex'.length) (8 * input'.length + (if c'.isSome then 0 else 0))
      (iterSt St.GOT_GT c' input' lex' states row col errs) := by
  rcases c' with _ | ch
  · exact Or.inl ⟨_, rfl, le_refl _, fun h => by simp at h, fun _ => hlex⟩
  · have h2 := hlex2 ch rfl
    simp only [Option.isSome_some, if_true]
    show StepOK _ _ (step_GOT_GT (some ch) input' lex' states row col errs)
    unfold step_GOT_GT
    split
    · exact Or.inl ⟨_, rfl, le_refl _, fun h => by simp at h, fun _ => hlex⟩
    · split
      · rename_i hpk
        obtain ⟨tl, rfl⟩ : ∃ tl, input' = '=' :: tl := by
          cases input' with
          | nil => simp at hpk
          | cons a tl =>
            simp at hpk
            exact ⟨tl, by rw [hpk]⟩
        refine Or.inl ⟨_, rfl, ?_, fun h => by simp at h, fun _ => by simp [advance]⟩
        show tl.length + (lex' ++ ['=']).length ≤ ('=' :: tl).length + lex'.length
        simp only [List.length_append, List.length_cons, List.length_nil]
        omega
      · exact Or.inl ⟨_, rfl, le_refl _, fun h => by simp at h, fun _ => hlex⟩
    · refine Or.inl ⟨_, rfl, ?_, fun h => by simp at h, fun _ => ?_⟩
      · show (ch :: input').length + lex'.dropLast.length ≤ input'.length + lex'.length
        simp only [List.length_cons, List.length_dropLast]
        omega
      · apply ne_nil_of_one_le
        show 1 ≤ lex'.dropLast.length
        simp only [List.length_dropLast]
        omega

theorem prog_GOT_GT (states : List St) (input lex : List Char) (row col : Nat)
    (hold : Bool) (c : Option Char) (errs : List Diag)
    (hJ : Jinv ⟨St.GOT_GT, states, input, lex, row, col, hold, c, errs⟩) :
    Prog ⟨St.GOT_GT, states, input, lex, row, col, hold, c, errs⟩ :=
  prog_generic St.GOT_GT 0 0 states input lex row col hold c errs (by decide) (by decide)
    (fun ch l h => by
      rw [lexBound_other _ (by decide) (by decide) (by decide)] at h
      exact h)
    (by decide) (by decide) (by decide) (by decide) (by decide) hJ
    (stepok_GOT_GT states row col errs)


/-- One lemma for the `\uhhhh`-style escape chain states: a hex digit steps
    to the next state of the chain, anything else is INVALID. -/
theorem stepok_escChain (X NEXT : St) (msg : String) (a : Nat)
    (hXesc : escFamily X = true) (hN1 : NEXT ≠ St.GOT_INT_SUFFIX_START)
    (hN2 : NEXT ≠ St.THE_END) (hr : rankSt NEXT false true ≤ a)
    (states : List St) (row col : Nat) (errs : List Diag)
    (c' : Option Char) (input' lex' : List Char)
    (hlex : lex' ≠ [])
    (hlex2 : ∀ ch, c' = some ch → 2 ≤ lex'.length)
    (hstk : escFamily X = true →
      states.head? = some St.GOT_CHAR_CONST_CONT ∨
      states.head? = some St.GOT_STRING_LIT_START)
    (hin : c' = none → input' = [])
    (hstepeq : iterSt X c' input' lex' states row col errs
      = if isxdigitO c' = true then nextst NEXT c' input' lex' states row col errs
        else rinvalid input' lex' row col (errs ++ [⟨row, col, msg⟩])) :
    StepOK (input'.length + lex'.length) (8 * input'.length + (if c'.isSome then a else 0))
      (iterSt X c' input' lex' states row col errs) := by
  rw [hstepeq]
  rcases c' with _ | ch
  · rw [if_neg (by simp [isxdigitO])]
    exact Or.inl ⟨_, rfl, le_refl _, fun h => by simp at h, fun _ => hlex⟩
  · simp only [Option.isSome_some, if_true]
    by_cases hx : isxdigitO (some ch) = true
    · rw [if_pos hx]
      refine Or.inr ⟨⟨NEXT, states, input', lex', row, col, false, some ch, errs⟩,
        rfl, ?_, ?_, le_refl _⟩
      · exact Jinv_esc NEXT states input' lex' row col (some ch) errs (hstk hXesc) hN1 hN2 hlex
      · show 8 * input'.length + rankSt NEXT false true ≤ 8 * input'.length + a
        omega
    · rw [if_neg hx]
      exact Or.inl ⟨_, rfl, le_refl _, fun h => by simp at h, fun _ => hlex⟩


theorem prog_GOT_ESCAPE_SEQUENCE_BS_u0 (states : List St) (input lex : List Char) (row col : Nat)
    (hold : Bool) (c : Option Char) (errs : List Diag)
    (hJ : Jinv ⟨St.GOT_ESCAPE_SEQUENCE_BS_u0, states, input, lex, row, col, hold, c, errs⟩) :
    Prog ⟨St.GOT_ESCAPE_SEQUENCE_BS_u0, states, input, lex, row, col, hold, c, errs⟩ :=
  prog_generic St.GOT_ESCAPE_SEQUENCE_BS_u0 2 0 states input lex row col hold c errs (by decide) (by decide)
    (fun ch l h => by
      rw [lexBound_other _ (by decide) (by decide) (by decide)] at h
      exact h)
    (by decide) (by decide) (by decide) (by decide) (by decide) hJ
    (fun c' i' l' h1 h2 h3 h4 =>
      stepok_escChain St.GOT_ESCAPE_SEQUENCE_BS_u0 St.GOT_ESCAPE_SEQUENCE_BS_u1 _ 2 rfl (by decide) (by decide) (by decide)
        states row col errs c' i' l' h1 h2 h3 h4 rfl)


theorem prog_GOT_ESCAPE_SEQUENCE_BS_u1 (states : List St) (input lex : List Char) (row col : Nat)
    (hold : Bool) (c : Option Char) (errs : List Diag)
    (hJ : Jinv ⟨St.GOT_ESCAPE_SEQUENCE_BS_u1, states, input, lex, row, col, hold, c, errs⟩) :
    Prog ⟨St.GOT_ESCAPE_SEQUENCE_BS_u1, states, input, lex, row, col, hold, c, errs⟩ :=
  prog_generic St.GOT_ESCAPE_SEQUENCE_BS_u1 2 0 states input lex row col hold c errs (by decide) (by decide)
    (fun ch l h => by
      rw [lexBound_other _ (by decide) (by decide) (by decide)] at h
      exact h)
    (by decide) (by decide) (by decide) (by decide) (by decide) hJ
    (fun c' i' l' h1 h2 h3 h4 =>
      stepok_escChain St.GOT_ESCAPE_SEQUENCE_BS_u1 St.GOT_ESCAPE_SEQUENCE_BS_u2 _ 2 rfl (by decide) (by decide) (by decide)
        states row col errs c' i' l' h1 h2 h3 h4 rfl)


theorem prog_GOT_ESCAPE_SEQUENCE_BS_u2 (states : List St) (input lex : List Char) (row col : Nat)
    (hold : Bool) (c : Option Char) (errs : List Diag)
    (hJ : Jinv ⟨St.GOT_ESCAPE_SEQUENCE_BS_u2, states, input, lex, row, col, hold, c, errs⟩) :
    Prog ⟨St.GOT_ESCAPE_SEQUENCE_BS_u2, states, input, lex, row, col, hold, c, errs⟩ :=
  prog_generic St.GOT_ESCAPE_SEQUENCE_BS_u2 2 0 states input lex row col hold c errs (by decide) (by decide)
    (fun ch l h => by
      rw [lexBound_other _ (by decide) (by decide) (by decide)] at h
      exact h)
    (by decide) (by decide) (by decide) (by decide) (by decide) hJ
    (fun c' i' l' h1 h2 h3 h4 =>
      stepok_escChain St.GOT_ESCAPE_SEQUENCE_BS_u2 St.GOT_ESCAPE_SEQUENCE_BS_u3 _ 2 rfl (by decide) (by decide) (by decide)
        states row col errs c' i' l' h1 h2 h3 h4 rfl)


theorem prog_GOT_ESCAPE_SEQUENCE_BS_U0 (states : List St) (input lex : List Char) (row col : Nat)
    (hold : Bool) (c : Option Char) (errs : List Diag)
    (hJ : Jinv ⟨St.GOT_ESCAPE_SEQUENCE_BS_U0, states, input, lex, row, col, hold, c, errs⟩) :
    Prog ⟨St.GOT_ESCAPE_SEQUENCE_BS_U0, states, input, lex, row, col, hold, c, errs⟩ :=
  prog_generic St.GOT_ESCAPE_SEQUENCE_BS_U0 2 0 states input lex row col hold c errs (by decide) (by decide)
    (fun ch l h => by
      rw [lexBound_other _ (by decide) (by decide) (by decide)] at h
      exact h)
    (by decide) (by decide) (by decide) (by decide) (by decide) hJ
    (fun c' i' l' h1 h2 h3 h4 =>
      stepok_escChain St.GOT_ESCAPE_SEQUENCE_BS_U0 St.GOT_ESCAPE_SEQUENCE_BS_U1 _ 2 rfl (by decide) (by decide) (by decide)
        states row col errs c' i' l' h1 h2 h3 h4 rfl)


theorem prog_GOT_ESCAPE_SEQUENCE_BS_U1 (states : List St) (input lex : List Char) (row col : Nat)
    (hold : Bool) (c : Option Char) (errs : List Diag)
    (hJ : Jinv ⟨St.GOT_ESCAPE_SEQUENCE_BS_U1, states, input, lex, row, col, hold, c, errs⟩) :
    Prog ⟨St.GOT_ESCAPE_SEQUENCE_BS_U1, states, input, lex, row, col, hold, c, errs⟩ :=
  prog_generic St.GOT_ESCAPE_SEQUENCE_BS_U1 2 0 states input lex row col hold c errs (by decide) (by decide)
    (fun ch l h => by
      rw [lexBound_other _ (by decide) (by decide) (by decide)] at h
      exact h)
    (by decide) (by decide) (by decide) (by decide) (by decide) hJ
    (fun c' i' l' h1 h2 h3 h4 =>
      stepok_escChain St.GOT_ESCAPE_SEQUENCE_BS_U1 St.GOT_ESCAPE_SEQUENCE_BS_U2 _ 2 rfl (by decide) (by decide) (by decide)
        states row col errs c' i' l' h1 h2 h3 h4 rfl)


theorem prog_GOT_ESCAPE_SEQUENCE_BS_U2 (states : List St) (input lex : List Char) (row col : Nat)
    (hold : Bool) (c : Option Char) (errs : List Diag)
    (hJ : Jinv ⟨St.GOT_ESCAPE_SEQUENCE_BS_U2, states, input, lex, row, col, hold, c, errs⟩) :
    Prog ⟨St.GOT_ESCAPE_SEQUENCE_BS_U2, states, input, lex, row, col, hold, c, errs⟩ :=
  prog_generic St.GOT_ESCAPE_SEQUENCE_BS_U2 2 0 states input lex row col hold c errs (by decide) (by decide)
    (fun ch l h => by
      rw [lexBound_other _ (by decide) (by decide) (by decide)] at h
      exact h)
    (by decide) (by decide) (by decide) (by decide) (by decide) hJ
    (fun c' i' l' h1 h2 h3 h4 =>
      stepok_escChain St.GOT_ESCAPE_SEQUENCE_BS_U2 St.GOT_ESCAPE_SEQUENCE_BS_U3 _ 2 rfl (by decide) (by decide) (by decide)
        states row col errs c' i' l' h1 h2 h3 h4 rfl)


theorem prog_GOT_ESCAPE_SEQUENCE_BS_U3 (states : List St) (input lex : List Char) (row col : Nat)
    (hold : Bool) (c : Option Char) (errs : List Diag)
    (hJ : Jinv ⟨St.GOT_ESCAPE_SEQUENCE_BS_U3, states, input, lex, row, col, hold, c, errs⟩) :
    Prog ⟨St.GOT_ESCAPE_SEQUENCE_BS_U3, states, input, lex, row, col, hold, c, errs⟩ :=
  prog_generic St.GOT_ESCAPE_SEQUENCE_BS_U3 2 0 states input lex row col hold c errs (by decide) (by decide)
    (fun ch l h => by
      rw [lexBound_other _ (by decide) (by decide) (by decide)] at h
      exact h)
    (by decide) (by decide) (by decide) (by decide) (by decide) hJ
    (fun c' i' l' h1 h2 h3 h4 =>
      stepok_escChain St.GOT_ESCAPE_SEQUENCE_BS_U3 St.GOT_ESCAPE_SEQUENCE_BS_U4 _ 2 rfl (by decide) (by decide) (by decide)
        states row col errs c' i' l' h1 h2 h3 h4 rfl)


theorem prog_GOT_ESCAPE_SEQUENCE_BS_U4 (states : List St) (input lex : List Char) (row col : Nat)
    (hold : Bool) (c : Option Char) (errs : List Diag)
    (hJ : Jinv ⟨St.GOT_ESCAPE_SEQUENCE_BS_U4, states, input, lex, row, col, hold, c, errs⟩) :
    Prog ⟨St.GOT_ESCAPE_SEQUENCE_BS_U4, states, input, lex, row, col, hold, c, errs⟩ :=
  prog_generic St.GOT_ESCAPE_SEQUENCE_BS_U4 2 0 states input lex row col hold c errs (by decide) (by decide)
    (fun ch l h => by
      rw [lexBound_other _ (by decide) (by decide) (by decide)] at h
      exact h)
    (by decide) (by decide) (by decide) (by decide) (by decide) hJ
    (fun c' i' l' h1 h2 h3 h4 =>
      stepok_escChain St.GOT_ESCAPE_SEQUENCE_BS_U4 St.GOT_ESCAPE_SEQUENCE_BS_U5 _ 2 rfl (by decide) (by decide) (by decide)
        states row col errs c' i' l' h1 h2 h3 h4 rfl)


theorem prog_GOT_ESCAPE_SEQUENCE_BS_U5 (states : List St) (input lex : List Char) (row col : Nat)
    (hold : Bool) (c : Option Char) (errs : List Diag)
    (hJ : Jinv ⟨St.GOT_ESCAPE_SEQUENCE_BS_U5, states, input, lex, row, col, hold, c, errs⟩) :
    Prog ⟨St.GOT_ESCAPE_SEQUENCE_BS_U5, states, input, lex, row, col, hold, c, errs⟩ :=
  prog_generic St.GOT_ESCAPE_SEQUENCE_BS_U5 2 0 states input lex row col hold c errs (by decide) (by decide)
    (fun ch l h => by
      rw [lexBound_other _ (by decide) (by decide) (by decide)] at h
      exact h)
    (by decide) (by decide) (by decide) (by decide) (by decide) hJ
    (fun c' i' l' h1 h2 h3 h4 =>
      stepok_escChain St.GOT_ESCAPE_SEQUENCE_BS_U5 St.GOT_ESCAPE_SEQUENCE_BS_U6 _ 2 rfl (by decide) (by decide) (by decide)
        states row col errs c' i' l' h1 h2 h3 h4 rfl)


theorem prog_GOT_ESCAPE_SEQUENCE_BS_U6 (states : List St) (input lex : List Char) (row col : Nat)
    (hold : Bool) (c : Option Char) (errs : List Diag)
    (hJ : Jinv ⟨St.GOT_ESCAPE_SEQUENCE_BS_U6, states, input, lex, row, col, hold, c, errs⟩) :
    Prog ⟨St.GOT_ESCAPE_SEQUENCE_BS_U6, states, input, lex, row, col, hold, c, errs⟩ :=
  prog_generic St.GOT_ESCAPE_SEQUENCE_BS_U6 2 0 states input lex row col hold c errs (by decide) (by decide)
    (fun ch l h => by
      rw [lexBound_other _ (by decide) (by decide) (by decide)] at h
      exact h)
    (by decide) (by decide) (by decide) (by decide) (by decide) hJ
    (fun c' i' l' h1 h2 h3 h4 =>
      stepok_escChain St.GOT_ESCAPE_SEQUENCE_BS_U6 St.GOT_ESCAPE_SEQUENCE_BS_U7 _ 2 rfl (by decide) (by decide) (by decide)
        states row col errs c' i' l' h1 h2 h3 h4 rfl)


theorem prog_GOT_ESCAPE_SEQUENCE_BS_x (states : List St) (input lex : List Char) (row col : Nat)
    (hold : Bool) (c : Option Char) (errs : List Diag)
    (hJ : Jinv ⟨St.GOT_ESCAPE_SEQUENCE_BS_x, states, input, lex, row, col, hold, c, errs⟩) :
    Prog ⟨St.GOT_ESCAPE_SEQUENCE_BS_x, states, input, lex, row, col, hold, c, errs⟩ :=
  prog_generic St.GOT_ESCAPE_SEQUENCE_BS_x 4 0 states input lex row col hold c errs (by decide) (by decide)
    (fun ch l h => by
      rw [lexBound_other _ (by decide) (by decide) (by decide)] at h
      exact h)
    (by decide) (by decide) (by decide) (by decide) (by decide) hJ
    (fun c' i' l' h1 h2 h3 h4 =>
      stepok_escChain St.GOT_ESCAPE_SEQUENCE_BS_x St.GOT_ESCAPE_SEQUENCE_BS_x_XDIGIT _ 4 rfl (by decide) (by decide) (by decide)
        states row col errs c' i' l' h1 h2 h3 h4 rfl)

theorem stepok_GOT_LT (states : List St) (row col : Nat) (errs : List Diag)
    (c' : Option Char) (input' lex' : List Char)
    (hlex : lex' ≠ [])
    (hlex2 : ∀ ch, c' = some ch → 2 ≤ lex'.length)
    (hstk : escFamily St.GOT_LT = true →
      states.head? = some St.GOT_CHAR_CONST_CONT ∨
      states.head? = some St.GOT_STRING_LIT_START)
    (hin : c' = none → input' = []) :
    StepOK (input'.length + lex'.length) (8 * input'.length + (if c'.isSome then 0 else 0))
      (iterSt St.GOT_LT c' input' lex' states row col errs) := by
  rcases c' with _ | ch
  · exact Or.inl ⟨_, rfl, le_refl _, fun h => by simp at h, fun _ => hlex⟩
  · have h2 := hlex2 ch rfl
    simp only [Option.isSome_some, if_true]
    show StepOK _ _ (step_GOT_LT (some ch) input' lex' states row col errs)
    unfold step_GOT_LT
    split
    · exact Or.inl ⟨_, rfl, le_refl _, fun h => by simp at h, fun _ => hlex⟩
    · split
      ·
        rename_i hpk
        obtain ⟨k, tl, rfl⟩ : ∃ k tl, input' = k :: tl := by
          cases input' with
          | nil => simp at hpk
          | cons a tl => exact ⟨a, tl, rfl⟩
        refine Or.inl ⟨_, rfl, ?_, fun h => by simp at h, fun _ => by simp [advance]⟩
        show tl.length + (lex' ++ [k]).length ≤ (k :: tl).length + lex'.length
        simp only [List.length_append, List.length_cons, List.length_nil]
        omega
      · exact Or.inl ⟨_, rfl, le_refl _, fun h => by simp at h, fun _ => hlex⟩
    ·
      refine Or.inl ⟨_, rfl, ?_, fun h => by simp at h, fun _ => ?_⟩
      · show (ch :: input').length + lex'.dropLast.length ≤ input'.length + lex'.length
        simp only [List.length_cons, List.length_dropLast]
        omega
      · apply ne_nil_of_one_le
        show 1 ≤ lex'.dropLast.length
        simp only [List.length_dropLast]
        omega

theorem prog_GOT_LT (states : List St) (input lex : List Char) (row col : Nat)
    (hold : Bool) (c : Option Char) (errs : List Diag)
    (hJ : Jinv ⟨St.GOT_LT, states, input, lex, row, col, hold, c, errs⟩) :
    Prog ⟨St.GOT_LT, states, input, lex, row, col, hold, c, errs⟩ :=
  prog_generic St.GOT_LT 0 0 states input lex row col hold c errs (by decide) (by decide)
    (fun ch l h => by
      rw [lexBound_other _ (by decide) (by decide) (by decide)] at h
      exact h)
    (by decide) (by decide) (by decide) (by decide) (by decide) hJ
    (stepok_GOT_LT states row col errs)

theorem stepok_GOT_FLOAT_CONST_e_SUFd (states : List St) (row col : Nat) (errs : List Diag)
    (c' : Option Char) (input' lex' : List Char)
    (hlex : lex' ≠ [])
    (hlex2 : ∀ ch, c' = some ch → 2 ≤ lex'.length)
    (hstk : escFamily St.GOT_FLOAT_CONST_e_SUFd = true →
      states.head? = some St.GOT_CHAR_CONST_CONT ∨
      states.head? = some St.GOT_STRING_LIT_START)
    (hin : c' = none → input' = []) :
    StepOK (input'.length + lex'.length) (8 * input'.length + (if c'.isSome then 0 else 0))
      (iterSt St.GOT_FLOAT_CONST_e_SUFd c' input' lex' states row col errs) := by
  rcases c' with _ | ch
  · exact Or.inl ⟨_, rfl, le_refl _, fun h => by simp at h, fun _ => hlex⟩
  · have h2 := hlex2 ch rfl
    simp only [Option.isSome_some, if_true]
    show StepOK _ _ (step_GOT_FLOAT_CONST_e_SUFd (some ch) input' lex' states row col errs)
    unfold step_GOT_FLOAT_CONST_e_SUFd
    split <;>
      first
        | exact Or.inl ⟨_, rfl, le_refl _, fun h => by simp at h, fun _ => hlex⟩
        | (split
           · rename_i hpk
             obtain ⟨k, tl, rfl⟩ : ∃ k tl, input' = k :: tl := by
               cases input' with
               | nil => first | simp at hpk | (rcases hpk with h | h <;> simp at h)
               | cons a tl => exact ⟨a, tl, rfl⟩
             refine Or.inl ⟨_, rfl, ?_, fun h => by simp at h, fun _ => by simp [advance]⟩
             show tl.length + (lex' ++ [k]).length ≤ (k :: tl).length + lex'.length
             simp only [List.length_append, List.length_cons, List.length_nil]
             omega
           · exact Or.inl ⟨_, rfl, le_refl _, fun h => by simp at h, fun _ => hlex⟩)
        | (refine Or.inl ⟨_, rfl, ?_, fun h => by simp at h, fun _ => ?_⟩
           · show (ch :: input').length + lex'.dropLast.length ≤ input'.length + lex'.length
             simp only [List.length_cons, List.length_dropLast]
             omega
           · apply ne_nil_of_one_le
             show 1 ≤ lex'.dropLast.length
             simp only [List.length_dropLast]
             omega)

theorem prog_GOT_FLOAT_CONST_e_SUFd (states : List St) (input lex : List Char) (row col : Nat)
    (hold : Bool) (c : Option Char) (errs : List Diag)
    (hJ : Jinv ⟨St.GOT_FLOAT_CONST_e_SUFd, states, input, lex, row, col, hold, c, errs⟩) :
    Prog ⟨St.GOT_FLOAT_CONST_e_SUFd, states, input, lex, row, col, hold, c, errs⟩ :=
  prog_generic St.GOT_FLOAT_CONST_e_SUFd 0 0 states input lex row col hold c errs (by decide) (by decide)
    (fun ch l h => by
      rw [lexBound_other _ (by decide) (by decide) (by decide)] at h
      exact h)
    (by decide) (by decide) (by decide) (by decide) (by decide) hJ
    (stepok_GOT_FLOAT_CONST_e_SUFd states row col errs)

theorem stepok_GOT_FLOAT_CONST_e_SUFD (states : List St) (row col : Nat) (errs : List Diag)
    (c' : Option Char) (input' lex' : List Char)
    (hlex : lex' ≠ [])
    (hlex2 : ∀ ch, c' = some ch → 2 ≤ lex'.length)
    (hstk : escFamily St.GOT_FLOAT_CONST_e_SUFD = true →
      states.head? = some St.GOT_CHAR_CONST_CONT ∨
      states.head? = some St.GOT_STRING_LIT_START)
    (hin : c' = none → input' = []) :
    StepOK (input'.length + lex'.length) (8 * input'.length + (if c'.isSome then 0 else 0))
      (iterSt St.GOT_FLOAT_CONST_e_SUFD c' input' lex' states row col errs) := by
  rcases c' with _ | ch
  · exact Or.inl ⟨_, rfl, le_refl _, fun h => by simp at h, fun _ => hlex⟩
  · have h2 := hlex2 ch rfl
    simp only [Option.isSome_some, if_true]
    show StepOK _ _ (step_GOT_FLOAT_CONST_e_SUFD (some ch) input' lex' states row col errs)
    unfold step_GOT_FLOAT_CONST_e_SUFD
    split <;>
      first
        | exact Or.inl ⟨_, rfl, le_refl _, fun h => by simp at h, fun _ => hlex⟩
        | (split
           · rename_i hpk
             obtain ⟨k, tl, rfl⟩ : ∃ k tl, input' = k :: tl := by
               cases input' with
               | nil => first | simp at hpk | (rcases hpk with h | h <;> simp at h)
               | cons a tl => exact ⟨a, tl, rfl⟩
             refine Or.inl ⟨_, rfl, ?_, fun h => by simp at h, fun _ => by simp [advance]⟩
             show tl.length + (lex' ++ [k]).length ≤ (k :: tl).length + lex'.length
             simp only [List.length_append, List.length_cons, List.length_nil]
             omega
           · exact Or.inl ⟨_, rfl, le_refl _, fun h => by simp at h, fun _ => hlex⟩)
        | (refine Or.inl ⟨_, rfl, ?_, fun h => by simp at h, fun _ => ?_⟩
           · show (ch :: input').length + lex'.dropLast.length ≤ input'.length + lex'.length
             simp only [List.length_cons, List.length_dropLast]
             omega
           · apply ne_nil_of_one_le
             show 1 ≤ lex'.dropLast.length
             simp only [List.length_dropLast]
             omega)

theorem prog_GOT_FLOAT_CONST_e_SUFD (states : List St) (input lex : List Char) (row col : Nat)
    (hold : Bool) (c : Option Char) (errs : List Diag)
    (hJ : Jinv ⟨St.GOT_FLOAT_CONST_e_SUFD, states, input, lex, row, col, hold, c, errs⟩) :
    Prog ⟨St.GOT_FLOAT_CONST_e_SUFD, states, input, lex, row, col, hold, c, errs⟩ :=
  prog_generic St.GOT_FLOAT_CONST_e_SUFD 0 0 states input lex row col hold c errs (by decide) (by decide)
    (fun ch l h => by
      rw [lexBound_other _ (by decide) (by decide) (by decide)] at h
      exact h)
    (by decide) (by decide) (by decide) (by decide) (by decide) hJ
    (stepok_GOT_FLOAT_CONST_e_SUFD states row col errs)

theorem stepok_GOT_INT_SUFFIX_u (states : List St) (row col : Nat) (errs : List Diag)
    (c' : Option Char) (input' lex' : List Char)
    (hlex : lex' ≠ [])
    (hlex2 : ∀ ch, c' = some ch → 2 ≤ lex'.length)
    (hstk : escFamily St.GOT_INT_SUFFIX_u = true →
      states.head? = some St.GOT_CHAR_CONST_CONT ∨
      states.head? = some St.GOT_STRING_LIT_START)
    (hin : c' = none → input' = []) :
    StepOK (input'.length + lex'.length) (8 * input'.length + (if c'.isSome then 0 else 0))
      (iterSt St.GOT_INT_SUFFIX_u c' input' lex' states row col errs) := by
  rcases c' with _ | ch
  · exact Or.inl ⟨_, rfl, le_refl _, fun h => by simp at h, fun _ => hlex⟩
  · have h2 := hlex2 ch rfl
    simp only [Option.isSome_some, if_true]
    show StepOK _ _ (step_GOT_INT_SUFFIX_u (some ch) input' lex' states row col errs)
    unfold step_GOT_INT_SUFFIX_u
    split <;>
      first
        | exact Or.inl ⟨_, rfl, le_refl _, fun h => by simp at h, fun _ => hlex⟩
        | (split
           · rename_i hpk
             obtain ⟨k, tl, rfl⟩ : ∃ k tl, input' = k :: tl := by
               cases input' with
               | nil => first | simp at hpk | (rcases hpk with h | h <;> simp at h)
               | cons a tl => exact ⟨a, tl, rfl⟩
             refine Or.inl ⟨_, rfl, ?_, fun h => by simp at h, fun _ => by simp [advance]⟩
             show tl.length + (lex' ++ [k]).length ≤ (k :: tl).length + lex'.length
             simp only [List.length_append, List.length_cons, List.length_nil]
             omega
           · exact Or.inl ⟨_, rfl, le_refl _, fun h => by simp at h, fun _ => hlex⟩)
        | (refine Or.inl ⟨_, rfl, ?_, fun h => by simp at h, fun _ => ?_⟩
           · show (ch :: input').length + lex'.dropLast.length ≤ input'.length + lex'.length
             simp only [List.length_cons, List.length_dropLast]
             omega
           · apply ne_nil_of_one_le
             show 1 ≤ lex'.dropLast.length
             simp only [List.length_dropLast]
             omega)

theorem prog_GOT_INT_SUFFIX_u (states : List St) (input lex : List Char) (row col : Nat)
    (hold : Bool) (c : Option Char) (errs : List Diag)
    (hJ : Jinv ⟨St.GOT_INT_SUFFIX_u, states, input, lex, row, col, hold, c, errs⟩) :
    Prog ⟨St.GOT_INT_SUFFIX_u, states, input, lex, row, col, hold, c, errs⟩ :=
  prog_generic St.GOT_INT_SUFFIX_u 0 0 states input lex row col hold c errs (by decide) (by decide)
    (fun ch l h => by
      rw [lexBound_other _ (by decide) (by decide) (by decide)] at h
      exact h)
    (by decide) (by decide) (by decide) (by decide) (by decide) hJ
    (stepok_GOT_INT_SUFFIX_u states row col errs)

theorem stepok_GOT_INT_SUFFIX_U (states : List St) (row col : Nat) (errs : List Diag)
    (c' : Option Char) (input' lex' : List Char)
    (hlex : lex' ≠ [])
    (hlex2 : ∀ ch, c' = some ch → 2 ≤ lex'.length)
    (hstk : escFamily St.GOT_INT_SUFFIX_U = true →
      states.head? = some St.GOT_CHAR_CONST_CONT ∨
      states.head? = some St.GOT_STRING_LIT_START)
    (hin : c' = none → input' = []) :
    StepOK (input'.length + lex'.length) (8 * input'.length + (if c'.isSome then 0 else 0))
      (iterSt St.GOT_INT_SUFFIX_U c' input' lex' states row col errs) := by
  rcases c' with _ | ch
  · exact Or.inl ⟨_, rfl, le_refl _, fun h => by simp at h, fun _ => hlex⟩
  · have h2 := hlex2 ch rfl
    simp only [Option.isSome_some, if_true]
    show StepOK _ _ (step_GOT_INT_SUFFIX_U (some ch) input' lex' states row col errs)
    unfold step_GOT_INT_SUFFIX_U
    split <;>
      first
        | exact Or.inl ⟨_, rfl, le_refl _, fun h => by simp at h, fun _ => hlex⟩
        | (split
           · rename_i hpk
             obtain ⟨k, tl, rfl⟩ : ∃ k tl, input' = k :: tl := by
               cases input' with
               | nil => first | simp at hpk | (rcases hpk with h | h <;> simp at h)
               | cons a tl => exact ⟨a, tl, rfl⟩
             refine Or.inl ⟨_, rfl, ?_, fun h => by simp at h, fun _ => by simp [advance]⟩
             show tl.length + (lex' ++ [k]).length ≤ (k :: tl).length + lex'.length
             simp only [List.length_append, List.length_cons, List.length_nil]
             omega
           · exact Or.inl ⟨_, rfl, le_refl _, fun h => by simp at h, fun _ => hlex⟩)
        | (refine Or.inl ⟨_, rfl, ?_, fun h => by simp at h, fun _ => ?_⟩
           · show (ch :: input').length + lex'.dropLast.length ≤ input'.length + lex'.length
             simp only [List.length_cons, List.length_dropLast]
             omega
           · apply ne_nil_of_one_le
             show 1 ≤ lex'.dropLast.length
             simp only [List.length_dropLast]
             omega)

theorem prog_GOT_INT_SUFFIX_U (states : List St) (input lex : List Char) (row col : Nat)
    (hold : Bool) (c : Option Char) (errs : List Diag)
    (hJ : Jinv ⟨St.GOT_INT_SUFFIX_U, states, input, lex, row, col, hold, c, errs⟩) :
    Prog ⟨St.GOT_INT_SUFFIX_U, states, input, lex, row, col, hold, c, errs⟩ :=
  prog_generic St.GOT_INT_SUFFIX_U 0 0 states input lex row col hold c errs (by decide) (by decide)
    (fun ch l h => by
      rw [lexBound_other _ (by decide) (by decide) (by decide)] at h
      exact h)
    (by decide) (by decide) (by decide) (by decide) (by decide) hJ
    (stepok_GOT_INT_SUFFIX_U states row col errs)

theorem stepok_GOT_INT_SUFFIX_l (states : List St) (row col : Nat) (errs : List Diag)
    (c' : Option Char) (input' lex' : List Char)
    (hlex : lex' ≠ [])
    (hlex2 : ∀ ch, c' = some ch → 2 ≤ lex'.length)
    (hstk : escFamily St.GOT_INT_SUFFIX_l = true →
      states.head? = some St.GOT_CHAR_CONST_CONT ∨
      states.head? = some St.GOT_STRING_LIT_START)
    (hin : c' = none → input' = []) :
    StepOK (input'.length + lex'.length) (8 * input'.length + (if c'.isSome then 0 else 0))
      (iterSt St.GOT_INT_SUFFIX_l c' input' lex' states row col errs) := by
  rcases c' with _ | ch
  · exact Or.inl ⟨_, rfl, le_refl _, fun h => by simp at h, fun _ => hlex⟩
  · have h2 := hlex2 ch rfl
    simp only [Option.isSome_some, if_true]
    show StepOK _ _ (step_GOT_INT_SUFFIX_l (some ch) input' lex' states row col errs)
    unfold step_GOT_INT_SUFFIX_l
    split <;>
      first
        | exact Or.inl ⟨_, rfl, le_refl _, fun h => by simp at h, fun _ => hlex⟩
        | (split
           · rename_i hpk
             obtain ⟨k, tl, rfl⟩ : ∃ k tl, input' = k :: tl := by
               cases input' with
               | nil => first | simp at hpk | (rcases hpk with h | h <;> simp at h)
               | cons a tl => exact ⟨a, tl, rfl⟩
             refine Or.inl ⟨_, rfl, ?_, fun h => by simp at h, fun _ => by simp [advance]⟩
             show tl.length + (lex' ++ [k]).length ≤ (k :: tl).length + lex'.length
             simp only [List.length_append, List.length_cons, List.length_nil]
             omega
           · exact Or.inl ⟨_, rfl, le_refl _, fun h => by simp at h, fun _ => hlex⟩)
        | (refine Or.inl ⟨_, rfl, ?_, fun h => by simp at h, fun _ => ?_⟩
           · show (ch :: input').length + lex'.dropLast.length ≤ input'.length + lex'.length
             simp only [List.length_cons, List.length_dropLast]
             omega
           · apply ne_nil_of_one_le
             show 1 ≤ lex'.dropLast.length
             simp only [List.length_dropLast]
             omega)

theorem prog_GOT_INT_SUFFIX_l (states : List St) (input lex : List Char) (row col : Nat)
    (hold : Bool) (c : Option Char) (errs : List Diag)
    (hJ : Jinv ⟨St.GOT_INT_SUFFIX_l, states, input, lex, row, col, hold, c, errs⟩) :
    Prog ⟨St.GOT_INT_SUFFIX_l, states, input, lex, row, col, hold, c, errs⟩ :=
  prog_generic St.GOT_INT_SUFFIX_l 0 0 states input lex row col hold c errs (by decide) (by decide)
    (fun ch l h => by
      rw [lexBound_other _ (by decide) (by decide) (by decide)] at h
      exact h)
    (by decide) (by decide) (by decide) (by decide) (by decide) hJ
    (stepok_GOT_INT_SUFFIX_l states row col errs)

theorem stepok_GOT_INT_SUFFIX_L (states : List St) (row col : Nat) (errs : List Diag)
    (c' : Option Char) (input' lex' : List Char)
    (hlex : lex' ≠ [])
    (hlex2 : ∀ ch, c' = some ch → 2 ≤ lex'.length)
    (hstk : escFamily St.GOT_INT_SUFFIX_L = true →
      states.head? = some St.GOT_CHAR_CONST_CONT ∨
      states.head? = some St.GOT_STRING_LIT_START)
    (hin : c' = none → input' = []) :
    StepOK (input'.length + lex'.length) (8 * input'.length + (if c'.isSome then 0 else 0))
      (iterSt St.GOT_INT_SUFFIX_L c' input' lex' states row col errs) := by
  rcases c' with _ | ch
  · exact Or.inl ⟨_, rfl, le_refl _, fun h => by simp at h, fun _ => hlex⟩
  · have h2 := hlex2 ch rfl
    simp only [Option.isSome_some, if_true]
    show StepOK _ _ (step_GOT_INT_SUFFIX_L (some ch) input' lex' states row col errs)
    unfold step_GOT_INT_SUFFIX_L
    split <;>
      first
        | exact Or.inl ⟨_, rfl, le_refl _, fun h => by simp at h, fun _ => hlex⟩
        | (split
           · rename_i hpk
             obtain ⟨k, tl, rfl⟩ : ∃ k tl, input' = k :: tl := by
               cases input' with
               | nil => first | simp at hpk | (rcases hpk with h | h <;> simp at h)
               | cons a tl => exact ⟨a, tl, rfl⟩
             refine Or.inl ⟨_, rfl, ?_, fun h => by simp at h, fun _ => by simp [advance]⟩
             show tl.length + (lex' ++ [k]).length ≤ (k :: tl).length + lex'.length
             simp only [List.length_append, List.length_cons, List.length_nil]
             omega
           · exact Or.inl ⟨_, rfl, le_refl _, fun h => by simp at h, fun _ => hlex⟩)
        | (refine Or.inl ⟨_, rfl, ?_, fun h => by simp at h, fun _ => ?_⟩
           · show (ch :: input').length + lex'.dropLast.length ≤ input'.length + lex'.length
             simp only [List.length_cons, List.length_dropLast]
             omega
           · apply ne_nil_of_one_le
             show 1 ≤ lex'.dropLast.length
             simp only [List.length_dropLast]
             omega)

theorem prog_GOT_INT_SUFFIX_L (states : List St) (input lex : List Char) (row col : Nat)
    (hold : Bool) (c : Option Char) (errs : List Diag)
    (hJ : Jinv ⟨St.GOT_INT_SUFFIX_L, states, input, lex, row, col, hold, c, errs⟩) :
    Prog ⟨St.GOT_INT_SUFFIX_L, states, input, lex, row, col, hold, c, errs⟩ :=
  prog_generic St.GOT_INT_SUFFIX_L 0 0 states input lex row col hold c errs (by decide) (by decide)
    (fun ch l h => by
      rw [lexBound_other _ (by decide) (by decide) (by decide)] at h
      exact h)
    (by decide) (by decide) (by decide) (by decide) (by decide) hJ
    (stepok_GOT_INT_SUFFIX_L states row col errs)

theorem stepok_GOT_INT_SUFFIX_w (states : List St) (row col : Nat) (errs : List Diag)
    (c' : Option Char) (input' lex' : List Char)
    (hlex : lex' ≠ [])
    (hlex2 : ∀ ch, c' = some ch → 2 ≤ lex'.length)
    (hstk : escFamily St.GOT_INT_SUFFIX_w = true →
      states.head? = some St.GOT_CHAR_CONST_CONT ∨
      states.head? = some St.GOT_STRING_LIT_START)
    (hin : c' = none → input' = []) :
    StepOK (input'.length + lex'.length) (8 * input'.length + (if c'.isSome then 0 else 0))
      (iterSt St.GOT_INT_SUFFIX_w c' input' lex' states row col errs) := by
  rcases c' with _ | ch
  · exact Or.inl ⟨_, rfl, le_refl _, fun h => by simp at h, fun _ => hlex⟩
  · have h2 := hlex2 ch rfl
    simp only [Option.isSome_some, if_true]
    show StepOK _ _ (step_GOT_INT_SUFFIX_w (some ch) input' lex' states row col errs)
    unfold step_GOT_INT_SUFFIX_w
    split <;>
      first
        | exact Or.inl ⟨_, rfl, le_refl _, fun h => by simp at h, fun _ => hlex⟩
        | (split
           · rename_i hpk
             obtain ⟨k, tl, rfl⟩ : ∃ k tl, input' = k :: tl := by
               cases input' with
               | nil => first | simp at hpk | (rcases hpk with h | h <;> simp at h)
               | cons a tl => exact ⟨a, tl, rfl⟩
             refine Or.inl ⟨_, rfl, ?_, fun h => by simp at h, fun _ => by simp [advance]⟩
             show tl.length + (lex' ++ [k]).length ≤ (k :: tl).length + lex'.length
             simp only [List.length_append, List.length_cons, List.length_nil]
             omega
           · exact Or.inl ⟨_, rfl, le_refl _, fun h => by simp at h, fun _ => hlex⟩)
        | (refine Or.inl ⟨_, rfl, ?_, fun h => by simp at h, fun _ => ?_⟩
           · show (ch :: input').length + lex'.dropLast.length ≤ input'.length + lex'.length
             simp only [List.length_cons, List.length_dropLast]
             omega
           · apply ne_nil_of_one_le
             show 1 ≤ lex'.dropLast.length
             simp only [List.length_dropLast]
             omega)

theorem prog_GOT_INT_SUFFIX_w (states : List St) (input lex : List Char) (row col : Nat)
    (hold : Bool) (c : Option Char) (errs : List Diag)
    (hJ : Jinv ⟨St.GOT_INT_SUFFIX_w, states, input, lex, row, col, hold, c, errs⟩) :
    Prog ⟨St.GOT_INT_SUFFIX_w, states, input, lex, row, col, hold, c, errs⟩ :=
  prog_generic St.GOT_INT_SUFFIX_w 0 0 states input lex row col hold c errs (by decide) (by decide)
    (fun ch l h => by
      rw [lexBound_other _ (by decide) (by decide) (by decide)] at h
      exact h)
    (by decide) (by decide) (by decide) (by decide) (by decide) hJ
    (stepok_GOT_INT_SUFFIX_w states row col errs)

theorem stepok_GOT_INT_SUFFIX_W (states : List St) (row col : Nat) (errs : List Diag)
    (c' : Option Char) (input' lex' : List Char)
    (hlex : lex' ≠ [])
    (hlex2 : ∀ ch, c' = some ch → 2 ≤ lex'.length)
    (hstk : escFamily St.GOT_INT_SUFFIX_W = true →
      states.head? = some St.GOT_CHAR_CONST_CONT ∨
      states.head? = some St.GOT_STRING_LIT_START)
    (hin : c' = none → input' = []) :
    StepOK (input'.length + lex'.length) (8 * input'.length + (if c'.isSome then 0 else 0))
      (iterSt St.GOT_INT_SUFFIX_W c' input' lex' states row col errs) := by
  rcases c' with _ | ch
  · exact Or.inl ⟨_, rfl, le_refl _, fun h => by simp at h, fun _ => hlex⟩
  · have h2 := hlex2 ch rfl
    simp only [Option.isSome_some, if_true]
    show StepOK _ _ (step_GOT_INT_SUFFIX_W (some ch) input' lex' states row col errs)
    unfold step_GOT_INT_SUFFIX_W
    split <;>
      first
        | exact Or.inl ⟨_, rfl, le_refl _, fun h => by simp at h, fun _ => hlex⟩
        | (split
           · rename_i hpk
             obtain ⟨k, tl, rfl⟩ : ∃ k tl, input' = k :: tl := by
               cases input' with
               | nil => first | simp at hpk | (rcases hpk with h | h <;> simp at h)
               | cons a tl => exact ⟨a, tl, rfl⟩
             refine Or.inl ⟨_, rfl, ?_, fun h => by simp at h, fun _ => by simp [advance]⟩
             show tl.length + (lex' ++ [k]).length ≤ (k :: tl).length + lex'.length
             simp only [List.length_append, List.length_cons, List.length_nil]
             omega
           · exact Or.inl ⟨_, rfl, le_refl _, fun h => by simp at h, fun _ => hlex⟩)
        | (refine Or.inl ⟨_, rfl, ?_, fun h => by simp at h, fun _ => ?_⟩
           · show (ch :: input').length + lex'.dropLast.length ≤ input'.length + lex'.length
             simp only [List.length_cons, List.length_dropLast]
             omega
           · apply ne_nil_of_one_le
             show 1 ≤ lex'.dropLast.length
             simp only [List.length_dropLast]
             omega)

theorem prog_GOT_INT_SUFFIX_W (states : List St) (input lex : List Char) (row col : Nat)
    (hold : Bool) (c : Option Char) (errs : List Diag)
    (hJ : Jinv ⟨St.GOT_INT_SUFFIX_W, states, input, lex, row, col, hold, c, errs⟩) :
    Prog ⟨St.GOT_INT_SUFFIX_W, states, input, lex, row, col, hold, c, errs⟩ :=
  prog_generic St.GOT_INT_SUFFIX_W 0 0 states input lex row col hold c errs (by decide) (by decide)
    (fun ch l h => by
      rw [lexBound_other _ (by decide) (by decide) (by decide)] at h
      exact h)
    (by decide) (by decide) (by decide) (by decide) (by decide) hJ
    (stepok_GOT_INT_SUFFIX_W states row col errs)


theorem stepok_GOT_FLOAT_CONST_e_SIGN (states : List St) (row col : Nat) (errs : List Diag)
    (c' : Option Char) (input' lex' : List Char)
    (hlex : lex' ≠ [])
    (hlex2 : ∀ ch, c' = some ch → 2 ≤ lex'.length)
    (hstk : escFamily St.GOT_FLOAT_CONST_e_SIGN = true →
      states.head? = some St.GOT_CHAR_CONST_CONT ∨
      states.head? = some St.GOT_STRING_LIT_START)
    (hin : c' = none → input' = []) :
    StepOK (input'.length + lex'.length) (8 * input'.length + (if c'.isSome then 1 else 0))
      (iterSt St.GOT_FLOAT_CONST_e_SIGN c' input' lex' states row col errs) := by
  rcases c' with _ | ch
  · simp only [Option.isSome_none, Bool.false_eq_true, if_false]
    exact Or.inl ⟨_, rfl, le_refl _, fun h => by simp at h, fun _ => hlex⟩
  · have h2 := hlex2 ch rfl
    simp only [Option.isSome_some, if_true]
    show StepOK _ _ (step_GOT_FLOAT_CONST_e_SIGN (some ch) input' lex' states row col errs)
    unfold step_GOT_FLOAT_CONST_e_SIGN
    split
    · refine Or.inr ⟨⟨St.GOT_FLOAT_CONST_e_SIGN_DIG, states, input', lex', row, col, false, some ch, errs⟩, rfl,
        Jinv_plain _ _ _ _ _ _ _ _ rfl (by decide) (by decide) hlex, ?_, le_refl _⟩
      show 8 * input'.length + rankSt St.GOT_FLOAT_CONST_e_SIGN_DIG false true ≤ 8 * input'.length + 1
      have hv : rankSt St.GOT_FLOAT_CONST_e_SIGN_DIG false true = 1 := rfl
      omega
    · refine Or.inl ⟨_, rfl, ?_, fun h => by simp at h, fun _ => ?_⟩
      · show (ch :: input').length + lex'.dropLast.length ≤ input'.length + lex'.length
        simp only [List.length_cons, List.length_dropLast]
        omega
      · apply ne_nil_of_one_le
        show 1 ≤ lex'.dropLast.length
        simp only [List.length_dropLast]
        omega

theorem prog_GOT_FLOAT_CONST_e_SIGN (states : List St) (input lex : List Char) (row col : Nat)
    (hold : Bool) (c : Option Char) (errs : List Diag)
    (hJ : Jinv ⟨St.GOT_FLOAT_CONST_e_SIGN, states, input, lex, row, col, hold, c, errs⟩) :
    Prog ⟨St.GOT_FLOAT_CONST_e_SIGN, states, input, lex, row, col, hold, c, errs⟩ :=
  prog_generic St.GOT_FLOAT_CONST_e_SIGN 1 0 states input lex row col hold c errs (by decide) (by decide)
    (fun ch l h => by
      rw [lexBound_other _ (by decide) (by decide) (by decide)] at h
      exact h)
    (by decide) (by decide) (by decide) (by decide) (by decide) hJ
    (stepok_GOT_FLOAT_CONST_e_SIGN states row col errs)

theorem stepok_GOT_HEX_CONST_p_SIGN (states : List St) (row col : Nat) (errs : List Diag)
    (c' : Option Char) (input' lex' : List Char)
    (hlex : lex' ≠ [])
    (hlex2 : ∀ ch, c' = some ch → 2 ≤ lex'.length)
    (hstk : escFamily St.GOT_HEX_CONST_p_SIGN = true →
      states.head? = some St.GOT_CHAR_CONST_CONT ∨
      states.head? = some St.GOT_STRING_LIT_START)
    (hin : c' = none → input' = []) :
    StepOK (input'.length + lex'.length) (8 * input'.length + (if c'.isSome then 2 else 0))
      (iterSt St.GOT_HEX_CONST_p_SIGN c' input' lex' states row col errs) := by
  rcases c' with _ | ch
  · simp only [Option.isSome_none, Bool.false_eq_true, if_false]
    exact Or.inl ⟨_, rfl, le_refl _, fun h => by simp at h, fun _ => hlex⟩
  · have h2 := hlex2 ch rfl
    simp only [Option.isSome_some, if_true]
    show StepOK _ _ (step_GOT_HEX_CONST_p_SIGN (some ch) input' lex' states row col errs)
    unfold step_GOT_HEX_CONST_p_SIGN
    split
    · refine Or.inr ⟨⟨St.GOT_HEX_CONST_p_SIGN_DIG, states, input', lex', row, col, false, some ch, errs⟩, rfl,
        Jinv_plain _ _ _ _ _ _ _ _ rfl (by decide) (by decide) hlex, ?_, le_refl _⟩
      show 8 * input'.length + rankSt St.GOT_HEX_CONST_p_SIGN_DIG false true ≤ 8 * input'.length + 2
      have hv : rankSt St.GOT_HEX_CONST_p_SIGN_DIG false true = 2 := rfl
      omega
    · refine Or.inl ⟨_, rfl, ?_, fun h => by simp at h, fun _ => ?_⟩
      · show (ch :: input').length + lex'.dropLast.length ≤ input'.length + lex'.length
        simp only [List.length_cons, List.length_dropLast]
        omega
      · apply ne_nil_of_one_le
        show 1 ≤ lex'.dropLast.length
        simp only [List.length_dropLast]
        omega

theorem prog_GOT_HEX_CONST_p_SIGN (states : List St) (input lex : List Char) (row col : Nat)
    (hold : Bool) (c : Option Char) (errs : List Diag)
    (hJ : Jinv ⟨St.GOT_HEX_CONST_p_SIGN, states, input, lex, row, col, hold, c, errs⟩) :
    Prog ⟨St.GOT_HEX_CONST_p_SIGN, states, input, lex, row, col, hold, c, errs⟩ :=
  prog_generic St.GOT_HEX_CONST_p_SIGN 2 0 states input lex row col hold c errs (by decide) (by decide)
    (fun ch l h => by
      rw [lexBound_other _ (by decide) (by decide) (by decide)] at h
      exact h)
    (by decide) (by decide) (by decide) (by decide) (by decide) hJ
    (stepok_GOT_HEX_CONST_p_SIGN states row col errs)

theorem stepok_GOT_0x_DOT (states : List St) (row col : Nat) (errs : List Diag)
    (c' : Option Char) (input' lex' : List Char)
    (hlex : lex' ≠ [])
    (hlex2 : ∀ ch, c' = some ch → 2 ≤ lex'.length)
    (hstk : escFamily St.GOT_0x_DOT = true →
      states.head? = some St.GOT_CHAR_CONST_CONT ∨
      states.head? = some St.GOT_STRING_LIT_START)
    (hin : c' = none → input' = []) :
    StepOK (input'.length + lex'.length) (8 * input'.length + (if c'.isSome then 2 else 0))
      (iterSt St.GOT_0x_DOT c' input' lex' states row col errs) := by
  rcases c' with _ | ch
  · simp only [Option.isSome_none, Bool.false_eq_true, if_false]
    exact Or.inl ⟨_, rfl, le_refl _, fun h => by simp at h, fun _ => hlex⟩
  · have h2 := hlex2 ch rfl
    simp only [Option.isSome_some, if_true]
    show StepOK _ _ (step_GOT_0x_DOT (some ch) input' lex' states row col errs)
    unfold step_GOT_0x_DOT
    split
    · refine Or.inr ⟨⟨St.GOT_HEX_CONST_DOT_XDIGIT, states, input', lex', row, col, false, some ch, errs⟩, rfl,
        Jinv_plain _ _ _ _ _ _ _ _ rfl (by decide) (by decide) hlex, ?_, le_refl _⟩
      show 8 * input'.length + rankSt St.GOT_HEX_CONST_DOT_XDIGIT false true ≤ 8 * input'.length + 2
      have hv : rankSt St.GOT_HEX_CONST_DOT_XDIGIT false true = 2 := rfl
      omega
    · refine Or.inl ⟨_, rfl, ?_, fun h => by simp at h, fun _ => ?_⟩
      · show (ch :: input').length + lex'.dropLast.length ≤ input'.length + lex'.length
        simp only [List.length_cons, List.length_dropLast]
        omega
      · apply ne_nil_of_one_le
        show 1 ≤ lex'.dropLast.length
        simp only [List.length_dropLast]
        omega

theorem prog_GOT_0x_DOT (states : List St) (input lex : List Char) (row col : Nat)
    (hold : Bool) (c : Option Char) (errs : List Diag)
    (hJ : Jinv ⟨St.GOT_0x_DOT, states, input, lex, row, col, hold, c, errs⟩) :
    Prog ⟨St.GOT_0x_DOT, states, input, lex, row, col, hold, c, errs⟩ :=
  prog_generic St.GOT_0x_DOT 2 0 states input lex row col hold c errs (by decide) (by decide)
    (fun ch l h => by
      rw [lexBound_other _ (by decide) (by decide) (by decide)] at h
      exact h)
    (by decide) (by decide) (by decide) (by decide) (by decide) hJ
    (stepok_GOT_0x_DOT states row col errs)

theorem stepok_GOT_FLOAT_CONST_e (states : List St) (row col : Nat) (errs : List Diag)
    (c' : Option Char) (input' lex' : List Char)
    (hlex : lex' ≠ [])
    (hlex2 : ∀ ch, c' = some ch → 2 ≤ lex'.length)
    (hstk : escFamily St.GOT_FLOAT_CONST_e = true →
      states.head? = some St.GOT_CHAR_CONST_CONT ∨
      states.head? = some St.GOT_STRING_LIT_START)
    (hin : c' = none → input' = []) :
    StepOK (input'.length + lex'.length) (8 * input'.length + (if c'.isSome then 2 else 0))
      (iterSt St.GOT_FLOAT_CONST_e c' input' lex' states row col errs) := by
  rcases c' with _ | ch
  · simp only [Option.isSome_none, Bool.false_eq_true, if_false]
    exact Or.inl ⟨_, rfl, le_refl _, fun h => by simp at h, fun _ => hlex⟩
  · have h2 := hlex2 ch rfl
    simp only [Option.isSome_some, if_true]
    show StepOK _ _ (step_GOT_FLOAT_CONST_e (some ch) input' lex' states row col errs)
    unfold step_GOT_FLOAT_CONST_e
    split
    · refine Or.inr ⟨⟨St.GOT_FLOAT_CONST_e_SIGN, states, input', lex', row, col, false, some ch, errs⟩, rfl,
        Jinv_plain _ _ _ _ _ _ _ _ rfl (by decide) (by decide) hlex, ?_, le_refl _⟩
      show 8 * input'.length + rankSt St.GOT_FLOAT_CONST_e_SIGN false true ≤ 8 * input'.length + 2
      have hv : rankSt St.GOT_FLOAT_CONST_e_SIGN false true = 2 := rfl
      omega
    · refine Or.inr ⟨⟨St.GOT_FLOAT_CONST_e_SIGN, states, input', lex', row, col, false, some ch, errs⟩, rfl,
        Jinv_plain _ _ _ _ _ _ _ _ rfl (by decide) (by decide) hlex, ?_, le_refl _⟩
      show 8 * input'.length + rankSt St.GOT_FLOAT_CONST_e_SIGN false true ≤ 8 * input'.length + 2
      have hv : rankSt St.GOT_FLOAT_CONST_e_SIGN false true = 2 := rfl
      omega
    · split
      · refine Or.inr ⟨⟨St.GOT_FLOAT_CONST_e_SIGN_DIG, states, input', lex', row, col, false, some ch, errs⟩, rfl,
          Jinv_plain _ _ _ _ _ _ _ _ rfl (by decide) (by decide) hlex, ?_, le_refl _⟩
        show 8 * input'.length + rankSt St.GOT_FLOAT_CONST_e_SIGN_DIG false true ≤ 8 * input'.length + 2
        have hv : rankSt St.GOT_FLOAT_CONST_e_SIGN_DIG false true = 1 := rfl
        omega
      · refine Or.inl ⟨_, rfl, ?_, fun h => by simp at h, fun _ => ?_⟩
        · show (ch :: input').length + lex'.dropLast.length ≤ input'.length + lex'.length
          simp only [List.length_cons, List.length_dropLast]
          omega
        · apply ne_nil_of_one_le
          show 1 ≤ lex'.dropLast.length
          simp only [List.length_dropLast]
          omega

theorem prog_GOT_FLOAT_CONST_e (states : List St) (input lex : List Char) (row col : Nat)
    (hold : Bool) (c : Option Char) (errs : List Diag)
    (hJ : Jinv ⟨St.GOT_FLOAT_CONST_e, states, input, lex, row, col, hold, c, errs⟩) :
    Prog ⟨St.GOT_FLOAT_CONST_e, states, input, lex, row, col, hold, c, errs⟩ :=
  prog_generic St.GOT_FLOAT_CONST_e 2 0 states input lex row col hold c errs (by decide) (by decide)
    (fun ch l h => by
      rw [lexBound_other _ (by decide) (by decide) (by decide)] at h
      exact h)
    (by decide) (by decide) (by decide) (by decide) (by decide) hJ
    (stepok_GOT_FLOAT_CONST_e states row col errs)

theorem stepok_GOT_HEX_CONST_p (states : List St) (row col : Nat) (errs : List Diag)
    (c' : Option Char) (input' lex' : List Char)
    (hlex : lex' ≠ [])
    (hlex2 : ∀ ch, c' = some ch → 2 ≤ lex'.length)
    (hstk : escFamily St.GOT_HEX_CONST_p = true →
      states.head? = some St.GOT_CHAR_CONST_CONT ∨
      states.head? = some St.GOT_STRING_LIT_START)
    (hin : c' = none → input' = []) :
    StepOK (input'.length + lex'.length) (8 * input'.length + (if c'.isSome then 2 else 0))
      (iterSt St.GOT_HEX_CONST_p c' input' lex' states row col errs) := by
  rcases c' with _ | ch
  · simp only [Option.isSome_none, Bool.false_eq_true, if_false]
    exact Or.inl ⟨_, rfl, le_refl _, fun h => by simp at h, fun _ => hlex⟩
  · have h2 := hlex2 ch rfl
    simp only [Option.isSome_some, if_true]
    show StepOK _ _ (step_GOT_HEX_CONST_p (some ch) input' lex' states row col errs)
    unfold step_GOT_HEX_CONST_p
    split
    · refine Or.inr ⟨⟨St.GOT_HEX_CONST_p_SIGN, states, input', lex', row, col, false, some ch, errs⟩, rfl,
        Jinv_plain _ _ _ _ _ _ _ _ rfl (by decide) (by decide) hlex, ?_, le_refl _⟩
      show 8 * input'.length + rankSt St.GOT_HEX_CONST_p_SIGN false true ≤ 8 * input'.length + 2
      have hv : rankSt St.GOT_HEX_CONST_p_SIGN false true = 2 := rfl
      omega
    · refine Or.inr ⟨⟨St.GOT_HEX_CONST_p_SIGN, states, input', lex', row, col, false, some ch, errs⟩, rfl,
        Jinv_plain _ _ _ _ _ _ _ _ rfl (by decide) (by decide) hlex, ?_, le_refl _⟩
      show 8 * input'.length + rankSt St.GOT_HEX_CONST_p_SIGN false true ≤ 8 * input'.length + 2
      have hv : rankSt St.GOT_HEX_CONST_p_SIGN false true = 2 := rfl
      omega
    · split
      · refine Or.inr ⟨⟨St.GOT_HEX_CONST_p_SIGN_DIG, states, input', lex', row, col, false, some ch, errs⟩, rfl,
          Jinv_plain _ _ _ _ _ _ _ _ rfl (by decide) (by decide) hlex, ?_, le_refl _⟩
        show 8 * input'.length + rankSt St.GOT_HEX_CONST_p_SIGN_DIG false true ≤ 8 * input'.length + 2
        have hv : rankSt St.GOT_HEX_CONST_p_SIGN_DIG false true = 2 := rfl
        omega
      · refine Or.inl ⟨_, rfl, ?_, fun h => by simp at h, fun _ => ?_⟩
        · show (ch :: input').length + lex'.dropLast.length ≤ input'.length + lex'.length
          simp only [List.length_cons, List.length_dropLast]
          omega
        · apply ne_nil_of_one_le
          show 1 ≤ lex'.dropLast.length
          simp only [List.length_dropLast]
          omega

theorem prog_GOT_HEX_CONST_p (states : List St) (input lex : List Char) (row col : Nat)
    (hold : Bool) (c : Option Char) (errs : List Diag)
    (hJ : Jinv ⟨St.GOT_HEX_CONST_p, states, input, lex, row, col, hold, c, errs⟩) :
    Prog ⟨St.GOT_HEX_CONST_p, states, input, lex, row, col, hold, c, errs⟩ :=
  prog_generic St.GOT_HEX_CONST_p 2 0 states input lex row col hold c errs (by decide) (by decide)
    (fun ch l h => by
      rw [lexBound_other _ (by decide) (by decide) (by decide)] at h
      exact h)
    (by decide) (by decide) (by decide) (by decide) (by decide) hJ
    (stepok_GOT_HEX_CONST_p states row col errs)

theorem stepok_GOT_BIN_CONST_START (states : List St) (row col : Nat) (errs : List Diag)
    (c' : Option Char) (input' lex' : List Char)
    (hlex : lex' ≠ [])
    (hlex2 : ∀ ch, c' = some ch → 2 ≤ lex'.length)
    (hstk : escFamily St.GOT_BIN_CONST_START = true →
      states.head? = some St.GOT_CHAR_CONST_CONT ∨
      states.head? = some St.GOT_STRING_LIT_START)
    (hin : c' = none → input' = []) :
    StepOK (input'.length + lex'.length) (8 * input'.length + (if c'.isSome then 1 else 0))
      (iterSt St.GOT_BIN_CONST_START c' input' lex' states row col errs) := by
  rcases c' with _ | ch
  · simp only [Option.isSome_none, Bool.false_eq_true, if_false]
    exact Or.inl ⟨_, rfl, le_refl _, fun h => by simp at h, fun _ => hlex⟩
  · have h2 := hlex2 ch rfl
    simp only [Option.isSome_some, if_true]
    show StepOK _ _ (step_GOT_BIN_CONST_START (some ch) input' lex' states row col errs)
    unfold step_GOT_BIN_CONST_START
    split
    · refine Or.inr ⟨⟨St.GOT_BIN_CONST_CONT, states, input', lex', row, col, false, some ch, errs⟩, rfl,
        Jinv_plain _ _ _ _ _ _ _ _ rfl (by decide) (by decide) hlex, ?_, le_refl _⟩
      show 8 * input'.length + rankSt St.GOT_BIN_CONST_CONT false true ≤ 8 * input'.length + 1
      have hv : rankSt St.GOT_BIN_CONST_CONT false true = 1 := rfl
      omega
    · refine Or.inr ⟨⟨St.GOT_BIN_CONST_CONT, states, input', lex', row, col, false, some ch, errs⟩, rfl,
        Jinv_plain _ _ _ _ _ _ _ _ rfl (by decide) (by decide) hlex, ?_, le_refl _⟩
      show 8 * input'.length + rankSt St.GOT_BIN_CONST_CONT false true ≤ 8 * input'.length + 1
      have hv : rankSt St.GOT_BIN_CONST_CONT false true = 1 := rfl
      omega
    · refine Or.inl ⟨_, rfl, ?_, fun h => by simp at h, fun _ => ?_⟩
      · show (ch :: input').length + lex'.dropLast.length ≤ input'.length + lex'.length
        simp only [List.length_cons, List.length_dropLast]
        omega
      · apply ne_nil_of_one_le
        show 1 ≤ lex'.dropLast.length
        simp only [List.length_dropLast]
        omega

theorem prog_GOT_BIN_CONST_START (states : List St) (input lex : List Char) (row col : Nat)
    (hold : Bool) (c : Option Char) (errs : List Diag)
    (hJ : Jinv ⟨St.GOT_BIN_CONST_START, states, input, lex, row, col, hold, c, errs⟩) :
    Prog ⟨St.GOT_BIN_CONST_START, states, input, lex, row, col, hold, c, errs⟩ :=
  prog_generic St.GOT_BIN_CONST_START 1 0 states input lex row col hold c errs (by decide) (by decide)
    (fun ch l h => by
      rw [lexBound_other _ (by decide) (by decide) (by decide)] at h
      exact h)
    (by decide) (by decide) (by decide) (by decide) (by decide) hJ
    (stepok_GOT_BIN_CONST_START states row col errs)

theorem stepok_GOT_FLOAT_CONST_e_SIGN_DIG (states : List St) (row col : Nat) (errs : List Diag)
    (c' : Option Char) (input' lex' : List Char)
    (hlex : lex' ≠ [])
    (hlex2 : ∀ ch, c' = some ch → 2 ≤ lex'.length)
    (hstk : escFamily St.GOT_FLOAT_CONST_e_SIGN_DIG = true →
      states.head? = some St.GOT_CHAR_CONST_CONT ∨
      states.head? = some St.GOT_STRING_LIT_START)
    (hin : c' = none → input' = []) :
    StepOK (input'.length + lex'.length) (8 * input'.length + (if c'.isSome then 2 else 0))
      (iterSt St.GOT_FLOAT_CONST_e_SIGN_DIG c' input' lex' states row col errs) := by
  rcases c' with _ | ch
  · simp only [Option.isSome_none, Bool.false_eq_true, if_false]
    exact Or.inl ⟨_, rfl, le_refl _, fun h => by simp at h, fun _ => hlex⟩
  · have h2 := hlex2 ch rfl
    simp only [Option.isSome_some, if_true]
    show StepOK _ _ (step_GOT_FLOAT_CONST_e_SIGN_DIG (some ch) input' lex' states row col errs)
    unfold step_GOT_FLOAT_CONST_e_SIGN_DIG
    split
    · exact Or.inl ⟨_, rfl, le_refl _, fun h => by simp at h, fun _ => hlex⟩
    · exact Or.inl ⟨_, rfl, le_refl _, fun h => by simp at h, fun _ => hlex⟩
    · exact Or.inl ⟨_, rfl, le_refl _, fun h => by simp at h, fun _ => hlex⟩
    · exact Or.inl ⟨_, rfl, le_refl _, fun h => by simp at h, fun _ => hlex⟩
    · refine Or.inr ⟨⟨St.GOT_FLOAT_CONST_e_SUFd, states, input', lex', row, col, false, some ch, errs⟩, rfl,
        Jinv_plain _ _ _ _ _ _ _ _ rfl (by decide) (by decide) hlex, ?_, le_refl _⟩
      show 8 * input'.length + rankSt St.GOT_FLOAT_CONST_e_SUFd false true ≤ 8 * input'.length + 2
      have hv : rankSt St.GOT_FLOAT_CONST_e_SUFd false true = 2 := rfl
      omega
    · refine Or.inr ⟨⟨St.GOT_FLOAT_CONST_e_SUFD, states, input', lex', row, col, false, some ch, errs⟩, rfl,
        Jinv_plain _ _ _ _ _ _ _ _ rfl (by decide) (by decide) hlex, ?_, le_refl _⟩
      show 8 * input'.length + rankSt St.GOT_FLOAT_CONST_e_SUFD false true ≤ 8 * input'.length + 2
      have hv : rankSt St.GOT_FLOAT_CONST_e_SUFD false true = 2 := rfl
      omega
    · refine Or.inr ⟨⟨St.GOT_FLOAT_CONST_e_SIGN_DIG, states, input', lex', row, col, false, some ch, errs⟩, rfl,
        Jinv_plain _ _ _ _ _ _ _ _ rfl (by decide) (by decide) hlex, ?_, le_refl _⟩
      show 8 * input'.length + rankSt St.GOT_FLOAT_CONST_e_SIGN_DIG false true ≤ 8 * input'.length + 2
      have hv : rankSt St.GOT_FLOAT_CONST_e_SIGN_DIG false true = 1 := rfl
      omega
    · split
      · refine Or.inr ⟨⟨St.GOT_FLOAT_CONST_e_SIGN_DIG, states, input', lex', row, col, false, some ch, errs⟩, rfl,
          Jinv_plain _ _ _ _ _ _ _ _ rfl (by decide) (by decide) hlex, ?_, le_refl _⟩
        show 8 * input'.length + rankSt St.GOT_FLOAT_CONST_e_SIGN_DIG false true ≤ 8 * input'.length + 2
        have hv : rankSt St.GOT_FLOAT_CONST_e_SIGN_DIG false true = 1 := rfl
        omega
      · refine Or.inl ⟨_, rfl, ?_, fun h => by simp at h, fun _ => ?_⟩
        · show (ch :: input').length + lex'.dropLast.length ≤ input'.length + lex'.length
          simp only [List.length_cons, List.length_dropLast]
          omega
        · apply ne_nil_of_one_le
          show 1 ≤ lex'.dropLast.length
          simp only [List.length_dropLast]
          omega

theorem prog_GOT_FLOAT_CONST_e_SIGN_DIG (states : List St) (input lex : List Char) (row col : Nat)
    (hold : Bool) (c : Option Char) (errs : List Diag)
    (hJ : Jinv ⟨St.GOT_FLOAT_CONST_e_SIGN_DIG, states, input, lex, row, col, hold, c, errs⟩) :
    Prog ⟨St.GOT_FLOAT_CONST_e_SIGN_DIG, states, input, lex, row, col, hold, c, errs⟩ :=
  prog_generic St.GOT_FLOAT_CONST_e_SIGN_DIG 2 0 states input lex row col hold c errs (by decide) (by decide)
    (fun ch l h => by
      rw [lexBound_other _ (by decide) (by decide) (by decide)] at h
      exact h)
    (by decide) (by decide) (by decide) (by decide) (by decide) hJ
    (stepok_GOT_FLOAT_CONST_e_SIGN_DIG states row col errs)

theorem stepok_GOT_HEX_CONST_DOT_XDIGIT (states : List St) (row col : Nat) (errs : List Diag)
    (c' : Option Char) (input' lex' : List Char)
    (hlex : lex' ≠ [])
    (hlex2 : ∀ ch, c' = some ch → 2 ≤ lex'.length)
    (hstk : escFamily St.GOT_HEX_CONST_DOT_XDIGIT = true →
      states.head? = some St.GOT_CHAR_CONST_CONT ∨
      states.head? = some St.GOT_STRING_LIT_START)
    (hin : c' = none → input' = []) :
    StepOK (input'.length + lex'.length) (8 * input'.length + (if c'.isSome then 2 else 0))
      (iterSt St.GOT_HEX_CONST_DOT_XDIGIT c' input' lex' states row col errs) := by
  rcases c' with _ | ch
  · simp only [Option.isSome_none, Bool.false_eq_true, if_false]
    exact Or.inl ⟨_, rfl, le_refl _, fun h => by simp at h, fun _ => hlex⟩
  · have h2 := hlex2 ch rfl
    simp only [Option.isSome_some, if_true]
    show StepOK _ _ (step_GOT_HEX_CONST_DOT_XDIGIT (some ch) input' lex' states row col errs)
    unfold step_GOT_HEX_CONST_DOT_XDIGIT
    split
    · refine Or.inr ⟨⟨St.GOT_HEX_CONST_p, states, input', lex', row, col, false, some ch, errs⟩, rfl,
        Jinv_plain _ _ _ _ _ _ _ _ rfl (by decide) (by decide) hlex, ?_, le_refl _⟩
      show 8 * input'.length + rankSt St.GOT_HEX_CONST_p false true ≤ 8 * input'.length + 2
      have hv : rankSt St.GOT_HEX_CONST_p false true = 2 := rfl
      omega
    · refine Or.inr ⟨⟨St.GOT_HEX_CONST_p, states, input', lex', row, col, false, some ch, errs⟩, rfl,
        Jinv_plain _ _ _ _ _ _ _ _ rfl (by decide) (by decide) hlex, ?_, le_refl _⟩
      show 8 * input'.length + rankSt St.GOT_HEX_CONST_p false true ≤ 8 * input'.length + 2
      have hv : rankSt St.GOT_HEX_CONST_p false true = 2 := rfl
      omega
    · refine Or.inr ⟨⟨St.GOT_HEX_CONST_DOT_XDIGIT, states, input', lex', row, col, false, some ch, errs⟩, rfl,
        Jinv_plain _ _ _ _ _ _ _ _ rfl (by decide) (by decide) hlex, ?_, le_refl _⟩
      show 8 * input'.length + rankSt St.GOT_HEX_CONST_DOT_XDIGIT false true ≤ 8 * input'.length + 2
      have hv : rankSt St.GOT_HEX_CONST_DOT_XDIGIT false true = 2 := rfl
      omega
    · split
      · refine Or.inr ⟨⟨St.GOT_HEX_CONST_DOT_XDIGIT, states, input', lex', row, col, false, some ch, errs⟩, rfl,
          Jinv_plain _ _ _ _ _ _ _ _ rfl (by decide) (by decide) hlex, ?_, le_refl _⟩
        show 8 * input'.length + rankSt St.GOT_HEX_CONST_DOT_XDIGIT false true ≤ 8 * input'.length + 2
        have hv : rankSt St.GOT_HEX_CONST_DOT_XDIGIT false true = 2 := rfl
        omega
      · refine Or.inl ⟨_, rfl, ?_, fun h => by simp at h, fun _ => ?_⟩
        · show (ch :: input').length + lex'.dropLast.length ≤ input'.length + lex'.length
          simp only [List.length_cons, List.length_dropLast]
          omega
        · apply ne_nil_of_one_le
          show 1 ≤ lex'.dropLast.length
          simp only [List.length_dropLast]
          omega

theorem prog_GOT_HEX_CONST_DOT_XDIGIT (states : List St) (input lex : List Char) (row col : Nat)
    (hold : Bool) (c : Option Char) (errs : List Diag)
    (hJ : Jinv ⟨St.GOT_HEX_CONST_DOT_XDIGIT, states, input, lex, row, col, hold, c, errs⟩) :
    Prog ⟨St.GOT_HEX_CONST_DOT_XDIGIT, states, input, lex, row, col, hold, c, errs⟩ :=
  prog_generic St.GOT_HEX_CONST_DOT_XDIGIT 2 0 states input lex row col hold c errs (by decide) (by decide)
    (fun ch l h => by
      rw [lexBound_other _ (by decide) (by decide) (by decide)] at h
      exact h)
    (by decide) (by decide) (by decide) (by decide) (by decide) hJ
    (stepok_GOT_HEX_CONST_DOT_XDIGIT states row col errs)

theorem stepok_GOT_HEX_CONST_DOT (states : List St) (row col : Nat) (errs : List Diag)
    (c' : Option Char) (input' lex' : List Char)
    (hlex : lex' ≠ [])
    (hlex2 : ∀ ch, c' = some ch → 2 ≤ lex'.length)
    (hstk : escFamily St.GOT_HEX_CONST_DOT = true →
      states.head? = some St.GOT_CHAR_CONST_CONT ∨
      states.head? = some St.GOT_STRING_LIT_START)
    (hin : c' = none → input' = []) :
    StepOK (input'.length + lex'.length) (8 * input'.length + (if c'.isSome then 2 else 0))
      (iterSt St.GOT_HEX_CONST_DOT c' input' lex' states row col errs) := by
  rcases c' with _ | ch
  · simp only [Option.isSome_none, Bool.false_eq_true, if_false]
    exact Or.inl ⟨_, rfl, le_refl _, fun h => by simp at h, fun _ => hlex⟩
  · have h2 := hlex2 ch rfl
    simp only [Option.isSome_some, if_true]
    show StepOK _ _ (step_GOT_HEX_CONST_DOT (some ch) input' lex' states row col errs)
    unfold step_GOT_HEX_CONST_DOT
    split
    · refine Or.inr ⟨⟨St.GOT_HEX_CONST_DOT_XDIGIT, states, input', lex', row, col, false, some ch, errs⟩, rfl,
        Jinv_plain _ _ _ _ _ _ _ _ rfl (by decide) (by decide) hlex, ?_, le_refl _⟩
      show 8 * input'.length + rankSt St.GOT_HEX_CONST_DOT_XDIGIT false true ≤ 8 * input'.length + 2
      have hv : rankSt St.GOT_HEX_CONST_DOT_XDIGIT false true = 2 := rfl
      omega
    · split
      · refine Or.inr ⟨⟨St.GOT_HEX_CONST_p, states, input', lex', row, col, false, some ch, errs⟩, rfl,
          Jinv_plain _ _ _ _ _ _ _ _ rfl (by decide) (by decide) hlex, ?_, le_refl _⟩
        show 8 * input'.length + rankSt St.GOT_HEX_CONST_p false true ≤ 8 * input'.length + 2
        have hv : rankSt St.GOT_HEX_CONST_p false true = 2 := rfl
        omega
      · refine Or.inl ⟨_, rfl, ?_, fun h => by simp at h, fun _ => ?_⟩
        · show (ch :: input').length + lex'.dropLast.length ≤ input'.length + lex'.length
          simp only [List.length_cons, List.length_dropLast]
          omega
        · apply ne_nil_of_one_le
          show 1 ≤ lex'.dropLast.length
          simp only [List.length_dropLast]
          omega

theorem prog_GOT_HEX_CONST_DOT (states : List St) (input lex : List Char) (row col : Nat)
    (hold : Bool) (c : Option Char) (errs : List Diag)
    (hJ : Jinv ⟨St.GOT_HEX_CONST_DOT, states, input, lex, row, col, hold, c, errs⟩) :
    Prog ⟨St.GOT_HEX_CONST_DOT, states, input, lex, row, col, hold, c, errs⟩ :=
  prog_generic St.GOT_HEX_CONST_DOT 2 0 states input lex row col hold c errs (by decide) (by decide)
    (fun ch l h => by
      rw [lexBound_other _ (by decide) (by decide) (by decide)] at h
      exact h)
    (by decide) (by decide) (by decide) (by decide) (by decide) hJ
    (stepok_GOT_HEX_CONST_DOT states row col errs)

theorem stepok_GOT_HEX_CONST_p_SIGN_DIG (states : List St) (row col : Nat) (errs : List Diag)
    (c' : Option Char) (input' lex' : List Char)
    (hlex : lex' ≠ [])
    (hlex2 : ∀ ch, c' = some ch → 2 ≤ lex'.length)
    (hstk : escFamily St.GOT_HEX_CONST_p_SIGN_DIG = true →
      states.head? = some St.GOT_CHAR_CONST_CONT ∨
      states.head? = some St.GOT_STRING_LIT_START)
    (hin : c' = none → input' = []) :
    StepOK (input'.length + lex'.length) (8 * input'.length + (if c'.isSome then 2 else 0))
      (iterSt St.GOT_HEX_CONST_p_SIGN_DIG c' input' lex' states row col errs) := by
  rcases c' with _ | ch
  · simp only [Option.isSome_none, Bool.false_eq_true, if_false]
    exact Or.inl ⟨_, rfl, le_refl _, fun h => by simp at h, fun _ => hlex⟩
  · have h2 := hlex2 ch rfl
    simp only [Option.isSome_some, if_true]
    show StepOK _ _ (step_GOT_HEX_CONST_p_SIGN_DIG (some ch) input' lex' states row col errs)
    unfold step_GOT_HEX_CONST_p_SIGN_DIG
    split
    · exact Or.inl ⟨_, rfl, le_refl _, fun h => by simp at h, fun _ => hlex⟩
    · exact Or.inl ⟨_, rfl, le_refl _, fun h => by simp at h, fun _ => hlex⟩
    · exact Or.inl ⟨_, rfl, le_refl _, fun h => by simp at h, fun _ => hlex⟩
    · exact Or.inl ⟨_, rfl, le_refl _, fun h => by simp at h, fun _ => hlex⟩
    · split
      · refine Or.inr ⟨⟨St.GOT_HEX_CONST_p_SIGN_DIG, states, input', lex', row, col, false, some ch, errs⟩, rfl,
          Jinv_plain _ _ _ _ _ _ _ _ rfl (by decide) (by decide) hlex, ?_, le_refl _⟩
        show 8 * input'.length + rankSt St.GOT_HEX_CONST_p_SIGN_DIG false true ≤ 8 * input'.length + 2
        have hv : rankSt St.GOT_HEX_CONST_p_SIGN_DIG false true = 2 := rfl
        omega
      · refine Or.inl ⟨_, rfl, ?_, fun h => by simp at h, fun _ => ?_⟩
        · show (ch :: input').length + lex'.dropLast.length ≤ input'.length + lex'.length
          simp only [List.length_cons, List.length_dropLast]
          omega
        · apply ne_nil_of_one_le
          show 1 ≤ lex'.dropLast.length
          simp only [List.length_dropLast]
          omega

theorem prog_GOT_HEX_CONST_p_SIGN_DIG (states : List St) (input lex : List Char) (row col : Nat)
    (hold : Bool) (c : Option Char) (errs : List Diag)
    (hJ : Jinv ⟨St.GOT_HEX_CONST_p_SIGN_DIG, states, input, lex, row, col, hold, c, errs⟩) :
    Prog ⟨St.GOT_HEX_CONST_p_SIGN_DIG, states, input, lex, row, col, hold, c, errs⟩ :=
  prog_generic St.GOT_HEX_CONST_p_SIGN_DIG 2 0 states input lex row col hold c errs (by decide) (by decide)
    (fun ch l h => by
      rw [lexBound_other _ (by decide) (by decide) (by decide)] at h
      exact h)
    (by decide) (by decide) (by decide) (by decide) (by decide) hJ
    (stepok_GOT_HEX_CONST_p_SIGN_DIG states row col errs)

theorem stepok_GOT_FLOAT_CONST_DOT (states : List St) (row col : Nat) (errs : List Diag)
    (c' : Option Char) (input' lex' : List Char)
    (hlex : lex' ≠ [])
    (hlex2 : ∀ ch, c' = some ch → 2 ≤ lex'.length)
    (hstk : escFamily St.GOT_FLOAT_CONST_DOT = true →
      states.head? = some St.GOT_CHAR_CONST_CONT ∨
      states.head? = some St.GOT_STRING_LIT_START)
    (hin : c' = none → input' = []) :
    StepOK (input'.length + lex'.length) (8 * input'.length + (if c'.isSome then 3 else 0))
      (iterSt St.GOT_FLOAT_CONST_DOT c' input' lex' states row col errs) := by
  rcases c' with _ | ch
  · simp only [Option.isSome_none, Bool.false_eq_true, if_false]
    exact Or.inl ⟨_, rfl, le_refl _, fun h => by simp at h, fun _ => hlex⟩
  · have h2 := hlex2 ch rfl
    simp only [Option.isSome_some, if_true]
    show StepOK _ _ (step_GOT_FLOAT_CONST_DOT (some ch) input' lex' states row col errs)
    unfold step_GOT_FLOAT_CONST_DOT
    split
    · refine Or.inr ⟨⟨St.GOT_FLOAT_CONST_DOT_DIGIT, states, input', lex', row, col, false, some ch, errs⟩, rfl,
        Jinv_plain _ _ _ _ _ _ _ _ rfl (by decide) (by decide) hlex, ?_, le_refl _⟩
      show 8 * input'.length + rankSt St.GOT_FLOAT_CONST_DOT_DIGIT false true ≤ 8 * input'.length + 3
      have hv : rankSt St.GOT_FLOAT_CONST_DOT_DIGIT false true = 1 := rfl
      omega
    · split
      · refine Or.inr ⟨⟨St.GOT_FLOAT_CONST_e, states, input', lex', row, col, false, some ch, errs⟩, rfl,
          Jinv_plain _ _ _ _ _ _ _ _ rfl (by decide) (by decide) hlex, ?_, le_refl _⟩
        show 8 * input'.length + rankSt St.GOT_FLOAT_CONST_e false true ≤ 8 * input'.length + 3
        have hv : rankSt St.GOT_FLOAT_CONST_e false true = 2 := rfl
        omega
      · split
        · refine Or.inr ⟨⟨St.GOT_FLOAT_CONST_e_SIGN_DIG, states, input', lex', row, col, true, some ch, errs⟩, rfl, ?_, ?_, le_refl _⟩
          · exact Jinv_hold _ _ _ _ _ _ _ _ rfl (fun h => absurd h (by decide)) (by decide)
              (fun h => by simp at h) (fun _ => hlex) (fun _ => hlex)
              (fun k hk => by
                rw [lexBound_other _ (by decide) (by decide) (by decide)]
                exact h2)
          · show 8 * input'.length + rankSt St.GOT_FLOAT_CONST_e_SIGN_DIG true true ≤ 8 * input'.length + 3
            have hv : rankSt St.GOT_FLOAT_CONST_e_SIGN_DIG true true = 3 := rfl
            omega
        · refine Or.inl ⟨_, rfl, ?_, fun h => by simp at h, fun _ => ?_⟩
          · show (ch :: input').length + lex'.dropLast.length ≤ input'.length + lex'.length
            simp only [List.length_cons, List.length_dropLast]
            omega
          · apply ne_nil_of_one_le
            show 1 ≤ lex'.dropLast.length
            simp only [List.length_dropLast]
            omega

theorem prog_GOT_FLOAT_CONST_DOT (states : List St) (input lex : List Char) (row col : Nat)
    (hold : Bool) (c : Option Char) (errs : List Diag)
    (hJ : Jinv ⟨St.GOT_FLOAT_CONST_DOT, states, input, lex, row, col, hold, c, errs⟩) :
    Prog ⟨St.GOT_FLOAT_CONST_DOT, states, input, lex, row, col, hold, c, errs⟩ :=
  prog_generic St.GOT_FLOAT_CONST_DOT 3 0 states input lex row col hold c errs (by decide) (by decide)
    (fun ch l h => by
      rw [lexBound_other _ (by decide) (by decide) (by decide)] at h
      exact h)
    (by decide) (by decide) (by decide) (by decide) (by decide) hJ
    (stepok_GOT_FLOAT_CONST_DOT states row col errs)

theorem stepok_GOT_FLOAT_CONST_DOT_DIGIT (states : List St) (row col : Nat) (errs : List Diag)
    (c' : Option Char) (input' lex' : List Char)
    (hlex : lex' ≠ [])
    (hlex2 : ∀ ch, c' = some ch → 2 ≤ lex'.length)
    (hstk : escFamily St.GOT_FLOAT_CONST_DOT_DIGIT = true →
      states.head? = some St.GOT_CHAR_CONST_CONT ∨
      states.head? = some St.GOT_STRING_LIT_START)
    (hin : c' = none → input' = []) :
    StepOK (input'.length + lex'.length) (8 * input'.length + (if c'.isSome then 3 else 0))
      (iterSt St.GOT_FLOAT_CONST_DOT_DIGIT c' input' lex' states row col errs) := by
  rcases c' with _ | ch
  · simp only [Option.isSome_none, Bool.false_eq_true, if_false]
    exact Or.inl ⟨_, rfl, le_refl _, fun h => by simp at h, fun _ => hlex⟩
  · have h2 := hlex2 ch rfl
    simp only [Option.isSome_some, if_true]
    show StepOK _ _ (step_GOT_FLOAT_CONST_DOT_DIGIT (some ch) input' lex' states row col errs)
    unfold step_GOT_FLOAT_CONST_DOT_DIGIT
    split
    · refine Or.inr ⟨⟨St.GOT_FLOAT_CONST_e, states, input', lex', row, col, false, some ch, errs⟩, rfl,
        Jinv_plain _ _ _ _ _ _ _ _ rfl (by decide) (by decide) hlex, ?_, le_refl _⟩
      show 8 * input'.length + rankSt St.GOT_FLOAT_CONST_e false true ≤ 8 * input'.length + 3
      have hv : rankSt St.GOT_FLOAT_CONST_e false true = 2 := rfl
      omega
    · refine Or.inr ⟨⟨St.GOT_FLOAT_CONST_e, states, input', lex', row, col, false, some ch, errs⟩, rfl,
        Jinv_plain _ _ _ _ _ _ _ _ rfl (by decide) (by decide) hlex, ?_, le_refl _⟩
      show 8 * input'.length + rankSt St.GOT_FLOAT_CONST_e false true ≤ 8 * input'.length + 3
      have hv : rankSt St.GOT_FLOAT_CONST_e false true = 2 := rfl
      omega
    · refine Or.inr ⟨⟨St.GOT_FLOAT_CONST_e_SIGN_DIG, states, input', lex', row, col, true, some ch, errs⟩, rfl, ?_, ?_, le_refl _⟩
      · exact Jinv_hold _ _ _ _ _ _ _ _ rfl (fun h => absurd h (by decide)) (by decide)
          (fun h => by simp at h) (fun _ => hlex) (fun _ => hlex)
          (fun k hk => by
            rw [lexBound_other _ (by decide) (by decide) (by decide)]
            exact h2)
      · show 8 * input'.length + rankSt St.GOT_FLOAT_CONST_e_SIGN_DIG true true ≤ 8 * input'.length + 3
        have hv : rankSt St.GOT_FLOAT_CONST_e_SIGN_DIG true true = 3 := rfl
        omega
    · refine Or.inr ⟨⟨St.GOT_FLOAT_CONST_e_SIGN_DIG, states, input', lex', row, col, true, some ch, errs⟩, rfl, ?_, ?_, le_refl _⟩
      · exact Jinv_hold _ _ _ _ _ _ _ _ rfl (fun h => absurd h (by decide)) (by decide)
          (fun h => by simp at h) (fun _ => hlex) (fun _ => hlex)
          (fun k hk => by
            rw [lexBound_other _ (by decide) (by decide) (by decide)]
            exact h2)
      · show 8 * input'.length + rankSt St.GOT_FLOAT_CONST_e_SIGN_DIG true true ≤ 8 * input'.length + 3
        have hv : rankSt St.GOT_FLOAT_CONST_e_SIGN_DIG true true = 3 := rfl
        omega
    · refine Or.inr ⟨⟨St.GOT_FLOAT_CONST_e_SIGN_DIG, states, input', lex', row, col, true, some ch, errs⟩, rfl, ?_, ?_, le_refl _⟩
      · exact Jinv_hold _ _ _ _ _ _ _ _ rfl (fun h => absurd h (by decide)) (by decide)
          (fun h => by simp at h) (fun _ => hlex) (fun _ => hlex)
          (fun k hk => by
            rw [lexBound_other _ (by decide) (by decide) (by decide)]
            exact h2)
      · show 8 * input'.length + rankSt St.GOT_FLOAT_CONST_e_SIGN_DIG true true ≤ 8 * input'.length + 3
        have hv : rankSt St.GOT_FLOAT_CONST_e_SIGN_DIG true true = 3 := rfl
        omega
    · refine Or.inr ⟨⟨St.GOT_FLOAT_CONST_e_SIGN_DIG, states, input', lex', row, col, true, some ch, errs⟩, rfl, ?_, ?_, le_refl _⟩
      · exact Jinv_hold _ _ _ _ _ _ _ _ rfl (fun h => absurd h (by decide)) (by decide)
          (fun h => by simp at h) (fun _ => hlex) (fun _ => hlex)
          (fun k hk => by
            rw [lexBound_other _ (by decide) (by decide) (by decide)]
            exact h2)
      · show 8 * input'.length + rankSt St.GOT_FLOAT_CONST_e_SIGN_DIG true true ≤ 8 * input'.length + 3
        have hv : rankSt St.GOT_FLOAT_CONST_e_SIGN_DIG true true = 3 := rfl
        omega
    · refine Or.inr ⟨⟨St.GOT_FLOAT_CONST_e_SIGN_DIG, states, input', lex', row, col, true, some ch, errs⟩, rfl, ?_, ?_, le_refl _⟩
      · exact Jinv_hold _ _ _ _ _ _ _ _ rfl (fun h => absurd h (by decide)) (by decide)
          (fun h => by simp at h) (fun _ => hlex) (fun _ => hlex)
          (fun k hk => by
            rw [lexBound_other _ (by decide) (by decide) (by decide)]
            exact h2)
      · show 8 * input'.length + rankSt St.GOT_FLOAT_CONST_e_SIGN_DIG true true ≤ 8 * input'.length + 3
        have hv : rankSt St.GOT_FLOAT_CONST_e_SIGN_DIG true true = 3 := rfl
        omega
    · refine Or.inr ⟨⟨St.GOT_FLOAT_CONST_e_SIGN_DIG, states, input', lex', row, col, true, some ch, errs⟩, rfl, ?_, ?_, le_refl _⟩
      · exact Jinv_hold _ _ _ _ _ _ _ _ rfl (fun h => absurd h (by decide)) (by decide)
          (fun h => by simp at h) (fun _ => hlex) (fun _ => hlex)
          (fun k hk => by
            rw [lexBound_other _ (by decide) (by decide) (by decide)]
            exact h2)
      · show 8 * input'.length + rankSt St.GOT_FLOAT_CONST_e_SIGN_DIG true true ≤ 8 * input'.length + 3
        have hv : rankSt St.GOT_FLOAT_CONST_e_SIGN_DIG true true = 3 := rfl
        omega
    · split
      · refine Or.inr ⟨⟨St.GOT_FLOAT_CONST_DOT_DIGIT, states, input', lex', row, col, false, some ch, errs⟩, rfl,
          Jinv_plain _ _ _ _ _ _ _ _ rfl (by decide) (by decide) hlex, ?_, le_refl _⟩
        show 8 * input'.length + rankSt St.GOT_FLOAT_CONST_DOT_DIGIT false true ≤ 8 * input'.length + 3
        have hv : rankSt St.GOT_FLOAT_CONST_DOT_DIGIT false true = 1 := rfl
        omega
      · refine Or.inl ⟨_, rfl, ?_, fun h => by simp at h, fun _ => ?_⟩
        · show (ch :: input').length + lex'.dropLast.length ≤ input'.length + lex'.length
          simp only [List.length_cons, List.length_dropLast]
          omega
        · apply ne_nil_of_one_le
          show 1 ≤ lex'.dropLast.length
          simp only [List.length_dropLast]
          omega

theorem prog_GOT_FLOAT_CONST_DOT_DIGIT (states : List St) (input lex : List Char) (row col : Nat)
    (hold : Bool) (c : Option Char) (errs : List Diag)
    (hJ : Jinv ⟨St.GOT_FLOAT_CONST_DOT_DIGIT, states, input, lex, row, col, hold, c, errs⟩) :
    Prog ⟨St.GOT_FLOAT_CONST_DOT_DIGIT, states, input, lex, row, col, hold, c, errs⟩ :=
  prog_generic St.GOT_FLOAT_CONST_DOT_DIGIT 3 0 states input lex row col hold c errs (by decide) (by decide)
    (fun ch l h => by
      rw [lexBound_other _ (by decide) (by decide) (by decide)] at h
      exact h)
    (by decide) (by decide) (by decide) (by decide) (by decide) hJ
    (stepok_GOT_FLOAT_CONST_DOT_DIGIT states row col errs)

theorem stepok_GOT_0x (states : List St) (row col : Nat) (errs : List Diag)
    (c' : Option Char) (input' lex' : List Char)
    (hlex : lex' ≠ [])
    (hlex2 : ∀ ch, c' = some ch → 2 ≤ lex'.length)
    (hstk : escFamily St.GOT_0x = true →
      states.head? = some St.GOT_CHAR_CONST_CONT ∨
      states.head? = some St.GOT_STRING_LIT_START)
    (hin : c' = none → input' = []) :
    StepOK (input'.length + lex'.length) (8 * input'.length + (if c'.isSome then 4 else 0))
      (iterSt St.GOT_0x c' input' lex' states row col errs) := by
  rcases c' with _ | ch
  · simp only [Option.isSome_none, Bool.false_eq_true, if_false]
    exact Or.inl ⟨_, rfl, le_refl _, fun h => by simp at h, fun _ => hlex⟩
  · have h2 := hlex2 ch rfl
    simp only [Option.isSome_some, if_true]
    show StepOK _ _ (step_GOT_0x (some ch) input' lex' states row col errs)
    unfold step_GOT_0x
    split
    · refine Or.inr ⟨⟨St.GOT_HEX_LITERAL, states, input', lex', row, col, true, some ch, errs⟩, rfl, ?_, ?_, le_refl _⟩
      · exact Jinv_hold _ _ _ _ _ _ _ _ rfl (fun h => absurd h (by decide)) (by decide)
          (fun h => by simp at h) (fun _ => hlex) (fun _ => hlex)
          (fun k hk => by
            rw [lexBound_other _ (by decide) (by decide) (by decide)]
            exact h2)
      · show 8 * input'.length + rankSt St.GOT_HEX_LITERAL true true ≤ 8 * input'.length + 4
        have hv : rankSt St.GOT_HEX_LITERAL true true = 4 := rfl
        omega
    · split
      · refine Or.inr ⟨⟨St.GOT_0x_DOT, states, input', lex', row, col, false, some ch, errs⟩, rfl,
          Jinv_plain _ _ _ _ _ _ _ _ rfl (by decide) (by decide) hlex, ?_, le_refl _⟩
        show 8 * input'.length + rankSt St.GOT_0x_DOT false true ≤ 8 * input'.length + 4
        have hv : rankSt St.GOT_0x_DOT false true = 2 := rfl
        omega
      · refine Or.inl ⟨_, rfl, ?_, fun h => by simp at h, fun _ => ?_⟩
        · show (ch :: input').length + lex'.dropLast.length ≤ input'.length + lex'.length
          simp only [List.length_cons, List.length_dropLast]
          omega
        · apply ne_nil_of_one_le
          show 1 ≤ lex'.dropLast.length
          simp only [List.length_dropLast]
          omega

theorem prog_GOT_0x (states : List St) (input lex : List Char) (row col : Nat)
    (hold : Bool) (c : Option Char) (errs : List Diag)
    (hJ : Jinv ⟨St.GOT_0x, states, input, lex, row, col, hold, c, errs⟩) :
    Prog ⟨St.GOT_0x, states, input, lex, row, col, hold, c, errs⟩ :=
  prog_generic St.GOT_0x 4 0 states input lex row col hold c errs (by decide) (by decide)
    (fun ch l h => by
      rw [lexBound_other _ (by decide) (by decide) (by decide)] at h
      exact h)
    (by decide) (by decide) (by decide) (by decide) (by decide) hJ
    (stepok_GOT_0x states row col errs)


theorem stepok_GOT_CHAR_CONST_START (states : List St) (row col : Nat) (errs : List Diag)
    (c' : Option Char) (input' lex' : List Char)
    (hlex : lex' ≠ [])
    (hlex2 : ∀ ch, c' = some ch → 2 ≤ lex'.length)
    (hstk : escFamily St.GOT_CHAR_CONST_START = true →
      states.head? = some St.GOT_CHAR_CONST_CONT ∨
      states.head? = some St.GOT_STRING_LIT_START)
    (hin : c' = none → input' = []) :
    StepOK (input'.length + lex'.length) (8 * input'.length + (if c'.isSome then 2 else 1))
      (iterSt St.GOT_CHAR_CONST_START c' input' lex' states row col errs) := by
  rcases c' with _ | ch
  · simp only [Option.isSome_none, Bool.false_eq_true, if_false]
    refine Or.inr ⟨⟨St.GOT_CHAR_CONST_CONT, states, input', lex', row, col, false, none, errs⟩,
      rfl, Jinv_plain _ _ _ _ _ _ _ _ rfl (by decide) (by decide) hlex, ?_, le_refl _⟩
    show 8 * input'.length + rankSt St.GOT_CHAR_CONST_CONT false false ≤ 8 * input'.length + 1
    have hv : rankSt St.GOT_CHAR_CONST_CONT false false = 1 := rfl
    omega
  · have h2 := hlex2 ch rfl
    simp only [Option.isSome_some, if_true]
    show StepOK _ _ (step_GOT_CHAR_CONST_START (some ch) input' lex' states row col errs)
    unfold step_GOT_CHAR_CONST_START
    split
    · exact Or.inl ⟨_, rfl, le_refl _, fun h => by simp at h, fun _ => hlex⟩
    · refine Or.inl ⟨_, rfl, ?_, fun h => by simp at h, fun _ => ?_⟩
      · show (ch :: input').length + lex'.dropLast.length ≤ input'.length + lex'.length
        simp only [List.length_cons, List.length_dropLast]
        omega
      · apply ne_nil_of_one_le
        show 1 ≤ lex'.dropLast.length
        simp only [List.length_dropLast]
        omega
    · refine Or.inr ⟨⟨St.GOT_ESCAPE_SEQUENCE, St.GOT_CHAR_CONST_CONT :: states, input', lex', row, col, false,
        some ch, errs⟩, rfl,
        Jinv_esc _ _ _ _ _ _ _ _ (Or.inl rfl) (by decide) (by decide) hlex, ?_, le_refl _⟩
      show 8 * input'.length + rankSt St.GOT_ESCAPE_SEQUENCE false true ≤ 8 * input'.length + 2
      have hv : rankSt St.GOT_ESCAPE_SEQUENCE false true = 2 := rfl
      omega
    · refine Or.inr ⟨⟨St.GOT_CHAR_CONST_CONT, states, input', lex', row, col, false, some ch, errs⟩, rfl,
        Jinv_plain _ _ _ _ _ _ _ _ rfl (by decide) (by decide) hlex, ?_, le_refl _⟩
      show 8 * input'.length + rankSt St.GOT_CHAR_CONST_CONT false true ≤ 8 * input'.length + 2
      have hv : rankSt St.GOT_CHAR_CONST_CONT false true = 1 := rfl
      omega

theorem prog_GOT_CHAR_CONST_START (states : List St) (input lex : List Char) (row col : Nat)
    (hold : Bool) (c : Option Char) (errs : List Diag)
    (hJ : Jinv ⟨St.GOT_CHAR_CONST_START, states, input, lex, row, col, hold, c, errs⟩) :
    Prog ⟨St.GOT_CHAR_CONST_START, states, input, lex, row, col, hold, c, errs⟩ :=
  prog_generic St.GOT_CHAR_CONST_START 2 1 states input lex row col hold c errs (by decide) (by decide)
    (fun ch l h => by
      rw [lexBound_other _ (by decide) (by decide) (by decide)] at h
      exact h)
    (by decide) (by decide) (by decide) (by decide) (by decide) hJ
    (stepok_GOT_CHAR_CONST_START states row col errs)

theorem stepok_GOT_CHAR_CONST_CONT (states : List St) (row col : Nat) (errs : List Diag)
    (c' : Option Char) (input' lex' : List Char)
    (hlex : lex' ≠ [])
    (hlex2 : ∀ ch, c' = some ch → 2 ≤ lex'.length)
    (hstk : escFamily St.GOT_CHAR_CONST_CONT = true →
      states.head? = some St.GOT_CHAR_CONST_CONT ∨
      states.head? = some St.GOT_STRING_LIT_START)
    (hin : c' = none → input' = []) :
    StepOK (input'.length + lex'.length) (8 * input'.length + (if c'.isSome then 2 else 0))
      (iterSt St.GOT_CHAR_CONST_CONT c' input' lex' states row col errs) := by
  rcases c' with _ | ch
  · simp only [Option.isSome_none, Bool.false_eq_true, if_false]
    exact Or.inl ⟨_, rfl, le_refl _, fun h => by simp at h, fun _ => hlex⟩
  · have h2 := hlex2 ch rfl
    simp only [Option.isSome_some, if_true]
    show StepOK _ _ (step_GOT_CHAR_CONST_CONT (some ch) input' lex' states row col errs)
    unfold step_GOT_CHAR_CONST_CONT
    split
    · exact Or.inl ⟨_, rfl, le_refl _, fun h => by simp at h, fun _ => hlex⟩
    · refine Or.inl ⟨_, rfl, ?_, fun h => by simp at h, fun _ => ?_⟩
      · show (ch :: input').length + lex'.dropLast.length ≤ input'.length + lex'.length
        simp only [List.length_cons, List.length_dropLast]
        omega
      · apply ne_nil_of_one_le
        show 1 ≤ lex'.dropLast.length
        simp only [List.length_dropLast]
        omega
    · refine Or.inl ⟨_, rfl, ?_, fun h => by simp at h, fun _ => ?_⟩
      · show (ch :: input').length + lex'.dropLast.length ≤ input'.length + lex'.length
        simp only [List.length_cons, List.length_dropLast]
        omega
      · apply ne_nil_of_one_le
        show 1 ≤ lex'.dropLast.length
        simp only [List.length_dropLast]
        omega
    · refine Or.inr ⟨⟨St.GOT_ESCAPE_SEQUENCE, St.GOT_CHAR_CONST_CONT :: states, input', lex', row, col, false,
        some ch, errs⟩, rfl,
        Jinv_esc _ _ _ _ _ _ _ _ (Or.inl rfl) (by decide) (by decide) hlex, ?_, le_refl _⟩
      show 8 * input'.length + rankSt St.GOT_ESCAPE_SEQUENCE false true ≤ 8 * input'.length + 2
      have hv : rankSt St.GOT_ESCAPE_SEQUENCE false true = 2 := rfl
      omega
    · refine Or.inr ⟨⟨St.GOT_CHAR_CONST_CONT, states, input', lex', row, col, false, some ch, errs⟩, rfl,
        Jinv_plain _ _ _ _ _ _ _ _ rfl (by decide) (by decide) hlex, ?_, le_refl _⟩
      show 8 * input'.length + rankSt St.GOT_CHAR_CONST_CONT false true ≤ 8 * input'.length + 2
      have hv : rankSt St.GOT_CHAR_CONST_CONT false true = 1 := rfl
      omega
theorem prog_GOT_CHAR_CONST_CONT (states : List St) (input lex : List Char) (row col : Nat)
    (hold : Bool) (c : Option Char) (errs : List Diag)
    (hJ : Jinv ⟨St.GOT_CHAR_CONST_CONT, states, input, lex, row, col, hold, c, errs⟩) :
    Prog ⟨St.GOT_CHAR_CONST_CONT, states, input, lex, row, col, hold, c, errs⟩ :=
  prog_generic St.GOT_CHAR_CONST_CONT 2 0 states input lex row col hold c errs (by decide) (by decide)
    (fun ch l h => by
      rw [lexBound_other _ (by decide) (by decide) (by decide)] at h
      exact h)
    (by decide) (by decide) (by decide) (by decide) (by decide) hJ
    (stepok_GOT_CHAR_CONST_CONT states row col errs)

theorem stepok_GOT_STRING_LIT_START (states : List St) (row col : Nat) (errs : List Diag)
    (c' : Option Char) (input' lex' : List Char)
    (hlex : lex' ≠ [])
    (hlex2 : ∀ ch, c' = some ch → 2 ≤ lex'.length)
    (hstk : escFamily St.GOT_STRING_LIT_START = true →
      states.head? = some St.GOT_CHAR_CONST_CONT ∨
      states.head? = some St.GOT_STRING_LIT_START)
    (hin : c' = none → input' = []) :
    StepOK (input'.length + lex'.length) (8 * input'.length + (if c'.isSome then 2 else 0))
      (iterSt St.GOT_STRING_LIT_START c' input' lex' states row col errs) := by
  rcases c' with _ | ch
  · simp only [Option.isSome_none, Bool.false_eq_true, if_false]
    exact Or.inl ⟨_, rfl, le_refl _, fun h => by simp at h, fun _ => hlex⟩
  · have h2 := hlex2 ch rfl
    simp only [Option.isSome_some, if_true]
    show StepOK _ _ (step_GOT_STRING_LIT_START (some ch) input' lex' states row col errs)
    unfold step_GOT_STRING_LIT_START
    split
    · exact Or.inl ⟨_, rfl, le_refl _, fun h => by simp at h, fun _ => hlex⟩
    · refine Or.inl ⟨_, rfl, ?_, fun h => by simp at h, fun _ => ?_⟩
      · show (ch :: input').length + lex'.dropLast.length ≤ input'.length + lex'.length
        simp only [List.length_cons, List.length_dropLast]
        omega
      · apply ne_nil_of_one_le
        show 1 ≤ lex'.dropLast.length
        simp only [List.length_dropLast]
        omega
    · refine Or.inl ⟨_, rfl, ?_, fun h => by simp at h, fun _ => ?_⟩
      · show (ch :: input').length + lex'.dropLast.length ≤ input'.length + lex'.length
        simp only [List.length_cons, List.length_dropLast]
        omega
      · apply ne_nil_of_one_le
        show 1 ≤ lex'.dropLast.length
        simp only [List.length_dropLast]
        omega
    · refine Or.inr ⟨⟨St.GOT_ESCAPE_SEQUENCE, St.GOT_STRING_LIT_START :: states, input', lex', row, col, false,
        some ch, errs⟩, rfl,
        Jinv_esc _ _ _ _ _ _ _ _ (Or.inr rfl) (by decide) (by decide) hlex, ?_, le_refl _⟩
      show 8 * input'.length + rankSt St.GOT_ESCAPE_SEQUENCE false true ≤ 8 * input'.length + 2
      have hv : rankSt St.GOT_ESCAPE_SEQUENCE false true = 2 := rfl
      omega
    · refine Or.inr ⟨⟨St.GOT_STRING_LIT_START, states, input', lex', row, col, false, some ch, errs⟩, rfl,
        Jinv_plain _ _ _ _ _ _ _ _ rfl (by decide) (by decide) hlex, ?_, le_refl _⟩
      show 8 * input'.length + rankSt St.GOT_STRING_LIT_START false true ≤ 8 * input'.length + 2
      have hv : rankSt St.GOT_STRING_LIT_START false true = 1 := rfl
      omega
theorem prog_GOT_STRING_LIT_START (states : List St) (input lex : List Char) (row col : Nat)
    (hold : Bool) (c : Option Char) (errs : List Diag)
    (hJ : Jinv ⟨St.GOT_STRING_LIT_START, states, input, lex, row, col, hold, c, errs⟩) :
    Prog ⟨St.GOT_STRING_LIT_START, states, input, lex, row, col, hold, c, errs⟩ :=
  prog_generic St.GOT_STRING_LIT_START 2 0 states input lex row col hold c errs (by decide) (by decide)
    (fun ch l h => by
      rw [lexBound_other _ (by decide) (by decide) (by decide)] at h
      exact h)
    (by decide) (by decide) (by decide) (by decide) (by decide) hJ
    (stepok_GOT_STRING_LIT_START states row col errs)

theorem stepok_GOT_ESCAPE_SEQUENCE (states : List St) (row col : Nat) (errs : List Diag)
    (c' : Option Char) (input' lex' : List Char)
    (hlex : lex' ≠ [])
    (hlex2 : ∀ ch, c' = some ch → 2 ≤ lex'.length)
    (hstk : escFamily St.GOT_ESCAPE_SEQUENCE = true →
      states.head? = some St.GOT_CHAR_CONST_CONT ∨
      states.head? = some St.GOT_STRING_LIT_START)
    (hin : c' = none → input' = []) :
    StepOK (input'.length + lex'.length) (8 * input'.length + (if c'.isSome then 4 else 0))
      (iterSt St.GOT_ESCAPE_SEQUENCE c' input' lex' states row col errs) := by
  rcases c' with _ | ch
  · simp only [Option.isSome_none, Bool.false_eq_true, if_false]
    exact Or.inl ⟨_, rfl, le_refl _, fun h => by simp at h, fun _ => hlex⟩
  · have h2 := hlex2 ch rfl
    simp only [Option.isSome_some, if_true]
    show StepOK _ _ (step_GOT_ESCAPE_SEQUENCE (some ch) input' lex' states row col errs)
    unfold step_GOT_ESCAPE_SEQUENCE
    split
    · rcases hstk rfl with hh | hh
      · cases states with
        | nil => simp at hh
        | cons t0 tail =>
          simp only [List.head?_cons, Option.some.injEq] at hh
          subst hh
          refine Or.inr ⟨⟨St.GOT_CHAR_CONST_CONT, tail, input', lex', row, col, false, some ch, errs⟩, rfl, ?_, ?_,
            le_refl _⟩
          · exact Jinv_plain _ _ _ _ _ _ _ _ rfl (by decide) (by decide) hlex
          · show 8 * input'.length + rankSt St.GOT_CHAR_CONST_CONT false true ≤ 8 * input'.length + 4
            have hv : rankSt St.GOT_CHAR_CONST_CONT false true = 1 := rfl
            omega
      · cases states with
        | nil => simp at hh
        | cons t0 tail =>
          simp only [List.head?_cons, Option.some.injEq] at hh
          subst hh
          refine Or.inr ⟨⟨St.GOT_STRING_LIT_START, tail, input', lex', row, col, false, some ch, errs⟩, rfl, ?_, ?_,
            le_refl _⟩
          · exact Jinv_plain _ _ _ _ _ _ _ _ rfl (by decide) (by decide) hlex
          · show 8 * input'.length + rankSt St.GOT_STRING_LIT_START false true ≤ 8 * input'.length + 4
            have hv : rankSt St.GOT_STRING_LIT_START false true = 1 := rfl
            omega
    · split
      · refine Or.inr ⟨⟨St.GOT_ESCAPE_SEQUENCE_BS_OCT1, states, input', lex', row, col, false, some ch, errs⟩, rfl,
          Jinv_esc _ _ _ _ _ _ _ _ (hstk rfl) (by decide) (by decide) hlex, ?_, le_refl _⟩
        show 8 * input'.length + rankSt St.GOT_ESCAPE_SEQUENCE_BS_OCT1 false true ≤ 8 * input'.length + 4
        have hv : rankSt St.GOT_ESCAPE_SEQUENCE_BS_OCT1 false true = 4 := rfl
        omega
      · split
        · refine Or.inr ⟨⟨St.GOT_ESCAPE_SEQUENCE_BS_x, states, input', lex', row, col, false, some ch, errs⟩, rfl,
            Jinv_esc _ _ _ _ _ _ _ _ (hstk rfl) (by decide) (by decide) hlex, ?_, le_refl _⟩
          show 8 * input'.length + rankSt St.GOT_ESCAPE_SEQUENCE_BS_x false true ≤ 8 * input'.length + 4
          have hv : rankSt St.GOT_ESCAPE_SEQUENCE_BS_x false true = 2 := rfl
          omega
        · split
          · refine Or.inr ⟨⟨St.GOT_ESCAPE_SEQUENCE_BS_u0, states, input', lex', row, col, false, some ch, errs⟩, rfl,
              Jinv_esc _ _ _ _ _ _ _ _ (hstk rfl) (by decide) (by decide) hlex, ?_, le_refl _⟩
            show 8 * input'.length + rankSt St.GOT_ESCAPE_SEQUENCE_BS_u0 false true ≤ 8 * input'.length + 4
            have hv : rankSt St.GOT_ESCAPE_SEQUENCE_BS_u0 false true = 2 := rfl
            omega
          · split
            · refine Or.inr ⟨⟨St.GOT_ESCAPE_SEQUENCE_BS_U0, states, input', lex', row, col, false, some ch, errs⟩, rfl,
                Jinv_esc _ _ _ _ _ _ _ _ (hstk rfl) (by decide) (by decide) hlex, ?_, le_refl _⟩
              show 8 * input'.length + rankSt St.GOT_ESCAPE_SEQUENCE_BS_U0 false true ≤ 8 * input'.length + 4
              have hv : rankSt St.GOT_ESCAPE_SEQUENCE_BS_U0 false true = 2 := rfl
              omega
            · exact Or.inl ⟨_, rfl, le_refl _, fun h => by simp at h, fun _ => hlex⟩

theorem prog_GOT_ESCAPE_SEQUENCE (states : List St) (input lex : List Char) (row col : Nat)
    (hold : Bool) (c : Option Char) (errs : List Diag)
    (hJ : Jinv ⟨St.GOT_ESCAPE_SEQUENCE, states, input, lex, row, col, hold, c, errs⟩) :
    Prog ⟨St.GOT_ESCAPE_SEQUENCE, states, input, lex, row, col, hold, c, errs⟩ :=
  prog_generic St.GOT_ESCAPE_SEQUENCE 4 0 states input lex row col hold c errs (by decide) (by decide)
    (fun ch l h => by
      rw [lexBound_other _ (by decide) (by decide) (by decide)] at h
      exact h)
    (by decide) (by decide) (by decide) (by decide) (by decide) hJ
    (stepok_GOT_ESCAPE_SEQUENCE states row col errs)

theorem stepok_GOT_ESCAPE_SEQUENCE_BS_OCT1 (states : List St) (row col : Nat) (errs : List Diag)
    (c' : Option Char) (input' lex' : List Char)
    (hlex : lex' ≠ [])
    (hlex2 : ∀ ch, c' = some ch → 2 ≤ lex'.length)
    (hstk : escFamily St.GOT_ESCAPE_SEQUENCE_BS_OCT1 = true →
      states.head? = some St.GOT_CHAR_CONST_CONT ∨
      states.head? = some St.GOT_STRING_LIT_START)
    (hin : c' = none → input' = []) :
    StepOK (input'.length + lex'.length) (8 * input'.length + (if c'.isSome then 4 else 3))
      (iterSt St.GOT_ESCAPE_SEQUENCE_BS_OCT1 c' input' lex' states row col errs) := by
  rcases c' with _ | ch
  · simp only [Option.isSome_none, Bool.false_eq_true, if_false]
    rcases hstk rfl with hh | hh
    · cases states with
      | nil => simp at hh
      | cons t0 tail =>
        simp only [List.head?_cons, Option.some.injEq] at hh
        subst hh
        refine Or.inr ⟨⟨St.GOT_CHAR_CONST_CONT, tail, input', lex', row, col, true, none, errs⟩, rfl, ?_, ?_,
          le_refl _⟩
        · exact Jinv_hold _ _ _ _ _ _ _ _ rfl (fun h => absurd h (by decide)) (by decide)
            (fun _ => hin rfl) (fun _ => hlex) (fun h => absurd rfl h) (fun k hk => by simp at hk)
        · show 8 * input'.length + rankSt St.GOT_CHAR_CONST_CONT true false ≤ 8 * input'.length + 3
          have hv : rankSt St.GOT_CHAR_CONST_CONT true false = 3 := rfl
          omega
    · cases states with
      | nil => simp at hh
      | cons t0 tail =>
        simp only [List.head?_cons, Option.some.injEq] at hh
        subst hh
        refine Or.inr ⟨⟨St.GOT_STRING_LIT_START, tail, input', lex', row, col, true, none, errs⟩, rfl, ?_, ?_,
          le_refl _⟩
        · exact Jinv_hold _ _ _ _ _ _ _ _ rfl (fun h => absurd h (by decide)) (by decide)
            (fun _ => hin rfl) (fun _ => hlex) (fun h => absurd rfl h) (fun k hk => by simp at hk)
        · show 8 * input'.length + rankSt St.GOT_STRING_LIT_START true false ≤ 8 * input'.length + 3
          have hv : rankSt St.GOT_STRING_LIT_START true false = 3 := rfl
          omega
  · have h2 := hlex2 ch rfl
    simp only [Option.isSome_some, if_true]
    show StepOK _ _ (step_GOT_ESCAPE_SEQUENCE_BS_OCT1 (some ch) input' lex' states row col errs)
    unfold step_GOT_ESCAPE_SEQUENCE_BS_OCT1
    split
    · refine Or.inr ⟨⟨St.GOT_ESCAPE_SEQUENCE_BS_OCT2, states, input', lex', row, col, false, some ch, errs⟩, rfl,
        Jinv_esc _ _ _ _ _ _ _ _ (hstk rfl) (by decide) (by decide) hlex, ?_, le_refl _⟩
      show 8 * input'.length + rankSt St.GOT_ESCAPE_SEQUENCE_BS_OCT2 false true ≤ 8 * input'.length + 4
      have hv : rankSt St.GOT_ESCAPE_SEQUENCE_BS_OCT2 false true = 4 := rfl
      omega
    · rcases hstk rfl with hh | hh
      · cases states with
        | nil => simp at hh
        | cons t0 tail =>
          simp only [List.head?_cons, Option.some.injEq] at hh
          subst hh
          refine Or.inr ⟨⟨St.GOT_CHAR_CONST_CONT, tail, input', lex', row, col, true, some ch, errs⟩, rfl, ?_, ?_,
            le_refl _⟩
          · exact Jinv_hold _ _ _ _ _ _ _ _ rfl (fun h => absurd h (by decide)) (by decide)
              (fun h => by simp at h) (fun _ => hlex) (fun _ => hlex)
              (fun k hk => by
                rw [lexBound_other _ (by decide) (by decide) (by decide)]
                exact h2)
          · show 8 * input'.length + rankSt St.GOT_CHAR_CONST_CONT true true ≤ 8 * input'.length + 4
            have hv : rankSt St.GOT_CHAR_CONST_CONT true true = 3 := rfl
            omega
      · cases states with
        | nil => simp at hh
        | cons t0 tail =>
          simp only [List.head?_cons, Option.some.injEq] at hh
          subst hh
          refine Or.inr ⟨⟨St.GOT_STRING_LIT_START, tail, input', lex', row, col, true, some ch, errs⟩, rfl, ?_, ?_,
            le_refl _⟩
          · exact Jinv_hold _ _ _ _ _ _ _ _ rfl (fun h => absurd h (by decide)) (by decide)
              (fun h => by simp at h) (fun _ => hlex) (fun _ => hlex)
              (fun k hk => by
                rw [lexBound_other _ (by decide) (by decide) (by decide)]
                exact h2)
          · show 8 * input'.length + rankSt St.GOT_STRING_LIT_START true true ≤ 8 * input'.length + 4
            have hv : rankSt St.GOT_STRING_LIT_START true true = 3 := rfl
            omega

theorem prog_GOT_ESCAPE_SEQUENCE_BS_OCT1 (states : List St) (input lex : List Char) (row col : Nat)
    (hold : Bool) (c : Option Char) (errs : List Diag)
    (hJ : Jinv ⟨St.GOT_ESCAPE_SEQUENCE_BS_OCT1, states, input, lex, row, col, hold, c, errs⟩) :
    Prog ⟨St.GOT_ESCAPE_SEQUENCE_BS_OCT1, states, input, lex, row, col, hold, c, errs⟩ :=
  prog_generic St.GOT_ESCAPE_SEQUENCE_BS_OCT1 4 3 states input lex row col hold c errs (by decide) (by decide)
    (fun ch l h => by
      rw [lexBound_other _ (by decide) (by decide) (by decide)] at h
      exact h)
    (by decide) (by decide) (by decide) (by decide) (by decide) hJ
    (stepok_GOT_ESCAPE_SEQUENCE_BS_OCT1 states row col errs)

theorem stepok_GOT_ESCAPE_SEQUENCE_BS_OCT2 (states : List St) (row col : Nat) (errs : List Diag)
    (c' : Option Char) (input' lex' : List Char)
    (hlex : lex' ≠ [])
    (hlex2 : ∀ ch, c' = some ch → 2 ≤ lex'.length)
    (hstk : escFamily St.GOT_ESCAPE_SEQUENCE_BS_OCT2 = true →
      states.head? = some St.GOT_CHAR_CONST_CONT ∨
      states.head? = some St.GOT_STRING_LIT_START)
    (hin : c' = none → input' = []) :
    StepOK (input'.length + lex'.length) (8 * input'.length + (if c'.isSome then 3 else 3))
      (iterSt St.GOT_ESCAPE_SEQUENCE_BS_OCT2 c' input' lex' states row col errs) := by
  rcases c' with _ | ch
  · simp only [Option.isSome_none, Bool.false_eq_true, if_false]
    rcases hstk rfl with hh | hh
    · cases states with
      | nil => simp at hh
      | cons t0 tail =>
        simp only [List.head?_cons, Option.some.injEq] at hh
        subst hh
        refine Or.inr ⟨⟨St.GOT_CHAR_CONST_CONT, tail, input', lex', row, col, true, none, errs⟩, rfl, ?_, ?_,
          le_refl _⟩
        · exact Jinv_hold _ _ _ _ _ _ _ _ rfl (fun h => absurd h (by decide)) (by decide)
            (fun _ => hin rfl) (fun _ => hlex) (fun h => absurd rfl h) (fun k hk => by simp at hk)
        · show 8 * input'.length + rankSt St.GOT_CHAR_CONST_CONT true false ≤ 8 * input'.length + 3
          have hv : rankSt St.GOT_CHAR_CONST_CONT true false = 3 := rfl
          omega
    · cases states with
      | nil => simp at hh
      | cons t0 tail =>
        simp only [List.head?_cons, Option.some.injEq] at hh
        subst hh
        refine Or.inr ⟨⟨St.GOT_STRING_LIT_START, tail, input', lex', row, col, true, none, errs⟩, rfl, ?_, ?_,
          le_refl _⟩
        · exact Jinv_hold _ _ _ _ _ _ _ _ rfl (fun h => absurd h (by decide)) (by decide)
            (fun _ => hin rfl) (fun _ => hlex) (fun h => absurd rfl h) (fun k hk => by simp at hk)
        · show 8 * input'.length + rankSt St.GOT_STRING_LIT_START true false ≤ 8 * input'.length + 3
          have hv : rankSt St.GOT_STRING_LIT_START true false = 3 := rfl
          omega
  · have h2 := hlex2 ch rfl
    simp only [Option.isSome_some, if_true]
    show StepOK _ _ (step_GOT_ESCAPE_SEQUENCE_BS_OCT2 (some ch) input' lex' states row col errs)
    unfold step_GOT_ESCAPE_SEQUENCE_BS_OCT2
    split
    · rcases hstk rfl with hh | hh
      · cases states with
        | nil => simp at hh
        | cons t0 tail =>
          simp only [List.head?_cons, Option.some.injEq] at hh
          subst hh
          refine Or.inr ⟨⟨St.GOT_CHAR_CONST_CONT, tail, input', lex', row, col, false, some ch, errs⟩, rfl, ?_, ?_,
            le_refl _⟩
          · exact Jinv_plain _ _ _ _ _ _ _ _ rfl (by decide) (by decide) hlex
          · show 8 * input'.length + rankSt St.GOT_CHAR_CONST_CONT false true ≤ 8 * input'.length + 3
            have hv : rankSt St.GOT_CHAR_CONST_CONT false true = 1 := rfl
            omega
      · cases states with
        | nil => simp at hh
        | cons t0 tail =>
          simp only [List.head?_cons, Option.some.injEq] at hh
          subst hh
          refine Or.inr ⟨⟨St.GOT_STRING_LIT_START, tail, input', lex', row, col, false, some ch, errs⟩, rfl, ?_, ?_,
            le_refl _⟩
          · exact Jinv_plain _ _ _ _ _ _ _ _ rfl (by decide) (by decide) hlex
          · show 8 * input'.length + rankSt St.GOT_STRING_LIT_START false true ≤ 8 * input'.length + 3
            have hv : rankSt St.GOT_STRING_LIT_START false true = 1 := rfl
            omega
    · rcases hstk rfl with hh | hh
      · cases states with
        | nil => simp at hh
        | cons t0 tail =>
          simp only [List.head?_cons, Option.some.injEq] at hh
          subst hh
          refine Or.inr ⟨⟨St.GOT_CHAR_CONST_CONT, tail, input', lex', row, col, true, some ch, errs⟩, rfl, ?_, ?_,
            le_refl _⟩
          · exact Jinv_hold _ _ _ _ _ _ _ _ rfl (fun h => absurd h (by decide)) (by decide)
              (fun h => by simp at h) (fun _ => hlex) (fun _ => hlex)
              (fun k hk => by
                rw [lexBound_other _ (by decide) (by decide) (by decide)]
                exact h2)
          · show 8 * input'.length + rankSt St.GOT_CHAR_CONST_CONT true true ≤ 8 * input'.length + 3
            have hv : rankSt St.GOT_CHAR_CONST_CONT true true = 3 := rfl
            omega
      · cases states with
        | nil => simp at hh
        | cons t0 tail =>
          simp only [List.head?_cons, Option.some.injEq] at hh
          subst hh
          refine Or.inr ⟨⟨St.GOT_STRING_LIT_START, tail, input', lex', row, col, true, some ch, errs⟩, rfl, ?_, ?_,
            le_refl _⟩
          · exact Jinv_hold _ _ _ _ _ _ _ _ rfl (fun h => absurd h (by decide)) (by decide)
              (fun h => by simp at h) (fun _ => hlex) (fun _ => hlex)
              (fun k hk => by
                rw [lexBound_other _ (by decide) (by decide) (by decide)]
                exact h2)
          · show 8 * input'.length + rankSt St.GOT_STRING_LIT_START true true ≤ 8 * input'.length + 3
            have hv : rankSt St.GOT_STRING_LIT_START true true = 3 := rfl
            omega

theorem prog_GOT_ESCAPE_SEQUENCE_BS_OCT2 (states : List St) (input lex : List Char) (row col : Nat)
    (hold : Bool) (c : Option Char) (errs : List Diag)
    (hJ : Jinv ⟨St.GOT_ESCAPE_SEQUENCE_BS_OCT2, states, input, lex, row, col, hold, c, errs⟩) :
    Prog ⟨St.GOT_ESCAPE_SEQUENCE_BS_OCT2, states, input, lex, row, col, hold, c, errs⟩ :=
  prog_generic St.GOT_ESCAPE_SEQUENCE_BS_OCT2 3 3 states input lex row col hold c errs (by decide) (by decide)
    (fun ch l h => by
      rw [lexBound_other _ (by decide) (by decide) (by decide)] at h
      exact h)
    (by decide) (by decide) (by decide) (by decide) (by decide) hJ
    (stepok_GOT_ESCAPE_SEQUENCE_BS_OCT2 states row col errs)

theorem stepok_GOT_ESCAPE_SEQUENCE_BS_x_XDIGIT (states : List St) (row col : Nat) (errs : List Diag)
    (c' : Option Char) (input' lex' : List Char)
    (hlex : lex' ≠ [])
    (hlex2 : ∀ ch, c' = some ch → 2 ≤ lex'.length)
    (hstk : escFamily St.GOT_ESCAPE_SEQUENCE_BS_x_XDIGIT = true →
      states.head? = some St.GOT_CHAR_CONST_CONT ∨
      states.head? = some St.GOT_STRING_LIT_START)
    (hin : c' = none → input' = []) :
    StepOK (input'.length + lex'.length) (8 * input'.length + (if c'.isSome then 4 else 3))
      (iterSt St.GOT_ESCAPE_SEQUENCE_BS_x_XDIGIT c' input' lex' states row col errs) := by
  rcases c' with _ | ch
  · simp only [Option.isSome_none, Bool.false_eq_true, if_false]
    rcases hstk rfl with hh | hh
    · cases states with
      | nil => simp at hh
      | cons t0 tail =>
        simp only [List.head?_cons, Option.some.injEq] at hh
        subst hh
        refine Or.inr ⟨⟨St.GOT_CHAR_CONST_CONT, tail, input', lex', row, col, true, none, errs⟩, rfl, ?_, ?_,
          le_refl _⟩
        · exact Jinv_hold _ _ _ _ _ _ _ _ rfl (fun h => absurd h (by decide)) (by decide)
            (fun _ => hin rfl) (fun _ => hlex) (fun h => absurd rfl h) (fun k hk => by simp at hk)
        · show 8 * input'.length + rankSt St.GOT_CHAR_CONST_CONT true false ≤ 8 * input'.length + 3
          have hv : rankSt St.GOT_CHAR_CONST_CONT true false = 3 := rfl
          omega
    · cases states with
      | nil => simp at hh
      | cons t0 tail =>
        simp only [List.head?_cons, Option.some.injEq] at hh
        subst hh
        refine Or.inr ⟨⟨St.GOT_STRING_LIT_START, tail, input', lex', row, col, true, none, errs⟩, rfl, ?_, ?_,
          le_refl _⟩
        · exact Jinv_hold _ _ _ _ _ _ _ _ rfl (fun h => absurd h (by decide)) (by decide)
            (fun _ => hin rfl) (fun _ => hlex) (fun h => absurd rfl h) (fun k hk => by simp at hk)
        · show 8 * input'.length + rankSt St.GOT_STRING_LIT_START true false ≤ 8 * input'.length + 3
          have hv : rankSt St.GOT_STRING_LIT_START true false = 3 := rfl
          omega
  · have h2 := hlex2 ch rfl
    simp only [Option.isSome_some, if_true]
    show StepOK _ _ (step_GOT_ESCAPE_SEQUENCE_BS_x_XDIGIT (some ch) input' lex' states row col errs)
    unfold step_GOT_ESCAPE_SEQUENCE_BS_x_XDIGIT
    split
    · refine Or.inr ⟨⟨St.GOT_ESCAPE_SEQUENCE_BS_x_XDIGIT, states, input', lex', row, col, false, some ch, errs⟩, rfl,
        Jinv_esc _ _ _ _ _ _ _ _ (hstk rfl) (by decide) (by decide) hlex, ?_, le_refl _⟩
      show 8 * input'.length + rankSt St.GOT_ESCAPE_SEQUENCE_BS_x_XDIGIT false true ≤ 8 * input'.length + 4
      have hv : rankSt St.GOT_ESCAPE_SEQUENCE_BS_x_XDIGIT false true = 4 := rfl
      omega
    · rcases hstk rfl with hh | hh
      · cases states with
        | nil => simp at hh
        | cons t0 tail =>
          simp only [List.head?_cons, Option.some.injEq] at hh
          subst hh
          refine Or.inr ⟨⟨St.GOT_CHAR_CONST_CONT, tail, input', lex', row, col, true, some ch, errs⟩, rfl, ?_, ?_,
            le_refl _⟩
          · exact Jinv_hold _ _ _ _ _ _ _ _ rfl (fun h => absurd h (by decide)) (by decide)
              (fun h => by simp at h) (fun _ => hlex) (fun _ => hlex)
              (fun k hk => by
                rw [lexBound_other _ (by decide) (by decide) (by decide)]
                exact h2)
          · show 8 * input'.length + rankSt St.GOT_CHAR_CONST_CONT true true ≤ 8 * input'.length + 4
            have hv : rankSt St.GOT_CHAR_CONST_CONT true true = 3 := rfl
            omega
      · cases states with
        | nil => simp at hh
        | cons t0 tail =>
          simp only [List.head?_cons, Option.some.injEq] at hh
          subst hh
          refine Or.inr ⟨⟨St.GOT_STRING_LIT_START, tail, input', lex', row, col, true, some ch, errs⟩, rfl, ?_, ?_,
            le_refl _⟩
          · exact Jinv_hold _ _ _ _ _ _ _ _ rfl (fun h => absurd h (by decide)) (by decide)
              (fun h => by simp at h) (fun _ => hlex) (fun _ => hlex)
              (fun k hk => by
                rw [lexBound_other _ (by decide) (by decide) (by decide)]
                exact h2)
          · show 8 * input'.length + rankSt St.GOT_STRING_LIT_START true true ≤ 8 * input'.length + 4
            have hv : rankSt St.GOT_STRING_LIT_START true true = 3 := rfl
            omega

theorem prog_GOT_ESCAPE_SEQUENCE_BS_x_XDIGIT (states : List St) (input lex : List Char) (row col : Nat)
    (hold : Bool) (c : Option Char) (errs : List Diag)
    (hJ : Jinv ⟨St.GOT_ESCAPE_SEQUENCE_BS_x_XDIGIT, states, input, lex, row, col, hold, c, errs⟩) :
    Prog ⟨St.GOT_ESCAPE_SEQUENCE_BS_x_XDIGIT, states, input, lex, row, col, hold, c, errs⟩ :=
  prog_generic St.GOT_ESCAPE_SEQUENCE_BS_x_XDIGIT 4 3 states input lex row col hold c errs (by decide) (by decide)
    (fun ch l h => by
      rw [lexBound_other _ (by decide) (by decide) (by decide)] at h
      exact h)
    (by decide) (by decide) (by decide) (by decide) (by decide) hJ
    (stepok_GOT_ESCAPE_SEQUENCE_BS_x_XDIGIT states row col errs)

theorem stepok_GOT_ESCAPE_SEQUENCE_BS_u3 (states : List St) (row col : Nat) (errs : List Diag)
    (c' : Option Char) (input' lex' : List Char)
    (hlex : lex' ≠ [])
    (hlex2 : ∀ ch, c' = some ch → 2 ≤ lex'.length)
    (hstk : escFamily St.GOT_ESCAPE_SEQUENCE_BS_u3 = true →
      states.head? = some St.GOT_CHAR_CONST_CONT ∨
      states.head? = some St.GOT_STRING_LIT_START)
    (hin : c' = none → input' = []) :
    StepOK (input'.length + lex'.length) (8 * input'.length + (if c'.isSome then 2 else 0))
      (iterSt St.GOT_ESCAPE_SEQUENCE_BS_u3 c' input' lex' states row col errs) := by
  rcases c' with _ | ch
  · simp only [Option.isSome_none, Bool.false_eq_true, if_false]
    exact Or.inl ⟨_, rfl, le_refl _, fun h => by simp at h, fun _ => hlex⟩
  · have h2 := hlex2 ch rfl
    simp only [Option.isSome_some, if_true]
    show StepOK _ _ (step_GOT_ESCAPE_SEQUENCE_BS_u3 (some ch) input' lex' states row col errs)
    unfold step_GOT_ESCAPE_SEQUENCE_BS_u3
    split
    · rcases hstk rfl with hh | hh
      · cases states with
        | nil => simp at hh
        | cons t0 tail =>
          simp only [List.head?_cons, Option.some.injEq] at hh
          subst hh
          refine Or.inr ⟨⟨St.GOT_CHAR_CONST_CONT, tail, input', lex', row, col, false, some ch, errs⟩, rfl, ?_, ?_,
            le_refl _⟩
          · exact Jinv_plain _ _ _ _ _ _ _ _ rfl (by decide) (by decide) hlex
          · show 8 * input'.length + rankSt St.GOT_CHAR_CONST_CONT false true ≤ 8 * input'.length + 2
            have hv : rankSt St.GOT_CHAR_CONST_CONT false true = 1 := rfl
            omega
      · cases states with
        | nil => simp at hh
        | cons t0 tail =>
          simp only [List.head?_cons, Option.some.injEq] at hh
          subst hh
          refine Or.inr ⟨⟨St.GOT_STRING_LIT_START, tail, input', lex', row, col, false, some ch, errs⟩, rfl, ?_, ?_,
            le_refl _⟩
          · exact Jinv_plain _ _ _ _ _ _ _ _ rfl (by decide) (by decide) hlex
          · show 8 * input'.length + rankSt St.GOT_STRING_LIT_START false true ≤ 8 * input'.length + 2
            have hv : rankSt St.GOT_STRING_LIT_START false true = 1 := rfl
            omega
    · exact Or.inl ⟨_, rfl, le_refl _, fun h => by simp at h, fun _ => hlex⟩

theorem prog_GOT_ESCAPE_SEQUENCE_BS_u3 (states : List St) (input lex : List Char) (row col : Nat)
    (hold : Bool) (c : Option Char) (errs : List Diag)
    (hJ : Jinv ⟨St.GOT_ESCAPE_SEQUENCE_BS_u3, states, input, lex, row, col, hold, c, errs⟩) :
    Prog ⟨St.GOT_ESCAPE_SEQUENCE_BS_u3, states, input, lex, row, col, hold, c, errs⟩ :=
  prog_generic St.GOT_ESCAPE_SEQUENCE_BS_u3 2 0 states input lex row col hold c errs (by decide) (by decide)
    (fun ch l h => by
      rw [lexBound_other _ (by decide) (by decide) (by decide)] at h
      exact h)
    (by decide) (by decide) (by decide) (by decide) (by decide) hJ
    (stepok_GOT_ESCAPE_SEQUENCE_BS_u3 states row col errs)

theorem stepok_GOT_ESCAPE_SEQUENCE_BS_U7 (states : List St) (row col : Nat) (errs : List Diag)
    (c' : Option Char) (input' lex' : List Char)
    (hlex : lex' ≠ [])
    (hlex2 : ∀ ch, c' = some ch → 2 ≤ lex'.length)
    (hstk : escFamily St.GOT_ESCAPE_SEQUENCE_BS_U7 = true →
      states.head? = some St.GOT_CHAR_CONST_CONT ∨
      states.head? = some St.GOT_STRING_LIT_START)
    (hin : c' = none → input' = []) :
    StepOK (input'.length + lex'.length) (8 * input'.length + (if c'.isSome then 2 else 0))
      (iterSt St.GOT_ESCAPE_SEQUENCE_BS_U7 c' input' lex' states row col errs) := by
  rcases c' with _ | ch
  · simp only [Option.isSome_none, Bool.false_eq_true, if_false]
    exact Or.inl ⟨_, rfl, le_refl _, fun h => by simp at h, fun _ => hlex⟩
  · have h2 := hlex2 ch rfl
    simp only [Option.isSome_some, if_true]
    show StepOK _ _ (step_GOT_ESCAPE_SEQUENCE_BS_U7 (some ch) input' lex' states row col errs)
    unfold step_GOT_ESCAPE_SEQUENCE_BS_U7
    split
    · rcases hstk rfl with hh | hh
      · cases states with
        | nil => simp at hh
        | cons t0 tail =>
          simp only [List.head?_cons, Option.some.injEq] at hh
          subst hh
          refine Or.inr ⟨⟨St.GOT_CHAR_CONST_CONT, tail, input', lex', row, col, false, some ch, errs⟩, rfl, ?_, ?_,
            le_refl _⟩
          · exact Jinv_plain _ _ _ _ _ _ _ _ rfl (by decide) (by decide) hlex
          · show 8 * input'.length + rankSt St.GOT_CHAR_CONST_CONT false true ≤ 8 * input'.length + 2
            have hv : rankSt St.GOT_CHAR_CONST_CONT false true = 1 := rfl
            omega
      · cases states with
        | nil => simp at hh
        | cons t0 tail =>
          simp only [List.head?_cons, Option.some.injEq] at hh
          subst hh
          refine Or.inr ⟨⟨St.GOT_STRING_LIT_START, tail, input', lex', row, col, false, some ch, errs⟩, rfl, ?_, ?_,
            le_refl _⟩
          · exact Jinv_plain _ _ _ _ _ _ _ _ rfl (by decide) (by decide) hlex
          · show 8 * input'.length + rankSt St.GOT_STRING_LIT_START false true ≤ 8 * input'.length + 2
            have hv : rankSt St.GOT_STRING_LIT_START false true = 1 := rfl
            omega
    · exact Or.inl ⟨_, rfl, le_refl _, fun h => by simp at h, fun _ => hlex⟩

theorem prog_GOT_ESCAPE_SEQUENCE_BS_U7 (states : List St) (input lex : List Char) (row col : Nat)
    (hold : Bool) (c : Option Char) (errs : List Diag)
    (hJ : Jinv ⟨St.GOT_ESCAPE_SEQUENCE_BS_U7, states, input, lex, row, col, hold, c, errs⟩) :
    Prog ⟨St.GOT_ESCAPE_SEQUENCE_BS_U7, states, input, lex, row, col, hold, c, errs⟩ :=
  prog_generic St.GOT_ESCAPE_SEQUENCE_BS_U7 2 0 states input lex row col hold c errs (by decide) (by decide)
    (fun ch l h => by
      rw [lexBound_other _ (by decide) (by decide) (by decide)] at h
      exact h)
    (by decide) (by decide) (by decide) (by decide) (by decide) hJ
    (stepok_GOT_ESCAPE_SEQUENCE_BS_U7 states row col errs)

theorem stepok_GOT_u (states : List St) (row col : Nat) (errs : List Diag)
    (c' : Option Char) (input' lex' : List Char)
    (hlex : lex' ≠ [])
    (hlex2 : ∀ ch, c' = some ch → 2 ≤ lex'.length)
    (hstk : escFamily St.GOT_u = true →
      states.head? = some St.GOT_CHAR_CONST_CONT ∨
      states.head? = some St.GOT_STRING_LIT_START)
    (hin : c' = none → input' = []) :
    StepOK (input'.length + lex'.length) (8 * input'.length + (if c'.isSome then 2 else 1))
      (iterSt St.GOT_u c' input' lex' states row col errs) := by
  rcases c' with _ | ch
  · simp only [Option.isSome_none, Bool.false_eq_true, if_false]
    refine Or.inr ⟨⟨St.GOT_IDENT, states, input', lex', row, col, true, none, errs⟩, rfl, ?_, ?_,
      le_refl _⟩
    · exact Jinv_hold _ _ _ _ _ _ _ _ rfl (fun h => absurd h (by decide)) (by decide)
        (fun _ => hin rfl) (fun _ => hlex) (fun h => absurd rfl h) (fun k hk => by simp at hk)
    · show 8 * input'.length + rankSt St.GOT_IDENT true false ≤ 8 * input'.length + 1
      have hv : rankSt St.GOT_IDENT true false = 1 := rfl
      omega
  · have h2 := hlex2 ch rfl
    simp only [Option.isSome_some, if_true]
    show StepOK _ _ (step_GOT_u (some ch) input' lex' states row col errs)
    unfold step_GOT_u
    split
    · refine Or.inr ⟨⟨St.GOT_un, states, input', lex', row, col, false, some ch, errs⟩, rfl,
        Jinv_plain _ _ _ _ _ _ _ _ rfl (by decide) (by decide) hlex, ?_, le_refl _⟩
      show 8 * input'.length + rankSt St.GOT_un false true ≤ 8 * input'.length + 2
      have hv : rankSt St.GOT_un false true = 2 := rfl
      omega
    · split
      · rename_i hpk
        obtain ⟨k, tl, rfl⟩ : ∃ k tl, input' = k :: tl := by
          cases input' with
          | nil => first | simp at hpk | (rcases hpk with h | h <;> simp at h)
          | cons a tl => exact ⟨a, tl, rfl⟩
        refine Or.inr ⟨⟨St.GOT_CHAR_CONST_START, states, tl, lex' ++ [k], row, col, false, some ch, errs⟩, rfl,
          Jinv_plain _ _ _ _ _ _ _ _ rfl (by decide) (by decide) (by simp), ?_, ?_⟩
        · show 8 * tl.length + rankSt St.GOT_CHAR_CONST_START false true ≤ 8 * (k :: tl).length + 2
          have hv : rankSt St.GOT_CHAR_CONST_START false true = 2 := rfl
          simp only [List.length_cons]
          omega
        · show tl.length + (lex' ++ [k]).length ≤ (k :: tl).length + lex'.length
          simp only [List.length_append, List.length_cons, List.length_nil]
          omega
      · split
        · rename_i hpk
          obtain ⟨k, tl, rfl⟩ : ∃ k tl, input' = k :: tl := by
            cases input' with
            | nil => first | simp at hpk | (rcases hpk with h | h <;> simp at h)
            | cons a tl => exact ⟨a, tl, rfl⟩
          refine Or.inr ⟨⟨St.GOT_STRING_LIT_START, states, tl, lex' ++ [k], row, col, false, some ch, errs⟩, rfl,
            Jinv_plain _ _ _ _ _ _ _ _ rfl (by decide) (by decide) (by simp), ?_, ?_⟩
          · show 8 * tl.length + rankSt St.GOT_STRING_LIT_START false true ≤ 8 * (k :: tl).length + 2
            have hv : rankSt St.GOT_STRING_LIT_START false true = 1 := rfl
            simp only [List.length_cons]
            omega
          · show tl.length + (lex' ++ [k]).length ≤ (k :: tl).length + lex'.length
            simp only [List.length_append, List.length_cons, List.length_nil]
            omega
        · refine Or.inr ⟨⟨St.GOT_IDENT, states, input', lex', row, col, false, some ch, errs⟩, rfl,
            Jinv_plain _ _ _ _ _ _ _ _ rfl (by decide) (by decide) hlex, ?_, le_refl _⟩
          show 8 * input'.length + rankSt St.GOT_IDENT false true ≤ 8 * input'.length + 2
          have hv : rankSt St.GOT_IDENT false true = 1 := rfl
          omega
    · refine Or.inr ⟨⟨St.GOT_CHAR_CONST_START, states, input', lex', row, col, false, some ch, errs⟩, rfl,
        Jinv_plain _ _ _ _ _ _ _ _ rfl (by decide) (by decide) hlex, ?_, le_refl _⟩
      show 8 * input'.length + rankSt St.GOT_CHAR_CONST_START false true ≤ 8 * input'.length + 2
      have hv : rankSt St.GOT_CHAR_CONST_START false true = 2 := rfl
      omega
    · refine Or.inr ⟨⟨St.GOT_STRING_LIT_START, states, input', lex', row, col, false, some ch, errs⟩, rfl,
        Jinv_plain _ _ _ _ _ _ _ _ rfl (by decide) (by decide) hlex, ?_, le_refl _⟩
      show 8 * input'.length + rankSt St.GOT_STRING_LIT_START false true ≤ 8 * input'.length + 2
      have hv : rankSt St.GOT_STRING_LIT_START false true = 1 := rfl
      omega
    · refine Or.inr ⟨⟨St.GOT_IDENT, states, input', lex', row, col, true, some ch, errs⟩, rfl, ?_, ?_, le_refl _⟩
      · exact Jinv_hold _ _ _ _ _ _ _ _ rfl (fun h => absurd h (by decide)) (by decide)
          (fun h => by simp at h) (fun _ => hlex) (fun _ => hlex)
          (fun k hk => by
            unfold lexBound
            rw [if_neg (by decide), if_neg (by decide), if_pos rfl]
            exact Or.inl h2)
      · show 8 * input'.length + rankSt St.GOT_IDENT true true ≤ 8 * input'.length + 2
        have hv : rankSt St.GOT_IDENT true true = 2 := rfl
        omega

theorem prog_GOT_u (states : List St) (input lex : List Char) (row col : Nat)
    (hold : Bool) (c : Option Char) (errs : List Diag)
    (hJ : Jinv ⟨St.GOT_u, states, input, lex, row, col, hold, c, errs⟩) :
    Prog ⟨St.GOT_u, states, input, lex, row, col, hold, c, errs⟩ :=
  prog_generic St.GOT_u 2 1 states input lex row col hold c errs (by decide) (by decide)
    (fun ch l h => by
      rw [lexBound_other _ (by decide) (by decide) (by decide)] at h
      exact h)
    (by decide) (by decide) (by decide) (by decide) (by decide) hJ
    (stepok_GOT_u states row col errs)

theorem stepok_GOT_OCT_LITERAL (states : List St) (row col : Nat) (errs : List Diag)
    (c' : Option Char) (input' lex' : List Char)
    (hlex : lex' ≠ [])
    (hlex2 : ∀ ch, c' = some ch → 2 ≤ lex'.length)
    (hstk : escFamily St.GOT_OCT_LITERAL = true →
      states.head? = some St.GOT_CHAR_CONST_CONT ∨
      states.head? = some St.GOT_STRING_LIT_START)
    (hin : c' = none → input' = []) :
    StepOK (input'.length + lex'.length) (8 * input'.length + (if c'.isSome then 3 else 0))
      (iterSt St.GOT_OCT_LITERAL c' input' lex' states row col errs) := by
  rcases c' with _ | ch
  · simp only [Option.isSome_none, Bool.false_eq_true, if_false]
    exact Or.inl ⟨_, rfl, le_refl _, fun h => by simp at h, fun _ => hlex⟩
  · have h2 := hlex2 ch rfl
    simp only [Option.isSome_some, if_true]
    show StepOK _ _ (step_GOT_OCT_LITERAL (some ch) input' lex' states row col errs)
    unfold step_GOT_OCT_LITERAL
    split
    · refine Or.inr ⟨⟨St.GOT_OCT_LITERAL, states, input', lex', row, col, false, some ch, errs⟩, rfl,
        Jinv_plain _ _ _ _ _ _ _ _ rfl (by decide) (by decide) hlex, ?_, le_refl _⟩
      show 8 * input'.length + rankSt St.GOT_OCT_LITERAL false true ≤ 8 * input'.length + 3
      have hv : rankSt St.GOT_OCT_LITERAL false true = 1 := rfl
      omega
    · split
      · split
        · rename_i hsu
          refine Or.inr ⟨⟨St.GOT_INT_SUFFIX_START, states, input', lex', row, col, false, some ch, errs⟩,
            rfl, Jinv_sufstart _ _ _ _ _ _ _ hsu hlex, ?_, le_refl _⟩
          show 8 * input'.length + rankSt St.GOT_INT_SUFFIX_START false true ≤ 8 * input'.length + 3
          have hv : rankSt St.GOT_INT_SUFFIX_START false true = 1 := rfl
          omega
        · split
          · rename_i hpk
            obtain ⟨k, tl, rfl⟩ : ∃ k tl, input' = k :: tl := by
              cases input' with
              | nil => first | simp at hpk | (rcases hpk with h | h <;> simp at h)
              | cons a tl => exact ⟨a, tl, rfl⟩
            refine Or.inr ⟨⟨St.GOT_FLOAT_CONST_e, states, tl, lex' ++ [k], row, col, false, some ch, errs⟩, rfl,
              Jinv_plain _ _ _ _ _ _ _ _ rfl (by decide) (by decide) (by simp), ?_, ?_⟩
            · show 8 * tl.length + rankSt St.GOT_FLOAT_CONST_e false true ≤ 8 * (k :: tl).length + 3
              have hv : rankSt St.GOT_FLOAT_CONST_e false true = 2 := rfl
              simp only [List.length_cons]
              omega
            · show tl.length + (lex' ++ [k]).length ≤ (k :: tl).length + lex'.length
              simp only [List.length_append, List.length_cons, List.length_nil]
              omega
          · split
            · rename_i hpk
              obtain ⟨k, tl, rfl⟩ : ∃ k tl, input' = k :: tl := by
                cases input' with
                | nil => first | simp at hpk | (rcases hpk with h | h <;> simp at h)
                | cons a tl => exact ⟨a, tl, rfl⟩
              refine Or.inr ⟨⟨St.GOT_FLOAT_CONST_DOT, states, tl, lex' ++ [k], row, col, false, some ch, errs⟩, rfl,
                Jinv_plain _ _ _ _ _ _ _ _ rfl (by decide) (by decide) (by simp), ?_, ?_⟩
              · show 8 * tl.length + rankSt St.GOT_FLOAT_CONST_DOT false true ≤ 8 * (k :: tl).length + 3
                have hv : rankSt St.GOT_FLOAT_CONST_DOT false true = 1 := rfl
                simp only [List.length_cons]
                omega
              · show tl.length + (lex' ++ [k]).length ≤ (k :: tl).length + lex'.length
                simp only [List.length_append, List.length_cons, List.length_nil]
                omega
            · split
              · rename_i hpk
                obtain ⟨k, tl, rfl⟩ : ∃ k tl, input' = k :: tl := by
                  cases input' with
                  | nil => first | simp at hpk | (rcases hpk with h | h <;> simp at h)
                  | cons a tl => exact ⟨a, tl, rfl⟩
                refine Or.inr ⟨⟨St.GOT_OCT_LITERAL, states, tl, lex' ++ [k], row, col, false, some ch, errs⟩, rfl,
                  Jinv_plain _ _ _ _ _ _ _ _ rfl (by decide) (by decide) (by simp), ?_, ?_⟩
                · show 8 * tl.length + rankSt St.GOT_OCT_LITERAL false true ≤ 8 * (k :: tl).length + 3
                  have hv : rankSt St.GOT_OCT_LITERAL false true = 1 := rfl
                  simp only [List.length_cons]
                  omega
                · show tl.length + (lex' ++ [k]).length ≤ (k :: tl).length + lex'.length
                  simp only [List.length_append, List.length_cons, List.length_nil]
                  omega
              · split
                · refine Or.inr ⟨⟨St.GOT_INT_LITERAL, states, input', lex', row, col, false, some ch, errs⟩, rfl,
                    Jinv_plain _ _ _ _ _ _ _ _ rfl (by decide) (by decide) hlex, ?_, le_refl _⟩
                  show 8 * input'.length + rankSt St.GOT_INT_LITERAL false true ≤ 8 * input'.length + 3
                  have hv : rankSt St.GOT_INT_LITERAL false true = 1 := rfl
                  omega
                · exact Or.inl ⟨_, rfl, le_refl _, fun h => by simp at h, fun _ => hlex⟩
      · split
        · rename_i hsu
          refine Or.inr ⟨⟨St.GOT_INT_SUFFIX_START, states, input', lex', row, col, true, some ch, errs⟩,
            rfl, ?_, ?_, le_refl _⟩
          · exact Jinv_hold _ _ _ _ _ _ _ _ rfl (fun _ => hsu) (by decide)
              (fun h => by simp at h) (fun _ => hlex) (fun _ => hlex)
              (fun k hk => by
                rw [lexBound_other _ (by decide) (by decide) (by decide)]
                exact h2)
          · show 8 * input'.length + rankSt St.GOT_INT_SUFFIX_START true true ≤ 8 * input'.length + 3
            have hv : rankSt St.GOT_INT_SUFFIX_START true true = 3 := rfl
            omega
        · split
          · refine Or.inr ⟨⟨St.GOT_FLOAT_CONST_e, states, input', lex', row, col, false, some ch, errs⟩, rfl,
              Jinv_plain _ _ _ _ _ _ _ _ rfl (by decide) (by decide) hlex, ?_, le_refl _⟩
            show 8 * input'.length + rankSt St.GOT_FLOAT_CONST_e false true ≤ 8 * input'.length + 3
            have hv : rankSt St.GOT_FLOAT_CONST_e false true = 2 := rfl
            omega
          · split
            · refine Or.inr ⟨⟨St.GOT_FLOAT_CONST_DOT, states, input', lex', row, col, false, some ch, errs⟩, rfl,
                Jinv_plain _ _ _ _ _ _ _ _ rfl (by decide) (by decide) hlex, ?_, le_refl _⟩
              show 8 * input'.length + rankSt St.GOT_FLOAT_CONST_DOT false true ≤ 8 * input'.length + 3
              have hv : rankSt St.GOT_FLOAT_CONST_DOT false true = 1 := rfl
              omega
            · refine Or.inl ⟨_, rfl, ?_, fun h => by simp at h, fun _ => ?_⟩
              · show (ch :: input').length + lex'.dropLast.length ≤ input'.length + lex'.length
                simp only [List.length_cons, List.length_dropLast]
                omega
              · apply ne_nil_of_one_le
                show 1 ≤ lex'.dropLast.length
                simp only [List.length_dropLast]
                omega

theorem prog_GOT_OCT_LITERAL (states : List St) (input lex : List Char) (row col : Nat)
    (hold : Bool) (c : Option Char) (errs : List Diag)
    (hJ : Jinv ⟨St.GOT_OCT_LITERAL, states, input, lex, row, col, hold, c, errs⟩) :
    Prog ⟨St.GOT_OCT_LITERAL, states, input, lex, row, col, hold, c, errs⟩ :=
  prog_generic St.GOT_OCT_LITERAL 3 0 states input lex row col hold c errs (by decide) (by decide)
    (fun ch l h => by
      rw [lexBound_other _ (by decide) (by decide) (by decide)] at h
      exact h)
    (by decide) (by decide) (by decide) (by decide) (by decide) hJ
    (stepok_GOT_OCT_LITERAL states row col errs)

theorem stepok_GOT_HEX_LITERAL (states : List St) (row col : Nat) (errs : List Diag)
    (c' : Option Char) (input' lex' : List Char)
    (hlex : lex' ≠ [])
    (hlex2 : ∀ ch, c' = some ch → 2 ≤ lex'.length)
    (hstk : escFamily St.GOT_HEX_LITERAL = true →
      states.head? = some St.GOT_CHAR_CONST_CONT ∨
      states.head? = some St.GOT_STRING_LIT_START)
    (hin : c' = none → input' = []) :
    StepOK (input'.length + lex'.length) (8 * input'.length + (if c'.isSome then 3 else 0))
      (iterSt St.GOT_HEX_LITERAL c' input' lex' states row col errs) := by
  rcases c' with _ | ch
  · simp only [Option.isSome_none, Bool.false_eq_true, if_false]
    exact Or.inl ⟨_, rfl, le_refl _, fun h => by simp at h, fun _ => hlex⟩
  · have h2 := hlex2 ch rfl
    simp only [Option.isSome_some, if_true]
    show StepOK _ _ (step_GOT_HEX_LITERAL (some ch) input' lex' states row col errs)
    unfold step_GOT_HEX_LITERAL
    split
    · refine Or.inr ⟨⟨St.GOT_HEX_LITERAL, states, input', lex', row, col, false, some ch, errs⟩, rfl,
        Jinv_plain _ _ _ _ _ _ _ _ rfl (by decide) (by decide) hlex, ?_, le_refl _⟩
      show 8 * input'.length + rankSt St.GOT_HEX_LITERAL false true ≤ 8 * input'.length + 3
      have hv : rankSt St.GOT_HEX_LITERAL false true = 1 := rfl
      omega
    · split
      · split
        · rename_i hsu
          refine Or.inr ⟨⟨St.GOT_INT_SUFFIX_START, states, input', lex', row, col, false, some ch, errs⟩,
            rfl, Jinv_sufstart _ _ _ _ _ _ _ hsu hlex, ?_, le_refl _⟩
          show 8 * input'.length + rankSt St.GOT_INT_SUFFIX_START false true ≤ 8 * input'.length + 3
          have hv : rankSt St.GOT_INT_SUFFIX_START false true = 1 := rfl
          omega
        · split
          · rename_i hpk
            obtain ⟨k, tl, rfl⟩ : ∃ k tl, input' = k :: tl := by
              cases input' with
              | nil => first | simp at hpk | (rcases hpk with h | h <;> simp at h)
              | cons a tl => exact ⟨a, tl, rfl⟩
            refine Or.inr ⟨⟨St.GOT_HEX_CONST_DOT, states, tl, lex' ++ [k], row, col, false, some ch, errs⟩, rfl,
              Jinv_plain _ _ _ _ _ _ _ _ rfl (by decide) (by decide) (by simp), ?_, ?_⟩
            · show 8 * tl.length + rankSt St.GOT_HEX_CONST_DOT false true ≤ 8 * (k :: tl).length + 3
              have hv : rankSt St.GOT_HEX_CONST_DOT false true = 2 := rfl
              simp only [List.length_cons]
              omega
            · show tl.length + (lex' ++ [k]).length ≤ (k :: tl).length + lex'.length
              simp only [List.length_append, List.length_cons, List.length_nil]
              omega
          · split
            · rename_i hpk
              obtain ⟨k, tl, rfl⟩ : ∃ k tl, input' = k :: tl := by
                cases input' with
                | nil => first | simp at hpk | (rcases hpk with h | h <;> simp at h)
                | cons a tl => exact ⟨a, tl, rfl⟩
              refine Or.inr ⟨⟨St.GOT_HEX_CONST_p, states, tl, lex' ++ [k], row, col, false, some ch, errs⟩, rfl,
                Jinv_plain _ _ _ _ _ _ _ _ rfl (by decide) (by decide) (by simp), ?_, ?_⟩
              · show 8 * tl.length + rankSt St.GOT_HEX_CONST_p false true ≤ 8 * (k :: tl).length + 3
                have hv : rankSt St.GOT_HEX_CONST_p false true = 2 := rfl
                simp only [List.length_cons]
                omega
              · show tl.length + (lex' ++ [k]).length ≤ (k :: tl).length + lex'.length
                simp only [List.length_append, List.length_cons, List.length_nil]
                omega
            · split
              · rename_i hpk
                obtain ⟨k, tl, rfl⟩ : ∃ k tl, input' = k :: tl := by
                  cases input' with
                  | nil => first | simp at hpk | (rcases hpk with h | h <;> simp at h)
                  | cons a tl => exact ⟨a, tl, rfl⟩
                refine Or.inr ⟨⟨St.GOT_HEX_LITERAL, states, tl, lex' ++ [k], row, col, false, some ch, errs⟩, rfl,
                  Jinv_plain _ _ _ _ _ _ _ _ rfl (by decide) (by decide) (by simp), ?_, ?_⟩
                · show 8 * tl.length + rankSt St.GOT_HEX_LITERAL false true ≤ 8 * (k :: tl).length + 3
                  have hv : rankSt St.GOT_HEX_LITERAL false true = 1 := rfl
                  simp only [List.length_cons]
                  omega
                · show tl.length + (lex' ++ [k]).length ≤ (k :: tl).length + lex'.length
                  simp only [List.length_append, List.length_cons, List.length_nil]
                  omega
              · exact Or.inl ⟨_, rfl, le_refl _, fun h => by simp at h, fun _ => hlex⟩
      · split
        · rename_i hsu
          refine Or.inr ⟨⟨St.GOT_INT_SUFFIX_START, states, input', lex', row, col, true, some ch, errs⟩,
            rfl, ?_, ?_, le_refl _⟩
          · exact Jinv_hold _ _ _ _ _ _ _ _ rfl (fun _ => hsu) (by decide)
              (fun h => by simp at h) (fun _ => hlex) (fun _ => hlex)
              (fun k hk => by
                rw [lexBound_other _ (by decide) (by decide) (by decide)]
                exact h2)
          · show 8 * input'.length + rankSt St.GOT_INT_SUFFIX_START true true ≤ 8 * input'.length + 3
            have hv : rankSt St.GOT_INT_SUFFIX_START true true = 3 := rfl
            omega
        · split
          · refine Or.inr ⟨⟨St.GOT_HEX_CONST_DOT, states, input', lex', row, col, false, some ch, errs⟩, rfl,
              Jinv_plain _ _ _ _ _ _ _ _ rfl (by decide) (by decide) hlex, ?_, le_refl _⟩
            show 8 * input'.length + rankSt St.GOT_HEX_CONST_DOT false true ≤ 8 * input'.length + 3
            have hv : rankSt St.GOT_HEX_CONST_DOT false true = 2 := rfl
            omega
          · split
            · refine Or.inr ⟨⟨St.GOT_HEX_CONST_p, states, input', lex', row, col, false, some ch, errs⟩, rfl,
                Jinv_plain _ _ _ _ _ _ _ _ rfl (by decide) (by decide) hlex, ?_, le_refl _⟩
              show 8 * input'.length + rankSt St.GOT_HEX_CONST_p false true ≤ 8 * input'.length + 3
              have hv : rankSt St.GOT_HEX_CONST_p false true = 2 := rfl
              omega
            · split
              · refine Or.inr ⟨⟨St.GOT_HEX_LITERAL, states, input', lex', row, col, false, some ch, errs⟩, rfl,
                  Jinv_plain _ _ _ _ _ _ _ _ rfl (by decide) (by decide) hlex, ?_, le_refl _⟩
                show 8 * input'.length + rankSt St.GOT_HEX_LITERAL false true ≤ 8 * input'.length + 3
                have hv : rankSt St.GOT_HEX_LITERAL false true = 1 := rfl
                omega
              · refine Or.inl ⟨_, rfl, ?_, fun h => by simp at h, fun _ => ?_⟩
                · show (ch :: input').length + lex'.dropLast.length ≤ input'.length + lex'.length
                  simp only [List.length_cons, List.length_dropLast]
                  omega
                · apply ne_nil_of_one_le
                  show 1 ≤ lex'.dropLast.length
                  simp only [List.length_dropLast]
                  omega

theorem prog_GOT_HEX_LITERAL (states : List St) (input lex : List Char) (row col : Nat)
    (hold : Bool) (c : Option Char) (errs : List Diag)
    (hJ : Jinv ⟨St.GOT_HEX_LITERAL, states, input, lex, row, col, hold, c, errs⟩) :
    Prog ⟨St.GOT_HEX_LITERAL, states, input, lex, row, col, hold, c, errs⟩ :=
  prog_generic St.GOT_HEX_LITERAL 3 0 states input lex row col hold c errs (by decide) (by decide)
    (fun ch l h => by
      rw [lexBound_other _ (by decide) (by decide) (by decide)] at h
      exact h)
    (by decide) (by decide) (by decide) (by decide) (by decide) hJ
    (stepok_GOT_HEX_LITERAL states row col errs)

theorem stepok_GOT_BIN_CONST_CONT (states : List St) (row col : Nat) (errs : List Diag)
    (c' : Option Char) (input' lex' : List Char)
    (hlex : lex' ≠ [])
    (hlex2 : ∀ ch, c' = some ch → 2 ≤ lex'.length)
    (hstk : escFamily St.GOT_BIN_CONST_CONT = true →
      states.head? = some St.GOT_CHAR_CONST_CONT ∨
      states.head? = some St.GOT_STRING_LIT_START)
    (hin : c' = none → input' = []) :
    StepOK (input'.length + lex'.length) (8 * input'.length + (if c'.isSome then 3 else 0))
      (iterSt St.GOT_BIN_CONST_CONT c' input' lex' states row col errs) := by
  rcases c' with _ | ch
  · simp only [Option.isSome_none, Bool.false_eq_true, if_false]
    exact Or.inl ⟨_, rfl, le_refl _, fun h => by simp at h, fun _ => hlex⟩
  · have h2 := hlex2 ch rfl
    simp only [Option.isSome_some, if_true]
    show StepOK _ _ (step_GOT_BIN_CONST_CONT (some ch) input' lex' states row col errs)
    unfold step_GOT_BIN_CONST_CONT
    split
    · rename_i hsu
      refine Or.inr ⟨⟨St.GOT_INT_SUFFIX_START, states, input', lex', row, col, true, some ch, errs⟩,
        rfl, ?_, ?_, le_refl _⟩
      · exact Jinv_hold _ _ _ _ _ _ _ _ rfl (fun _ => hsu) (by decide)
          (fun h => by simp at h) (fun _ => hlex) (fun _ => hlex)
          (fun k hk => by
            rw [lexBound_other _ (by decide) (by decide) (by decide)]
            exact h2)
      · show 8 * input'.length + rankSt St.GOT_INT_SUFFIX_START true true ≤ 8 * input'.length + 3
        have hv : rankSt St.GOT_INT_SUFFIX_START true true = 3 := rfl
        omega
    · split
      · refine Or.inr ⟨⟨St.GOT_BIN_CONST_CONT, states, input', lex', row, col, false, some ch, errs⟩, rfl,
          Jinv_plain _ _ _ _ _ _ _ _ rfl (by decide) (by decide) hlex, ?_, le_refl _⟩
        show 8 * input'.length + rankSt St.GOT_BIN_CONST_CONT false true ≤ 8 * input'.length + 3
        have hv : rankSt St.GOT_BIN_CONST_CONT false true = 1 := rfl
        omega
      · refine Or.inl ⟨_, rfl, ?_, fun h => by simp at h, fun _ => ?_⟩
        · show (ch :: input').length + lex'.dropLast.length ≤ input'.length + lex'.length
          simp only [List.length_cons, List.length_dropLast]
          omega
        · apply ne_nil_of_one_le
          show 1 ≤ lex'.dropLast.length
          simp only [List.length_dropLast]
          omega

theorem prog_GOT_BIN_CONST_CONT (states : List St) (input lex : List Char) (row col : Nat)
    (hold : Bool) (c : Option Char) (errs : List Diag)
    (hJ : Jinv ⟨St.GOT_BIN_CONST_CONT, states, input, lex, row, col, hold, c, errs⟩) :
    Prog ⟨St.GOT_BIN_CONST_CONT, states, input, lex, row, col, hold, c, errs⟩ :=
  prog_generic St.GOT_BIN_CONST_CONT 3 0 states input lex row col hold c errs (by decide) (by decide)
    (fun ch l h => by
      rw [lexBound_other _ (by decide) (by decide) (by decide)] at h
      exact h)
    (by decide) (by decide) (by decide) (by decide) (by decide) hJ
    (stepok_GOT_BIN_CONST_CONT states row col errs)


theorem prog_THE_END (states : List St) (input lex : List Char) (row col : Nat)
    (hold : Bool) (c : Option Char) (errs : List Diag)
    (hJ : Jinv ⟨St.THE_END, states, input, lex, row, col, hold, c, errs⟩) :
    Prog ⟨St.THE_END, states, input, lex, row, col, hold, c, errs⟩ := by
  obtain ⟨j1, j2, j3, j4, j5, j6, j7⟩ := hJ
  have hin : input = [] := j4 rfl
  subst hin
  cases hold with
  | true => exact Or.inl ⟨_, rfl, le_refl _, fun _ => rfl, fun h => absurd rfl h⟩
  | false => exact Or.inl ⟨_, rfl, le_refl _, fun _ => rfl, fun h => absurd rfl h⟩

theorem prog_GOT_IDENT (states : List St) (input lex : List Char) (row col : Nat)
    (hold : Bool) (c : Option Char) (errs : List Diag)
    (hJ : Jinv ⟨St.GOT_IDENT, states, input, lex, row, col, hold, c, errs⟩) :
    Prog ⟨St.GOT_IDENT, states, input, lex, row, col, hold, c, errs⟩ := by
  obtain ⟨j1, j2, j3, j4, j5, j6, j7⟩ := hJ
  have hlex : lex ≠ [] :=
    j5 (show St.GOT_IDENT ≠ St.START by decide) (show St.GOT_IDENT ≠ St.THE_END by decide)
  cases hold with
  | true =>
    cases c with
    | none => exact Or.inl ⟨_, rfl, le_refl _, fun h => by simp at h, fun _ => hlex⟩
    | some ch =>
      have hb : lexBound St.GOT_IDENT ch lex := j7 rfl ch rfl
      unfold lexBound at hb
      rw [if_neg (by decide), if_neg (by decide), if_pos rfl] at hb
      by_cases hc : is_ident_cont ch = true
      · refine Or.inr ⟨⟨St.GOT_IDENT, states, input, lex, row, col, false, some ch, errs⟩,
          ?_, ?_, ?_, le_refl _⟩
        · show step_GOT_IDENT (some ch) input lex states row col errs = _
          unfold step_GOT_IDENT
          rw [if_pos (show isIdentContO (some ch) = true from hc)]
          rfl
        · exact Jinv_plain _ _ _ _ _ _ _ _ rfl (by decide) (by decide) hlex
        · show 8 * input.length + rankSt St.GOT_IDENT false true
              < 8 * input.length + rankSt St.GOT_IDENT true true
          have h1 : rankSt St.GOT_IDENT false true = 1 := rfl
          have h2 : rankSt St.GOT_IDENT true true = 2 := rfl
          omega
      · have h2 : 2 ≤ lex.length := hb.resolve_right hc
        have hstep : step_GOT_IDENT (some ch) input lex states row col errs
            = StepRes.done ⟨⟨lex.dropLast, Token.IDENTIFIER, row, col⟩, ch :: input, row,
                col + lex.dropLast.length, errs⟩ := by
          unfold step_GOT_IDENT
          rw [if_neg (show ¬ isIdentContO (some ch) = true from hc)]
          rfl
        refine Or.inl ⟨_, hstep, ?_, fun h => by simp at h, fun _ => ?_⟩
        · show (ch :: input).length + lex.dropLast.length ≤ input.length + lex.length
          simp only [List.length_cons, List.length_dropLast]
          omega
        · apply ne_nil_of_one_le
          show 1 ≤ lex.dropLast.length
          simp only [List.length_dropLast]
          omega
  | false =>
    cases input with
    | nil => exact Or.inl ⟨_, rfl, le_refl _, fun h => by simp at h, fun _ => hlex⟩
    | cons ch rest =>
      by_cases hc : is_ident_cont ch = true
      · refine Or.inr ⟨⟨St.GOT_IDENT, states, rest, lex ++ [ch], row, col, false, some ch, errs⟩,
          ?_, ?_, ?_, ?_⟩
        · show step_GOT_IDENT (some ch) rest (lex ++ [ch]) states row col errs = _
          unfold step_GOT_IDENT
          rw [if_pos (show isIdentContO (some ch) = true from hc)]
          rfl
        · exact Jinv_plain _ _ _ _ _ _ _ _ rfl (by decide) (by decide) (by simp)
        · show 8 * rest.length + rankSt St.GOT_IDENT false true
              < 8 * (ch :: rest).length + rankSt St.GOT_IDENT false (Option.isSome c)
          have h1 : rankSt St.GOT_IDENT false true = 1 := rfl
          simp only [List.length_cons]
          omega
        · show rest.length + (lex ++ [ch]).length ≤ (ch :: rest).length + lex.length
          simp only [List.length_append, List.length_cons, List.length_nil]
          omega
      · have hstep : step_GOT_IDENT (some ch) rest (lex ++ [ch]) states row col errs
            = StepRes.done ⟨⟨(lex ++ [ch]).dropLast, Token.IDENTIFIER, row, col⟩, ch :: rest,
                row, col + (lex ++ [ch]).dropLast.length, errs⟩ := by
          unfold step_GOT_IDENT
          rw [if_neg (show ¬ isIdentContO (some ch) = true from hc)]
          rfl
        refine Or.inl ⟨_, hstep, ?_, fun h => by simp at h, fun _ => ?_⟩
        · show (ch :: rest).length + (lex ++ [ch]).dropLast.length
              ≤ (ch :: rest).length + lex.length
          simp only [List.length_cons, List.length_dropLast, List.length_append,
            List.length_nil]
          omega
        · apply ne_nil_of_one_le
          show 1 ≤ (lex ++ [ch]).dropLast.length
          simp only [List.length_dropLast, List.length_append, List.length_cons,
            List.length_nil]
          have := List.length_pos.mpr hlex
          omega

theorem suffix_char_cases (ch : Char) (h : is_int_suffix_start ch = true) :
    ch = 'u' ∨ ch = 'U' ∨ ch = 'l' ∨ ch = 'L' ∨ ch = 'w' ∨ ch = 'W' := by
  unfold is_int_suffix_start at h
  have hm : ch ∈ ['u', 'U', 'l', 'L', 'w', 'W'] := by
    simpa using h
  simpa using hm


theorem stepok_GOT_INT_LITERAL (states : List St) (row col : Nat) (errs : List Diag)
    (c' : Option Char) (input' lex' : List Char)
    (hlex : lex' ≠ [])
    (hdig : ∀ ch, c' = some ch → isdigit ch = false → 2 ≤ lex'.length)
    (hin : c' = none → input' = []) :
    StepOK (input'.length + lex'.length) (8 * input'.length + (if c'.isSome then 3 else 0))
      (iterSt St.GOT_INT_LITERAL c' input' lex' states row col errs) := by
  rcases c' with _ | ch
  · simp only [Option.isSome_none, Bool.false_eq_true, if_false]
    exact Or.inl ⟨_, rfl, le_refl _, fun h => by simp at h, fun _ => hlex⟩
  · simp only [Option.isSome_some, if_true]
    show StepOK _ _ (step_GOT_INT_LITERAL (some ch) input' lex' states row col errs)
    unfold step_GOT_INT_LITERAL
    split
    · refine Or.inr ⟨⟨St.GOT_INT_LITERAL, states, input', lex', row, col, false, some ch, errs⟩, rfl,
        Jinv_plain _ _ _ _ _ _ _ _ rfl (by decide) (by decide) hlex, ?_, le_refl _⟩
      show 8 * input'.length + rankSt St.GOT_INT_LITERAL false true ≤ 8 * input'.length + 3
      have hv : rankSt St.GOT_INT_LITERAL false true = 1 := rfl
      omega
    · split
      · split
        · rename_i hsu
          refine Or.inr ⟨⟨St.GOT_INT_SUFFIX_START, states, input', lex', row, col, false, some ch, errs⟩,
            rfl, Jinv_sufstart _ _ _ _ _ _ _ hsu hlex, ?_, le_refl _⟩
          show 8 * input'.length + rankSt St.GOT_INT_SUFFIX_START false true ≤ 8 * input'.length + 3
          have hv : rankSt St.GOT_INT_SUFFIX_START false true = 1 := rfl
          omega
        · split
          · rename_i hpk
            obtain ⟨k, tl, rfl⟩ : ∃ k tl, input' = k :: tl := by
              cases input' with
              | nil => first | simp at hpk | (rcases hpk with h | h <;> simp at h)
              | cons a tl => exact ⟨a, tl, rfl⟩
            refine Or.inr ⟨⟨St.GOT_FLOAT_CONST_e, states, tl, lex' ++ [k], row, col, false, some ch, errs⟩, rfl,
              Jinv_plain _ _ _ _ _ _ _ _ rfl (by decide) (by decide) (by simp), ?_, ?_⟩
            · show 8 * tl.length + rankSt St.GOT_FLOAT_CONST_e false true ≤ 8 * (k :: tl).length + 3
              have hv : rankSt St.GOT_FLOAT_CONST_e false true = 2 := rfl
              simp only [List.length_cons]
              omega
            · show tl.length + (lex' ++ [k]).length ≤ (k :: tl).length + lex'.length
              simp only [List.length_append, List.length_cons, List.length_nil]
              omega
          · split
            · rename_i hpk
              obtain ⟨k, tl, rfl⟩ : ∃ k tl, input' = k :: tl := by
                cases input' with
                | nil => first | simp at hpk | (rcases hpk with h | h <;> simp at h)
                | cons a tl => exact ⟨a, tl, rfl⟩
              refine Or.inr ⟨⟨St.GOT_FLOAT_CONST_DOT, states, tl, lex' ++ [k], row, col, false, some ch, errs⟩, rfl,
                Jinv_plain _ _ _ _ _ _ _ _ rfl (by decide) (by decide) (by simp), ?_, ?_⟩
              · show 8 * tl.length + rankSt St.GOT_FLOAT_CONST_DOT false true ≤ 8 * (k :: tl).length + 3
                have hv : rankSt St.GOT_FLOAT_CONST_DOT false true = 1 := rfl
                simp only [List.length_cons]
                omega
              · show tl.length + (lex' ++ [k]).length ≤ (k :: tl).length + lex'.length
                simp only [List.length_append, List.length_cons, List.length_nil]
                omega
            · split
              · rename_i hpk
                obtain ⟨k, tl, rfl⟩ : ∃ k tl, input' = k :: tl := by
                  cases input' with
                  | nil => first | simp at hpk | (rcases hpk with h | h <;> simp at h)
                  | cons a tl => exact ⟨a, tl, rfl⟩
                refine Or.inr ⟨⟨St.GOT_INT_LITERAL, states, tl, lex' ++ [k], row, col, false, some ch, errs⟩, rfl,
                  Jinv_plain _ _ _ _ _ _ _ _ rfl (by decide) (by decide) (by simp), ?_, ?_⟩
                · show 8 * tl.length + rankSt St.GOT_INT_LITERAL false true ≤ 8 * (k :: tl).length + 3
                  have hv : rankSt St.GOT_INT_LITERAL false true = 1 := rfl
                  simp only [List.length_cons]
                  omega
                · show tl.length + (lex' ++ [k]).length ≤ (k :: tl).length + lex'.length
                  simp only [List.length_append, List.length_cons, List.length_nil]
                  omega
              · exact Or.inl ⟨_, rfl, le_refl _, fun h => by simp at h, fun _ => hlex⟩
      · split
        · rename_i ha hndig hsu
          have h2 : 2 ≤ lex'.length := hdig ch rfl (by simpa [isdigitO] using hndig)
          refine Or.inr ⟨⟨St.GOT_INT_SUFFIX_START, states, input', lex', row, col, true, some ch, errs⟩,
            rfl, ?_, ?_, le_refl _⟩
          · exact Jinv_hold _ _ _ _ _ _ _ _ rfl (fun _ => hsu) (by decide)
              (fun h => by simp at h) (fun _ => hlex) (fun _ => hlex)
              (fun k hk => by
                rw [lexBound_other _ (by decide) (by decide) (by decide)]
                exact h2)
          · show 8 * input'.length + rankSt St.GOT_INT_SUFFIX_START true true ≤ 8 * input'.length + 3
            have hv : rankSt St.GOT_INT_SUFFIX_START true true = 3 := rfl
            omega
        · split
          · refine Or.inr ⟨⟨St.GOT_FLOAT_CONST_e, states, input', lex', row, col, false, some ch, errs⟩, rfl,
              Jinv_plain _ _ _ _ _ _ _ _ rfl (by decide) (by decide) hlex, ?_, le_refl _⟩
            show 8 * input'.length + rankSt St.GOT_FLOAT_CONST_e false true ≤ 8 * input'.length + 3
            have hv : rankSt St.GOT_FLOAT_CONST_e false true = 2 := rfl
            omega
          · split
            · refine Or.inr ⟨⟨St.GOT_FLOAT_CONST_DOT, states, input', lex', row, col, false, some ch, errs⟩, rfl,
                Jinv_plain _ _ _ _ _ _ _ _ rfl (by decide) (by decide) hlex, ?_, le_refl _⟩
              show 8 * input'.length + rankSt St.GOT_FLOAT_CONST_DOT false true ≤ 8 * input'.length + 3
              have hv : rankSt St.GOT_FLOAT_CONST_DOT false true = 1 := rfl
              omega
            · split
              · refine Or.inr ⟨⟨St.GOT_INT_LITERAL, states, input', lex', row, col, false, some ch, errs⟩, rfl,
                  Jinv_plain _ _ _ _ _ _ _ _ rfl (by decide) (by decide) hlex, ?_, le_refl _⟩
                show 8 * input'.length + rankSt St.GOT_INT_LITERAL false true ≤ 8 * input'.length + 3
                have hv : rankSt St.GOT_INT_LITERAL false true = 1 := rfl
                omega
              · rename_i ha hndig hb1 hb2 hb3 hb4
                have h2 : 2 ≤ lex'.length := hdig ch rfl (by simpa [isdigitO] using hndig)
                refine Or.inl ⟨_, rfl, ?_, fun h => by simp at h, fun _ => ?_⟩
                · show (ch :: input').length + lex'.dropLast.length ≤ input'.length + lex'.length
                  simp only [List.length_cons, List.length_dropLast]
                  omega
                · apply ne_nil_of_one_le
                  show 1 ≤ lex'.dropLast.length
                  simp only [List.length_dropLast]
                  omega

theorem prog_GOT_INT_LITERAL (states : List St) (input lex : List Char) (row col : Nat)
    (hold : Bool) (c : Option Char) (errs : List Diag)
    (hJ : Jinv ⟨St.GOT_INT_LITERAL, states, input, lex, row, col, hold, c, errs⟩) :
    Prog ⟨St.GOT_INT_LITERAL, states, input, lex, row, col, hold, c, errs⟩ := by
  obtain ⟨j1, j2, j3, j4, j5, j6, j7⟩ := hJ
  have hlex : lex ≠ [] :=
    j5 (show St.GOT_INT_LITERAL ≠ St.START by decide)
      (show St.GOT_INT_LITERAL ≠ St.THE_END by decide)
  cases hold with
  | true =>
    cases c with
    | none =>
      have hin : input = [] := j1 rfl rfl
      subst hin
      have hs := stepok_GOT_INT_LITERAL states row col errs none [] lex hlex
        (fun ch h _ => by simp at h) (fun _ => rfl)
      simp only [Option.isSome_none, Bool.false_eq_true, if_false, List.length_nil] at hs
      rcases hs with ⟨d, hd, hbnd⟩ | ⟨cfg', hc', hJ', hrk, hsum⟩
      · exact Or.inl ⟨d, hd, hbnd⟩
      · refine Or.inr ⟨cfg', hc', hJ', ?_, hsum⟩
        show meas cfg' < 8 * List.length ([] : List Char) + rankSt St.GOT_INT_LITERAL true false
        have h3 : meas cfg' = 8 * cfg'.input.length + rank cfg' := rfl
        have h4 : rankSt St.GOT_INT_LITERAL true false = 4 := rfl
        simp only [List.length_nil]
        omega
    | some ch =>
      have hdig : ∀ k, (some ch : Option Char) = some k → isdigit k = false → 2 ≤ lex.length := by
        intro k hk hnd
        injection hk with hk
        subst hk
        have hb : lexBound St.GOT_INT_LITERAL ch lex := j7 rfl ch rfl
        unfold lexBound at hb
        rw [if_neg (by decide), if_pos rfl] at hb
        rcases hb with h | h
        · exact h
        · rw [h] at hnd
          simp at hnd
      have hs := stepok_GOT_INT_LITERAL states row col errs (some ch) input lex hlex hdig
        (fun h => by simp at h)
      simp only [Option.isSome_some, if_true] at hs
      rcases hs with ⟨d, hd, hbnd⟩ | ⟨cfg', hc', hJ', hrk, hsum⟩
      · exact Or.inl ⟨d, hd, hbnd⟩
      · refine Or.inr ⟨cfg', hc', hJ', ?_, hsum⟩
        show meas cfg' < 8 * input.length + rankSt St.GOT_INT_LITERAL true true
        have h3 : meas cfg' = 8 * cfg'.input.length + rank cfg' := rfl
        have h4 : rankSt St.GOT_INT_LITERAL true true = 4 := rfl
        omega
  | false =>
    cases input with
    | nil =>
      have hs := stepok_GOT_INT_LITERAL states row col errs none [] lex hlex
        (fun ch h _ => by simp at h) (fun _ => rfl)
      simp only [Option.isSome_none, Bool.false_eq_true, if_false, List.length_nil] at hs
      rcases hs with ⟨d, hd, hbnd⟩ | ⟨cfg', hc', hJ', hrk, hsum⟩
      · exact Or.inl ⟨d, hd, hbnd⟩
      · refine Or.inr ⟨cfg', hc', hJ', ?_, hsum⟩
        show meas cfg' < 8 * List.length ([] : List Char)
            + rankSt St.GOT_INT_LITERAL false (Option.isSome c)
        have h3 : meas cfg' = 8 * cfg'.input.length + rank cfg' := rfl
        have h4 : rankSt St.GOT_INT_LITERAL false (Option.isSome c) = 1 := by
          cases c <;> rfl
        simp only [List.length_nil]
        omega
    | cons ch rest =>
      have hlen1 : 1 ≤ lex.length := List.length_pos.mpr hlex
      have hs := stepok_GOT_INT_LITERAL states row col errs (some ch) rest (lex ++ [ch])
        (by simp)
        (fun k hk hnd => by
          simp only [List.length_append, List.length_cons, List.length_nil]
          omega)
        (fun h => by simp at h)
      simp only [Option.isSome_some, if_true] at hs
      rcases hs with ⟨d, hd, hbnd⟩ | ⟨cfg', hc', hJ', hrk, hsum⟩
      · refine Or.inl ⟨d, hd, ?_⟩
        refine DoneBnd_mono ?_ hbnd
        show rest.length + (lex ++ [ch]).length ≤ (ch :: rest).length + lex.length
        simp only [List.length_append, List.length_cons, List.length_nil]
        omega
      · refine Or.inr ⟨cfg', hc', hJ', ?_, ?_⟩
        · show meas cfg' < 8 * (ch :: rest).length
              + rankSt St.GOT_INT_LITERAL false (Option.isSome c)
          have h3 : meas cfg' = 8 * cfg'.input.length + rank cfg' := rfl
          simp only [List.length_cons]
          omega
        · show sumC cfg' ≤ (ch :: rest).length + lex.length
          have h3 : sumC cfg' = cfg'.input.length + cfg'.lex.length := rfl
          simp only [List.length_append, List.length_cons, List.length_nil] at hsum
          simp only [List.length_cons]
          omega


theorem prog_GOT_INT_SUFFIX_START (states : List St) (input lex : List Char) (row col : Nat)
    (hold : Bool) (c : Option Char) (errs : List Diag)
    (hJ : Jinv ⟨St.GOT_INT_SUFFIX_START, states, input, lex, row, col, hold, c, errs⟩) :
    Prog ⟨St.GOT_INT_SUFFIX_START, states, input, lex, row, col, hold, c, errs⟩ := by
  obtain ⟨j1, j2, j3, j4, j5, j6, j7⟩ := hJ
  have hlex : lex ≠ [] :=
    j5 (show St.GOT_INT_SUFFIX_START ≠ St.START by decide)
      (show St.GOT_INT_SUFFIX_START ≠ St.THE_END by decide)
  rcases j3 rfl with ⟨hh, hsu⟩ | ⟨hh, hsu⟩
  · have hh2 : hold = true := hh
    subst hh2
    obtain ⟨ch, rfl⟩ : ∃ ch, c = some ch := by
      cases c with
      | none => simp [isIntSuffixStartO] at hsu
      | some k => exact ⟨k, rfl⟩
    have hsu2 : is_int_suffix_start ch = true := by simpa [isIntSuffixStartO] using hsu
    rcases suffix_char_cases ch hsu2 with rfl | rfl | rfl | rfl | rfl | rfl
    · refine Or.inr ⟨⟨St.GOT_INT_SUFFIX_u, states, input, lex, row, col, false, some 'u', errs⟩, rfl,
        Jinv_plain _ _ _ _ _ _ _ _ rfl (by decide) (by decide) hlex, ?_, le_refl _⟩
      show 8 * input.length + rankSt St.GOT_INT_SUFFIX_u false true
          < 8 * input.length + rankSt St.GOT_INT_SUFFIX_START true true
      have h1 : rankSt St.GOT_INT_SUFFIX_u false true = 2 := rfl
      have h2 : rankSt St.GOT_INT_SUFFIX_START true true = 3 := rfl
      omega
    · refine Or.inr ⟨⟨St.GOT_INT_SUFFIX_U, states, input, lex, row, col, false, some 'U', errs⟩, rfl,
        Jinv_plain _ _ _ _ _ _ _ _ rfl (by decide) (by decide) hlex, ?_, le_refl _⟩
      show 8 * input.length + rankSt St.GOT_INT_SUFFIX_U false true
          < 8 * input.length + rankSt St.GOT_INT_SUFFIX_START true true
      have h1 : rankSt St.GOT_INT_SUFFIX_U false true = 2 := rfl
      have h2 : rankSt St.GOT_INT_SUFFIX_START true true = 3 := rfl
      omega
    · refine Or.inr ⟨⟨St.GOT_INT_SUFFIX_l, states, input, lex, row, col, false, some 'l', errs⟩, rfl,
        Jinv_plain _ _ _ _ _ _ _ _ rfl (by decide) (by decide) hlex, ?_, le_refl _⟩
      show 8 * input.length + rankSt St.GOT_INT_SUFFIX_l false true
          < 8 * input.length + rankSt St.GOT_INT_SUFFIX_START true true
      have h1 : rankSt St.GOT_INT_SUFFIX_l false true = 2 := rfl
      have h2 : rankSt St.GOT_INT_SUFFIX_START true true = 3 := rfl
      omega
    · refine Or.inr ⟨⟨St.GOT_INT_SUFFIX_L, states, input, lex, row, col, false, some 'L', errs⟩, rfl,
        Jinv_plain _ _ _ _ _ _ _ _ rfl (by decide) (by decide) hlex, ?_, le_refl _⟩
      show 8 * input.length + rankSt St.GOT_INT_SUFFIX_L false true
          < 8 * input.length + rankSt St.GOT_INT_SUFFIX_START true true
      have h1 : rankSt St.GOT_INT_SUFFIX_L false true = 2 := rfl
      have h2 : rankSt St.GOT_INT_SUFFIX_START true true = 3 := rfl
      omega
    · refine Or.inr ⟨⟨St.GOT_INT_SUFFIX_w, states, input, lex, row, col, false, some 'w', errs⟩, rfl,
        Jinv_plain _ _ _ _ _ _ _ _ rfl (by decide) (by decide) hlex, ?_, le_refl _⟩
      show 8 * input.length + rankSt St.GOT_INT_SUFFIX_w false true
          < 8 * input.length + rankSt St.GOT_INT_SUFFIX_START true true
      have h1 : rankSt St.GOT_INT_SUFFIX_w false true = 2 := rfl
      have h2 : rankSt St.GOT_INT_SUFFIX_START true true = 3 := rfl
      omega
    · refine Or.inr ⟨⟨St.GOT_INT_SUFFIX_W, states, input, lex, row, col, false, some 'W', errs⟩, rfl,
        Jinv_plain _ _ _ _ _ _ _ _ rfl (by decide) (by decide) hlex, ?_, le_refl _⟩
      show 8 * input.length + rankSt St.GOT_INT_SUFFIX_W false true
          < 8 * input.length + rankSt St.GOT_INT_SUFFIX_START true true
      have h1 : rankSt St.GOT_INT_SUFFIX_W false true = 2 := rfl
      have h2 : rankSt St.GOT_INT_SUFFIX_START true true = 3 := rfl
      omega
  · have hh2 : hold = false := hh
    subst hh2
    obtain ⟨ch, tl, rfl, hsu2⟩ : ∃ ch tl, input = ch :: tl ∧ is_int_suffix_start ch = true := by
      cases input with
      | nil => simp [isIntSuffixStartO] at hsu
      | cons a tl => exact ⟨a, tl, rfl, by simpa [isIntSuffixStartO] using hsu⟩
    rcases suffix_char_cases ch hsu2 with rfl | rfl | rfl | rfl | rfl | rfl
    · refine Or.inr ⟨⟨St.GOT_INT_SUFFIX_u, states, tl, lex ++ ['u'], row, col, false, some 'u', errs⟩,
        rfl, Jinv_plain _ _ _ _ _ _ _ _ rfl (by decide) (by decide) (by simp), ?_, ?_⟩
      · show 8 * tl.length + rankSt St.GOT_INT_SUFFIX_u false true
            < 8 * ('u' :: tl).length + rankSt St.GOT_INT_SUFFIX_START false (Option.isSome c)
        have h1 : rankSt St.GOT_INT_SUFFIX_u false true = 2 := rfl
        simp only [List.length_cons]
        omega
      · show tl.length + (lex ++ ['u']).length ≤ ('u' :: tl).length + lex.length
        simp only [List.length_append, List.length_cons, List.length_nil]
        omega
    · refine Or.inr ⟨⟨St.GOT_INT_SUFFIX_U, states, tl, lex ++ ['U'], row, col, false, some 'U', errs⟩,
        rfl, Jinv_plain _ _ _ _ _ _ _ _ rfl (by decide) (by decide) (by simp), ?_, ?_⟩
      · show 8 * tl.length + rankSt St.GOT_INT_SUFFIX_U false true
            < 8 * ('U' :: tl).length + rankSt St.GOT_INT_SUFFIX_START false (Option.isSome c)
        have h1 : rankSt St.GOT_INT_SUFFIX_U false true = 2 := rfl
        simp only [List.length_cons]
        omega
      · show tl.length + (lex ++ ['U']).length ≤ ('U' :: tl).length + lex.length
        simp only [List.length_append, List.length_cons, List.length_nil]
        omega
    · refine Or.inr ⟨⟨St.GOT_INT_SUFFIX_l, states, tl, lex ++ ['l'], row, col, false, some 'l', errs⟩,
        rfl, Jinv_plain _ _ _ _ _ _ _ _ rfl (by decide) (by decide) (by simp), ?_, ?_⟩
      · show 8 * tl.length + rankSt St.GOT_INT_SUFFIX_l false true
            < 8 * ('l' :: tl).length + rankSt St.GOT_INT_SUFFIX_START false (Option.isSome c)
        have h1 : rankSt St.GOT_INT_SUFFIX_l false true = 2 := rfl
        simp only [List.length_cons]
        omega
      · show tl.length + (lex ++ ['l']).length ≤ ('l' :: tl).length + lex.length
        simp only [List.length_append, List.length_cons, List.length_nil]
        omega
    · refine Or.inr ⟨⟨St.GOT_INT_SUFFIX_L, states, tl, lex ++ ['L'], row, col, false, some 'L', errs⟩,
        rfl, Jinv_plain _ _ _ _ _ _ _ _ rfl (by decide) (by decide) (by simp), ?_, ?_⟩
      · show 8 * tl.length + rankSt St.GOT_INT_SUFFIX_L false true
            < 8 * ('L' :: tl).length + rankSt St.GOT_INT_SUFFIX_START false (Option.isSome c)
        have h1 : rankSt St.GOT_INT_SUFFIX_L false true = 2 := rfl
        simp only [List.length_cons]
        omega
      · show tl.length + (lex ++ ['L']).length ≤ ('L' :: tl).length + lex.length
        simp only [List.length_append, List.length_cons, List.length_nil]
        omega
    · refine Or.inr ⟨⟨St.GOT_INT_SUFFIX_w, states, tl, lex ++ ['w'], row, col, false, some 'w', errs⟩,
        rfl, Jinv_plain _ _ _ _ _ _ _ _ rfl (by decide) (by decide) (by simp), ?_, ?_⟩
      · show 8 * tl.length + rankSt St.GOT_INT_SUFFIX_w false true
            < 8 * ('w' :: tl).length + rankSt St.GOT_INT_SUFFIX_START false (Option.isSome c)
        have h1 : rankSt St.GOT_INT_SUFFIX_w false true = 2 := rfl
        simp only [List.length_cons]
        omega
      · show tl.length + (lex ++ ['w']).length ≤ ('w' :: tl).length + lex.length
        simp only [List.length_append, List.length_cons, List.length_nil]
        omega
    · refine Or.inr ⟨⟨St.GOT_INT_SUFFIX_W, states, tl, lex ++ ['W'], row, col, false, some 'W', errs⟩,
        rfl, Jinv_plain _ _ _ _ _ _ _ _ rfl (by decide) (by decide) (by simp), ?_, ?_⟩
      · show 8 * tl.length + rankSt St.GOT_INT_SUFFIX_W false true
            < 8 * ('W' :: tl).length + rankSt St.GOT_INT_SUFFIX_START false (Option.isSome c)
        have h1 : rankSt St.GOT_INT_SUFFIX_W false true = 2 := rfl
        simp only [List.length_cons]
        omega
      · show tl.length + (lex ++ ['W']).length ≤ ('W' :: tl).length + lex.length
        simp only [List.length_append, List.length_cons, List.length_nil]
        omega

theorem stepok_START (states : List St) (row col : Nat) (errs : List Diag)
    (ch : Char) (input' lex' : List Char) (hlex : lex' ≠ []) :
    StepOK (input'.length + lex'.length) (8 * input'.length + 5)
      (iterSt St.START (some ch) input' lex' states row col errs) := by
  show StepOK _ _ (step_START (some ch) input' lex' states row col errs)
  unfold step_START
  split
  · rename_i h
    simp at h
  · exact Or.inl ⟨_, rfl, le_refl _, fun h => by simp at h, fun _ => hlex⟩
  · exact Or.inl ⟨_, rfl, le_refl _, fun h => by simp at h, fun _ => hlex⟩
  · exact Or.inl ⟨_, rfl, le_refl _, fun h => by simp at h, fun _ => hlex⟩
  · exact Or.inl ⟨_, rfl, le_refl _, fun h => by simp at h, fun _ => hlex⟩
  · exact Or.inl ⟨_, rfl, le_refl _, fun h => by simp at h, fun _ => hlex⟩
  · exact Or.inl ⟨_, rfl, le_refl _, fun h => by simp at h, fun _ => hlex⟩
  · exact Or.inl ⟨_, rfl, le_refl _, fun h => by simp at h, fun _ => hlex⟩
  · exact Or.inl ⟨_, rfl, le_refl _, fun h => by simp at h, fun _ => hlex⟩
  · exact Or.inl ⟨_, rfl, le_refl _, fun h => by simp at h, fun _ => hlex⟩
  · exact Or.inl ⟨_, rfl, le_refl _, fun h => by simp at h, fun _ => hlex⟩
  · exact Or.inl ⟨_, rfl, le_refl _, fun h => by simp at h, fun _ => hlex⟩
  · split
    · rename_i hpk
      obtain ⟨k, tl, rfl⟩ : ∃ k tl, input' = k :: tl := by
        cases input' with
        | nil => first | simp at hpk | (rcases hpk with h | h <;> simp at h)
        | cons a tl => exact ⟨a, tl, rfl⟩
      refine Or.inl ⟨_, rfl, ?_, fun h => by simp at h, fun _ => by simp [advance]⟩
      show tl.length + (lex' ++ [k]).length ≤ (k :: tl).length + lex'.length
      simp only [List.length_append, List.length_cons, List.length_nil]
      omega
    · exact Or.inl ⟨_, rfl, le_refl _, fun h => by simp at h, fun _ => hlex⟩
  · split
    · rename_i hpk
      obtain ⟨k, tl, rfl⟩ : ∃ k tl, input' = k :: tl := by
        cases input' with
        | nil => first | simp at hpk | (rcases hpk with h | h <;> simp at h)
        | cons a tl => exact ⟨a, tl, rfl⟩
      refine Or.inl ⟨_, rfl, ?_, fun h => by simp at h, fun _ => by simp [advance]⟩
      show tl.length + (lex' ++ [k]).length ≤ (k :: tl).length + lex'.length
      simp only [List.length_append, List.length_cons, List.length_nil]
      omega
    · exact Or.inl ⟨_, rfl, le_refl _, fun h => by simp at h, fun _ => hlex⟩
  · split
    · rename_i hpk
      obtain ⟨k, tl, rfl⟩ : ∃ k tl, input' = k :: tl := by
        cases input' with
        | nil => first | simp at hpk | (rcases hpk with h | h <;> simp at h)
        | cons a tl => exact ⟨a, tl, rfl⟩
      refine Or.inl ⟨_, rfl, ?_, fun h => by simp at h, fun _ => by simp [advance]⟩
      show tl.length + (lex' ++ [k]).length ≤ (k :: tl).length + lex'.length
      simp only [List.length_append, List.length_cons, List.length_nil]
      omega
    · exact Or.inl ⟨_, rfl, le_refl _, fun h => by simp at h, fun _ => hlex⟩
  · split
    · rename_i hpk
      obtain ⟨k, tl, rfl⟩ : ∃ k tl, input' = k :: tl := by
        cases input' with
        | nil => first | simp at hpk | (rcases hpk with h | h <;> simp at h)
        | cons a tl => exact ⟨a, tl, rfl⟩
      refine Or.inl ⟨_, rfl, ?_, fun h => by simp at h, fun _ => by simp [advance]⟩
      show tl.length + (lex' ++ [k]).length ≤ (k :: tl).length + lex'.length
      simp only [List.length_append, List.length_cons, List.length_nil]
      omega
    · exact Or.inl ⟨_, rfl, le_refl _, fun h => by simp at h, fun _ => hlex⟩
  · split
    · rename_i hpk
      obtain ⟨k, tl, rfl⟩ : ∃ k tl, input' = k :: tl := by
        cases input' with
        | nil => first | simp at hpk | (rcases hpk with h | h <;> simp at h)
        | cons a tl => exact ⟨a, tl, rfl⟩
      refine Or.inl ⟨_, rfl, ?_, fun h => by simp at h, fun _ => by simp [advance]⟩
      show tl.length + (lex' ++ [k]).length ≤ (k :: tl).length + lex'.length
      simp only [List.length_append, List.length_cons, List.length_nil]
      omega
    · exact Or.inl ⟨_, rfl, le_refl _, fun h => by simp at h, fun _ => hlex⟩
  · split
    · rename_i hpk
      obtain ⟨k, tl, rfl⟩ : ∃ k tl, input' = k :: tl := by
        cases input' with
        | nil => first | simp at hpk | (rcases hpk with h | h <;> simp at h)
        | cons a tl => exact ⟨a, tl, rfl⟩
      refine Or.inl ⟨_, rfl, ?_, fun h => by simp at h, fun _ => by simp [advance]⟩
      show tl.length + (lex' ++ [k]).length ≤ (k :: tl).length + lex'.length
      simp only [List.length_append, List.length_cons, List.length_nil]
      omega
    · exact Or.inl ⟨_, rfl, le_refl _, fun h => by simp at h, fun _ => hlex⟩
  · split
    · rename_i hpk
      obtain ⟨tl, rfl⟩ : ∃ tl, input' = '.' :: tl := by
        cases input' with
        | nil => simp at hpk
        | cons a tl =>
          simp at hpk
          exact ⟨tl, by rw [hpk]⟩
      simp only [advance]
      split
      · rename_i hpk2
        obtain ⟨tl2, rfl⟩ : ∃ tl2, tl = '.' :: tl2 := by
          cases tl with
          | nil => simp at hpk2
          | cons a tl2 =>
            simp at hpk2
            exact ⟨tl2, by rw [hpk2]⟩
        refine Or.inl ⟨_, rfl, ?_, fun h => by simp at h, fun _ => by simp [advance]⟩
        show tl2.length + ((lex' ++ ['.']) ++ ['.']).length ≤ ('.' :: '.' :: tl2).length + lex'.length
        simp only [List.length_append, List.length_cons, List.length_nil]
        omega
      · refine Or.inl ⟨_, rfl, ?_, fun h => by simp at h, fun _ => ?_⟩
        · show ('.' :: tl).length + ((lex' ++ ['.']).dropLast).length ≤ ('.' :: tl).length + lex'.length
          simp only [List.length_dropLast, List.length_append, List.length_cons, List.length_nil]
          omega
        · apply ne_nil_of_one_le
          show 1 ≤ ((lex' ++ ['.']).dropLast).length
          simp only [List.length_dropLast, List.length_append, List.length_cons, List.length_nil]
          have := List.length_pos.mpr hlex
          omega
    · split
      · refine Or.inr ⟨⟨St.GOT_FLOAT_CONST_DOT_DIGIT, states, input', lex', row, col, false, some ch, errs⟩, rfl,
          Jinv_plain _ _ _ _ _ _ _ _ rfl (by decide) (by decide) hlex, ?_, le_refl _⟩
        show 8 * input'.length + rankSt St.GOT_FLOAT_CONST_DOT_DIGIT false true ≤ 8 * input'.length + 5
        have hv : rankSt St.GOT_FLOAT_CONST_DOT_DIGIT false true = 1 := rfl
        omega
      · exact Or.inl ⟨_, rfl, le_refl _, fun h => by simp at h, fun _ => hlex⟩
  · split
    · rename_i hpk
      obtain ⟨k, tl, rfl⟩ : ∃ k tl, input' = k :: tl := by
        cases input' with
        | nil => first | simp at hpk | (rcases hpk with h | h <;> simp at h)
        | cons a tl => exact ⟨a, tl, rfl⟩
      refine Or.inl ⟨_, rfl, ?_, fun h => by simp at h, fun _ => by simp [advance]⟩
      show tl.length + (lex' ++ [k]).length ≤ (k :: tl).length + lex'.length
      simp only [List.length_append, List.length_cons, List.length_nil]
      omega
    · split
      · rename_i hpk
        obtain ⟨k, tl, rfl⟩ : ∃ k tl, input' = k :: tl := by
          cases input' with
          | nil => first | simp at hpk | (rcases hpk with h | h <;> simp at h)
          | cons a tl => exact ⟨a, tl, rfl⟩
        refine Or.inl ⟨_, rfl, ?_, fun h => by simp at h, fun _ => by simp [advance]⟩
        show tl.length + (lex' ++ [k]).length ≤ (k :: tl).length + lex'.length
        simp only [List.length_append, List.length_cons, List.length_nil]
        omega
      · exact Or.inl ⟨_, rfl, le_refl _, fun h => by simp at h, fun _ => hlex⟩
  · split
    · rename_i hpk
      obtain ⟨k, tl, rfl⟩ : ∃ k tl, input' = k :: tl := by
        cases input' with
        | nil => first | simp at hpk | (rcases hpk with h | h <;> simp at h)
        | cons a tl => exact ⟨a, tl, rfl⟩
      refine Or.inl ⟨_, rfl, ?_, fun h => by simp at h, fun _ => by simp [advance]⟩
      show tl.length + (lex' ++ [k]).length ≤ (k :: tl).length + lex'.length
      simp only [List.length_append, List.length_cons, List.length_nil]
      omega
    · split
      · rename_i hpk
        obtain ⟨k, tl, rfl⟩ : ∃ k tl, input' = k :: tl := by
          cases input' with
          | nil => first | simp at hpk | (rcases hpk with h | h <;> simp at h)
          | cons a tl => exact ⟨a, tl, rfl⟩
        refine Or.inl ⟨_, rfl, ?_, fun h => by simp at h, fun _ => by simp [advance]⟩
        show tl.length + (lex' ++ [k]).length ≤ (k :: tl).length + lex'.length
        simp only [List.length_append, List.length_cons, List.length_nil]
        omega
      · exact Or.inl ⟨_, rfl, le_refl _, fun h => by simp at h, fun _ => hlex⟩
  · split
    · rename_i hpk
      obtain ⟨k, tl, rfl⟩ : ∃ k tl, input' = k :: tl := by
        cases input' with
        | nil => first | simp at hpk | (rcases hpk with h | h <;> simp at h)
        | cons a tl => exact ⟨a, tl, rfl⟩
      refine Or.inl ⟨_, rfl, ?_, fun h => by simp at h, fun _ => by simp [advance]⟩
      show tl.length + (lex' ++ [k]).length ≤ (k :: tl).length + lex'.length
      simp only [List.length_append, List.length_cons, List.length_nil]
      omega
    · split
      · rename_i hpk
        obtain ⟨k, tl, rfl⟩ : ∃ k tl, input' = k :: tl := by
          cases input' with
          | nil => first | simp at hpk | (rcases hpk with h | h <;> simp at h)
          | cons a tl => exact ⟨a, tl, rfl⟩
        refine Or.inl ⟨_, rfl, ?_, fun h => by simp at h, fun _ => by simp [advance]⟩
        show tl.length + (lex' ++ [k]).length ≤ (k :: tl).length + lex'.length
        simp only [List.length_append, List.length_cons, List.length_nil]
        omega
      · exact Or.inl ⟨_, rfl, le_refl _, fun h => by simp at h, fun _ => hlex⟩
  · split
    · rename_i hpk
      obtain ⟨k, tl, rfl⟩ : ∃ k tl, input' = k :: tl := by
        cases input' with
        | nil => first | simp at hpk | (rcases hpk with h | h <;> simp at h)
        | cons a tl => exact ⟨a, tl, rfl⟩
      refine Or.inl ⟨_, rfl, ?_, fun h => by simp at h, fun _ => by simp [advance]⟩
      show tl.length + (lex' ++ [k]).length ≤ (k :: tl).length + lex'.length
      simp only [List.length_append, List.length_cons, List.length_nil]
      omega
    · split
      · rename_i hpk
        obtain ⟨k, tl, rfl⟩ : ∃ k tl, input' = k :: tl := by
          cases input' with
          | nil => first | simp at hpk | (rcases hpk with h | h <;> simp at h)
          | cons a tl => exact ⟨a, tl, rfl⟩
        refine Or.inl ⟨_, rfl, ?_, fun h => by simp at h, fun _ => by simp [advance]⟩
        show tl.length + (lex' ++ [k]).length ≤ (k :: tl).length + lex'.length
        simp only [List.length_append, List.length_cons, List.length_nil]
        omega
      · split
        · rename_i hpk
          obtain ⟨k, tl, rfl⟩ : ∃ k tl, input' = k :: tl := by
            cases input' with
            | nil => first | simp at hpk | (rcases hpk with h | h <;> simp at h)
            | cons a tl => exact ⟨a, tl, rfl⟩
          refine Or.inl ⟨_, rfl, ?_, fun h => by simp at h, fun _ => by simp [advance]⟩
          show tl.length + (lex' ++ [k]).length ≤ (k :: tl).length + lex'.length
          simp only [List.length_append, List.length_cons, List.length_nil]
          omega
        · exact Or.inl ⟨_, rfl, le_refl _, fun h => by simp at h, fun _ => hlex⟩
  · refine Or.inr ⟨⟨St.GOT_GT, states, input', lex', row, col, false, some ch, errs⟩, rfl,
      Jinv_plain _ _ _ _ _ _ _ _ rfl (by decide) (by decide) hlex, ?_, le_refl _⟩
    show 8 * input'.length + rankSt St.GOT_GT false true ≤ 8 * input'.length + 5
    have hv : rankSt St.GOT_GT false true = 2 := rfl
    omega
  · refine Or.inr ⟨⟨St.GOT_LT, states, input', lex', row, col, false, some ch, errs⟩, rfl,
      Jinv_plain _ _ _ _ _ _ _ _ rfl (by decide) (by decide) hlex, ?_, le_refl _⟩
    show 8 * input'.length + rankSt St.GOT_LT false true ≤ 8 * input'.length + 5
    have hv : rankSt St.GOT_LT false true = 2 := rfl
    omega
  · refine Or.inr ⟨⟨St.GOT_CHAR_CONST_START, states, input', lex', row, col, false, some ch, errs⟩, rfl,
      Jinv_plain _ _ _ _ _ _ _ _ rfl (by decide) (by decide) hlex, ?_, le_refl _⟩
    show 8 * input'.length + rankSt St.GOT_CHAR_CONST_START false true ≤ 8 * input'.length + 5
    have hv : rankSt St.GOT_CHAR_CONST_START false true = 2 := rfl
    omega
  · refine Or.inr ⟨⟨St.GOT_STRING_LIT_START, states, input', lex', row, col, false, some ch, errs⟩, rfl,
      Jinv_plain _ _ _ _ _ _ _ _ rfl (by decide) (by decide) hlex, ?_, le_refl _⟩
    show 8 * input'.length + rankSt St.GOT_STRING_LIT_START false true ≤ 8 * input'.length + 5
    have hv : rankSt St.GOT_STRING_LIT_START false true = 1 := rfl
    omega
  · split
    · rename_i hpk
      obtain ⟨k, tl, rfl⟩ : ∃ k tl, input' = k :: tl := by
        cases input' with
        | nil => first | simp at hpk | (rcases hpk with h | h <;> simp at h)
        | cons a tl => exact ⟨a, tl, rfl⟩
      refine Or.inr ⟨⟨St.GOT_0x, states, tl, lex' ++ [k], row, col, false, some ch, errs⟩, rfl,
        Jinv_plain _ _ _ _ _ _ _ _ rfl (by decide) (by decide) (by simp), ?_, ?_⟩
      · show 8 * tl.length + rankSt St.GOT_0x false true ≤ 8 * (k :: tl).length + 5
        have hv : rankSt St.GOT_0x false true = 1 := rfl
        simp only [List.length_cons]
        omega
      · show tl.length + (lex' ++ [k]).length ≤ (k :: tl).length + lex'.length
        simp only [List.length_append, List.length_cons, List.length_nil]
        omega
    · split
      · rename_i hpk
        obtain ⟨k, tl, rfl⟩ : ∃ k tl, input' = k :: tl := by
          cases input' with
          | nil => first | simp at hpk | (rcases hpk with h | h <;> simp at h)
          | cons a tl => exact ⟨a, tl, rfl⟩
        refine Or.inr ⟨⟨St.GOT_BIN_CONST_START, states, tl, lex' ++ [k], row, col, false, some ch, errs⟩, rfl,
          Jinv_plain _ _ _ _ _ _ _ _ rfl (by decide) (by decide) (by simp), ?_, ?_⟩
        · show 8 * tl.length + rankSt St.GOT_BIN_CONST_START false true ≤ 8 * (k :: tl).length + 5
          have hv : rankSt St.GOT_BIN_CONST_START false true = 2 := rfl
          simp only [List.length_cons]
          omega
        · show tl.length + (lex' ++ [k]).length ≤ (k :: tl).length + lex'.length
          simp only [List.length_append, List.length_cons, List.length_nil]
          omega
      · refine Or.inr ⟨⟨St.GOT_OCT_LITERAL, states, input', lex', row, col, false, some ch, errs⟩, rfl,
          Jinv_plain _ _ _ _ _ _ _ _ rfl (by decide) (by decide) hlex, ?_, le_refl _⟩
        show 8 * input'.length + rankSt St.GOT_OCT_LITERAL false true ≤ 8 * input'.length + 5
        have hv : rankSt St.GOT_OCT_LITERAL false true = 1 := rfl
        omega
  · rename_i hq
    refine Or.inr ⟨⟨St.GOT_INT_LITERAL, states, input', lex', row, col, true, some ch, errs⟩, rfl,
      ?_, ?_, le_refl _⟩
    · exact Jinv_hold _ _ _ _ _ _ _ _ rfl (fun h => absurd h (by decide)) (by decide)
        (fun h => by simp at h) (fun _ => hlex) (fun _ => hlex)
        (fun k hk => by
          injection hk with hk
          subst hk
          injection hq with hq
          subst hq
          unfold lexBound
          rw [if_neg (by decide), if_pos rfl]
          exact Or.inr (by decide))
    · show 8 * input'.length + rankSt St.GOT_INT_LITERAL true true ≤ 8 * input'.length + 5
      have hv : rankSt St.GOT_INT_LITERAL true true = 4 := rfl
      omega
  · rename_i hq
    refine Or.inr ⟨⟨St.GOT_INT_LITERAL, states, input', lex', row, col, true, some ch, errs⟩, rfl,
      ?_, ?_, le_refl _⟩
    · exact Jinv_hold _ _ _ _ _ _ _ _ rfl (fun h => absurd h (by decide)) (by decide)
        (fun h => by simp at h) (fun _ => hlex) (fun _ => hlex)
        (fun k hk => by
          injection hk with hk
          subst hk
          injection hq with hq
          subst hq
          unfold lexBound
          rw [if_neg (by decide), if_pos rfl]
          exact Or.inr (by decide))
    · show 8 * input'.length + rankSt St.GOT_INT_LITERAL true true ≤ 8 * input'.length + 5
      have hv : rankSt St.GOT_INT_LITERAL true true = 4 := rfl
      omega
  · rename_i hq
    refine Or.inr ⟨⟨St.GOT_INT_LITERAL, states, input', lex', row, col, true, some ch, errs⟩, rfl,
      ?_, ?_, le_refl _⟩
    · exact Jinv_hold _ _ _ _ _ _ _ _ rfl (fun h => absurd h (by decide)) (by decide)
        (fun h => by simp at h) (fun _ => hlex) (fun _ => hlex)
        (fun k hk => by
          injection hk with hk
          subst hk
          injection hq with hq
          subst hq
          unfold lexBound
          rw [if_neg (by decide), if_pos rfl]
          exact Or.inr (by decide))
    · show 8 * input'.length + rankSt St.GOT_INT_LITERAL true true ≤ 8 * input'.length + 5
      have hv : rankSt St.GOT_INT_LITERAL true true = 4 := rfl
      omega
  · rename_i hq
    refine Or.inr ⟨⟨St.GOT_INT_LITERAL, states, input', lex', row, col, true, some ch, errs⟩, rfl,
      ?_, ?_, le_refl _⟩
    · exact Jinv_hold _ _ _ _ _ _ _ _ rfl (fun h => absurd h (by decide)) (by decide)
        (fun h => by simp at h) (fun _ => hlex) (fun _ => hlex)
        (fun k hk => by
          injection hk with hk
          subst hk
          injection hq with hq
          subst hq
          unfold lexBound
          rw [if_neg (by decide), if_pos rfl]
          exact Or.inr (by decide))
    · show 8 * input'.length + rankSt St.GOT_INT_LITERAL true true ≤ 8 * input'.length + 5
      have hv : rankSt St.GOT_INT_LITERAL true true = 4 := rfl
      omega
  · rename_i hq
    refine Or.inr ⟨⟨St.GOT_INT_LITERAL, states, input', lex', row, col, true, some ch, errs⟩, rfl,
      ?_, ?_, le_refl _⟩
    · exact Jinv_hold _ _ _ _ _ _ _ _ rfl (fun h => absurd h (by decide)) (by decide)
        (fun h => by simp at h) (fun _ => hlex) (fun _ => hlex)
        (fun k hk => by
          injection hk with hk
          subst hk
          injection hq with hq
          subst hq
          unfold lexBound
          rw [if_neg (by decide), if_pos rfl]
          exact Or.inr (by decide))
    · show 8 * input'.length + rankSt St.GOT_INT_LITERAL true true ≤ 8 * input'.length + 5
      have hv : rankSt St.GOT_INT_LITERAL true true = 4 := rfl
      omega
  · rename_i hq
    refine Or.inr ⟨⟨St.GOT_INT_LITERAL, states, input', lex', row, col, true, some ch, errs⟩, rfl,
      ?_, ?_, le_refl _⟩
    · exact Jinv_hold _ _ _ _ _ _ _ _ rfl (fun h => absurd h (by decide)) (by decide)
        (fun h => by simp at h) (fun _ => hlex) (fun _ => hlex)
        (fun k hk => by
          injection hk with hk
          subst hk
          injection hq with hq
          subst hq
          unfold lexBound
          rw [if_neg (by decide), if_pos rfl]
          exact Or.inr (by decide))
    · show 8 * input'.length + rankSt St.GOT_INT_LITERAL true true ≤ 8 * input'.length + 5
      have hv : rankSt St.GOT_INT_LITERAL true true = 4 := rfl
      omega
  · rename_i hq
    refine Or.inr ⟨⟨St.GOT_INT_LITERAL, states, input', lex', row, col, true, some ch, errs⟩, rfl,
      ?_, ?_, le_refl _⟩
    · exact Jinv_hold _ _ _ _ _ _ _ _ rfl (fun h => absurd h (by decide)) (by decide)
        (fun h => by simp at h) (fun _ => hlex) (fun _ => hlex)
        (fun k hk => by
          injection hk with hk
          subst hk
          injection hq with hq
          subst hq
          unfold lexBound
          rw [if_neg (by decide), if_pos rfl]
          exact Or.inr (by decide))
    · show 8 * input'.length + rankSt St.GOT_INT_LITERAL true true ≤ 8 * input'.length + 5
      have hv : rankSt St.GOT_INT_LITERAL true true = 4 := rfl
      omega
  · rename_i hq
    refine Or.inr ⟨⟨St.GOT_INT_LITERAL, states, input', lex', row, col, true, some ch, errs⟩, rfl,
      ?_, ?_, le_refl _⟩
    · exact Jinv_hold _ _ _ _ _ _ _ _ rfl (fun h => absurd h (by decide)) (by decide)
        (fun h => by simp at h) (fun _ => hlex) (fun _ => hlex)
        (fun k hk => by
          injection hk with hk
          subst hk
          injection hq with hq
          subst hq
          unfold lexBound
          rw [if_neg (by decide), if_pos rfl]
          exact Or.inr (by decide))
    · show 8 * input'.length + rankSt St.GOT_INT_LITERAL true true ≤ 8 * input'.length + 5
      have hv : rankSt St.GOT_INT_LITERAL true true = 4 := rfl
      omega
  · rename_i hq
    refine Or.inr ⟨⟨St.GOT_INT_LITERAL, states, input', lex', row, col, true, some ch, errs⟩, rfl,
      ?_, ?_, le_refl _⟩
    · exact Jinv_hold _ _ _ _ _ _ _ _ rfl (fun h => absurd h (by decide)) (by decide)
        (fun h => by simp at h) (fun _ => hlex) (fun _ => hlex)
        (fun k hk => by
          injection hk with hk
          subst hk
          injection hq with hq
          subst hq
          unfold lexBound
          rw [if_neg (by decide), if_pos rfl]
          exact Or.inr (by decide))
    · show 8 * input'.length + rankSt St.GOT_INT_LITERAL true true ≤ 8 * input'.length + 5
      have hv : rankSt St.GOT_INT_LITERAL true true = 4 := rfl
      omega
  · refine Or.inr ⟨⟨St.GOT_a, states, input', lex', row, col, false, some ch, errs⟩, rfl,
      Jinv_plain _ _ _ _ _ _ _ _ rfl (by decide) (by decide) hlex, ?_, le_refl _⟩
    show 8 * input'.length + rankSt St.GOT_a false true ≤ 8 * input'.length + 5
    have hv : rankSt St.GOT_a false true = 2 := rfl
    omega
  · refine Or.inr ⟨⟨St.GOT_b, states, input', lex', row, col, false, some ch, errs⟩, rfl,
      Jinv_plain _ _ _ _ _ _ _ _ rfl (by decide) (by decide) hlex, ?_, le_refl _⟩
    show 8 * input'.length + rankSt St.GOT_b false true ≤ 8 * input'.length + 5
    have hv : rankSt St.GOT_b false true = 2 := rfl
    omega
  · refine Or.inr ⟨⟨St.GOT_c, states, input', lex', row, col, false, some ch, errs⟩, rfl,
      Jinv_plain _ _ _ _ _ _ _ _ rfl (by decide) (by decide) hlex, ?_, le_refl _⟩
    show 8 * input'.length + rankSt St.GOT_c false true ≤ 8 * input'.length + 5
    have hv : rankSt St.GOT_c false true = 2 := rfl
    omega
  · refine Or.inr ⟨⟨St.GOT_d, states, input', lex', row, col, false, some ch, errs⟩, rfl,
      Jinv_plain _ _ _ _ _ _ _ _ rfl (by decide) (by decide) hlex, ?_, le_refl _⟩
    show 8 * input'.length + rankSt St.GOT_d false true ≤ 8 * input'.length + 5
    have hv : rankSt St.GOT_d false true = 2 := rfl
    omega
  · refine Or.inr ⟨⟨St.GOT_e, states, input', lex', row, col, false, some ch, errs⟩, rfl,
      Jinv_plain _ _ _ _ _ _ _ _ rfl (by decide) (by decide) hlex, ?_, le_refl _⟩
    show 8 * input'.length + rankSt St.GOT_e false true ≤ 8 * input'.length + 5
    have hv : rankSt St.GOT_e false true = 2 := rfl
    omega
  · refine Or.inr ⟨⟨St.GOT_f, states, input', lex', row, col, false, some ch, errs⟩, rfl,
      Jinv_plain _ _ _ _ _ _ _ _ rfl (by decide) (by decide) hlex, ?_, le_refl _⟩
    show 8 * input'.length + rankSt St.GOT_f false true ≤ 8 * input'.length + 5
    have hv : rankSt St.GOT_f false true = 2 := rfl
    omega
  · refine Or.inr ⟨⟨St.GOT_g, states, input', lex', row, col, false, some ch, errs⟩, rfl,
      Jinv_plain _ _ _ _ _ _ _ _ rfl (by decide) (by decide) hlex, ?_, le_refl _⟩
    show 8 * input'.length + rankSt St.GOT_g false true ≤ 8 * input'.length + 5
    have hv : rankSt St.GOT_g false true = 2 := rfl
    omega
  · refine Or.inr ⟨⟨St.GOT_i, states, input', lex', row, col, false, some ch, errs⟩, rfl,
      Jinv_plain _ _ _ _ _ _ _ _ rfl (by decide) (by decide) hlex, ?_, le_refl _⟩
    show 8 * input'.length + rankSt St.GOT_i false true ≤ 8 * input'.length + 5
    have hv : rankSt St.GOT_i false true = 2 := rfl
    omega
  · refine Or.inr ⟨⟨St.GOT_l, states, input', lex', row, col, false, some ch, errs⟩, rfl,
      Jinv_plain _ _ _ _ _ _ _ _ rfl (by decide) (by decide) hlex, ?_, le_refl _⟩
    show 8 * input'.length + rankSt St.GOT_l false true ≤ 8 * input'.length + 5
    have hv : rankSt St.GOT_l false true = 2 := rfl
    omega
  · refine Or.inr ⟨⟨St.GOT_L, states, input', lex', row, col, false, some ch, errs⟩, rfl,
      Jinv_plain _ _ _ _ _ _ _ _ rfl (by decide) (by decide) hlex, ?_, le_refl _⟩
    show 8 * input'.length + rankSt St.GOT_L false true ≤ 8 * input'.length + 5
    have hv : rankSt St.GOT_L false true = 2 := rfl
    omega
  · refine Or.inr ⟨⟨St.GOT_n, states, input', lex', row, col, false, some ch, errs⟩, rfl,
      Jinv_plain _ _ _ _ _ _ _ _ rfl (by decide) (by decide) hlex, ?_, le_refl _⟩
    show 8 * input'.length + rankSt St.GOT_n false true ≤ 8 * input'.length + 5
    have hv : rankSt St.GOT_n false true = 2 := rfl
    omega
  · refine Or.inr ⟨⟨St.GOT_r, states, input', lex', row, col, false, some ch, errs⟩, rfl,
      Jinv_plain _ _ _ _ _ _ _ _ rfl (by decide) (by decide) hlex, ?_, le_refl _⟩
    show 8 * input'.length + rankSt St.GOT_r false true ≤ 8 * input'.length + 5
    have hv : rankSt St.GOT_r false true = 2 := rfl
    omega
  · refine Or.inr ⟨⟨St.GOT_s, states, input', lex', row, col, false, some ch, errs⟩, rfl,
      Jinv_plain _ _ _ _ _ _ _ _ rfl (by decide) (by decide) hlex, ?_, le_refl _⟩
    show 8 * input'.length + rankSt St.GOT_s false true ≤ 8 * input'.length + 5
    have hv : rankSt St.GOT_s false true = 2 := rfl
    omega
  · refine Or.inr ⟨⟨St.GOT_t, states, input', lex', row, col, false, some ch, errs⟩, rfl,
      Jinv_plain _ _ _ _ _ _ _ _ rfl (by decide) (by decide) hlex, ?_, le_refl _⟩
    show 8 * input'.length + rankSt St.GOT_t false true ≤ 8 * input'.length + 5
    have hv : rankSt St.GOT_t false true = 2 := rfl
    omega
  · refine Or.inr ⟨⟨St.GOT_u, states, input', lex', row, col, false, some ch, errs⟩, rfl,
      Jinv_plain _ _ _ _ _ _ _ _ rfl (by decide) (by decide) hlex, ?_, le_refl _⟩
    show 8 * input'.length + rankSt St.GOT_u false true ≤ 8 * input'.length + 5
    have hv : rankSt St.GOT_u false true = 2 := rfl
    omega
  · refine Or.inr ⟨⟨St.GOT_U, states, input', lex', row, col, false, some ch, errs⟩, rfl,
      Jinv_plain _ _ _ _ _ _ _ _ rfl (by decide) (by decide) hlex, ?_, le_refl _⟩
    show 8 * input'.length + rankSt St.GOT_U false true ≤ 8 * input'.length + 5
    have hv : rankSt St.GOT_U false true = 2 := rfl
    omega
  · refine Or.inr ⟨⟨St.GOT_v, states, input', lex', row, col, false, some ch, errs⟩, rfl,
      Jinv_plain _ _ _ _ _ _ _ _ rfl (by decide) (by decide) hlex, ?_, le_refl _⟩
    show 8 * input'.length + rankSt St.GOT_v false true ≤ 8 * input'.length + 5
    have hv : rankSt St.GOT_v false true = 2 := rfl
    omega
  · refine Or.inr ⟨⟨St.GOT_w, states, input', lex', row, col, false, some ch, errs⟩, rfl,
      Jinv_plain _ _ _ _ _ _ _ _ rfl (by decide) (by decide) hlex, ?_, le_refl _⟩
    show 8 * input'.length + rankSt St.GOT_w false true ≤ 8 * input'.length + 5
    have hv : rankSt St.GOT_w false true = 2 := rfl
    omega
  · refine Or.inr ⟨⟨St.GOT__, states, input', lex', row, col, false, some ch, errs⟩, rfl,
      Jinv_plain _ _ _ _ _ _ _ _ rfl (by decide) (by decide) hlex, ?_, le_refl _⟩
    show 8 * input'.length + rankSt St.GOT__ false true ≤ 8 * input'.length + 5
    have hv : rankSt St.GOT__ false true = 2 := rfl
    omega
  · split
    · rename_i k hk hid
      injection hk with hk
      subst hk
      refine Or.inr ⟨⟨St.GOT_IDENT, states, input', lex', row, col, true, some ch, errs⟩, rfl, ?_, ?_,
        le_refl _⟩
      · exact Jinv_hold _ _ _ _ _ _ _ _ rfl (fun h => absurd h (by decide)) (by decide)
          (fun h => by simp at h) (fun _ => hlex) (fun _ => hlex)
          (fun k hk => by
            injection hk with hk
            subst hk
            unfold lexBound
            rw [if_neg (by decide), if_neg (by decide), if_pos rfl]
            exact Or.inr (ident_start_cont _ hid))
      · show 8 * input'.length + rankSt St.GOT_IDENT true true ≤ 8 * input'.length + 5
        have hv : rankSt St.GOT_IDENT true true = 2 := rfl
        omega
    · refine Or.inr ⟨_, rfl, ?_, ?_, ?_⟩
      · exact Jinv_hold _ _ _ _ _ _ _ _ rfl (fun h => absurd h (by decide)) (by decide)
          (fun hnone => eatWs_none input' row (col + 1) hnone) (fun h => absurd rfl h)
          (fun _ => hlex)
          (fun k hk => by
            unfold lexBound
            rw [if_pos (Or.inl rfl)]
            trivial)
      · show 8 * (eatWs input' row (col + 1)).input.length
            + rankSt St.START true (Option.isSome (eatWs input' row (col + 1)).c)
            ≤ 8 * input'.length + 5
        rcases hw : (eatWs input' row (col + 1)).c with _ | k
        · have hwi := eatWs_none input' row (col + 1) hw
          rw [hwi]
          simp only [List.length_nil, Option.isSome_none]
          have hv : rankSt St.START true false = 2 := rfl
          omega
        · have hwi := eatWs_some_len input' row (col + 1) k hw
          simp only [Option.isSome_some]
          have hv : rankSt St.START true true = 6 := rfl
          omega
      · show (eatWs input' row (col + 1)).input.length + lex'.length ≤ input'.length + lex'.length
        have := eatWs_len input' row (col + 1)
        omega

theorem prog_START (states : List St) (input lex : List Char) (row col : Nat)
    (hold : Bool) (c : Option Char) (errs : List Diag)
    (hJ : Jinv ⟨St.START, states, input, lex, row, col, hold, c, errs⟩) :
    Prog ⟨St.START, states, input, lex, row, col, hold, c, errs⟩ := by
  obtain ⟨j1, j2, j3, j4, j5, j6, j7⟩ := hJ
  cases hold with
  | true =>
    cases c with
    | none =>
      have hin : input = [] := j1 rfl rfl
      subst hin
      refine Or.inr ⟨⟨St.THE_END, states, [], lex, row, col, true, none, errs⟩, rfl,
        Jinv_the_end _ _ _ _ _, ?_, le_refl _⟩
      show 8 * List.length ([] : List Char) + rankSt St.THE_END true false
          < 8 * List.length ([] : List Char) + rankSt St.START true false
      have h1 : rankSt St.THE_END true false = 1 := rfl
      have h2 : rankSt St.START true false = 2 := rfl
      omega
    | some ch =>
      have hlex : lex ≠ [] := j6 rfl (by simp)
      have hs := stepok_START states row col errs ch input lex hlex
      rcases hs with ⟨d, hd, hbnd⟩ | ⟨cfg', hc', hJ', hrk, hsum⟩
      · exact Or.inl ⟨d, hd, hbnd⟩
      · refine Or.inr ⟨cfg', hc', hJ', ?_, hsum⟩
        show meas cfg' < 8 * input.length + rankSt St.START true true
        have h3 : meas cfg' = 8 * cfg'.input.length + rank cfg' := rfl
        have h4 : rankSt St.START true true = 6 := rfl
        omega
  | false =>
    cases input with
    | nil =>
      refine Or.inr ⟨⟨St.THE_END, states, [], lex, row, col, true, none, errs⟩, rfl,
        Jinv_the_end _ _ _ _ _, ?_, le_refl _⟩
      show 8 * List.length ([] : List Char) + rankSt St.THE_END true false
          < 8 * List.length ([] : List Char) + rankSt St.START false (Option.isSome c)
      have h1 : rankSt St.THE_END true false = 1 := rfl
      have h2 : rankSt St.START false (Option.isSome c) = 2 := by
        cases c <;> rfl
      omega
    | cons ch rest =>
      have hs := stepok_START states row col errs ch rest (lex ++ [ch]) (by simp)
      rcases hs with ⟨d, hd, hbnd⟩ | ⟨cfg', hc', hJ', hrk, hsum⟩
      · refine Or.inl ⟨d, hd, ?_⟩
        refine DoneBnd_mono ?_ hbnd
        show rest.length + (lex ++ [ch]).length ≤ (ch :: rest).length + lex.length
        simp only [List.length_append, List.length_cons, List.length_nil]
        omega
      · refine Or.inr ⟨cfg', hc', hJ', ?_, ?_⟩
        · show meas cfg' < 8 * (ch :: rest).length + rankSt St.START false (Option.isSome c)
          have h3 : meas cfg' = 8 * cfg'.input.length + rank cfg' := rfl
          simp only [List.length_cons]
          omega
        · show sumC cfg' ≤ (ch :: rest).length + lex.length
          have h3 : sumC cfg' = cfg'.input.length + cfg'.lex.length := rfl
          simp only [List.length_append, List.length_cons, List.length_nil] at hsum
          simp only [List.length_cons]
          omega


theorem iter_progress (st : St) (states : List St) (input lex : List Char) (row col : Nat)
    (hold : Bool) (c : Option Char) (errs : List Diag)
    (hJ : Jinv ⟨st, states, input, lex, row, col, hold, c, errs⟩) :
    Prog ⟨st, states, input, lex, row, col, hold, c, errs⟩ := by
  cases st with
  | THE_END =>
    exact prog_THE_END states input lex row col hold c errs hJ
  | START =>
    exact prog_START states input lex row col hold c errs hJ
  | GOT_GT =>
    exact prog_GOT_GT states input lex row col hold c errs hJ
  | GOT_LT =>
    exact prog_GOT_LT states input lex row col hold c errs hJ
  | GOT_IDENT =>
    exact prog_GOT_IDENT states input lex row col hold c errs hJ
  | GOT__ =>
    exact prog_trie St.GOT__ rfl (by decide) states input lex row col hold c errs hJ
  | GOT__A =>
    exact prog_trie St.GOT__A rfl (by decide) states input lex row col hold c errs hJ
  | GOT__Al =>
    exact prog_trie St.GOT__Al rfl (by decide) states input lex row col hold c errs hJ
  | GOT__Ali =>
    exact prog_trie St.GOT__Ali rfl (by decide) states input lex row col hold c errs hJ
  | GOT__Alig =>
    exact prog_trie St.GOT__Alig rfl (by decide) states input lex row col hold c errs hJ
  | GOT__Align =>
    exact prog_trie St.GOT__Align rfl (by decide) states input lex row col hold c errs hJ
  | GOT__Aligna =>
    exact prog_trie St.GOT__Aligna rfl (by decide) states input lex row col hold c errs hJ
  | GOT__Aligno =>
    exact prog_trie St.GOT__Aligno rfl (by decide) states input lex row col hold c errs hJ
  | GOT__At =>
    exact prog_trie St.GOT__At rfl (by decide) states input lex row col hold c errs hJ
  | GOT__Ato =>
    exact prog_trie St.GOT__Ato rfl (by decide) states input lex row col hold c errs hJ
  | GOT__Atom =>
    exact prog_trie St.GOT__Atom rfl (by decide) states input lex row col hold c errs hJ
  | GOT__Atomi =>
    exact prog_trie St.GOT__Atomi rfl (by decide) states input lex row col hold c errs hJ
  | GOT__B =>
    exact prog_trie St.GOT__B rfl (by decide) states input lex row col hold c errs hJ
  | GOT__Bi =>
    exact prog_trie St.GOT__Bi rfl (by decide) states input lex row col hold c errs hJ
  | GOT__Bit =>
    exact prog_trie St.GOT__Bit rfl (by decide) states input lex row col hold c errs hJ
  | GOT__BitI =>
    exact prog_trie St.GOT__BitI rfl (by decide) states input lex row col hold c errs hJ
  | GOT__BitIn =>
    exact prog_trie St.GOT__BitIn rfl (by decide) states input lex row col hold c errs hJ
  | GOT__Bo =>
    exact prog_trie St.GOT__Bo rfl (by decide) states input lex row col hold c errs hJ
  | GOT__Boo =>
    exact prog_trie St.GOT__Boo rfl (by decide) states input lex row col hold c errs hJ
  | GOT__C =>
    exact prog_trie St.GOT__C rfl (by decide) states input lex row col hold c errs hJ
  | GOT__Co =>
    exact prog_trie St.GOT__Co rfl (by decide) states input lex row col hold c errs hJ
  | GOT__Com =>
    exact prog_trie St.GOT__Com rfl (by decide) states input lex row col hold c errs hJ
  | GOT__Comp =>
    exact prog_trie St.GOT__Comp rfl (by decide) states input lex row col hold c errs hJ
  | GOT__Compl =>
    exact prog_trie St.GOT__Compl rfl (by decide) states input lex row col hold c errs hJ
  | GOT__Comple =>
    exact prog_trie St.GOT__Comple rfl (by decide) states input lex row col hold c errs hJ
  | GOT__D =>
    exact prog_trie St.GOT__D rfl (by decide) states input lex row col hold c errs hJ
  | GOT__De =>
    exact prog_trie St.GOT__De rfl (by decide) states input lex row col hold c errs hJ
  | GOT__Dec =>
    exact prog_trie St.GOT__Dec rfl (by decide) states input lex row col hold c errs hJ
  | GOT__Deci =>
    exact prog_trie St.GOT__Deci rfl (by decide) states input lex row col hold c errs hJ
  | GOT__Decim =>
    exact prog_trie St.GOT__Decim rfl (by decide) states input lex row col hold c errs hJ
  | GOT__Decima =>
    exact prog_trie St.GOT__Decima rfl (by decide) states input lex row col hold c errs hJ
  | GOT__Decimal =>
    exact prog_trie St.GOT__Decimal rfl (by decide) states input lex row col hold c errs hJ
  | GOT__Decimal1 =>
    exact prog_trie St.GOT__Decimal1 rfl (by decide) states input lex row col hold c errs hJ
  | GOT__Decimal12 =>
    exact prog_trie St.GOT__Decimal12 rfl (by decide) states input lex row col hold c errs hJ
  | GOT__Decimal3 =>
    exact prog_trie St.GOT__Decimal3 rfl (by decide) states input lex row col hold c errs hJ
  | GOT__Decimal6 =>
    exact prog_trie St.GOT__Decimal6 rfl (by decide) states input lex row col hold c errs hJ
  | GOT__G =>
    exact prog_trie St.GOT__G rfl (by decide) states input lex row col hold c errs hJ
  | GOT__Ge =>
    exact prog_trie St.GOT__Ge rfl (by decide) states input lex row col hold c errs hJ
  | GOT__Gen =>
    exact prog_trie St.GOT__Gen rfl (by decide) states input lex row col hold c errs hJ
  | GOT__Gene =>
    exact prog_trie St.GOT__Gene rfl (by decide) states input lex row col hold c errs hJ
  | GOT__Gener =>
    exact prog_trie St.GOT__Gener rfl (by decide) states input lex row col hold c errs hJ
  | GOT__Generi =>
    exact prog_trie St.GOT__Generi rfl (by decide) states input lex row col hold c errs hJ
  | GOT__I =>
    exact prog_trie St.GOT__I rfl (by decide) states input lex row col hold c errs hJ
  | GOT__Im =>
    exact prog_trie St.GOT__Im rfl (by decide) states input lex row col hold c errs hJ
  | GOT__Ima =>
    exact prog_trie St.GOT__Ima rfl (by decide) states input lex row col hold c errs hJ
  | GOT__Imag =>
    exact prog_trie St.GOT__Imag rfl (by decide) states input lex row col hold c errs hJ
  | GOT__Imagi =>
    exact prog_trie St.GOT__Imagi rfl (by decide) states input lex row col hold c errs hJ
  | GOT__Imagin =>
    exact prog_trie St.GOT__Imagin rfl (by decide) states input lex row col hold c errs hJ
  | GOT__Imagina =>
    exact prog_trie St.GOT__Imagina rfl (by decide) states input lex row col hold c errs hJ
  | GOT__Imaginar =>
    exact prog_trie St.GOT__Imaginar rfl (by decide) states input lex row col hold c errs hJ
  | GOT__N =>
    exact prog_trie St.GOT__N rfl (by decide) states input lex row col hold c errs hJ
  | GOT__No =>
    exact prog_trie St.GOT__No rfl (by decide) states input lex row col hold c errs hJ
  | GOT__Nor =>
    exact prog_trie St.GOT__Nor rfl (by decide) states input lex row col hold c errs hJ
  | GOT__Nore =>
    exact prog_trie St.GOT__Nore rfl (by decide) states input lex row col hold c errs hJ
  | GOT__Noret =>
    exact prog_trie St.GOT__Noret rfl (by decide) states input lex row col hold c errs hJ
  | GOT__Noretu =>
    exact prog_trie St.GOT__Noretu rfl (by decide) states input lex row col hold c errs hJ
  | GOT__Noretur =>
    exact prog_trie St.GOT__Noretur rfl (by decide) states input lex row col hold c errs hJ
  | GOT__S =>
    exact prog_trie St.GOT__S rfl (by decide) states input lex row col hold c errs hJ
  | GOT__St =>
    exact prog_trie St.GOT__St rfl (by decide) states input lex row col hold c errs hJ
  | GOT__Sta =>
    exact prog_trie St.GOT__Sta rfl (by decide) states input lex row col hold c errs hJ
  | GOT__Stat =>
    exact prog_trie St.GOT__Stat rfl (by decide) states input lex row col hold c errs hJ
  | GOT__Stati =>
    exact prog_trie St.GOT__Stati rfl (by decide) states input lex row col hold c errs hJ
  | GOT__Static =>
    exact prog_trie St.GOT__Static rfl (by decide) states input lex row col hold c errs hJ
  | GOT__Static_ =>
    exact prog_trie St.GOT__Static_ rfl (by decide) states input lex row col hold c errs hJ
  | GOT__Static_a =>
    exact prog_trie St.GOT__Static_a rfl (by decide) states input lex row col hold c errs hJ
  | GOT__Static_as =>
    exact prog_trie St.GOT__Static_as rfl (by decide) states input lex row col hold c errs hJ
  | GOT__Static_ass =>
    exact prog_trie St.GOT__Static_ass rfl (by decide) states input lex row col hold c errs hJ
  | GOT__Static_asse =>
    exact prog_trie St.GOT__Static_asse rfl (by decide) states input lex row col hold c errs hJ
  | GOT__Static_asser =>
    exact prog_trie St.GOT__Static_asser rfl (by decide) states input lex row col hold c errs hJ
  | GOT__T =>
    exact prog_trie St.GOT__T rfl (by decide) states input lex row col hold c errs hJ
  | GOT__Th =>
    exact prog_trie St.GOT__Th rfl (by decide) states input lex row col hold c errs hJ
  | GOT__Thr =>
    exact prog_trie St.GOT__Thr rfl (by decide) states input lex row col hold c errs hJ
  | GOT__Thre =>
    exact prog_trie St.GOT__Thre rfl (by decide) states input lex row col hold c errs hJ
  | GOT__Threa =>
    exact prog_trie St.GOT__Threa rfl (by decide) states input lex row col hold c errs hJ
  | GOT__Thread =>
    exact prog_trie St.GOT__Thread rfl (by decide) states input lex row col hold c errs hJ
  | GOT__Thread_ =>
    exact prog_trie St.GOT__Thread_ rfl (by decide) states input lex row col hold c errs hJ
  | GOT__Thread_l =>
    exact prog_trie St.GOT__Thread_l rfl (by decide) states input lex row col hold c errs hJ
  | GOT__Thread_lo =>
    exact prog_trie St.GOT__Thread_lo rfl (by decide) states input lex row col hold c errs hJ
  | GOT__Thread_loc =>
    exact prog_trie St.GOT__Thread_loc rfl (by decide) states input lex row col hold c errs hJ
  | GOT__Thread_loca =>
    exact prog_trie St.GOT__Thread_loca rfl (by decide) states input lex row col hold c errs hJ
  | GOT_a =>
    exact prog_trie St.GOT_a rfl (by decide) states input lex row col hold c errs hJ
  | GOT_al =>
    exact prog_trie St.GOT_al rfl (by decide) states input lex row col hold c errs hJ
  | GOT_ali =>
    exact prog_trie St.GOT_ali rfl (by decide) states input lex row col hold c errs hJ
  | GOT_alig =>
    exact prog_trie St.GOT_alig rfl (by decide) states input lex row col hold c errs hJ
  | GOT_align =>
    exact prog_trie St.GOT_align rfl (by decide) states input lex row col hold c errs hJ
  | GOT_aligna =>
    exact prog_trie St.GOT_aligna rfl (by decide) states input lex row col hold c errs hJ
  | GOT_aligno =>
    exact prog_trie St.GOT_aligno rfl (by decide) states input lex row col hold c errs hJ
  | GOT_au =>
    exact prog_trie St.GOT_au rfl (by decide) states input lex row col hold c errs hJ
  | GOT_aut =>
    exact prog_trie St.GOT_aut rfl (by decide) states input lex row col hold c errs hJ
  | GOT_b =>
    exact prog_trie St.GOT_b rfl (by decide) states input lex row col hold c errs hJ
  | GOT_bo =>
    exact prog_trie St.GOT_bo rfl (by decide) states input lex row col hold c errs hJ
  | GOT_boo =>
    exact prog_trie St.GOT_boo rfl (by decide) states input lex row col hold c errs hJ
  | GOT_br =>
    exact prog_trie St.GOT_br rfl (by decide) states input lex row col hold c errs hJ
  | GOT_bre =>
    exact prog_trie St.GOT_bre rfl (by decide) states input lex row col hold c errs hJ
  | GOT_brea =>
    exact prog_trie St.GOT_brea rfl (by decide) states input lex row col hold c errs hJ
  | GOT_c =>
    exact prog_trie St.GOT_c rfl (by decide) states input lex row col hold c errs hJ
  | GOT_ca =>
    exact prog_trie St.GOT_ca rfl (by decide) states input lex row col hold c errs hJ
  | GOT_cas =>
    exact prog_trie St.GOT_cas rfl (by decide) states input lex row col hold c errs hJ
  | GOT_ch =>
    exact prog_trie St.GOT_ch rfl (by decide) states input lex row col hold c errs hJ
  | GOT_cha =>
    exact prog_trie St.GOT_cha rfl (by decide) states input lex row col hold c errs hJ
  | GOT_co =>
    exact prog_trie St.GOT_co rfl (by decide) states input lex row col hold c errs hJ
  | GOT_con =>
    exact prog_trie St.GOT_con rfl (by decide) states input lex row col hold c errs hJ
  | GOT_cons =>
    exact prog_trie St.GOT_cons rfl (by decide) states input lex row col hold c errs hJ
  | GOT_conste =>
    exact prog_trie St.GOT_conste rfl (by decide) states input lex row col hold c errs hJ
  | GOT_constex =>
    exact prog_trie St.GOT_constex rfl (by decide) states input lex row col hold c errs hJ
  | GOT_constexp =>
    exact prog_trie St.GOT_constexp rfl (by decide) states input lex row col hold c errs hJ
  | GOT_cont =>
    exact prog_trie St.GOT_cont rfl (by decide) states input lex row col hold c errs hJ
  | GOT_conti =>
    exact prog_trie St.GOT_conti rfl (by decide) states input lex row col hold c errs hJ
  | GOT_contin =>
    exact prog_trie St.GOT_contin rfl (by decide) states input lex row col hold c errs hJ
  | GOT_continu =>
    exact prog_trie St.GOT_continu rfl (by decide) states input lex row col hold c errs hJ
  | GOT_d =>
    exact prog_trie St.GOT_d rfl (by decide) states input lex row col hold c errs hJ
  | GOT_de =>
    exact prog_trie St.GOT_de rfl (by decide) states input lex row col hold c errs hJ
  | GOT_def =>
    exact prog_trie St.GOT_def rfl (by decide) states input lex row col hold c errs hJ
  | GOT_defa =>
    exact prog_trie St.GOT_defa rfl (by decide) states input lex row col hold c errs hJ
  | GOT_defau =>
    exact prog_trie St.GOT_defau rfl (by decide) states input lex row col hold c errs hJ
  | GOT_defaul =>
    exact prog_trie St.GOT_defaul rfl (by decide) states input lex row col hold c errs hJ
  | GOT_dou =>
    exact prog_trie St.GOT_dou rfl (by decide) states input lex row col hold c errs hJ
  | GOT_doub =>
    exact prog_trie St.GOT_doub rfl (by decide) states input lex row col hold c errs hJ
  | GOT_doubl =>
    exact prog_trie St.GOT_doubl rfl (by decide) states input lex row col hold c errs hJ
  | GOT_e =>
    exact prog_trie St.GOT_e rfl (by decide) states input lex row col hold c errs hJ
  | GOT_el =>
    exact prog_trie St.GOT_el rfl (by decide) states input lex row col hold c errs hJ
  | GOT_els =>
    exact prog_trie St.GOT_els rfl (by decide) states input lex row col hold c errs hJ
  | GOT_en =>
    exact prog_trie St.GOT_en rfl (by decide) states input lex row col hold c errs hJ
  | GOT_enu =>
    exact prog_trie St.GOT_enu rfl (by decide) states input lex row col hold c errs hJ
  | GOT_ex =>
    exact prog_trie St.GOT_ex rfl (by decide) states input lex row col hold c errs hJ
  | GOT_ext =>
    exact prog_trie St.GOT_ext rfl (by decide) states input lex row col hold c errs hJ
  | GOT_exte =>
    exact prog_trie St.GOT_exte rfl (by decide) states input lex row col hold c errs hJ
  | GOT_exter =>
    exact prog_trie St.GOT_exter rfl (by decide) states input lex row col hold c errs hJ
  | GOT_f =>
    exact prog_trie St.GOT_f rfl (by decide) states input lex row col hold c errs hJ
  | GOT_fa =>
    exact prog_trie St.GOT_fa rfl (by decide) states input lex row col hold c errs hJ
  | GOT_fal =>
    exact prog_trie St.GOT_fal rfl (by decide) states input lex row col hold c errs hJ
  | GOT_fals =>
    exact prog_trie St.GOT_fals rfl (by decide) states input lex row col hold c errs hJ
  | GOT_fl =>
    exact prog_trie St.GOT_fl rfl (by decide) states input lex row col hold c errs hJ
  | GOT_flo =>
    exact prog_trie St.GOT_flo rfl (by decide) states input lex row col hold c errs hJ
  | GOT_floa =>
    exact prog_trie St.GOT_floa rfl (by decide) states input lex row col hold c errs hJ
  | GOT_fo =>
    exact prog_trie St.GOT_fo rfl (by decide) states input lex row col hold c errs hJ
  | GOT_g =>
    exact prog_trie St.GOT_g rfl (by decide) states input lex row col hold c errs hJ
  | GOT_go =>
    exact prog_trie St.GOT_go rfl (by decide) states input lex row col hold c errs hJ
  | GOT_got =>
    exact prog_trie St.GOT_got rfl (by decide) states input lex row col hold c errs hJ
  | GOT_i =>
    exact prog_trie St.GOT_i rfl (by decide) states input lex row col hold c errs hJ
  | GOT_in =>
    exact prog_trie St.GOT_in rfl (by decide) states input lex row col hold c errs hJ
  | GOT_inl =>
    exact prog_trie St.GOT_inl rfl (by decide) states input lex row col hold c errs hJ
  | GOT_inli =>
    exact prog_trie St.GOT_inli rfl (by decide) states input lex row col hold c errs hJ
  | GOT_inlin =>
    exact prog_trie St.GOT_inlin rfl (by decide) states input lex row col hold c errs hJ
  | GOT_l =>
    exact prog_trie St.GOT_l rfl (by decide) states input lex row col hold c errs hJ
  | GOT_lo =>
    exact prog_trie St.GOT_lo rfl (by decide) states input lex row col hold c errs hJ
  | GOT_lon =>
    exact prog_trie St.GOT_lon rfl (by decide) states input lex row col hold c errs hJ
  | GOT_n =>
    exact prog_trie St.GOT_n rfl (by decide) states input lex row col hold c errs hJ
  | GOT_nu =>
    exact prog_trie St.GOT_nu rfl (by decide) states input lex row col hold c errs hJ
  | GOT_nul =>
    exact prog_trie St.GOT_nul rfl (by decide) states input lex row col hold c errs hJ
  | GOT_null =>
    exact prog_trie St.GOT_null rfl (by decide) states input lex row col hold c errs hJ
  | GOT_nullp =>
    exact prog_trie St.GOT_nullp rfl (by decide) states input lex row col hold c errs hJ
  | GOT_nullpt =>
    exact prog_trie St.GOT_nullpt rfl (by decide) states input lex row col hold c errs hJ
  | GOT_r =>
    exact prog_trie St.GOT_r rfl (by decide) states input lex row col hold c errs hJ
  | GOT_re =>
    exact prog_trie St.GOT_re rfl (by decide) states input lex row col hold c errs hJ
  | GOT_reg =>
    exact prog_trie St.GOT_reg rfl (by decide) states input lex row col hold c errs hJ
  | GOT_regi =>
    exact prog_trie St.GOT_regi rfl (by decide) states input lex row col hold c errs hJ
  | GOT_regis =>
    exact prog_trie St.GOT_regis rfl (by decide) states input lex row col hold c errs hJ
  | GOT_regist =>
    exact prog_trie St.GOT_regist rfl (by decide) states input lex row col hold c errs hJ
  | GOT_registe =>
    exact prog_trie St.GOT_registe rfl (by decide) states input lex row col hold c errs hJ
  | GOT_res =>
    exact prog_trie St.GOT_res rfl (by decide) states input lex row col hold c errs hJ
  | GOT_rest =>
    exact prog_trie St.GOT_rest rfl (by decide) states input lex row col hold c errs hJ
  | GOT_restr =>
    exact prog_trie St.GOT_restr rfl (by decide) states input lex row col hold c errs hJ
  | GOT_restri =>
    exact prog_trie St.GOT_restri rfl (by decide) states input lex row col hold c errs hJ
  | GOT_restric =>
    exact prog_trie St.GOT_restric rfl (by decide) states input lex row col hold c errs hJ
  | GOT_ret =>
    exact prog_trie St.GOT_ret rfl (by decide) states input lex row col hold c errs hJ
  | GOT_retu =>
    exact prog_trie St.GOT_retu rfl (by decide) states input lex row col hold c errs hJ
  | GOT_retur =>
    exact prog_trie St.GOT_retur rfl (by decide) states input lex row col hold c errs hJ
  | GOT_s =>
    exact prog_trie St.GOT_s rfl (by decide) states input lex row col hold c errs hJ
  | GOT_sh =>
    exact prog_trie St.GOT_sh rfl (by decide) states input lex row col hold c errs hJ
  | GOT_sho =>
    exact prog_trie St.GOT_sho rfl (by decide) states input lex row col hold c errs hJ
  | GOT_shor =>
    exact prog_trie St.GOT_shor rfl (by decide) states input lex row col hold c errs hJ
  | GOT_si =>
    exact prog_trie St.GOT_si rfl (by decide) states input lex row col hold c errs hJ
  | GOT_sig =>
    exact prog_trie St.GOT_sig rfl (by decide) states input lex row col hold c errs hJ
  | GOT_sign =>
    exact prog_trie St.GOT_sign rfl (by decide) states input lex row col hold c errs hJ
  | GOT_signe =>
    exact prog_trie St.GOT_signe rfl (by decide) states input lex row col hold c errs hJ
  | GOT_siz =>
    exact prog_trie St.GOT_siz rfl (by decide) states input lex row col hold c errs hJ
  | GOT_size =>
    exact prog_trie St.GOT_size rfl (by decide) states input lex row col hold c errs hJ
  | GOT_sizeo =>
    exact prog_trie St.GOT_sizeo rfl (by decide) states input lex row col hold c errs hJ
  | GOT_st =>
    exact prog_trie St.GOT_st rfl (by decide) states input lex row col hold c errs hJ
  | GOT_sta =>
    exact prog_trie St.GOT_sta rfl (by decide) states input lex row col hold c errs hJ
  | GOT_stat =>
    exact prog_trie St.GOT_stat rfl (by decide) states input lex row col hold c errs hJ
  | GOT_stati =>
    exact prog_trie St.GOT_stati rfl (by decide) states input lex row col hold c errs hJ
  | GOT_static_ =>
    exact prog_trie St.GOT_static_ rfl (by decide) states input lex row col hold c errs hJ
  | GOT_static_a =>
    exact prog_trie St.GOT_static_a rfl (by decide) states input lex row col hold c errs hJ
  | GOT_static_as =>
    exact prog_trie St.GOT_static_as rfl (by decide) states input lex row col hold c errs hJ
  | GOT_static_ass =>
    exact prog_trie St.GOT_static_ass rfl (by decide) states input lex row col hold c errs hJ
  | GOT_static_asse =>
    exact prog_trie St.GOT_static_asse rfl (by decide) states input lex row col hold c errs hJ
  | GOT_static_asser =>
    exact prog_trie St.GOT_static_asser rfl (by decide) states input lex row col hold c errs hJ
  | GOT_str =>
    exact prog_trie St.GOT_str rfl (by decide) states input lex row col hold c errs hJ
  | GOT_stru =>
    exact prog_trie St.GOT_stru rfl (by decide) states input lex row col hold c errs hJ
  | GOT_struc =>
    exact prog_trie St.GOT_struc rfl (by decide) states input lex row col hold c errs hJ
  | GOT_sw =>
    exact prog_trie St.GOT_sw rfl (by decide) states input lex row col hold c errs hJ
  | GOT_swi =>
    exact prog_trie St.GOT_swi rfl (by decide) states input lex row col hold c errs hJ
  | GOT_swit =>
    exact prog_trie St.GOT_swit rfl (by decide) states input lex row col hold c errs hJ
  | GOT_switc =>
    exact prog_trie St.GOT_switc rfl (by decide) states input lex row col hold c errs hJ
  | GOT_t =>
    exact prog_trie St.GOT_t rfl (by decide) states input lex row col hold c errs hJ
  | GOT_th =>
    exact prog_trie St.GOT_th rfl (by decide) states input lex row col hold c errs hJ
  | GOT_thr =>
    exact prog_trie St.GOT_thr rfl (by decide) states input lex row col hold c errs hJ
  | GOT_thre =>
    exact prog_trie St.GOT_thre rfl (by decide) states input lex row col hold c errs hJ
  | GOT_threa =>
    exact prog_trie St.GOT_threa rfl (by decide) states input lex row col hold c errs hJ
  | GOT_thread =>
    exact prog_trie St.GOT_thread rfl (by decide) states input lex row col hold c errs hJ
  | GOT_thread_ =>
    exact prog_trie St.GOT_thread_ rfl (by decide) states input lex row col hold c errs hJ
  | GOT_thread_l =>
    exact prog_trie St.GOT_thread_l rfl (by decide) states input lex row col hold c errs hJ
  | GOT_thread_lo =>
    exact prog_trie St.GOT_thread_lo rfl (by decide) states input lex row col hold c errs hJ
  | GOT_thread_loc =>
    exact prog_trie St.GOT_thread_loc rfl (by decide) states input lex row col hold c errs hJ
  | GOT_thread_loca =>
    exact prog_trie St.GOT_thread_loca rfl (by decide) states input lex row col hold c errs hJ
  | GOT_tr =>
    exact prog_trie St.GOT_tr rfl (by decide) states input lex row col hold c errs hJ
  | GOT_tru =>
    exact prog_trie St.GOT_tru rfl (by decide) states input lex row col hold c errs hJ
  | GOT_ty =>
    exact prog_trie St.GOT_ty rfl (by decide) states input lex row col hold c errs hJ
  | GOT_typ =>
    exact prog_trie St.GOT_typ rfl (by decide) states input lex row col hold c errs hJ
  | GOT_type =>
    exact prog_trie St.GOT_type rfl (by decide) states input lex row col hold c errs hJ
  | GOT_typed =>
    exact prog_trie St.GOT_typed rfl (by decide) states input lex row col hold c errs hJ
  | GOT_typede =>
    exact prog_trie St.GOT_typede rfl (by decide) states input lex row col hold c errs hJ
  | GOT_typeo =>
    exact prog_trie St.GOT_typeo rfl (by decide) states input lex row col hold c errs hJ
  | GOT_typeof_ =>
    exact prog_trie St.GOT_typeof_ rfl (by decide) states input lex row col hold c errs hJ
  | GOT_typeof_u =>
    exact prog_trie St.GOT_typeof_u rfl (by decide) states input lex row col hold c errs hJ
  | GOT_typeof_un =>
    exact prog_trie St.GOT_typeof_un rfl (by decide) states input lex row col hold c errs hJ
  | GOT_typeof_unq =>
    exact prog_trie St.GOT_typeof_unq rfl (by decide) states input lex row col hold c errs hJ
  | GOT_typeof_unqu =>
    exact prog_trie St.GOT_typeof_unqu rfl (by decide) states input lex row col hold c errs hJ
  | GOT_typeof_unqua =>
    exact prog_trie St.GOT_typeof_unqua rfl (by decide) states input lex row col hold c errs hJ
  | GOT_u =>
    exact prog_GOT_u states input lex row col hold c errs hJ
  | GOT_U =>
    exact prog_trie St.GOT_U rfl (by decide) states input lex row col hold c errs hJ
  | GOT_L =>
    exact prog_trie St.GOT_L rfl (by decide) states input lex row col hold c errs hJ
  | GOT_un =>
    exact prog_trie St.GOT_un rfl (by decide) states input lex row col hold c errs hJ
  | GOT_uni =>
    exact prog_trie St.GOT_uni rfl (by decide) states input lex row col hold c errs hJ
  | GOT_unio =>
    exact prog_trie St.GOT_unio rfl (by decide) states input lex row col hold c errs hJ
  | GOT_uns =>
    exact prog_trie St.GOT_uns rfl (by decide) states input lex row col hold c errs hJ
  | GOT_unsi =>
    exact prog_trie St.GOT_unsi rfl (by decide) states input lex row col hold c errs hJ
  | GOT_unsig =>
    exact prog_trie St.GOT_unsig rfl (by decide) states input lex row col hold c errs hJ
  | GOT_unsign =>
    exact prog_trie St.GOT_unsign rfl (by decide) states input lex row col hold c errs hJ
  | GOT_unsigne =>
    exact prog_trie St.GOT_unsigne rfl (by decide) states input lex row col hold c errs hJ
  | GOT_v =>
    exact prog_trie St.GOT_v rfl (by decide) states input lex row col hold c errs hJ
  | GOT_vo =>
    exact prog_trie St.GOT_vo rfl (by decide) states input lex row col hold c errs hJ
  | GOT_voi =>
    exact prog_trie St.GOT_voi rfl (by decide) states input lex row col hold c errs hJ
  | GOT_vol =>
    exact prog_trie St.GOT_vol rfl (by decide) states input lex row col hold c errs hJ
  | GOT_vola =>
    exact prog_trie St.GOT_vola rfl (by decide) states input lex row col hold c errs hJ
  | GOT_volat =>
    exact prog_trie St.GOT_volat rfl (by decide) states input lex row col hold c errs hJ
  | GOT_volati =>
    exact prog_trie St.GOT_volati rfl (by decide) states input lex row col hold c errs hJ
  | GOT_volatil =>
    exact prog_trie St.GOT_volatil rfl (by decide) states input lex row col hold c errs hJ
  | GOT_w =>
    exact prog_trie St.GOT_w rfl (by decide) states input lex row col hold c errs hJ
  | GOT_wh =>
    exact prog_trie St.GOT_wh rfl (by decide) states input lex row col hold c errs hJ
  | GOT_whi =>
    exact prog_trie St.GOT_whi rfl (by decide) states input lex row col hold c errs hJ
  | GOT_whil =>
    exact prog_trie St.GOT_whil rfl (by decide) states input lex row col hold c errs hJ
  | GOT_INT_LITERAL =>
    exact prog_GOT_INT_LITERAL states input lex row col hold c errs hJ
  | GOT_OCT_LITERAL =>
    exact prog_GOT_OCT_LITERAL states input lex row col hold c errs hJ
  | GOT_0x =>
    exact prog_GOT_0x states input lex row col hold c errs hJ
  | GOT_0x_DOT =>
    exact prog_GOT_0x_DOT states input lex row col hold c errs hJ
  | GOT_HEX_LITERAL =>
    exact prog_GOT_HEX_LITERAL states input lex row col hold c errs hJ
  | GOT_CHAR_CONST_START =>
    exact prog_GOT_CHAR_CONST_START states input lex row col hold c errs hJ
  | GOT_CHAR_CONST_CONT =>
    exact prog_GOT_CHAR_CONST_CONT states input lex row col hold c errs hJ
  | GOT_FLOAT_CONST_DOT =>
    exact prog_GOT_FLOAT_CONST_DOT states input lex row col hold c errs hJ
  | GOT_FLOAT_CONST_DOT_DIGIT =>
    exact prog_GOT_FLOAT_CONST_DOT_DIGIT states input lex row col hold c errs hJ
  | GOT_FLOAT_CONST_e =>
    exact prog_GOT_FLOAT_CONST_e states input lex row col hold c errs hJ
  | GOT_FLOAT_CONST_e_SIGN =>
    exact prog_GOT_FLOAT_CONST_e_SIGN states input lex row col hold c errs hJ
  | GOT_FLOAT_CONST_e_SIGN_DIG =>
    exact prog_GOT_FLOAT_CONST_e_SIGN_DIG states input lex row col hold c errs hJ
  | GOT_FLOAT_CONST_e_SUFd =>
    exact prog_GOT_FLOAT_CONST_e_SUFd states input lex row col hold c errs hJ
  | GOT_FLOAT_CONST_e_SUFD =>
    exact prog_GOT_FLOAT_CONST_e_SUFD states input lex row col hold c errs hJ
  | GOT_HEX_CONST_DOT =>
    exact prog_GOT_HEX_CONST_DOT states input lex row col hold c errs hJ
  | GOT_HEX_CONST_DOT_XDIGIT =>
    exact prog_GOT_HEX_CONST_DOT_XDIGIT states input lex row col hold c errs hJ
  | GOT_HEX_CONST_p =>
    exact prog_GOT_HEX_CONST_p states input lex row col hold c errs hJ
  | GOT_HEX_CONST_p_SIGN_DIG =>
    exact prog_GOT_HEX_CONST_p_SIGN_DIG states input lex row col hold c errs hJ
  | GOT_HEX_CONST_p_SIGN =>
    exact prog_GOT_HEX_CONST_p_SIGN states input lex row col hold c errs hJ
  | GOT_BIN_CONST_START =>
    exact prog_GOT_BIN_CONST_START states input lex row col hold c errs hJ
  | GOT_BIN_CONST_CONT =>
    exact prog_GOT_BIN_CONST_CONT states input lex row col hold c errs hJ
  | GOT_INT_SUFFIX_START =>
    exact prog_GOT_INT_SUFFIX_START states input lex row col hold c errs hJ
  | GOT_INT_SUFFIX_u =>
    exact prog_GOT_INT_SUFFIX_u states input lex row col hold c errs hJ
  | GOT_INT_SUFFIX_U =>
    exact prog_GOT_INT_SUFFIX_U states input lex row col hold c errs hJ
  | GOT_INT_SUFFIX_l =>
    exact prog_GOT_INT_SUFFIX_l states input lex row col hold c errs hJ
  | GOT_INT_SUFFIX_L =>
    exact prog_GOT_INT_SUFFIX_L states input lex row col hold c errs hJ
  | GOT_INT_SUFFIX_w =>
    exact prog_GOT_INT_SUFFIX_w states input lex row col hold c errs hJ
  | GOT_INT_SUFFIX_W =>
    exact prog_GOT_INT_SUFFIX_W states input lex row col hold c errs hJ
  | GOT_STRING_LIT_START =>
    exact prog_GOT_STRING_LIT_START states input lex row col hold c errs hJ
  | GOT_ESCAPE_SEQUENCE =>
    exact prog_GOT_ESCAPE_SEQUENCE states input lex row col hold c errs hJ
  | GOT_ESCAPE_SEQUENCE_BS_OCT1 =>
    exact prog_GOT_ESCAPE_SEQUENCE_BS_OCT1 states input lex row col hold c errs hJ
  | GOT_ESCAPE_SEQUENCE_BS_OCT2 =>
    exact prog_GOT_ESCAPE_SEQUENCE_BS_OCT2 states input lex row col hold c errs hJ
  | GOT_ESCAPE_SEQUENCE_BS_x =>
    exact prog_GOT_ESCAPE_SEQUENCE_BS_x states input lex row col hold c errs hJ
  | GOT_ESCAPE_SEQUENCE_BS_x_XDIGIT =>
    exact prog_GOT_ESCAPE_SEQUENCE_BS_x_XDIGIT states input lex row col hold c errs hJ
  | GOT_ESCAPE_SEQUENCE_BS_u0 =>
    exact prog_GOT_ESCAPE_SEQUENCE_BS_u0 states input lex row col hold c errs hJ
  | GOT_ESCAPE_SEQUENCE_BS_u1 =>
    exact prog_GOT_ESCAPE_SEQUENCE_BS_u1 states input lex row col hold c errs hJ
  | GOT_ESCAPE_SEQUENCE_BS_u2 =>
    exact prog_GOT_ESCAPE_SEQUENCE_BS_u2 states input lex row col hold c errs hJ
  | GOT_ESCAPE_SEQUENCE_BS_u3 =>
    exact prog_GOT_ESCAPE_SEQUENCE_BS_u3 states input lex row col hold c errs hJ
  | GOT_ESCAPE_SEQUENCE_BS_U0 =>
    exact prog_GOT_ESCAPE_SEQUENCE_BS_U0 states input lex row col hold c errs hJ
  | GOT_ESCAPE_SEQUENCE_BS_U1 =>
    exact prog_GOT_ESCAPE_SEQUENCE_BS_U1 states input lex row col hold c errs hJ
  | GOT_ESCAPE_SEQUENCE_BS_U2 =>
    exact prog_GOT_ESCAPE_SEQUENCE_BS_U2 states input lex row col hold c errs hJ
  | GOT_ESCAPE_SEQUENCE_BS_U3 =>
    exact prog_GOT_ESCAPE_SEQUENCE_BS_U3 states input lex row col hold c errs hJ
  | GOT_ESCAPE_SEQUENCE_BS_U4 =>
    exact prog_GOT_ESCAPE_SEQUENCE_BS_U4 states input lex row col hold c errs hJ
  | GOT_ESCAPE_SEQUENCE_BS_U5 =>
    exact prog_GOT_ESCAPE_SEQUENCE_BS_U5 states input lex row col hold c errs hJ
  | GOT_ESCAPE_SEQUENCE_BS_U6 =>
    exact prog_GOT_ESCAPE_SEQUENCE_BS_U6 states input lex row col hold c errs hJ
  | GOT_ESCAPE_SEQUENCE_BS_U7 =>
    exact prog_GOT_ESCAPE_SEQUENCE_BS_U7 states input lex row col hold c errs hJ


theorem run_succ (n : Nat) (cfg : Cfg) :
    run (n + 1) cfg = (match iter cfg with
      | StepRes.done d => some d
      | StepRes.cont cfg2 => run n cfg2) := rfl

/-- Fuel above the measure always suffices: the loop returns a `Done`
    within the`sumC` budget. -/
theorem run_progress : ∀ (n : Nat) (cfg : Cfg), Jinv cfg → meas cfg < n →
    ∃ d, run n cfg = some d ∧ DoneBnd (sumC cfg) d := by
  intro n
  induction n with
  | zero =>
    intro cfg _ hm
    exact absurd hm (Nat.not_lt_zero _)
  | succ n ih =>
    intro cfg hJ hm
    obtain ⟨st, states, input, lex, row, col, hold, c, errs⟩ := cfg
    have hp := iter_progress st states input lex row col hold c errs hJ
    rcases hp with ⟨d, hd, hbnd⟩ | ⟨cfg', hc', hJ', hm', hs'⟩
    · refine ⟨d, ?_, hbnd⟩
      rw [run_succ, hd]
    · have hm2 : meas cfg' < n := by omega
      obtain ⟨d, hd, hbnd⟩ := ih cfg' hJ' hm2
      refine ⟨d, ?_, DoneBnd_mono hs' hbnd⟩
      rw [run_succ, hc']
      exact hd

/-- `scan_token` totality: it always returns, END means the input was
    exhausted, and any other token has nonempty text and consumed at
    least one character. -/
theorem scanToken_total (input : List Char) (row col : Nat) :
    ∃ d, scanToken input row col = some d ∧
      (d.lexeme.token = Token.END → d.rest = []) ∧
      (d.lexeme.token ≠ Token.END →
        d.lexeme.text ≠ [] ∧ d.rest.length < input.length) := by
  rcases hw : (eatWs input row col).c with _ | ch
  · have hwi := eatWs_none input row col hw
    have heq : scanToken input row col
        = run (8 * input.length + 16)
          ⟨St.START, [St.START], (eatWs input row col).input,
            (match (eatWs input row col).c with | some k => [k] | none => []),
            (eatWs input row col).row, (eatWs input row col).col, true,
            (eatWs input row col).c, []⟩ := rfl
    rw [hw] at heq
    have hJ : Jinv ⟨St.START, [St.START], (eatWs input row col).input, [],
        (eatWs input row col).row, (eatWs input row col).col, true, none, []⟩ :=
      Jinv_hold _ _ _ _ _ _ _ _ rfl (fun h => absurd h (by decide)) (by decide)
        (fun _ => hwi) (fun h => absurd rfl h) (fun h => absurd rfl h)
        (fun ch hch => by simp at hch)
    have hm : meas ⟨St.START, [St.START], (eatWs input row col).input, [],
        (eatWs input row col).row, (eatWs input row col).col, true, none, []⟩
        < 8 * input.length + 16 := by
      show 8 * (eatWs input row col).input.length + rankSt St.START true (Option.isSome none)
          < 8 * input.length + 16
      have h1 : rankSt St.START true false = 2 := rfl
      have h2 := eatWs_len input row col
      simp only [Option.isSome_none]
      omega
    obtain ⟨d, hd, hb1, hb2, hb3⟩ := run_progress (8 * input.length + 16) _ hJ hm
    refine ⟨d, ?_, hb2, ?_⟩
    · rw [heq]
      exact hd
    · intro hne
      have ht := hb3 hne
      have hs : sumC ⟨St.START, [St.START], (eatWs input row col).input, [],
          (eatWs input row col).row, (eatWs input row col).col, true, none, []⟩ = 0 := by
        show (eatWs input row col).input.length + List.length ([] : List Char) = 0
        rw [hwi]
        rfl
      have h1 : d.rest.length + d.lexeme.text.length ≤ 0 := by
        have := hb1
        omega
      have h0 : d.lexeme.text = [] := List.length_eq_zero.mp (by omega)
      exact absurd h0 ht
  · have hwl := eatWs_some_len input row col ch hw
    have heq : scanToken input row col
        = run (8 * input.length + 16)
          ⟨St.START, [St.START], (eatWs input row col).input,
            (match (eatWs input row col).c with | some k => [k] | none => []),
            (eatWs input row col).row, (eatWs input row col).col, true,
            (eatWs input row col).c, []⟩ := rfl
    rw [hw] at heq
    have hJ : Jinv ⟨St.START, [St.START], (eatWs input row col).input, [ch],
        (eatWs input row col).row, (eatWs input row col).col, true, some ch, []⟩ :=
      Jinv_hold _ _ _ _ _ _ _ _ rfl (fun h => absurd h (by decide)) (by decide)
        (fun h => by simp at h) (fun h => absurd rfl h) (fun _ => by simp)
        (fun k hk => by
          unfold lexBound
          rw [if_pos (Or.inl rfl)]
          trivial)
    have hm : meas ⟨St.START, [St.START], (eatWs input row col).input, [ch],
        (eatWs input row col).row, (eatWs input row col).col, true, some ch, []⟩
        < 8 * input.length + 16 := by
      show 8 * (eatWs input row col).input.length + rankSt St.START true (Option.isSome (some ch))
          < 8 * input.length + 16
      have h1 : rankSt St.START true true = 6 := rfl
      have h2 := eatWs_len input row col
      simp only [Option.isSome_some]
      omega
    obtain ⟨d, hd, hb1, hb2, hb3⟩ := run_progress (8 * input.length + 16) _ hJ hm
    refine ⟨d, ?_, hb2, ?_⟩
    · rw [heq]
      exact hd
    · intro hne
      have ht := hb3 hne
      refine ⟨ht, ?_⟩
      have hs : sumC ⟨St.START, [St.START], (eatWs input row col).input, [ch],
          (eatWs input row col).row, (eatWs input row col).col, true, some ch, []⟩
          = (eatWs input row col).input.length + 1 := rfl
      have hpos : 1 ≤ d.lexeme.text.length := by
        rcases Nat.eq_zero_or_pos d.lexeme.text.length with h0 | h1
        · exact absurd (List.length_eq_zero.mp h0) ht
        · exact h1
      have h1 := hb1
      omega

/-- The batch loop is total whenever the queue is the singleton produced
    by the previous scan. -/
theorem batchLoop_total : ∀ (n : Nat) (inp : List Char) (row col : Nat) (errs : List Diag)
    (l : Lexeme) (acc : List Lexeme),
    (∀ t ∈ acc, t.token ≠ Token.END → t.text ≠ []) →
    (l.token ≠ Token.END → l.text ≠ []) →
    ((l.token = Token.END ∧ 1 ≤ n) ∨ (l.token ≠ Token.END ∧ inp.length + 2 ≤ n)) →
    ∃ v, batchLoop n ⟨[l], inp, row, col, errs⟩ acc = some v ∧
      (∃ e, v.getLast? = some e ∧ e.token = Token.END) ∧
      (∀ t ∈ v, t.token ≠ Token.END → t.text ≠ []) := by
  intro n
  induction n with
  | zero =>
    intro inp row col errs l acc _ _ hf
    rcases hf with ⟨_, h⟩ | ⟨_, h⟩ <;> omega
  | succ n ih =>
    intro inp row col errs l acc Hacc Hl hf
    by_cases hlE : l.token = Token.END
    · have hb : batchLoop (n + 1) ⟨[l], inp, row, col, errs⟩ acc = some (acc ++ [l]) := by
        show (if l.token = Token.END then some (acc ++ [l])
            else match LexerSt.eat ⟨[l], inp, row, col, errs⟩ with
              | none => none
              | some (l2, ls2) => batchLoop n ls2 (acc ++ [l2])) = _
        rw [if_pos hlE]
      refine ⟨acc ++ [l], hb, ⟨l, ?_, hlE⟩, ?_⟩
      · exact List.getLast?_concat acc
      · intro t ht
        rcases List.mem_append.mp ht with h1 | h2
        · exact Hacc t h1
        · rw [List.mem_singleton] at h2
          subst h2
          intro hne
          exact absurd hlE hne
    · have hin : inp.length + 2 ≤ n + 1 := by
        rcases hf with ⟨hE, _⟩ | ⟨_, h⟩
        · exact absurd hE hlE
        · exact h
      obtain ⟨d, hd, hEnd, hNe⟩ := scanToken_total inp row col
      have he : LexerSt.eat ⟨[l], inp, row, col, errs⟩
          = some (l, ⟨[d.lexeme], d.rest, d.row, d.col, errs ++ d.errs⟩) := by
        show (match scanToken inp row col with
          | none => none
          | some d2 => some (l, (⟨[d2.lexeme], d2.rest, d2.row, d2.col, errs ++ d2.errs⟩ : LexerSt))) = _
        rw [hd]
      have hb : batchLoop (n + 1) ⟨[l], inp, row, col, errs⟩ acc
          = batchLoop n ⟨[d.lexeme], d.rest, d.row, d.col, errs ++ d.errs⟩ (acc ++ [l]) := by
        show (if l.token = Token.END then some (acc ++ [l])
            else match LexerSt.eat ⟨[l], inp, row, col, errs⟩ with
              | none => none
              | some (l2, ls2) => batchLoop n ls2 (acc ++ [l2])) = _
        rw [if_neg hlE, he]
      have Hacc2 : ∀ t ∈ acc ++ [l], t.token ≠ Token.END → t.text ≠ [] := by
        intro t ht
        rcases List.mem_append.mp ht with h1 | h2
        · exact Hacc t h1
        · rw [List.mem_singleton] at h2
          subst h2
          exact Hl
      have Hl2 : d.lexeme.token ≠ Token.END → d.lexeme.text ≠ [] :=
        fun h => (hNe h).1
      have hf2 : (d.lexeme.token = Token.END ∧ 1 ≤ n) ∨
          (d.lexeme.token ≠ Token.END ∧ d.rest.length + 2 ≤ n) := by
        by_cases hdE : d.lexeme.token = Token.END
        · exact Or.inl ⟨hdE, by omega⟩
        · have := (hNe hdE).2
          exact Or.inr ⟨hdE, by omega⟩
      obtain ⟨v, hv, hvE, hvN⟩ := ih d.rest d.row d.col (errs ++ d.errs) d.lexeme (acc ++ [l])
        Hacc2 Hl2 hf2
      refine ⟨v, ?_, hvE, hvN⟩
      rw [hb]
      exact hv

/-- `scan_tokens` totality: the batch driver always returns a token list
    ending in END, in which every non-END token has nonempty text. -/
theorem scan_tokens_total (s : List Char) :
    ∃ toks, scan_tokens s = some toks ∧ toks ≠ [] ∧
      (∃ e, toks.getLast? = some e ∧ e.token = Token.END) ∧
      (∀ t ∈ toks, t.token ≠ Token.END → t.text ≠ []) := by
  obtain ⟨d, hd, hEnd, hNe⟩ := scanToken_total s 1 1
  have hmk : mkLexer s = some ⟨[d.lexeme], d.rest, d.row, d.col, d.errs⟩ := by
    show (match scanToken s 1 1 with
      | none => none
      | some d2 => some (⟨[d2.lexeme], d2.rest, d2.row, d2.col, d2.errs⟩ : LexerSt)) = _
    rw [hd]
  have hsc : scan_tokens s
      = batchLoop (s.length + 2) ⟨[d.lexeme], d.rest, d.row, d.col, d.errs⟩ [] := by
    show (match mkLexer s with
      | none => none
      | some ls => batchLoop (s.length + 2) ls []) = _
    rw [hmk]
  have hf : (d.lexeme.token = Token.END ∧ 1 ≤ s.length + 2) ∨
      (d.lexeme.token ≠ Token.END ∧ d.rest.length + 2 ≤ s.length + 2) := by
    by_cases hdE : d.lexeme.token = Token.END
    · exact Or.inl ⟨hdE, by omega⟩
    · have := (hNe hdE).2
      exact Or.inr ⟨hdE, by omega⟩
  obtain ⟨v, hv, hvE, hvN⟩ := batchLoop_total (s.length + 2) d.rest d.row d.col d.errs
    d.lexeme [] (fun t ht => absurd ht (List.not_mem_nil t)) (fun h => (hNe h).1) hf
  refine ⟨v, ?_, ?_, hvE, hvN⟩
  · rw [hsc]
    exact hv
  · intro h0
    subst h0
    obtain ⟨e, he, _⟩ := hvE
    simp at he



/-- A nonempty queue always offers a front element to `peek`. -/
theorem peek_isSome_of_ne_nil (ls : LexerSt) (h : ls.q ≠ []) : ls.peek.isSome = true := by
  obtain ⟨q, inp, row, col, errs⟩ := ls
  cases q with
  | nil => exact absurd rfl h
  | cons a tl => rfl

theorem queue_getLast_some : ∀ (l : List Lexeme), l ≠ [] → ∃ b, l.getLast? = some b := by
  intro l
  induction l with
  | nil =>
    intro h
    exact absurd rfl h
  | cons a tl ih =>
    intro _
    cases tl with
    | nil => exact ⟨a, rfl⟩
    | cons b tl2 =>
      obtain ⟨e, he⟩ := ih (by simp)
      refine ⟨e, ?_⟩
      rw [List.getLast?_cons_cons]
      exact he

/-- `preload`'s refill loop only ever appends to the queue. -/
theorem preloadLoop_q_ne_nil : ∀ (n : Nat) (ls ls2 : LexerSt), ls.q ≠ [] →
    preloadLoop n ls = some ls2 → ls2.q ≠ [] := by
  intro n
  induction n with
  | zero =>
    intro ls ls2 hq h
    injection h with h
    rw [← h]
    exact hq
  | succ n ih =>
    intro ls ls2 hq h
    obtain ⟨d, hd, _, _⟩ := scanToken_total ls.input ls.row ls.col
    have hs : preloadLoop (n + 1) ls
        = (if d.lexeme.token = Token.END
            then some (⟨ls.q ++ [d.lexeme], d.rest, d.row, d.col, ls.errs ++ d.errs⟩ : LexerSt)
            else preloadLoop n ⟨ls.q ++ [d.lexeme], d.rest, d.row, d.col, ls.errs ++ d.errs⟩) := by
      show (match scanToken ls.input ls.row ls.col with
        | none => none
        | some d2 =>
          if d2.lexeme.token = Token.END
            then some (⟨ls.q ++ [d2.lexeme], d2.rest, d2.row, d2.col,
                ls.errs ++ d2.errs⟩ : LexerSt)
            else preloadLoop n ⟨ls.q ++ [d2.lexeme], d2.rest, d2.row, d2.col,
                ls.errs ++ d2.errs⟩) = _
      rw [hd]
    rw [hs] at h
    by_cases hdE : d.lexeme.token = Token.END
    · rw [if_pos hdE] at h
      injection h with h
      rw [← h]
      simp
    · rw [if_neg hdE] at h
      exact ih _ _ (by simp) h

/-- C2: scanning any finite input makes progress to completion — the batch
    driver always returns a token list, that list is nonempty and ends in
    END, and every non-END token (including every INVALID one) carries
    nonempty text, so an invalid token never derails later scanning. -/
theorem c2_scan_progress_end (s : List Char) :
    ∃ toks, scan_tokens s = some toks ∧ toks ≠ [] ∧
      (∃ e, toks.getLast? = some e ∧ e.token = Token.END) ∧
      (∀ t ∈ toks, t.token ≠ Token.END → t.text ≠ []) :=
  scan_tokens_total s

/-- C3: the five malformed float vectors each yield one INVALID lexeme that
    is a prefix of the input — proper exactly when residual suffix letters
    remain to form a trailing IDENTIFIER — and then END. -/
theorem c3_malformed_float_prefix :
    scan_tokens "0.0e-1dL".data
      = some [⟨"0.0e-1d".data, Token.INVALID, 1, 1⟩, ⟨['L'], Token.IDENTIFIER, 1, 8⟩,
          ⟨[], Token.END, 1, 9⟩] ∧
    scan_tokens "0.0e-1Df".data
      = some [⟨"0.0e-1D".data, Token.INVALID, 1, 1⟩, ⟨['f'], Token.IDENTIFIER, 1, 8⟩,
          ⟨[], Token.END, 1, 9⟩] ∧
    scan_tokens "0.0e+".data
      = some [⟨"0.0e+".data, Token.INVALID, 1, 1⟩, ⟨[], Token.END, 1, 6⟩] ∧
    scan_tokens "0.0e-".data
      = some [⟨"0.0e-".data, Token.INVALID, 1, 1⟩, ⟨[], Token.END, 1, 6⟩] ∧
    scan_tokens "0.0e".data
      = some [⟨"0.0e".data, Token.INVALID, 1, 1⟩, ⟨[], Token.END, 1, 5⟩] :=
  ⟨rfl, rfl, rfl, rfl, rfl⟩

/-- C3 counterexample: for input `0.0e` the INVALID lexeme's text is the
    entire input, hence not a strict (proper) prefix of it. -/
theorem c3_strict_prefix_counterexample :
    scan_tokens "0.0e".data
      = some [⟨"0.0e".data, Token.INVALID, 1, 1⟩, ⟨[], Token.END, 1, 5⟩] ∧
    ¬ (⟨"0.0e".data, Token.INVALID, 1, 1⟩ : Lexeme).text.length < "0.0e".data.length :=
  ⟨rfl, by decide⟩

/-- C4: the skip-and-resync path leaks skipped characters into returned
    tokens: a skipped backquote becomes the text of the next returned
    token (an IDENTIFIER here, or even the END lexeme itself). -/
theorem c4_skipped_char_in_token :
    scan_tokens ['\x60', 'a']
      = some [⟨['\x60'], Token.IDENTIFIER, 1, 2⟩, ⟨[], Token.END, 1, 3⟩] ∧
    scan_tokens ['\x60']
      = some [⟨['\x60'], Token.END, 1, 2⟩] :=
  ⟨rfl, rfl⟩

/-- C5: once a scan returns END the input is exhausted, and re-invoking the
    scanner from the END result keeps returning the same END lexeme at the
    same final cursor position, forever. -/
theorem c5_end_idempotent (input : List Char) (row col : Nat) (d : Done)
    (hd : scanToken input row col = some d) (hEnd : d.lexeme.token = Token.END) :
    d.rest = [] ∧ rescan d = some (endDone d.row d.col) ∧
    rescan (endDone d.row d.col) = some (endDone d.row d.col) := by
  obtain ⟨d2, hd2, hE2, _⟩ := scanToken_total input row col
  rw [hd] at hd2
  injection hd2 with hd2
  subst hd2
  have hrest : d.rest = [] := hE2 hEnd
  refine ⟨hrest, ?_, ?_⟩
  · show scanToken d.rest d.row d.col = _
    rw [hrest]
    exact scanToken_nil d.row d.col
  · exact scanToken_nil d.row d.col

theorem c5_end_idempotent_witness :
    scanToken [] 1 1 = some (endDone 1 1) ∧
    ((endDone 1 1).rest = [] ∧ rescan (endDone 1 1) = some (endDone 1 1) ∧
      rescan (endDone 1 1) = some (endDone 1 1)) :=
  ⟨rfl, c5_end_idempotent [] 1 1 (endDone 1 1) rfl rfl⟩

/-- C6: the lookahead queue is never empty at the public interface — after
    construction, after every successful `eat`, and after any `preload`,
    `peek` always has a front element. -/
theorem c6_queue_nonempty (s : List Char) (ls lsA lsB lsC lsD : LexerSt)
    (l : Lexeme) (n : Nat) :
    (mkLexer s = some ls → ls.peek.isSome = true) ∧
    (LexerSt.eat lsA = some (l, lsB) → lsB.peek.isSome = true) ∧
    (lsC.q ≠ [] → LexerSt.preload n lsC = some lsD → lsD.peek.isSome = true) := by
  refine ⟨?_, ?_, ?_⟩
  · intro h
    obtain ⟨d, hd, _, _⟩ := scanToken_total s 1 1
    have hmk : mkLexer s = some (⟨[d.lexeme], d.rest, d.row, d.col, d.errs⟩ : LexerSt) := by
      show (match scanToken s 1 1 with
        | none => none
        | some d2 => some (⟨[d2.lexeme], d2.rest, d2.row, d2.col, d2.errs⟩ : LexerSt)) = _
      rw [hd]
    rw [hmk] at h
    injection h with h
    rw [← h]
    rfl
  · intro h
    obtain ⟨q, inp, row, col, errs⟩ := lsA
    cases q with
    | nil => simp [LexerSt.eat] at h
    | cons a rest =>
      cases rest with
      | cons b tl =>
        have he : LexerSt.eat ⟨a :: b :: tl, inp, row, col, errs⟩
            = some (a, (⟨b :: tl, inp, row, col, errs⟩ : LexerSt)) := rfl
        rw [he] at h
        injection h with h
        injection h with h1 h2
        rw [← h2]
        rfl
      | nil =>
        obtain ⟨d, hd, _, _⟩ := scanToken_total inp row col
        have he : LexerSt.eat ⟨[a], inp, row, col, errs⟩
            = some (a, (⟨[d.lexeme], d.rest, d.row, d.col, errs ++ d.errs⟩ : LexerSt)) := by
          show (match scanToken inp row col with
            | none => none
            | some d2 => some (a, (⟨[d2.lexeme], d2.rest, d2.row, d2.col,
                errs ++ d2.errs⟩ : LexerSt))) = _
          rw [hd]
        rw [he] at h
        injection h with h
        injection h with h1 h2
        rw [← h2]
        rfl
  · intro hq h
    obtain ⟨b, hb⟩ := queue_getLast_some lsC.q hq
    have hp : LexerSt.preload n lsC
        = (if b.token = Token.END then some lsC else preloadLoop n lsC) := by
      show (match lsC.q.getLast? with
        | none => none
        | some b2 => if b2.token = Token.END then some lsC else preloadLoop n lsC) = _
      rw [hb]
    rw [hp] at h
    by_cases hbE : b.token = Token.END
    · rw [if_pos hbE] at h
      injection h with h
      rw [← h]
      exact peek_isSome_of_ne_nil lsC hq
    · rw [if_neg hbE] at h
      exact peek_isSome_of_ne_nil lsD (preloadLoop_q_ne_nil n lsC lsD hq h)

theorem c6_queue_nonempty_witness :
    (LexerSt.peek ⟨[⟨[], Token.END, 1, 1⟩], [], 1, 1, []⟩).isSome = true ∧
    (LexerSt.peek ⟨[⟨[], Token.END, 1, 1⟩], [], 1, 1, []⟩).isSome = true ∧
    (LexerSt.peek ⟨[⟨[], Token.END, 1, 1⟩], [], 1, 1, []⟩).isSome = true :=
  ⟨(c6_queue_nonempty [] ⟨[⟨[], Token.END, 1, 1⟩], [], 1, 1, []⟩
      ⟨[⟨[], Token.END, 1, 1⟩], [], 1, 1, []⟩ ⟨[⟨[], Token.END, 1, 1⟩], [], 1, 1, []⟩
      ⟨[⟨[], Token.END, 1, 1⟩], [], 1, 1, []⟩ ⟨[⟨[], Token.END, 1, 1⟩], [], 1, 1, []⟩
      ⟨[], Token.END, 1, 1⟩ 0).1 rfl,
   (c6_queue_nonempty [] ⟨[⟨[], Token.END, 1, 1⟩], [], 1, 1, []⟩
      ⟨[⟨[], Token.END, 1, 1⟩], [], 1, 1, []⟩ ⟨[⟨[], Token.END, 1, 1⟩], [], 1, 1, []⟩
      ⟨[⟨[], Token.END, 1, 1⟩], [], 1, 1, []⟩ ⟨[⟨[], Token.END, 1, 1⟩], [], 1, 1, []⟩
      ⟨[], Token.END, 1, 1⟩ 0).2.1 rfl,
   (c6_queue_nonempty [] ⟨[⟨[], Token.END, 1, 1⟩], [], 1, 1, []⟩
      ⟨[⟨[], Token.END, 1, 1⟩], [], 1, 1, []⟩ ⟨[⟨[], Token.END, 1, 1⟩], [], 1, 1, []⟩
      ⟨[⟨[], Token.END, 1, 1⟩], [], 1, 1, []⟩ ⟨[⟨[], Token.END, 1, 1⟩], [], 1, 1, []⟩
      ⟨[], Token.END, 1, 1⟩ 0).2.2 (by simp) rfl⟩

/-- C7: the two-character input of two dots scans as DOT at column 1 and
    DOT at column 2 followed by END — never as ELLIPSIS. -/
theorem c7_two_dots :
    scan_tokens ['.', '.']
      = some [⟨['.'], Token.DOT, 1, 1⟩, ⟨['.'], Token.DOT, 1, 2⟩, ⟨[], Token.END, 1, 3⟩] :=
  rfl

/-- C8: a decimal-floating suffix with mixed case is rejected as INVALID,
    with diagnostics that differ between the lowercase-then-uppercase and
    uppercase-then-lowercase directions, while all six same-case suffixes
    produce FLOAT_LIT. -/
theorem c8_float_suffix_case :
    scanToken "1.5dL".data 1 1
      = some ⟨⟨"1.5d".data, Token.INVALID, 1, 1⟩, ['L'], 1, 5,
          [⟨1, 1, "Valid floating point constant suffixes are \x7bdf dd dl\x7d.\n"⟩]⟩ ∧
    scanToken "1.5Df".data 1 1
      = some ⟨⟨"1.5D".data, Token.INVALID, 1, 1⟩, ['f'], 1, 5,
          [⟨1, 1, "Valid floating point constant suffixes are \x7bDF DD DL\x7d.\n"⟩]⟩ ∧
    ("Valid floating point constant suffixes are \x7bdf dd dl\x7d.\n" : String)
      ≠ "Valid floating point constant suffixes are \x7bDF DD DL\x7d.\n" ∧
    scan_tokens "1.5df".data
      = some [⟨"1.5df".data, Token.FLOAT_LIT, 1, 1⟩, ⟨[], Token.END, 1, 6⟩] ∧
    scan_tokens "1.5dd".data
      = some [⟨"1.5dd".data, Token.FLOAT_LIT, 1, 1⟩, ⟨[], Token.END, 1, 6⟩] ∧
    scan_tokens "1.5dl".data
      = some [⟨"1.5dl".data, Token.FLOAT_LIT, 1, 1⟩, ⟨[], Token.END, 1, 6⟩] ∧
    scan_tokens "1.5DF".data
      = some [⟨"1.5DF".data, Token.FLOAT_LIT, 1, 1⟩, ⟨[], Token.END, 1, 6⟩] ∧
    scan_tokens "1.5DD".data
      = some [⟨"1.5DD".data, Token.FLOAT_LIT, 1, 1⟩, ⟨[], Token.END, 1, 6⟩] ∧
    scan_tokens "1.5DL".data
      = some [⟨"1.5DL".data, Token.FLOAT_LIT, 1, 1⟩, ⟨[], Token.END, 1, 6⟩] :=
  ⟨rfl, rfl, by decide, rfl, rfl, rfl, rfl, rfl, rfl⟩

/-- C9: scanning is deterministic — two independently constructed lexers
    over the same input drive the batch loop to identical results. -/
theorem c9_deterministic (s : List Char) (ls1 ls2 : LexerSt) (n : Nat) (acc : List Lexeme)
    (h1 : mkLexer s = some ls1) (h2 : mkLexer s = some ls2) :
    batchLoop n ls1 acc = batchLoop n ls2 acc := by
  rw [h1] at h2
  injection h2 with h2
  rw [h2]

theorem c9_deterministic_witness :
    batchLoop 3 ⟨[⟨['.'], Token.DOT, 1, 1⟩], [], 1, 2, []⟩ []
      = batchLoop 3 ⟨[⟨['.'], Token.DOT, 1, 1⟩], [], 1, 2, []⟩ [] :=
  c9_deterministic ['.'] _ _ 3 [] rfl rfl

/-- C10: digit-separator apostrophes need not sit between two digits — a
    trailing apostrophe and consecutive apostrophes are absorbed into one
    INTEGER_LIT token. -/
theorem c10_digit_separators :
    scan_tokens ['1', '\'']
      = some [⟨['1', '\''], Token.INTEGER_LIT, 1, 1⟩, ⟨[], Token.END, 1, 3⟩] ∧
    scan_tokens ['1', '\'', '\'', '2']
      = some [⟨['1', '\'', '\'', '2'], Token.INTEGER_LIT, 1, 1⟩, ⟨[], Token.END, 1, 5⟩] :=
  ⟨rfl, rfl⟩


end CLexer
